import Mathlib

/-!
# OpenVic-Simulation: the per-country state engine

A shallow embedding of `src/openvic-simulation/country/CountryInstance.cpp`.

* Keys of an `IndexedMap` (building types, crimes, technologies, ...) are represented by their
  index in the key universe; an `IndexedMap<K, unlock_level_t>` is the list of its values.
* An `ordered_set<T*>` is the list of its members in insertion order.
* Member functions that mutate the record take the record and return the result together with
  the new record.
* `CountryInstance::unlock_level_t` is a signed integer type (its values are compared with 0 and
  cast to `int64_t` for logging) whose declaration is not in `CountryInstance.cpp`; its width in
  bits is the parameter `bits` of every function that does arithmetic on unlock levels. Unlock
  levels are integers, and every C++ operation on them is followed by the conversion to the type
  its result has in C++.
* `CountryInstance::unit_variant_t` is an unsigned integer type; unit variants are natural
  numbers, which they are only compared with and used as sizes and indices.
-/

namespace OpenVic

/-! ## Machine integers -/

/-- Width in bits of the C++ type `int`, the type that operands of a narrower integer type are
promoted to before an arithmetic operator is applied. -/
def INT_BITS : Nat := 32

/-- Conversion of a mathematical integer to the signed two's complement type that is `bits` bits
wide (a width of 0 is read as 1). -/
def to_signed (bits : Nat) (x : Int) : Int :=
  (x + 2 ^ (bits - 1)) % (2 * 2 ^ (bits - 1)) - 2 ^ (bits - 1)

/-- Greatest value of the signed type that is `bits` bits wide. -/
def max_unlock_level (bits : Nat) : Int := 2 ^ (bits - 1) - 1

/-- Least value of the signed type that is `bits` bits wide. -/
def min_unlock_level (bits : Nat) : Int := -(2 ^ (bits - 1))

/-- Width of the type in which `a + b` is evaluated for two operands of a type that is `bits` bits
wide: the operands are promoted to `int` when they are narrower than `int`. -/
def promoted_bits (bits : Nat) : Nat := max bits INT_BITS

/-- Value of the C++ expression `unlock_level + unlock_level_change`. It is evaluated in the
promoted type; a sum outside that type wraps around as on two's complement hardware. -/
def level_sum (bits : Nat) (unlock_level unlock_level_change : Int) : Int :=
  to_signed (promoted_bits bits) (unlock_level + unlock_level_change)

/-- Value stored by `unlock_level += unlock_level_change`: the sum converted back to
`unlock_level_t`. -/
def level_add_assign (bits : Nat) (unlock_level unlock_level_change : Int) : Int :=
  to_signed bits (level_sum bits unlock_level unlock_level_change)

/-- Value of `unlock_level - current` converted to `unlock_level_t`, as in the initialisation of
`unlock_level_change` in `set_technology_unlock_level` and `set_invention_unlock_level`. -/
def level_difference (bits : Nat) (unlock_level current : Int) : Int :=
  to_signed bits (to_signed (promoted_bits bits) (unlock_level - current))

/-! ## Collaborator data read by the unlock functions -/

/-- Values of `UnitType::branch_t`. The functions of `CountryInstance` handle `LAND` and `NAVAL`
and send every other value to the `default:` arm, which `INVALID_BRANCH` stands for. -/
inductive branch_t where
  | INVALID_BRANCH
  | LAND
  | NAVAL
deriving DecidableEq, Repr

/-- A unit type: its branch and its index among the unit types of that branch (regiment types for
`LAND`, ship types for `NAVAL`). -/
structure UnitType where
  branch : branch_t
  index : Nat
deriving DecidableEq, Repr

/-- The part of a `Technology` that `modify_technology_unlock` reads. -/
structure Technology where
  index : Nat
  unit_variant : Option Nat
  activated_units : List UnitType
  activated_buildings : List Nat
deriving DecidableEq, Repr

/-- The part of an `Invention` that `modify_invention_unlock` reads. -/
structure Invention where
  index : Nat
  activated_units : List UnitType
  activated_buildings : List Nat
  enabled_crimes : List Nat
  unlock_gas_attack : Bool
  unlock_gas_defence : Bool
deriving DecidableEq, Repr

/-! ## Fixed-point numbers and sorting -/

/-- Modelled from the spec: `fixed_point_t`, whose header is not among the sources. A fixed-point
number is the integer that counts its units of `2 ^ -precision`; the number of fractional bits
`precision` is a parameter of the operations that depend on it. Addition, subtraction and the
comparisons are those of the integers. Values are not bounded: the results are those of the
program as long as no intermediate value leaves the 64 bit integer it is stored in. -/
abbrev fixed_point_t : Type := Int

namespace fixed_point_t

/-- The fixed-point number of an integer, `fixed_point_t::parse(value)`. -/
def parse (precision : Nat) (value : Int) : fixed_point_t := value * 2 ^ precision

/-- The fixed-point number one, `fixed_point_t::_1()`. -/
def one (precision : Nat) : fixed_point_t := parse precision 1

/-- The product `lhs * rhs` of two fixed-point numbers: the product of the integers, shifted
right by the fractional bits (rounding towards minus infinity). -/
def mul (precision : Nat) (lhs rhs : fixed_point_t) : fixed_point_t :=
  (lhs * rhs) / 2 ^ precision

/-- The quotient `lhs / rhs` of two fixed-point numbers: the dividend shifted left by the
fractional bits, divided with truncation towards zero. -/
def div (precision : Nat) (lhs rhs : fixed_point_t) : fixed_point_t :=
  Int.tdiv (lhs * 2 ^ precision) rhs

/-- The quotient `lhs / rhs` of a fixed-point number and an integer, truncated towards zero. -/
def div_int (lhs : fixed_point_t) (rhs : Int) : fixed_point_t := Int.tdiv lhs rhs

/-- The integer part `to_int64_t()`: the integer shifted right by the fractional bits. -/
def to_int64_t (precision : Nat) (x : fixed_point_t) : Int := x / 2 ^ precision

end fixed_point_t

/-- The library function `std::sort(first, last, comp)`. The result is a rearrangement of the
range in which no element is followed by one that `comp` puts before it; which of the
rearrangements with that property is produced is not specified, so the function is a parameter
of everything that sorts. The comparator has to be a strict weak ordering; the second law needs
of it that it never puts two elements before each other and that "not before" is transitive. -/
structure StdSort where
  sort : {α : Type} → (α → α → Bool) → List α → List α
  perm : ∀ {α : Type} (comp : α → α → Bool) (l : List α), (sort comp l).Perm l
  sorted : ∀ {α : Type} (comp : α → α → Bool) (l : List α),
    (∀ a b, comp a b = false ∨ comp b a = false) →
    (∀ a b c, comp b a = false → comp c b = false → comp c a = false) →
    (sort comp l).Pairwise (fun a b => comp b a = false)

/-- Sorting by insertion, one implementation of `std::sort`. -/
def insertion_sort {α : Type} (comp : α → α → Bool) (l : List α) : List α :=
  l.insertionSort (fun a b => comp b a = false)

/-- Sorting by insertion as a `std::sort`. -/
def std_insertion_sort : StdSort where
  sort := insertion_sort
  perm := fun _ l => List.perm_insertionSort _ l
  sorted := fun {α} comp l htotal htrans => by
    haveI : IsTotal α (fun a b => comp b a = false) := ⟨fun a b => (htotal a b).symm⟩
    haveI : IsTrans α (fun a b => comp b a = false) :=
      ⟨fun a b c hab hbc => htrans a b c hab hbc⟩
    exact List.sorted_insertionSort (fun a b => comp b a = false) l

/-! ## Collaborators of the gamestate update -/

/-- The part of a `State` that the country reads. A population is a number of inhabitants, a
natural number; `Pop::pop_size_t` is not declared among the sources. -/
structure State where
  industrial_power : fixed_point_t
  total_population : Nat
  average_literacy : fixed_point_t
  average_consciousness : fixed_point_t
  average_militancy : fixed_point_t
  pop_type_distribution : List fixed_point_t
  max_supported_regiments : Nat
deriving DecidableEq, Repr

/-- The part of a `RegimentInstance` that the country reads. -/
structure RegimentInstance where
  mobilised : Bool
deriving DecidableEq, Repr

/-- An army: its regiments; `get_unit_count()` is their number. -/
structure ArmyInstance where
  units : List RegimentInstance
deriving DecidableEq, Repr

/-- The part of a `ShipType` that the country reads. -/
structure ShipType where
  capital : Bool
  gun_power : fixed_point_t
  hull : fixed_point_t
deriving DecidableEq, Repr

/-- A ship, with its type. -/
structure ShipInstance where
  unit_type : ShipType
deriving DecidableEq, Repr

/-- A navy: its ships and the supply they consume; `get_unit_count()` is the number of ships. -/
structure NavyInstance where
  units : List ShipInstance
  total_consumed_supply : fixed_point_t
deriving DecidableEq, Repr

/-- The part of a `RegimentType` that the country reads. -/
structure RegimentType where
  attack : fixed_point_t
  defence : fixed_point_t
  discipline : fixed_point_t
deriving DecidableEq, Repr

/-- The unit type manager: the regiment types; `get_regiment_type_count()` is their number. -/
structure UnitTypeManager where
  regiment_types : List RegimentType
deriving DecidableEq, Repr

/-- The defines that the country and the country manager read. -/
structure DefineManager where
  country_investment_industrial_score_factor : fixed_point_t
  disarmed_penalty : fixed_point_t
  great_power_rank : Nat
  secondary_power_rank : Nat
  lose_great_power_grace_days : Int
deriving DecidableEq, Repr

/-- The part of a `CountryDefinition` that the country reads: its index, its colour, the colours
it has for single government types, and whether it is a dynamic tag. -/
structure CountryDefinition where
  index : Nat
  colour : Nat
  alternative_colours : List (Nat × Nat)
  dynamic_tag : Bool
deriving DecidableEq, Repr

/-- The objects that the sets of a country point to, as they are when the country is updated:
the states, armies and navies by their identity. -/
structure Objects where
  state : Nat → State
  army : Nat → ArmyInstance
  navy : Nat → NavyInstance

/-- The enumeration `CountryInstance::country_status_t`, in the order of its declaration. -/
inductive country_status_t where
  | COUNTRY_STATUS_GREAT_POWER
  | COUNTRY_STATUS_SECONDARY_POWER
  | COUNTRY_STATUS_CIVILISED
  | COUNTRY_STATUS_PARTIALLY_CIVILISED
  | COUNTRY_STATUS_UNCIVILISED
  | COUNTRY_STATUS_PRIMITIVE
deriving DecidableEq, Repr

/-- The value of a status in its underlying type `uint8_t`, which `<=` compares. -/
def country_status_t.ordinal : country_status_t → Nat
  | .COUNTRY_STATUS_GREAT_POWER => 0
  | .COUNTRY_STATUS_SECONDARY_POWER => 1
  | .COUNTRY_STATUS_CIVILISED => 2
  | .COUNTRY_STATUS_PARTIALLY_CIVILISED => 3
  | .COUNTRY_STATUS_UNCIVILISED => 4
  | .COUNTRY_STATUS_PRIMITIVE => 5

/-- The colour `ERROR_COLOUR`. -/
def ERROR_COLOUR : Nat := 0xFF0000

/-! ## The country record -/

/-- The mutable attributes of a country that the functions below read and write. -/
structure CountryInstance where
  country_definition : Option CountryDefinition
  colour : Nat
  capital : Option Nat
  country_flags : List String
  releasable_vassal : Bool
  country_status : country_status_t
  lose_great_power_date : Int
  total_score : fixed_point_t
  total_rank : Nat
  owned_provinces : List Nat
  controlled_provinces : List Nat
  core_provinces : List Nat
  states : List Nat
  industrial_power : fixed_point_t
  industrial_power_from_states : List (Nat × fixed_point_t)
  industrial_power_from_investments : List (Nat × fixed_point_t)
  industrial_rank : Nat
  foreign_investments : List (Nat × fixed_point_t)
  national_literacy : fixed_point_t
  tech_school : Option Nat
  national_value : Option Nat
  government_type : Option Nat
  last_election : Int
  ruling_party : Option Nat
  upper_house : List fixed_point_t
  reforms : List Nat
  government_flag_overrides : List (Option Nat)
  flag_government_type : Option Nat
  plurality : fixed_point_t
  primary_culture : Option Nat
  accepted_cultures : List Nat
  religion : Option Nat
  total_population : Nat
  national_consciousness : fixed_point_t
  national_militancy : fixed_point_t
  pop_type_distribution : List fixed_point_t
  prestige : fixed_point_t
  prestige_rank : Nat
  military_power : fixed_point_t
  military_power_from_land : fixed_point_t
  military_power_from_sea : fixed_point_t
  military_power_from_leaders : fixed_point_t
  military_rank : Nat
  generals : List Nat
  admirals : List Nat
  armies : List Nat
  navies : List Nat
  regiment_count : Nat
  max_supported_regiment_count : Nat
  mobilisation_potential_regiment_count : Nat
  mobilisation_max_regiment_count : Nat
  mobilisation_impact : fixed_point_t
  supply_consumption : fixed_point_t
  ship_count : Nat
  total_consumed_ship_supply : fixed_point_t
  disarmed : Bool
  unlocked_building_types : List Int
  unlocked_technologies : List Int
  unlocked_inventions : List Int
  unlocked_crimes : List Int
  unlocked_regiment_types : List Int
  unlocked_ship_types : List Int
  gas_attack_unlock_level : Int
  gas_defence_unlock_level : Int
  unit_variant_unlock_levels : List Int
deriving DecidableEq

namespace CountryInstance

/-- The member function `exists`. -/
def «exists» (s : CountryInstance) : Bool :=
  !s.owned_provinces.isEmpty

/-- The function generated by `ADD_AND_REMOVE(owned_province)` for adding. -/
def add_owned_province (s : CountryInstance) (new_item : Nat) : Bool × CountryInstance :=
  if new_item ∈ s.owned_provinces then (false, s)
  else (true, { s with owned_provinces := s.owned_provinces ++ [new_item] })

/-- The function generated by `ADD_AND_REMOVE(owned_province)` for removing. -/
def remove_owned_province (s : CountryInstance) (item_to_remove : Nat) : Bool × CountryInstance :=
  if item_to_remove ∈ s.owned_provinces then
    (true, { s with owned_provinces := s.owned_provinces.erase item_to_remove })
  else (false, s)

/-- The member function `is_civilised`. -/
def is_civilised (s : CountryInstance) : Bool :=
  decide (s.country_status.ordinal ≤ country_status_t.COUNTRY_STATUS_CIVILISED.ordinal)

/-- The member function `can_colonise`. -/
def can_colonise (s : CountryInstance) : Bool :=
  decide (s.country_status.ordinal ≤ country_status_t.COUNTRY_STATUS_SECONDARY_POWER.ordinal)

/-- The member function `is_great_power`. -/
def is_great_power (s : CountryInstance) : Bool :=
  decide (s.country_status = country_status_t.COUNTRY_STATUS_GREAT_POWER)

/-- The member function `is_secondary_power`. -/
def is_secondary_power (s : CountryInstance) : Bool :=
  decide (s.country_status = country_status_t.COUNTRY_STATUS_SECONDARY_POWER)

/-- The function generated by `ADD_AND_REMOVE(controlled_province)` for adding. -/
def add_controlled_province (s : CountryInstance) (new_item : Nat) : Bool × CountryInstance :=
  if new_item ∈ s.controlled_provinces then (false, s)
  else (true, { s with controlled_provinces := s.controlled_provinces ++ [new_item] })

/-- The function generated by `ADD_AND_REMOVE(controlled_province)` for removing. -/
def remove_controlled_province (s : CountryInstance) (item_to_remove : Nat) :
    Bool × CountryInstance :=
  if item_to_remove ∈ s.controlled_provinces then
    (true, { s with controlled_provinces := s.controlled_provinces.erase item_to_remove })
  else (false, s)

/-- The function generated by `ADD_AND_REMOVE(core_province)` for adding. -/
def add_core_province (s : CountryInstance) (new_item : Nat) : Bool × CountryInstance :=
  if new_item ∈ s.core_provinces then (false, s)
  else (true, { s with core_provinces := s.core_provinces ++ [new_item] })

/-- The function generated by `ADD_AND_REMOVE(core_province)` for removing. -/
def remove_core_province (s : CountryInstance) (item_to_remove : Nat) : Bool × CountryInstance :=
  if item_to_remove ∈ s.core_provinces then
    (true, { s with core_provinces := s.core_provinces.erase item_to_remove })
  else (false, s)

/-- The function generated by `ADD_AND_REMOVE(state)` for adding. -/
def add_state (s : CountryInstance) (new_item : Nat) : Bool × CountryInstance :=
  if new_item ∈ s.states then (false, s)
  else (true, { s with states := s.states ++ [new_item] })

/-- The function generated by `ADD_AND_REMOVE(state)` for removing. -/
def remove_state (s : CountryInstance) (item_to_remove : Nat) : Bool × CountryInstance :=
  if item_to_remove ∈ s.states then
    (true, { s with states := s.states.erase item_to_remove })
  else (false, s)

/-- The function generated by `ADD_AND_REMOVE(accepted_culture)` for adding. -/
def add_accepted_culture (s : CountryInstance) (new_item : Nat) : Bool × CountryInstance :=
  if new_item ∈ s.accepted_cultures then (false, s)
  else (true, { s with accepted_cultures := s.accepted_cultures ++ [new_item] })

/-- The function generated by `ADD_AND_REMOVE(accepted_culture)` for removing. -/
def remove_accepted_culture (s : CountryInstance) (item_to_remove : Nat) :
    Bool × CountryInstance :=
  if item_to_remove ∈ s.accepted_cultures then
    (true, { s with accepted_cultures := s.accepted_cultures.erase item_to_remove })
  else (false, s)

/-- The member function `add_reform`. -/
def add_reform (s : CountryInstance) (new_reform : Nat) : Bool × CountryInstance :=
  if new_reform ∈ s.reforms then (false, s)
  else (true, { s with reforms := s.reforms ++ [new_reform] })

/-- The member function `remove_reform`: `std::find` gives the first entry that equals the
reform, and `erase` removes that entry. -/
def remove_reform (s : CountryInstance) (reform_to_remove : Nat) : Bool × CountryInstance :=
  if reform_to_remove ∈ s.reforms then
    (true, { s with reforms := s.reforms.erase reform_to_remove })
  else (false, s)

/-- The instantiation `add_unit_instance_group<LAND>`. -/
def add_army (s : CountryInstance) (group : Nat) : Bool × CountryInstance :=
  if group ∈ s.armies then (false, s)
  else (true, { s with armies := s.armies ++ [group] })

/-- The instantiation `remove_unit_instance_group<LAND>`. -/
def remove_army (s : CountryInstance) (group : Nat) : Bool × CountryInstance :=
  if group ∈ s.armies then (true, { s with armies := s.armies.erase group })
  else (false, s)

/-- The instantiation `add_unit_instance_group<NAVAL>`. -/
def add_navy (s : CountryInstance) (group : Nat) : Bool × CountryInstance :=
  if group ∈ s.navies then (false, s)
  else (true, { s with navies := s.navies ++ [group] })

/-- The instantiation `remove_unit_instance_group<NAVAL>`. -/
def remove_navy (s : CountryInstance) (group : Nat) : Bool × CountryInstance :=
  if group ∈ s.navies then (true, { s with navies := s.navies.erase group })
  else (false, s)

/-! ### Unit types -/

/-- The instantiation `modify_unit_type_unlock<LAND>`. -/
def modify_regiment_type_unlock (bits : Nat) (s : CountryInstance) (unit_type : Nat)
    (unlock_level_change : Int) : Bool × CountryInstance :=
  let unlock_level := s.unlocked_regiment_types.getD unit_type 0
  if level_sum bits unlock_level unlock_level_change < 0 then (false, s)
  else
    let new_level := level_add_assign bits unlock_level unlock_level_change
    (true, { s with unlocked_regiment_types := s.unlocked_regiment_types.set unit_type new_level })

/-- The instantiation `modify_unit_type_unlock<NAVAL>`. -/
def modify_ship_type_unlock (bits : Nat) (s : CountryInstance) (unit_type : Nat)
    (unlock_level_change : Int) : Bool × CountryInstance :=
  let unlock_level := s.unlocked_ship_types.getD unit_type 0
  if level_sum bits unlock_level unlock_level_change < 0 then (false, s)
  else
    let new_level := level_add_assign bits unlock_level unlock_level_change
    (true, { s with unlocked_ship_types := s.unlocked_ship_types.set unit_type new_level })

/-- The overload `modify_unit_type_unlock(UnitType const&, unlock_level_t)`, which switches on the
branch of the unit type. -/
def modify_unit_type_unlock (bits : Nat) (s : CountryInstance) (unit_type : UnitType)
    (unlock_level_change : Int) : Bool × CountryInstance :=
  match unit_type.branch with
  | .LAND => modify_regiment_type_unlock bits s unit_type.index unlock_level_change
  | .NAVAL => modify_ship_type_unlock bits s unit_type.index unlock_level_change
  | .INVALID_BRANCH => (false, s)

/-- The member function `unlock_unit_type`. -/
def unlock_unit_type (bits : Nat) (s : CountryInstance) (unit_type : UnitType) :
    Bool × CountryInstance :=
  modify_unit_type_unlock bits s unit_type 1

/-! ### Building types, crimes, gas attack and gas defence -/

/-- The member function `modify_building_type_unlock`. -/
def modify_building_type_unlock (bits : Nat) (s : CountryInstance) (building_type : Nat)
    (unlock_level_change : Int) : Bool × CountryInstance :=
  let unlock_level := s.unlocked_building_types.getD building_type 0
  if level_sum bits unlock_level unlock_level_change < 0 then (false, s)
  else
    let new_level := level_add_assign bits unlock_level unlock_level_change
    (true, { s with unlocked_building_types := s.unlocked_building_types.set building_type new_level })

/-- The member function `unlock_building_type`. -/
def unlock_building_type (bits : Nat) (s : CountryInstance) (building_type : Nat) :
    Bool × CountryInstance :=
  modify_building_type_unlock bits s building_type 1

/-- The member function `modify_crime_unlock`. -/
def modify_crime_unlock (bits : Nat) (s : CountryInstance) (crime : Nat)
    (unlock_level_change : Int) : Bool × CountryInstance :=
  let unlock_level := s.unlocked_crimes.getD crime 0
  if level_sum bits unlock_level unlock_level_change < 0 then (false, s)
  else
    let new_level := level_add_assign bits unlock_level unlock_level_change
    (true, { s with unlocked_crimes := s.unlocked_crimes.set crime new_level })

/-- The member function `unlock_crime`. -/
def unlock_crime (bits : Nat) (s : CountryInstance) (crime : Nat) : Bool × CountryInstance :=
  modify_crime_unlock bits s crime 1

/-- The member function `modify_gas_attack_unlock`. -/
def modify_gas_attack_unlock (bits : Nat) (s : CountryInstance) (unlock_level_change : Int) :
    Bool × CountryInstance :=
  if level_sum bits s.gas_attack_unlock_level unlock_level_change < 0 then (false, s)
  else
    let new_level := level_add_assign bits s.gas_attack_unlock_level unlock_level_change
    (true, { s with gas_attack_unlock_level := new_level })

/-- The member function `unlock_gas_attack`. -/
def unlock_gas_attack (bits : Nat) (s : CountryInstance) : Bool × CountryInstance :=
  modify_gas_attack_unlock bits s 1

/-- The member function `modify_gas_defence_unlock`. -/
def modify_gas_defence_unlock (bits : Nat) (s : CountryInstance) (unlock_level_change : Int) :
    Bool × CountryInstance :=
  if level_sum bits s.gas_defence_unlock_level unlock_level_change < 0 then (false, s)
  else
    let new_level := level_add_assign bits s.gas_defence_unlock_level unlock_level_change
    (true, { s with gas_defence_unlock_level := new_level })

/-- The member function `unlock_gas_defence`. -/
def unlock_gas_defence (bits : Nat) (s : CountryInstance) : Bool × CountryInstance :=
  modify_gas_defence_unlock bits s 1

/-! ### Unit variants -/

/-- The call `std::vector::resize(count)`: the first `count` elements, padded with zeros. -/
def resize (levels : List Int) (count : Nat) : List Int :=
  levels.take count ++ List.replicate (count - levels.length) 0

/-- The loop `while (!levels.empty() && levels.back() < 1) levels.pop_back();`. -/
def pop_locked_back (levels : List Int) : List Int :=
  levels.rdropWhile (fun unlock_level => decide (unlock_level < 1))

/-- The member function `modify_unit_variant_unlock`. -/
def modify_unit_variant_unlock (bits : Nat) (s : CountryInstance) (unit_variant : Nat)
    (unlock_level_change : Int) : Bool × CountryInstance :=
  if unit_variant < 1 then (false, s)
  else
    let levels :=
      if s.unit_variant_unlock_levels.length < unit_variant then
        resize s.unit_variant_unlock_levels unit_variant
      else s.unit_variant_unlock_levels
    let unlock_level := levels.getD (unit_variant - 1) 0
    let r : Bool × List Int :=
      if level_sum bits unlock_level unlock_level_change < 0 then (false, levels)
      else (true, levels.set (unit_variant - 1)
        (level_add_assign bits unlock_level unlock_level_change))
    (r.1, { s with unit_variant_unlock_levels := pop_locked_back r.2 })

/-- The member function `unlock_unit_variant`. -/
def unlock_unit_variant (bits : Nat) (s : CountryInstance) (unit_variant : Nat) :
    Bool × CountryInstance :=
  modify_unit_variant_unlock bits s unit_variant 1

/-- The member function `get_max_unlocked_unit_variant`. -/
def get_max_unlocked_unit_variant (s : CountryInstance) : Nat :=
  s.unit_variant_unlock_levels.length

/-! ### Technologies and inventions -/

/-- One pass of a loop body `ret &= modify(key, change);` over the keys of a cascade: every key
is visited, whatever the earlier calls returned. -/
def cascade {κ : Type} (modify : CountryInstance → κ → Bool × CountryInstance) (keys : List κ)
    (acc : Bool × CountryInstance) : Bool × CountryInstance :=
  keys.foldl (fun acc key => let r := modify acc.2 key; (acc.1 && r.1, r.2)) acc

/-- A guarded step `if (condition) { ret &= modify(change); }` of a cascade. -/
def cascade_if (condition : Bool) (modify : CountryInstance → Bool × CountryInstance)
    (acc : Bool × CountryInstance) : Bool × CountryInstance :=
  if condition then
    let r := modify acc.2
    (acc.1 && r.1, r.2)
  else acc

/-- The member function `modify_technology_unlock`. -/
def modify_technology_unlock (bits : Nat) (s : CountryInstance) (technology : Technology)
    (unlock_level_change : Int) : Bool × CountryInstance :=
  let unlock_level := s.unlocked_technologies.getD technology.index 0
  if level_sum bits unlock_level unlock_level_change < 0 then (false, s)
  else
    let new_level := level_add_assign bits unlock_level unlock_level_change
    let s1 := { s with unlocked_technologies := s.unlocked_technologies.set technology.index new_level }
    let r0 : Bool × CountryInstance :=
      match technology.unit_variant with
      | some unit_variant =>
        let r := modify_unit_variant_unlock bits s1 unit_variant unlock_level_change
        (true && r.1, r.2)
      | none => (true, s1)
    let r1 := cascade (fun c unit => modify_unit_type_unlock bits c unit unlock_level_change)
      technology.activated_units r0
    cascade (fun c building => modify_building_type_unlock bits c building unlock_level_change)
      technology.activated_buildings r1

/-- The member function `set_technology_unlock_level`. -/
def set_technology_unlock_level (bits : Nat) (s : CountryInstance) (technology : Technology)
    (unlock_level : Int) : Bool × CountryInstance :=
  let unlock_level_change :=
    level_difference bits unlock_level (s.unlocked_technologies.getD technology.index 0)
  if unlock_level_change ≠ 0 then modify_technology_unlock bits s technology unlock_level_change
  else (true, s)

/-- The member function `unlock_technology`. -/
def unlock_technology (bits : Nat) (s : CountryInstance) (technology : Technology) :
    Bool × CountryInstance :=
  modify_technology_unlock bits s technology 1

/-- The member function `modify_invention_unlock`. -/
def modify_invention_unlock (bits : Nat) (s : CountryInstance) (invention : Invention)
    (unlock_level_change : Int) : Bool × CountryInstance :=
  let unlock_level := s.unlocked_inventions.getD invention.index 0
  if level_sum bits unlock_level unlock_level_change < 0 then (false, s)
  else
    let new_level := level_add_assign bits unlock_level unlock_level_change
    let s1 := { s with unlocked_inventions := s.unlocked_inventions.set invention.index new_level }
    let r1 := cascade (fun c unit => modify_unit_type_unlock bits c unit unlock_level_change)
      invention.activated_units (true, s1)
    let r2 := cascade
      (fun c building => modify_building_type_unlock bits c building unlock_level_change)
      invention.activated_buildings r1
    let r3 := cascade (fun c crime => modify_crime_unlock bits c crime unlock_level_change)
      invention.enabled_crimes r2
    let r4 := cascade_if invention.unlock_gas_attack
      (fun c => modify_gas_attack_unlock bits c unlock_level_change) r3
    cascade_if invention.unlock_gas_defence
      (fun c => modify_gas_defence_unlock bits c unlock_level_change) r4

/-- The member function `set_invention_unlock_level`. -/
def set_invention_unlock_level (bits : Nat) (s : CountryInstance) (invention : Invention)
    (unlock_level : Int) : Bool × CountryInstance :=
  let unlock_level_change :=
    level_difference bits unlock_level (s.unlocked_inventions.getD invention.index 0)
  if unlock_level_change ≠ 0 then modify_invention_unlock bits s invention unlock_level_change
  else (true, s)

/-- The member function `unlock_invention`. -/
def unlock_invention (bits : Nat) (s : CountryInstance) (invention : Invention) :
    Bool × CountryInstance :=
  modify_invention_unlock bits s invention 1

/-! ### Construction -/

/-- One of the constructor's loops `for (key : keys) if (key.enabled()) unlock(key);`, where
`enabled` lists the flag of every key in the order of the key universe. -/
def unlock_enabled (unlock : CountryInstance → Nat → Bool × CountryInstance) (enabled : List Bool)
    (s : CountryInstance) : CountryInstance :=
  (List.range enabled.length).foldl
    (fun c key => if enabled.getD key false then (unlock c key).2 else c) s

/-- The constructor. The key universes are given by what the constructor reads of them:
`building_type_keys` is `is_default_enabled()` of every building type, `crime_keys` is
`is_default_active()` of every crime, `regiment_type_keys` and `ship_type_keys` are `is_active()`
of every regiment type and ship type, and the technologies, inventions, government types, pop
types and ideologies are given by their number. The precision of the fixed-point numbers is needed for the
supply consumption, which starts at one. -/
def new (bits : Nat) (building_type_keys : List Bool) (technology_keys invention_keys : Nat)
    (crime_keys regiment_type_keys ship_type_keys : List Bool)
    (new_country_definition : Option CountryDefinition)
    (government_type_keys pop_type_keys ideology_keys : Nat) (precision : Nat) :
    CountryInstance :=
  let s0 : CountryInstance :=
    { country_definition := new_country_definition
      colour := ERROR_COLOUR
      capital := none
      country_flags := []
      releasable_vassal := true
      country_status := country_status_t.COUNTRY_STATUS_UNCIVILISED
      lose_great_power_date := 0
      total_score := 0
      total_rank := 0
      owned_provinces := []
      controlled_provinces := []
      core_provinces := []
      states := []
      industrial_power := 0
      industrial_power_from_states := []
      industrial_power_from_investments := []
      industrial_rank := 0
      foreign_investments := []
      national_literacy := 0
      tech_school := none
      national_value := none
      government_type := none
      last_election := 0
      ruling_party := none
      upper_house := List.replicate ideology_keys 0
      reforms := []
      government_flag_overrides := List.replicate government_type_keys none
      flag_government_type := none
      plurality := 0
      primary_culture := none
      accepted_cultures := []
      religion := none
      total_population := 0
      national_consciousness := 0
      national_militancy := 0
      pop_type_distribution := List.replicate pop_type_keys 0
      prestige := 0
      prestige_rank := 0
      military_power := 0
      military_power_from_land := 0
      military_power_from_sea := 0
      military_power_from_leaders := 0
      military_rank := 0
      generals := []
      admirals := []
      armies := []
      navies := []
      regiment_count := 0
      max_supported_regiment_count := 0
      mobilisation_potential_regiment_count := 0
      mobilisation_max_regiment_count := 0
      mobilisation_impact := 0
      supply_consumption := fixed_point_t.parse precision 1
      ship_count := 0
      total_consumed_ship_supply := 0
      disarmed := false
      unlocked_building_types := List.replicate building_type_keys.length 0
      unlocked_technologies := List.replicate technology_keys 0
      unlocked_inventions := List.replicate invention_keys 0
      unlocked_crimes := List.replicate crime_keys.length 0
      unlocked_regiment_types := List.replicate regiment_type_keys.length 0
      unlocked_ship_types := List.replicate ship_type_keys.length 0
      gas_attack_unlock_level := 0
      gas_defence_unlock_level := 0
      unit_variant_unlock_levels := [] }
  let s1 := unlock_enabled (unlock_building_type bits) building_type_keys s0
  let s2 := unlock_enabled (unlock_crime bits) crime_keys s1
  let s3 := unlock_enabled (fun c key => unlock_unit_type bits c ⟨branch_t.LAND, key⟩)
    regiment_type_keys s2
  unlock_enabled (fun c key => unlock_unit_type bits c ⟨branch_t.NAVAL, key⟩) ship_type_keys s3

end CountryInstance

/-! ## The gamestate update of a country -/

/-- Modelled from the spec: `IndexedMap::clear`, which is not among the sources; every value of
the map is set to zero. -/
def indexed_map_clear (values : List fixed_point_t) : List fixed_point_t :=
  values.map (fun _ => 0)

/-- Modelled from the spec: `IndexedMap::operator+=`, which is not among the sources; the values
of the other map are added key by key. -/
def indexed_map_add (values other : List fixed_point_t) : List fixed_point_t :=
  List.zipWith (fun a b => a + b) values other

namespace CountryInstance

/-- The body of the loop over the states in `_update_production`. -/
def add_state_industrial_power (objects : Objects) (c : CountryInstance) (state : Nat) :
    CountryInstance :=
  let state_industrial_power := (objects.state state).industrial_power
  if state_industrial_power ≠ 0 then
    let breakdown := c.industrial_power_from_states ++ [(state, state_industrial_power)]
    { c with
      industrial_power := c.industrial_power + state_industrial_power
      industrial_power_from_states := breakdown }
  else c

/-- The value of `money_invested * define_manager.get_country_investment_industrial_score_factor()
/ 100` in `_update_production`. -/
def investment_industrial_power (precision : Nat) (define_manager : DefineManager)
    (money_invested : fixed_point_t) : fixed_point_t :=
  fixed_point_t.div_int
    (fixed_point_t.mul precision money_invested
      define_manager.country_investment_industrial_score_factor) 100

/-- The body of the loop over the foreign investments in `_update_production`;
`country_exists` is `exists()` of the country invested in. -/
def add_investment_industrial_power (precision : Nat) (define_manager : DefineManager)
    (country_exists : Nat → Bool) (c : CountryInstance) (investment : Nat × fixed_point_t) :
    CountryInstance :=
  if country_exists investment.1 then
    let power := investment_industrial_power precision define_manager investment.2
    if power ≠ 0 then
      let breakdown := c.industrial_power_from_investments ++ [(investment.1, power)]
      { c with
        industrial_power := c.industrial_power + power
        industrial_power_from_investments := breakdown }
    else c
  else c

/-- The comparator of both calls of `std::sort` in `_update_production`. -/
def by_second_descending (a b : Nat × fixed_point_t) : Bool := decide (a.2 > b.2)

/-- The member function `_update_production`. -/
def _update_production (precision : Nat) (define_manager : DefineManager) (std : StdSort)
    (country_exists : Nat → Bool) (objects : Objects) (s : CountryInstance) : CountryInstance :=
  let s0 := { s with
    industrial_power := 0
    industrial_power_from_states := []
    industrial_power_from_investments := [] }
  let s1 := s0.states.foldl (add_state_industrial_power objects) s0
  let s2 := s1.foreign_investments.foldl
    (add_investment_industrial_power precision define_manager country_exists) s1
  let from_states := std.sort by_second_descending s2.industrial_power_from_states
  let from_investments := std.sort by_second_descending s2.industrial_power_from_investments
  { s2 with
    industrial_power_from_states := from_states
    industrial_power_from_investments := from_investments }

/-- The member function `_update_budget`. -/
def _update_budget (s : CountryInstance) : CountryInstance := s

/-- The member function `_update_technology`. -/
def _update_technology (s : CountryInstance) : CountryInstance := s

/-- The member function `_update_politics`. -/
def _update_politics (s : CountryInstance) : CountryInstance := s

/-- The body of the loop over the states in `_update_population`. -/
def add_state_population (precision : Nat) (objects : Objects) (c : CountryInstance)
    (state : Nat) : CountryInstance :=
  let st := objects.state state
  let state_population := fixed_point_t.parse precision st.total_population
  let literacy := c.national_literacy +
    fixed_point_t.mul precision st.average_literacy state_population
  let consciousness := c.national_consciousness +
    fixed_point_t.mul precision st.average_consciousness state_population
  let militancy := c.national_militancy +
    fixed_point_t.mul precision st.average_militancy state_population
  let distribution := indexed_map_add c.pop_type_distribution st.pop_type_distribution
  { c with
    total_population := c.total_population + st.total_population
    national_literacy := literacy
    national_consciousness := consciousness
    national_militancy := militancy
    pop_type_distribution := distribution }

/-- The member function `_update_population`. -/
def _update_population (precision : Nat) (objects : Objects) (s : CountryInstance) :
    CountryInstance :=
  let cleared := indexed_map_clear s.pop_type_distribution
  let s0 := { s with
    total_population := 0
    national_literacy := 0
    national_consciousness := 0
    national_militancy := 0
    pop_type_distribution := cleared }
  let s1 := s0.states.foldl (add_state_population precision objects) s0
  if s1.total_population > 0 then
    let literacy := fixed_point_t.div_int s1.national_literacy s1.total_population
    let consciousness := fixed_point_t.div_int s1.national_consciousness s1.total_population
    let militancy := fixed_point_t.div_int s1.national_militancy s1.total_population
    { s1 with
      national_literacy := literacy
      national_consciousness := consciousness
      national_militancy := militancy }
  else s1

/-- The member function `_update_trade`. -/
def _update_trade (s : CountryInstance) : CountryInstance := s

/-- The member function `_update_diplomacy`. -/
def _update_diplomacy (s : CountryInstance) : CountryInstance := s

/-- The local `deployed_non_mobilised_regiments` of `_update_military` after its two nested
loops. -/
def deployed_non_mobilised_regiments (objects : Objects) (s : CountryInstance) : Nat :=
  s.armies.foldl
    (fun count army =>
      (objects.army army).units.foldl
        (fun count regiment => if !regiment.mobilised then count + 1 else count) count) 0

/-- The local `sum_of_regiment_type_stats` of `_update_military` after its loop. -/
def sum_of_regiment_type_stats (precision : Nat) (unit_type_manager : UnitTypeManager) :
    fixed_point_t :=
  unit_type_manager.regiment_types.foldl
    (fun sum regiment_type =>
      sum + fixed_point_t.mul precision (regiment_type.attack + regiment_type.defence)
        regiment_type.discipline) 0

/-- The value of `military_power_from_sea` in `_update_military` after its two nested loops,
before the division by 250. -/
def capital_ship_power (precision : Nat) (objects : Objects) (s : CountryInstance) :
    fixed_point_t :=
  s.navies.foldl
    (fun power navy =>
      (objects.navy navy).units.foldl
        (fun power ship =>
          if ship.unit_type.capital then
            power + fixed_point_t.mul precision ship.unit_type.gun_power ship.unit_type.hull
          else power) power) 0

/-- The member function `_update_military`. -/
def _update_military (precision : Nat) (define_manager : DefineManager)
    (unit_type_manager : UnitTypeManager) (objects : Objects) (s : CountryInstance) :
    CountryInstance :=
  let regiment_count :=
    s.armies.foldl (fun count army => count + (objects.army army).units.length) 0
  let ship_count := s.navies.foldl (fun count navy => count + (objects.navy navy).units.length) 0
  let total_consumed_ship_supply :=
    s.navies.foldl (fun supply navy => supply + (objects.navy navy).total_consumed_supply) 0
  let deployed := deployed_non_mobilised_regiments objects s
  let max_supported_regiment_count :=
    s.states.foldl (fun count state => count + (objects.state state).max_supported_regiments) 0
  let supply_consumption := fixed_point_t.parse precision 1
  let regular_army_size := min (4 * deployed) max_supported_regiment_count
  let stats := sum_of_regiment_type_stats precision unit_type_manager
  let land := fixed_point_t.div precision
    (fixed_point_t.mul precision
      (fixed_point_t.mul precision supply_consumption
        (fixed_point_t.parse precision regular_army_size)) stats)
    (fixed_point_t.parse precision (7 * (1 + unit_type_manager.regiment_types.length)))
  let military_power_from_land :=
    if s.disarmed then fixed_point_t.mul precision land define_manager.disarmed_penalty else land
  let military_power_from_sea := fixed_point_t.div_int (capital_ship_power precision objects s) 250
  let military_power_from_leaders :=
    fixed_point_t.parse precision (min (s.generals.length + s.admirals.length) deployed)
  let military_power :=
    military_power_from_land + military_power_from_sea + military_power_from_leaders
  let mobilisation_impact : fixed_point_t := 0
  let mobilisation_max_regiment_count :=
    (fixed_point_t.to_int64_t precision
      (fixed_point_t.mul precision (fixed_point_t.one precision + mobilisation_impact)
        (fixed_point_t.parse precision regiment_count))).toNat
  let potential : Nat := 0
  let mobilisation_potential_regiment_count :=
    if potential > mobilisation_max_regiment_count then mobilisation_max_regiment_count
    else potential
  { s with
    regiment_count := regiment_count
    ship_count := ship_count
    total_consumed_ship_supply := total_consumed_ship_supply
    max_supported_regiment_count := max_supported_regiment_count
    supply_consumption := supply_consumption
    military_power_from_land := military_power_from_land
    military_power_from_sea := military_power_from_sea
    military_power_from_leaders := military_power_from_leaders
    military_power := military_power
    mobilisation_impact := mobilisation_impact
    mobilisation_max_regiment_count := mobilisation_max_regiment_count
    mobilisation_potential_regiment_count := mobilisation_potential_regiment_count }

/-- The colour that `update_gamestate` stores: the colour the country definition has for the
government type when it has one, else the colour of the definition, and `ERROR_COLOUR` without
a definition. -/
def gamestate_colour (s : CountryInstance) : Nat :=
  match s.country_definition with
  | some definition =>
    match s.government_type.bind (fun government => definition.alternative_colours.lookup government) with
    | some alternative => alternative
    | none => definition.colour
  | none => ERROR_COLOUR

/-- The flag government type that `update_gamestate` stores. -/
def gamestate_flag_government_type (s : CountryInstance) : Option Nat :=
  match s.government_type with
  | some government =>
    match s.government_flag_overrides.getD government none with
    | some flag => some flag
    | none => some government
  | none => none

/-- The member function `update_gamestate`. -/
def update_gamestate (precision : Nat) (define_manager : DefineManager)
    (unit_type_manager : UnitTypeManager) (std : StdSort) (country_exists : Nat → Bool)
    (objects : Objects) (s : CountryInstance) : CountryInstance :=
  let s1 := _update_production precision define_manager std country_exists objects s
  let s2 := _update_budget s1
  let s3 := _update_technology s2
  let s4 := _update_politics s3
  let s5 := _update_population precision objects s4
  let s6 := _update_trade s5
  let s7 := _update_diplomacy s6
  let s8 := _update_military precision define_manager unit_type_manager objects s7
  let s9 := { s8 with total_score := s8.prestige + s8.industrial_power + s8.military_power }
  let s10 := { s9 with colour := gamestate_colour s9 }
  { s10 with flag_government_type := gamestate_flag_government_type s10 }

end CountryInstance

/-! ## The country manager -/

/-- The library function `std::clamp(v, lo, hi)` as libstdc++ computes it,
`std::min(std::max(v, lo), hi)`. When `lo` is not beyond `hi` this is the value that the
standard prescribes, `v` brought into the range from `lo` to `hi`; for a `lo` beyond `hi` the
standard prescribes none, and the library returns `hi`. -/
def std_clamp (v lo hi : Nat) : Nat :=
  min (max v lo) hi

/-- The struct `CountryInstanceManager`. A pointer to a country instance is the index of the
country in the registry `country_instances`, of which the items are given by their index and
their number; the lists of great powers and secondary powers and the four rankings are vectors of
such pointers. A `Date` is the number of its day and a `Timespan` a number of days. -/
structure CountryInstanceManager where
  country_instances : Nat → CountryInstance
  country_instance_count : Nat
  great_powers : List Nat
  secondary_powers : List Nat
  total_ranking : List Nat
  prestige_ranking : List Nat
  industrial_power_ranking : List Nat
  military_power_ranking : List Nat

namespace CountryInstanceManager

/-- A write to the country that a pointer points to, `country->field = value`. -/
def modify_country (m : CountryInstanceManager) (country : Nat)
    (write : CountryInstance → CountryInstance) : CountryInstanceManager :=
  let written := fun other =>
    if other = country then write (m.country_instances country) else m.country_instances other
  { m with country_instances := written }

/-- The comparator of the total ranking in `update_rankings`. -/
def total_ranking_before (m : CountryInstanceManager) (a b : Nat) : Bool :=
  let a_civilised := (m.country_instances a).is_civilised
  let b_civilised := (m.country_instances b).is_civilised
  if a_civilised != b_civilised then a_civilised
  else decide ((m.country_instances a).total_score > (m.country_instances b).total_score)

/-- The comparator of the prestige ranking in `update_rankings`. -/
def prestige_ranking_before (m : CountryInstanceManager) (a b : Nat) : Bool :=
  decide ((m.country_instances a).prestige > (m.country_instances b).prestige)

/-- The comparator of the industrial power ranking in `update_rankings`. -/
def industrial_power_ranking_before (m : CountryInstanceManager) (a b : Nat) : Bool :=
  decide ((m.country_instances a).industrial_power > (m.country_instances b).industrial_power)

/-- The comparator of the military power ranking in `update_rankings`. -/
def military_power_ranking_before (m : CountryInstanceManager) (a b : Nat) : Bool :=
  decide ((m.country_instances a).military_power > (m.country_instances b).military_power)

/-- The countries of the registry for which `exists()` holds, in the order of the registry: the
value of `total_ranking` in `update_rankings` before it is sorted. -/
def existing_countries (m : CountryInstanceManager) : List Nat :=
  (List.range m.country_instance_count).filter
    (fun country => (m.country_instances country).«exists»)

/-- One round of the loop of `update_rankings` that assigns the ranks. The four rankings have
the length of the total ranking, so that `index` is a position of each of them. -/
def assign_rank (m : CountryInstanceManager) (index : Nat) : CountryInstanceManager :=
  let rank := index + 1
  let m1 := m.modify_country (m.total_ranking.getD index 0)
    (fun country => { country with total_rank := rank })
  let m2 := m1.modify_country (m1.prestige_ranking.getD index 0)
    (fun country => { country with prestige_rank := rank })
  let m3 := m2.modify_country (m2.industrial_power_ranking.getD index 0)
    (fun country => { country with industrial_rank := rank })
  m3.modify_country (m3.military_power_ranking.getD index 0)
    (fun country => { country with military_rank := rank })

/-- The first part of `update_rankings`: the four rankings are built from the countries that
exist and sorted, and the ranks are assigned. -/
def rank_countries (std : StdSort) (m : CountryInstanceManager) : CountryInstanceManager :=
  let existing := m.existing_countries
  let m1 := { m with
    total_ranking := std.sort m.total_ranking_before existing
    prestige_ranking := std.sort m.prestige_ranking_before existing
    industrial_power_ranking := std.sort m.industrial_power_ranking_before existing
    military_power_ranking := std.sort m.military_power_ranking_before existing }
  (List.range m1.total_ranking.length).foldl assign_rank m1

/-- One round of the loop of `update_rankings` over the great powers: a great power of a total
rank beyond the maximum whose `lose_great_power_date` is before today becomes civilised. -/
def demote_great_power (today : Int) (max_great_power_rank : Nat) (m : CountryInstanceManager)
    (great_power : Nat) : CountryInstanceManager :=
  if (m.country_instances great_power).total_rank > max_great_power_rank ∧
      (m.country_instances great_power).lose_great_power_date < today then
    m.modify_country great_power
      (fun country => { country with country_status := country_status_t.COUNTRY_STATUS_CIVILISED })
  else m

/-- One round of the loop of `update_rankings` over the secondary powers. -/
def demote_secondary_power (m : CountryInstanceManager) (secondary_power : Nat) :
    CountryInstanceManager :=
  m.modify_country secondary_power
    (fun country => { country with country_status := country_status_t.COUNTRY_STATUS_CIVILISED })

/-- The second part of `update_rankings`: great powers are demoted and erased from their list,
and all secondary powers are demoted and their list is cleared. -/
def demote_powers (today : Int) (define_manager : DefineManager) (m : CountryInstanceManager) :
    CountryInstanceManager :=
  let m1 := m.great_powers.foldl (demote_great_power today define_manager.great_power_rank) m
  let kept := m1.great_powers.filter (fun country =>
    decide ((m1.country_instances country).country_status =
      country_status_t.COUNTRY_STATUS_GREAT_POWER))
  let m2 := { m1 with great_powers := kept }
  let m3 := m2.secondary_powers.foldl demote_secondary_power m2
  { m3 with secondary_powers := [] }

/-- The promotion of a country to great power in `update_rankings`. -/
def promote_great_power (m : CountryInstanceManager) (country : Nat) : CountryInstanceManager :=
  let m1 := m.modify_country country
    (fun c => { c with country_status := country_status_t.COUNTRY_STATUS_GREAT_POWER })
  { m1 with great_powers := m1.great_powers ++ [country] }

/-- The promotion of a country to secondary power in `update_rankings`. -/
def promote_secondary_power (m : CountryInstanceManager) (country : Nat) :
    CountryInstanceManager :=
  let m1 := m.modify_country country
    (fun c => { c with country_status := country_status_t.COUNTRY_STATUS_SECONDARY_POWER })
  { m1 with secondary_powers := m1.secondary_powers ++ [country] }

/-- The body of the loop of `update_rankings` over the head of the total ranking, for a
country that is civilised: a great power is passed over; another country becomes a great power
when there are fewer great powers than the maximum rank and its total rank is within that rank,
and else a secondary power when its total rank is within the maximum secondary power rank. -/
def promote_power (max_great_power_rank max_secondary_power_rank : Nat)
    (m : CountryInstanceManager) (country : Nat) : CountryInstanceManager :=
  if (m.country_instances country).is_great_power then m
  else if m.great_powers.length < max_great_power_rank ∧
      (m.country_instances country).total_rank ≤ max_great_power_rank then
    m.promote_great_power country
  else if (m.country_instances country).total_rank ≤ max_secondary_power_rank then
    m.promote_secondary_power country
  else m

/-- The loop of `update_rankings` over the first `max_power_index` entries of the total ranking,
given by what `total_ranking[index]` reads at each index: a country, or nothing where the index
is no position of the ranking. Such a read would have no defined behaviour, and the loop has no
result when it comes to one. The loop ends at the first country that is not civilised. -/
def promotion_scan (max_great_power_rank max_secondary_power_rank : Nat) :
    List (Option Nat) → CountryInstanceManager → Option CountryInstanceManager
  | [], m => some m
  | none :: _, _ => none
  | some country :: rest, m =>
    if !(m.country_instances country).is_civilised then some m
    else promotion_scan max_great_power_rank max_secondary_power_rank rest
      (m.promote_power max_great_power_rank max_secondary_power_rank country)

/-- The third part of `update_rankings`: the countries at the head of the total ranking are
promoted to great powers and secondary powers. -/
def promote_powers (define_manager : DefineManager) (m : CountryInstanceManager) :
    Option CountryInstanceManager :=
  let max_power_index := std_clamp define_manager.secondary_power_rank
    define_manager.great_power_rank m.total_ranking.length
  promotion_scan define_manager.great_power_rank define_manager.secondary_power_rank
    ((List.range max_power_index).map (fun index => m.total_ranking[index]?)) m

/-- The comparator of the great powers in `update_rankings`. -/
def great_power_before (m : CountryInstanceManager) (a b : Nat) : Bool :=
  decide ((m.country_instances a).total_rank < (m.country_instances b).total_rank)

/-- One round of the last loop of `update_rankings`: a great power of a total rank within the
maximum gets the new `lose_great_power_date`. -/
def refresh_great_power (max_great_power_rank : Nat) (new_lose_great_power_date : Int)
    (m : CountryInstanceManager) (great_power : Nat) : CountryInstanceManager :=
  if (m.country_instances great_power).total_rank ≤ max_great_power_rank then
    m.modify_country great_power
      (fun country => { country with lose_great_power_date := new_lose_great_power_date })
  else m

/-- The last part of `update_rankings`: the great powers are sorted by their total rank, and
those within the maximum rank get a new `lose_great_power_date`. -/
def refresh_great_powers (std : StdSort) (today : Int) (define_manager : DefineManager)
    (m : CountryInstanceManager) : CountryInstanceManager :=
  let m1 := { m with great_powers := std.sort m.great_power_before m.great_powers }
  let new_lose_great_power_date := today + define_manager.lose_great_power_grace_days
  m1.great_powers.foldl
    (refresh_great_power define_manager.great_power_rank new_lose_great_power_date) m1

/-- The member function `update_rankings`. It would have no result if the loop over the head of
the total ranking read beyond the ranking. -/
def update_rankings (std : StdSort) (today : Int) (define_manager : DefineManager)
    (m : CountryInstanceManager) : Option CountryInstanceManager :=
  (promote_powers define_manager (demote_powers today define_manager (rank_countries std m))).map
    (refresh_great_powers std today define_manager)

end CountryInstanceManager

namespace CountryInstanceManager

/-- One round of the loop of `CountryInstanceManager::update_gamestate`: `update_gamestate` of a
country of the registry. What it reads of `exists()` of the countries that the country has
invested in, it reads from the registry as it is in that round. -/
def update_country_gamestate (precision : Nat) (std : StdSort) (objects : Objects)
    (define_manager : DefineManager) (unit_type_manager : UnitTypeManager)
    (m : CountryInstanceManager) (country : Nat) : CountryInstanceManager :=
  m.modify_country country (CountryInstance.update_gamestate precision define_manager
    unit_type_manager std (fun other => (m.country_instances other).«exists») objects)

/-- The member function `update_gamestate` of the manager: `update_gamestate` of every country
of the registry, and then `update_rankings`. -/
def update_gamestate (precision : Nat) (std : StdSort) (objects : Objects) (today : Int)
    (define_manager : DefineManager) (unit_type_manager : UnitTypeManager)
    (m : CountryInstanceManager) : Option CountryInstanceManager :=
  ((List.range m.country_instance_count).foldl
    (update_country_gamestate precision std objects define_manager unit_type_manager)
    m).update_rankings std today define_manager

end CountryInstanceManager

namespace CountryInstanceManager

/-- The calls of `update_rankings` in a sequence of ticks with the same defines. A tick is given
by its date and by the records of the countries as they are when `update_rankings` is called in
it: between two calls the records may change in any way, while the lists of great powers and
secondary powers, which nothing else writes, are as the call before has left them. There is no
result when one of the calls has none. -/
def update_rankings_of_ticks (std : StdSort) (define_manager : DefineManager) :
    List (Int × (Nat → CountryInstance)) → CountryInstanceManager →
      Option CountryInstanceManager
  | [], m => some m
  | tick :: rest, m =>
    match { m with country_instances := tick.2 }.update_rankings std tick.1 define_manager with
    | some m' => update_rankings_of_ticks std define_manager rest m'
    | none => none

end CountryInstanceManager

/-! ## The history of a country -/

/-- Modelled from the spec: `CountryHistoryEntry`, whose header is not among the sources, by the
values that `apply_history_to_country` and `apply_history_to_countries` read of it. A pointer
is the identity of what it points to; the technologies and inventions are given with what the
unlock functions read of them, the foreign investments with the country definitions they are
for, and the initial order of battle by its identity. -/
structure CountryHistoryEntry where
  primary_culture : Option Nat
  accepted_cultures : List Nat
  religion : Option Nat
  ruling_party : Option Nat
  last_election : Option Int
  upper_house : List fixed_point_t
  capital : Option Nat
  government_type : Option Nat
  plurality : Option fixed_point_t
  national_value : Option Nat
  civilised : Option Bool
  prestige : Option fixed_point_t
  reforms : List Nat
  tech_school : Option Nat
  technologies : List (Technology × Int)
  inventions : List (Invention × Bool)
  foreign_investment : List (CountryDefinition × fixed_point_t)
  releasable_vassal : Option Bool
  country_flags : List String
  government_flag_overrides : List (Option Nat)
  inital_oob : Option Nat
deriving DecidableEq

/-- The functions of other parts of the program that the history functions call and that are
not among the sources, `IndexedMap::copy`, `MapInstance::get_province_instance_from_definition`,
`IndexedMap::write_non_empty_values`, `UnitInstanceManager::generate_deployment` and
`CountryHistoryManager::get_country_history`: they are parameters. A history map is the list of
its dated entries in the order of the map. -/
structure HistoryCollaborators where
  upper_house_copy : List fixed_point_t → List fixed_point_t → Bool × List fixed_point_t
  get_province_instance_from_definition : Nat → Nat
  write_non_empty_values : List (Option Nat) → List (Option Nat) → List (Option Nat)
  generate_deployment : CountryInstance → Nat → Bool × CountryInstance
  get_country_history : CountryDefinition → Option (List (Int × CountryHistoryEntry))

/-- The assignment `map[key] = value` to a map that keeps the order of insertion, given as the
list of its entries: the value of the key is replaced, or the entry is added at the end. -/
def ordered_map_assign (entries : List (Nat × fixed_point_t)) (key : Nat)
    (value : fixed_point_t) : List (Nat × fixed_point_t) :=
  if entries.any (fun entry => entry.1 = key) then
    entries.map (fun entry => if entry.1 = key then (key, value) else entry)
  else entries ++ [(key, value)]

/-- The local function `set_optional` of `apply_history_to_country`. -/
def set_optional {α : Type} (target : α) (source : Option α) : α :=
  match source with
  | some value => value
  | none => target

/-- The local function `set_optional` of `apply_history_to_country`, for a pointer. -/
def set_optional_pointer (target source : Option Nat) : Option Nat :=
  match source with
  | some value => some value
  | none => target

/-- The pointer that `get_country_instance_from_definition` returns: the country at the index
of the definition. -/
def CountryInstanceManager.get_country_instance_from_definition (country : CountryDefinition) :
    Nat :=
  country.index

namespace CountryInstance

/-- The member function `set_country_flag`, called with `warn`. -/
def set_country_flag (s : CountryInstance) (flag : String) : Bool × CountryInstance :=
  if flag.isEmpty then (false, s)
  else if flag ∈ s.country_flags then (true, s)
  else (true, { s with country_flags := s.country_flags ++ [flag] })

/-- The member function `apply_foreign_investments`. -/
def apply_foreign_investments (s : CountryInstance)
    (investments : List (CountryDefinition × fixed_point_t)) : CountryInstance :=
  investments.foldl
    (fun c investment =>
      let invested := ordered_map_assign c.foreign_investments
        (CountryInstanceManager.get_country_instance_from_definition investment.1) investment.2
      { c with foreign_investments := invested }) s

/-- The member function `apply_history_to_country`. -/
def apply_history_to_country (bits : Nat) (collaborators : HistoryCollaborators)
    (s : CountryInstance) (entry : CountryHistoryEntry) : Bool × CountryInstance :=
  let s1 := { s with
    primary_culture := set_optional_pointer s.primary_culture entry.primary_culture }
  let r2 := cascade add_accepted_culture entry.accepted_cultures (true, s1)
  let s3 := { r2.2 with
    religion := set_optional_pointer r2.2.religion entry.religion
    ruling_party := set_optional_pointer r2.2.ruling_party entry.ruling_party
    last_election := set_optional r2.2.last_election entry.last_election }
  let copied := collaborators.upper_house_copy s3.upper_house entry.upper_house
  let capital :=
    match entry.capital with
    | some province => some (collaborators.get_province_instance_from_definition province)
    | none => s3.capital
  let country_status :=
    match entry.civilised with
    | some civilised =>
      if civilised then country_status_t.COUNTRY_STATUS_CIVILISED
      else country_status_t.COUNTRY_STATUS_UNCIVILISED
    | none => s3.country_status
  let s4 := { s3 with
    upper_house := copied.2
    capital := capital
    government_type := set_optional_pointer s3.government_type entry.government_type
    plurality := set_optional s3.plurality entry.plurality
    national_value := set_optional_pointer s3.national_value entry.national_value
    country_status := country_status
    prestige := set_optional s3.prestige entry.prestige }
  let r5 := cascade add_reform entry.reforms (r2.1 && copied.1, s4)
  let s6 := { r5.2 with tech_school := set_optional_pointer r5.2.tech_school entry.tech_school }
  let r7 := cascade
    (fun c technology => set_technology_unlock_level bits c technology.1 technology.2)
    entry.technologies (r5.1, s6)
  let r8 := cascade
    (fun c invention =>
      set_invention_unlock_level bits c invention.1 (if invention.2 then 1 else 0))
    entry.inventions r7
  let s9 := r8.2.apply_foreign_investments entry.foreign_investment
  let s10 := { s9 with
    releasable_vassal := set_optional s9.releasable_vassal entry.releasable_vassal }
  let r11 := cascade set_country_flag entry.country_flags (r8.1, s10)
  let overrides := collaborators.write_non_empty_values r11.2.government_flag_overrides
    entry.government_flag_overrides
  (r11.1, { r11.2 with government_flag_overrides := overrides })

end CountryInstance

namespace CountryInstanceManager

/-- One round of the loop of `apply_history_to_countries` over the entries of a history map,
on the result so far, the country and the entry with the order of battle so far: an entry dated
up to the date is applied, an entry dated later has its foreign investments applied. -/
def apply_history_entry (bits : Nat) (collaborators : HistoryCollaborators) (date : Int)
    (acc : Bool × CountryInstance × Option CountryHistoryEntry)
    (dated : Int × CountryHistoryEntry) : Bool × CountryInstance × Option CountryHistoryEntry :=
  if dated.1 ≤ date then
    let r := acc.2.1.apply_history_to_country bits collaborators dated.2
    (acc.1 && r.1, r.2, if dated.2.inital_oob.isSome then some dated.2 else acc.2.2)
  else (acc.1, acc.2.1.apply_foreign_investments dated.2.foreign_investment, acc.2.2)

/-- The body of the loop of `apply_history_to_countries` over the countries, for a country
whose definition is no dynamic tag and has a history map. -/
def apply_history_map (bits : Nat) (collaborators : HistoryCollaborators) (date : Int)
    (ret : Bool) (country_instance : CountryInstance)
    (history_map : List (Int × CountryHistoryEntry)) : Bool × CountryInstance :=
  let r := history_map.foldl (apply_history_entry bits collaborators date)
    (ret, country_instance, none)
  match r.2.2.bind (fun oob_history_entry => oob_history_entry.inital_oob) with
  | some inital_oob =>
    let deployed := collaborators.generate_deployment r.2.1 inital_oob
    (r.1 && deployed.1, deployed.2)
  | none => (r.1, r.2.1)

/-- The loop of `apply_history_to_countries` over the countries of the registry. The country
definition of a country is dereferenced without a check, so that the loop has no result when it
comes to a country without a definition. -/
def apply_history_loop (bits : Nat) (collaborators : HistoryCollaborators) (date : Int) :
    List Nat → Bool × CountryInstanceManager → Option (Bool × CountryInstanceManager)
  | [], acc => some acc
  | country :: rest, acc =>
    match (acc.2.country_instances country).country_definition with
    | none => none
    | some country_definition =>
      if !country_definition.dynamic_tag then
        match collaborators.get_country_history country_definition with
        | some history_map =>
          let r := apply_history_map bits collaborators date acc.1
            (acc.2.country_instances country) history_map
          apply_history_loop bits collaborators date rest
            (r.1, acc.2.modify_country country (fun _ => r.2))
        | none => apply_history_loop bits collaborators date rest (false, acc.2)
      else apply_history_loop bits collaborators date rest acc

/-- The member function `apply_history_to_countries`. -/
def apply_history_to_countries (bits : Nat) (collaborators : HistoryCollaborators) (date : Int)
    (m : CountryInstanceManager) : Option (Bool × CountryInstanceManager) :=
  apply_history_loop bits collaborators date (List.range m.country_instance_count) (true, m)

end CountryInstanceManager

/-! ## The unlock ledgers, seen together -/

/-- A key of one of the unlock ledgers whose `modify_..._unlock` function checks the level of the
key itself: a building type, a crime, a regiment type, a ship type, the gas attack level, the gas
defence level, a technology or an invention. -/
inductive UnlockKey where
  | building_type (building_type : Nat)
  | crime (crime : Nat)
  | regiment_type (unit_type : Nat)
  | ship_type (unit_type : Nat)
  | gas_attack
  | gas_defence
  | technology (technology : Technology)
  | invention (invention : Invention)
deriving DecidableEq, Repr

/-- Whether modifying the key cascades to other ledgers. -/
def UnlockKey.cascades : UnlockKey → Bool
  | .technology _ => true
  | .invention _ => true
  | _ => false

namespace CountryInstance

/-- The stored unlock level of a key, as the `modify_..._unlock` function of its ledger reads
it. -/
def unlock_level (s : CountryInstance) : UnlockKey → Int
  | .building_type k => s.unlocked_building_types.getD k 0
  | .crime k => s.unlocked_crimes.getD k 0
  | .regiment_type k => s.unlocked_regiment_types.getD k 0
  | .ship_type k => s.unlocked_ship_types.getD k 0
  | .gas_attack => s.gas_attack_unlock_level
  | .gas_defence => s.gas_defence_unlock_level
  | .technology t => s.unlocked_technologies.getD t.index 0
  | .invention i => s.unlocked_inventions.getD i.index 0

/-- The `modify_..._unlock` function of the ledger of a key. -/
def modify_unlock (bits : Nat) (s : CountryInstance) : UnlockKey → Int → Bool × CountryInstance
  | .building_type k, d => modify_building_type_unlock bits s k d
  | .crime k, d => modify_crime_unlock bits s k d
  | .regiment_type k, d => modify_regiment_type_unlock bits s k d
  | .ship_type k, d => modify_ship_type_unlock bits s k d
  | .gas_attack, d => modify_gas_attack_unlock bits s d
  | .gas_defence, d => modify_gas_defence_unlock bits s d
  | .technology t, d => modify_technology_unlock bits s t d
  | .invention i, d => modify_invention_unlock bits s i d

/-- The key belongs to the key universe the record was sized against. -/
def has_key (s : CountryInstance) : UnlockKey → Prop
  | .building_type k => k < s.unlocked_building_types.length
  | .crime k => k < s.unlocked_crimes.length
  | .regiment_type k => k < s.unlocked_regiment_types.length
  | .ship_type k => k < s.unlocked_ship_types.length
  | .gas_attack => True
  | .gas_defence => True
  | .technology t => t.index < s.unlocked_technologies.length
  | .invention i => i.index < s.unlocked_inventions.length

/-- The record in which the level of one key is replaced and nothing else. -/
def with_unlock_level (s : CountryInstance) : UnlockKey → Int → CountryInstance
  | .building_type k, v => { s with unlocked_building_types := s.unlocked_building_types.set k v }
  | .crime k, v => { s with unlocked_crimes := s.unlocked_crimes.set k v }
  | .regiment_type k, v => { s with unlocked_regiment_types := s.unlocked_regiment_types.set k v }
  | .ship_type k, v => { s with unlocked_ship_types := s.unlocked_ship_types.set k v }
  | .gas_attack, v => { s with gas_attack_unlock_level := v }
  | .gas_defence, v => { s with gas_defence_unlock_level := v }
  | .technology t, v => { s with unlocked_technologies := s.unlocked_technologies.set t.index v }
  | .invention i, v => { s with unlocked_inventions := s.unlocked_inventions.set i.index v }

end CountryInstance

instance (s : CountryInstance) (key : UnlockKey) : Decidable (s.has_key key) := by
  cases key <;> simp only [CountryInstance.has_key] <;> infer_instance

/-! ## Sequences of calls on the unlock ledgers -/

/-- A call of one of the public functions that change unlock levels. -/
inductive Call where
  | modify (key : UnlockKey) (unlock_level_change : Int)
  | unlock (key : UnlockKey)
  | modify_unit_type_unlock (unit_type : UnitType) (unlock_level_change : Int)
  | unlock_unit_type (unit_type : UnitType)
  | modify_unit_variant_unlock (unit_variant : Nat) (unlock_level_change : Int)
  | unlock_unit_variant (unit_variant : Nat)
  | set_technology_unlock_level (technology : Technology) (unlock_level : Int)
  | set_invention_unlock_level (invention : Invention) (unlock_level : Int)
deriving DecidableEq, Repr

namespace CountryInstance

/-- The effect of one call; `unlock` of a key is `modify` of that key by 1, as in
`unlock_building_type`, `unlock_crime`, `unlock_gas_attack`, `unlock_gas_defence`,
`unlock_technology` and `unlock_invention`. -/
def call (bits : Nat) (s : CountryInstance) : Call → Bool × CountryInstance
  | .modify key d => s.modify_unlock bits key d
  | .unlock key => s.modify_unlock bits key 1
  | .modify_unit_type_unlock u d => modify_unit_type_unlock bits s u d
  | .unlock_unit_type u => unlock_unit_type bits s u
  | .modify_unit_variant_unlock v d => modify_unit_variant_unlock bits s v d
  | .unlock_unit_variant v => unlock_unit_variant bits s v
  | .set_technology_unlock_level t v => set_technology_unlock_level bits s t v
  | .set_invention_unlock_level i v => set_invention_unlock_level bits s i v

/-- The record after a sequence of calls, made one after the other. -/
def run (bits : Nat) (s : CountryInstance) (calls : List Call) : CountryInstance :=
  calls.foldl (fun c x => (c.call bits x).2) s

/-- Every unlock level stored in the record. -/
def all_unlock_levels (s : CountryInstance) : List Int :=
  s.unlocked_building_types ++ s.unlocked_technologies ++ s.unlocked_inventions ++
    s.unlocked_crimes ++ s.unlocked_regiment_types ++ s.unlocked_ship_types ++
    [s.gas_attack_unlock_level, s.gas_defence_unlock_level] ++ s.unit_variant_unlock_levels

end CountryInstance

/-- The stored entry of a unit type in the ledger of its branch, if it has one. -/
def CountryInstance.unit_type_entry (s : CountryInstance) (unit_type : UnitType) : Option Int :=
  match unit_type.branch with
  | .LAND => s.unlocked_regiment_types[unit_type.index]?
  | .NAVAL => s.unlocked_ship_types[unit_type.index]?
  | .INVALID_BRANCH => none

/-- The unlock level of a unit type, as `is_unit_type_unlocked` reads it. -/
def CountryInstance.unit_type_unlock_level (s : CountryInstance) (unit_type : UnitType) : Int :=
  match unit_type.branch with
  | .LAND => s.unlocked_regiment_types.getD unit_type.index 0
  | .NAVAL => s.unlocked_ship_types.getD unit_type.index 0
  | .INVALID_BRANCH => 0

/-- The unit type has an entry in the ledger of its branch. -/
def CountryInstance.has_unit_type (s : CountryInstance) (unit_type : UnitType) : Prop :=
  match unit_type.branch with
  | .LAND => unit_type.index < s.unlocked_regiment_types.length
  | .NAVAL => unit_type.index < s.unlocked_ship_types.length
  | .INVALID_BRANCH => False

instance (s : CountryInstance) (unit_type : UnitType) : Decidable (s.has_unit_type unit_type) := by
  unfold CountryInstance.has_unit_type
  split <;> infer_instance

/-! ## The unit variant ledger -/

namespace CountryInstance

/-- The unlock level of a unit variant: the entry at `unit_variant - 1` of the ledger, and 0 for
the default variant 0 and for every variant beyond the size of the ledger. -/
def unit_variant_unlock_level (s : CountryInstance) (unit_variant : Nat) : Int :=
  if unit_variant < 1 then 0 else s.unit_variant_unlock_levels.getD (unit_variant - 1) 0

/-- The ledger of unit variants is empty or its last entry is at least 1:
`size == 0 || levels[size - 1] >= 1`. -/
def unit_variants_trimmed (s : CountryInstance) : Prop :=
  s.unit_variant_unlock_levels.length = 0 ∨
    1 ≤ s.unit_variant_unlock_levels.getD (s.unit_variant_unlock_levels.length - 1) 0

instance (s : CountryInstance) : Decidable s.unit_variants_trimmed := by
  unfold unit_variants_trimmed
  infer_instance

end CountryInstance

/-! ## The membership sets and the reform list, seen together -/

/-- One of the sets of a country with an add and a remove function of the same shape. -/
inductive MemberSet where
  | owned_provinces
  | controlled_provinces
  | core_provinces
  | states
  | accepted_cultures
  | armies
  | navies
deriving DecidableEq, Repr

/-- A call of `add_reform` or of `remove_reform`. -/
inductive ReformCall where
  | add_reform (new_reform : Nat)
  | remove_reform (reform_to_remove : Nat)
deriving DecidableEq, Repr

namespace CountryInstance

/-- The members of a set, in the order of their insertion. -/
def members (s : CountryInstance) : MemberSet → List Nat
  | .owned_provinces => s.owned_provinces
  | .controlled_provinces => s.controlled_provinces
  | .core_provinces => s.core_provinces
  | .states => s.states
  | .accepted_cultures => s.accepted_cultures
  | .armies => s.armies
  | .navies => s.navies

/-- The add function of a set. -/
def add_member (s : CountryInstance) : MemberSet → Nat → Bool × CountryInstance
  | .owned_provinces, item => s.add_owned_province item
  | .controlled_provinces, item => s.add_controlled_province item
  | .core_provinces, item => s.add_core_province item
  | .states, item => s.add_state item
  | .accepted_cultures, item => s.add_accepted_culture item
  | .armies, item => s.add_army item
  | .navies, item => s.add_navy item

/-- The remove function of a set. -/
def remove_member (s : CountryInstance) : MemberSet → Nat → Bool × CountryInstance
  | .owned_provinces, item => s.remove_owned_province item
  | .controlled_provinces, item => s.remove_controlled_province item
  | .core_provinces, item => s.remove_core_province item
  | .states, item => s.remove_state item
  | .accepted_cultures, item => s.remove_accepted_culture item
  | .armies, item => s.remove_army item
  | .navies, item => s.remove_navy item

/-- The record in which the members of one set are replaced and nothing else. -/
def with_members (s : CountryInstance) : MemberSet → List Nat → CountryInstance
  | .owned_provinces, l => { s with owned_provinces := l }
  | .controlled_provinces, l => { s with controlled_provinces := l }
  | .core_provinces, l => { s with core_provinces := l }
  | .states, l => { s with states := l }
  | .accepted_cultures, l => { s with accepted_cultures := l }
  | .armies, l => { s with armies := l }
  | .navies, l => { s with navies := l }

/-- The effect of one call on the reform list. -/
def reform_call (s : CountryInstance) : ReformCall → Bool × CountryInstance
  | .add_reform r => s.add_reform r
  | .remove_reform r => s.remove_reform r

/-- The record after a sequence of calls on the reform list. -/
def run_reform_calls (s : CountryInstance) (calls : List ReformCall) : CountryInstance :=
  calls.foldl (fun c x => (c.reform_call x).2) s

end CountryInstance

/-- The record in which the industrial power and its two breakdowns are replaced and nothing
else. -/
def CountryInstance.with_production (s : CountryInstance) (power : fixed_point_t)
    (from_states from_investments : List (Nat × fixed_point_t)) : CountryInstance :=
  { s with
    industrial_power := power
    industrial_power_from_states := from_states
    industrial_power_from_investments := from_investments }

/-- The contribution of a foreign investment as the specification words it:
`invested_amount × (investment_industrial_score_factor / 100)`. -/
def investment_industrial_power_spec (precision : Nat) (define_manager : DefineManager)
    (money_invested : fixed_point_t) : fixed_point_t :=
  fixed_point_t.mul precision money_invested
    (fixed_point_t.div_int define_manager.country_investment_industrial_score_factor 100)

/-- The history of a country up to a date in the words of the specification: the entries of the
history map dated up to the date are applied in the order of the map, and of the entries dated
later the foreign investments are applied. -/
def CountryInstance.history_applied_spec (bits : Nat) (collaborators : HistoryCollaborators)
    (date : Int) (s : CountryInstance) (history_map : List (Int × CountryHistoryEntry)) :
    CountryInstance :=
  history_map.foldl (fun c dated =>
    if dated.1 ≤ date then (c.apply_history_to_country bits collaborators dated.2).2
    else c.apply_foreign_investments dated.2.foreign_investment) s

/-! ## The registry of items with unique keys -/

/-- Modelled from the spec: `string_map_t<size_t>`, whose header is not among the sources. A map
from strings to indices is the list of its entries, no two of them with the same key, in the
order in which they were added. -/
abbrev string_map_t : Type := List (String × Nat)

namespace string_map_t

/-- The lookup `find` of a map: the index of the key, or nothing for the iterator `end()`. -/
def find (map : string_map_t) (key : String) : Option Nat := List.lookup key map

/-- The member function `contains` of a map. -/
def contains (map : string_map_t) (key : String) : Bool := (map.find key).isSome

/-- The member function `emplace` of a map: the entry is added unless the map has the key. -/
def emplace (map : string_map_t) (key : String) (value : Nat) : string_map_t :=
  if map.contains key then map else map ++ [(key, value)]

end string_map_t

/-- The order in which a loop over a `string_map_t` comes to the entries of the map. It depends
on the map type that the missing header chooses, so it is a parameter of what loops over a map:
some rearrangement of the entries. -/
structure StringMapOrder where
  entries : string_map_t → List (String × Nat)
  perm : ∀ map, (entries map).Perm map

/-- The order in which the entries were added, one order of a loop over a map. -/
def insertion_order : StringMapOrder :=
  { entries := fun map => map
    perm := fun _ => List.Perm.refl _ }

/-- Modelled from the spec: `NodeTools::callback_t<std::string_view, std::string_view>`, whose
header is not among the sources, as `add_item` uses it. A callback is given by what a call of it
returns and by whether the test of `add_item` holds of it, that it is not empty and that its
`target` is `duplicate_ignore_callback`. -/
structure callback_t where
  call : String → String → Bool
  target_is_duplicate_ignore_callback : Bool

/-- The function `duplicate_fail_callback`; what it logs is left out. -/
def duplicate_fail_callback : callback_t :=
  { call := fun _ _ => false
    target_is_duplicate_ignore_callback := false }

/-- The function `duplicate_warning_callback`; what it logs is left out. -/
def duplicate_warning_callback : callback_t :=
  { call := fun _ _ => true
    target_is_duplicate_ignore_callback := false }

/-- The class `UniqueKeyRegistry`. The two function objects `GetIdentifier` and `GetPointer`
are given by their composition, the identifier of the item that a stored value holds. A
pointer to an item of the registry is the index of the item in `items`. -/
structure UniqueKeyRegistry (Storage : Type) where
  name : String
  log_lock : Bool
  items : List Storage
  locked : Bool
  identifier_index_map : string_map_t
  GetIdentifier : Storage → String

namespace UniqueKeyRegistry

variable {Storage : Type}

/-- The constructor of `UniqueKeyRegistry`. -/
def new (new_name : String) (new_log_lock : Bool) (new_GetIdentifier : Storage → String) :
    UniqueKeyRegistry Storage :=
  { name := new_name
    log_lock := new_log_lock
    items := []
    locked := false
    identifier_index_map := []
    GetIdentifier := new_GetIdentifier }

/-- The member function `get_item_by_identifier`: the pointer to `items[it->second]`, or
nothing for `nullptr`. -/
def get_item_by_identifier (r : UniqueKeyRegistry Storage) (identifier : String) : Option Nat :=
  r.identifier_index_map.find identifier

/-- The member function `has_identifier`. -/
def has_identifier (r : UniqueKeyRegistry Storage) (identifier : String) : Bool :=
  r.identifier_index_map.contains identifier

/-- The member function `size`. -/
def size (r : UniqueKeyRegistry Storage) : Nat := r.items.length

/-- The end of `add_item`: the identifier is entered into the map with the index that the
item gets, and the item is added at the end of the items. -/
def push_item (r : UniqueKeyRegistry Storage) (new_identifier : String) (item : Storage) :
    UniqueKeyRegistry Storage :=
  let map := r.identifier_index_map.emplace new_identifier r.items.length
  { r with
    identifier_index_map := map
    items := r.items ++ [item] }

/-- The member function `add_item`; what it logs is left out. -/
def add_item (r : UniqueKeyRegistry Storage) (item : Storage) (duplicate_callback : callback_t) :
    Bool × UniqueKeyRegistry Storage :=
  if r.locked then (false, r)
  else
    let new_identifier := r.GetIdentifier item
    if duplicate_callback.target_is_duplicate_ignore_callback then
      if r.has_identifier new_identifier then (true, r)
      else (true, r.push_item new_identifier item)
    else
      match r.get_item_by_identifier new_identifier with
      | some _ => (duplicate_callback.call r.name new_identifier, r)
      | none => (true, r.push_item new_identifier item)

/-- The member function `lock`; what it logs is left out. -/
def lock (r : UniqueKeyRegistry Storage) : UniqueKeyRegistry Storage :=
  if r.locked then r else { r with locked := true }

/-- The member function `is_locked`. -/
def is_locked (r : UniqueKeyRegistry Storage) : Bool := r.locked

/-- The member function `reset`. -/
def reset (r : UniqueKeyRegistry Storage) : UniqueKeyRegistry Storage :=
  { r with
    identifier_index_map := []
    items := []
    locked := false }

/-- The member function `get_item_identifiers`: a vector of as many empty strings as there are
items is constructed, and the key of every entry of the map is added at its end. -/
def get_item_identifiers (order : StringMapOrder) (r : UniqueKeyRegistry Storage) :
    List String :=
  (order.entries r.identifier_index_map).foldl (fun identifiers entry => identifiers ++ [entry.1])
    (List.replicate r.items.length "")

/-- A sequence of calls of `add_item` with `duplicate_fail_callback`, given by the items. -/
def add_items (r : UniqueKeyRegistry Storage) (items : List Storage) :
    UniqueKeyRegistry Storage :=
  items.foldl (fun registry item => (registry.add_item item duplicate_fail_callback).2) r

/-- The index of a registry agrees with its items: the keys of the map are the identifiers of
the items, in the order of the items, their values are the indices of the items, and no two
items have the same identifier. -/
def indexed (r : UniqueKeyRegistry Storage) : Prop :=
  r.identifier_index_map.map Prod.fst = r.items.map r.GetIdentifier ∧
    r.identifier_index_map.map Prod.snd = List.range r.items.length ∧
    (r.items.map r.GetIdentifier).Nodup

end UniqueKeyRegistry

/-! ## Example inputs -/

/-- A technology with a unit variant that activates a regiment type, a ship type, a unit type of
no valid branch and a building type. -/
def example_technology : Technology :=
  ⟨0, some 2, [⟨branch_t.LAND, 0⟩, ⟨branch_t.INVALID_BRANCH, 0⟩, ⟨branch_t.NAVAL, 0⟩], [0]⟩

/-- An invention that activates a regiment type and a building type, enables two crimes and
unlocks gas attack. -/
def example_invention : Invention :=
  ⟨0, [⟨branch_t.LAND, 0⟩], [0], [0, 1], true, false⟩

/-- A freshly constructed record for an 8 bit level type, with one building type (enabled by
default), one technology, one invention, two crimes, one regiment type (active) and one ship
type. -/
def example_country : CountryInstance :=
  CountryInstance.new 8 [true] 1 1 [false, false] [true] [false] none 0 0 0 16

/-- The example record after the example invention was unlocked and its first crime was locked
again. -/
def example_country_unlocked : CountryInstance :=
  example_country.run 8 [Call.unlock (.invention example_invention), Call.modify (.crime 0) (-1)]

/-- Defines for the examples, with 16 fractional bits: an investment factor of one, a
disarmament penalty of one half, two great powers, five secondary powers and thirty days of
grace. -/
def example_define_manager : DefineManager :=
  { country_investment_industrial_score_factor := fixed_point_t.parse 16 1
    disarmed_penalty := 32768
    great_power_rank := 2
    secondary_power_rank := 5
    lose_great_power_grace_days := 30 }

/-- A unit type manager with the two regiment types of attack 2, defence 3, discipline 1 and of
attack 1, defence 1, discipline 2. -/
def example_unit_type_manager : UnitTypeManager :=
  { regiment_types :=
      [⟨fixed_point_t.parse 16 2, fixed_point_t.parse 16 3, fixed_point_t.parse 16 1⟩,
        ⟨fixed_point_t.parse 16 1, fixed_point_t.parse 16 1, fixed_point_t.parse 16 2⟩] }

/-- Objects for the examples. State 0 has industrial power 3, 1000 inhabitants of literacy one
half and supports 50 regiments, state 1 has industrial power 5, 3000 inhabitants of literacy one
and supports no regiment, every other state is empty. Army 0 has ten regiments that are not
mobilised, every other army two mobilised ones. Navy 0 has a capital ship of gun power 10 and
hull 50 and a ship that is no capital ship, every other navy is empty. -/
def example_objects : Objects :=
  { state := fun state =>
      if state = 0 then ⟨fixed_point_t.parse 16 3, 1000, 32768, 0, 0, [], 50⟩
      else if state = 1 then ⟨fixed_point_t.parse 16 5, 3000, 65536, 0, 0, [], 0⟩
      else ⟨0, 0, 0, 0, 0, [], 0⟩
    army := fun army =>
      if army = 0 then ⟨List.replicate 10 ⟨false⟩⟩ else ⟨[⟨true⟩, ⟨true⟩]⟩
    navy := fun navy =>
      if navy = 0 then
        ⟨[⟨⟨true, fixed_point_t.parse 16 10, fixed_point_t.parse 16 50⟩⟩,
          ⟨⟨false, fixed_point_t.parse 16 20, fixed_point_t.parse 16 20⟩⟩], 0⟩
      else ⟨[], 0⟩ }

/-- The example record with the states 2, 0 and 1, army 0, navy 0, one general, and an
investment of 100 in country 1 and of 7 in country 2. -/
def example_country_at_war : CountryInstance :=
  { example_country with
    states := [2, 0, 1]
    armies := [0]
    navies := [0]
    generals := [0]
    industrial_power := 99
    foreign_investments := [(1, fixed_point_t.parse 16 100), (2, fixed_point_t.parse 16 7)] }

/-- The example record with an investment of 100 in country 1 and nothing else. -/
def example_investor : CountryInstance :=
  { example_country with foreign_investments := [(1, fixed_point_t.parse 16 100)] }

/-- A manager with six civilised countries that own a province each and a seventh country that
owns none. The total scores of the countries 0 to 5 are 30, 60, 10, 50, 20 and 40, their
prestige 1 to 6, their industrial power 6 down to 1, and their military power 5 each. There are
no great powers and no secondary powers. -/
def example_manager : CountryInstanceManager :=
  { country_instances := fun country =>
      { example_country with
        country_status := country_status_t.COUNTRY_STATUS_CIVILISED
        owned_provinces := if country < 6 then [country] else []
        total_score := [30, 60, 10, 50, 20, 40].getD country 0
        prestige := country + 1
        industrial_power := 6 - country
        military_power := 5 }
    country_instance_count := 7
    great_powers := []
    secondary_powers := []
    total_ranking := []
    prestige_ranking := []
    industrial_power_ranking := []
    military_power_ranking := [] }

/-- The example manager with country 1 as its one great power, with a total score of 45, the
third of the total scores, and the given `lose_great_power_date`, and country 5 with a total
score of 48. -/
def example_manager_with_great_power (lose_great_power_date : Int) : CountryInstanceManager :=
  { example_manager with
    country_instances := fun country =>
      if country = 1 then
        { example_manager.country_instances 1 with
          country_status := country_status_t.COUNTRY_STATUS_GREAT_POWER
          lose_great_power_date := lose_great_power_date
          total_score := 45 }
      else if country = 5 then { example_manager.country_instances 5 with total_score := 48 }
      else example_manager.country_instances country
    great_powers := [1] }

/-- The example manager with country 3, of the second highest total score, uncivilised. -/
def example_manager_uncivilised : CountryInstanceManager :=
  { example_manager with
    country_instances := fun country =>
      if country = 3 then
        { example_manager.country_instances 3 with
          country_status := country_status_t.COUNTRY_STATUS_UNCIVILISED }
      else example_manager.country_instances country }

/-- The example manager with the great powers 3 and 1, of which country 1 has the third of the
total scores and a `lose_great_power_date` of day 90, and the secondary powers 5, 0 and 4. -/
def example_manager_with_secondary_powers : CountryInstanceManager :=
  { example_manager_with_great_power 90 with
    country_instances := fun country =>
      if country = 3 then
        { (example_manager_with_great_power 90).country_instances 3 with
          country_status := country_status_t.COUNTRY_STATUS_GREAT_POWER
          lose_great_power_date := 130 }
      else if country = 5 ∨ country = 0 ∨ country = 4 then
        { (example_manager_with_great_power 90).country_instances country with
          country_status := country_status_t.COUNTRY_STATUS_SECONDARY_POWER }
      else (example_manager_with_great_power 90).country_instances country
    great_powers := [3, 1]
    secondary_powers := [5, 0, 4] }

/-- A history entry that says nothing. -/
def empty_history_entry : CountryHistoryEntry :=
  { primary_culture := none
    accepted_cultures := []
    religion := none
    ruling_party := none
    last_election := none
    upper_house := []
    capital := none
    government_type := none
    plurality := none
    national_value := none
    civilised := none
    prestige := none
    reforms := []
    tech_school := none
    technologies := []
    inventions := []
    foreign_investment := []
    releasable_vassal := none
    country_flags := []
    government_flag_overrides := []
    inital_oob := none }

/-- A history entry that says that the country is civilised, has a prestige of 5 and an
investment of 3 in the country of the definition of index 1. -/
def example_history_entry : CountryHistoryEntry :=
  { empty_history_entry with
    civilised := some true
    prestige := some 5
    foreign_investment := [(⟨1, 0, [], false⟩, 3)] }

/-- A history entry that says that the country is uncivilised, has a prestige of 9 and an
investment of 7 in the country of the definition of index 2. -/
def example_later_history_entry : CountryHistoryEntry :=
  { empty_history_entry with
    civilised := some false
    prestige := some 9
    foreign_investment := [(⟨2, 0, [], false⟩, 7)] }

/-- Collaborators for the examples: the upper house is copied, a province has the index of its
definition, an override that is set replaces the old one, no units are deployed, and the
history of the country definition of index 0 has the example entry at day 10 and the later
example entry at day 20, while no other definition has a history. -/
def example_collaborators : HistoryCollaborators :=
  { upper_house_copy := fun _ other => (true, other)
    get_province_instance_from_definition := fun province => province
    write_non_empty_values := fun values other => List.zipWith set_optional_pointer values other
    generate_deployment := fun country_instance _ => (true, country_instance)
    get_country_history := fun country_definition =>
      if country_definition.index = 0 then
        some [(10, example_history_entry), (20, example_later_history_entry)]
      else none }

/-- A manager of three countries with the country definitions of the indices 0, 1 and 2, of
which the last is a dynamic tag. -/
def example_manager_with_definitions : CountryInstanceManager :=
  { example_manager with
    country_instances := fun country =>
      { example_country with country_definition := some ⟨country, 0, [], decide (country = 2)⟩ }
    country_instance_count := 3 }

/-- The example manager with the great powers 3 and 1, of which country 1 has the third of the
total scores and a `lose_great_power_date` of day 90, the secondary power 5, the country 0
partially civilised and the country 4 primitive. -/
def example_manager_mixed : CountryInstanceManager :=
  { example_manager_with_secondary_powers with
    country_instances := fun country =>
      if country = 0 then
        { example_manager_with_secondary_powers.country_instances 0 with
          country_status := country_status_t.COUNTRY_STATUS_PARTIALLY_CIVILISED }
      else if country = 4 then
        { example_manager_with_secondary_powers.country_instances 4 with
          country_status := country_status_t.COUNTRY_STATUS_PRIMITIVE }
      else example_manager_with_secondary_powers.country_instances country
    secondary_powers := [5] }

/-- A manager of two civilised countries that own a province each. The country 0 owns the
state 0 and the country 1 the state 1 of the example objects, and from the tick before the
country 0 has a total score, a prestige rank, an industrial power and a military power of 100
where the country 1 has 1, although its state has the lower industrial power. -/
def example_manager_stale : CountryInstanceManager :=
  { example_manager with
    country_instances := fun country =>
      { example_manager.country_instances country with
        owned_provinces := if country < 2 then [country] else []
        states := if country < 2 then [country] else []
        prestige := 0
        total_score := if country = 0 then 100 else 1
        industrial_power := if country = 0 then 100 else 1
        military_power := if country = 0 then 100 else 1 }
    country_instance_count := 2 }

/-- The example manager with country 6, which owns no province, as its one great power, with the
total rank of one from an earlier tick. -/
def example_manager_lost_provinces : CountryInstanceManager :=
  { example_manager with
    country_instances := fun country =>
      if country = 6 then
        { example_manager.country_instances 6 with
          country_status := country_status_t.COUNTRY_STATUS_GREAT_POWER
          total_rank := 1 }
      else example_manager.country_instances country
    great_powers := [6] }

/-- A registry for the examples, of items that are given by their identifier and a number: just
constructed, nothing is registered. -/
def example_registry : UniqueKeyRegistry (String × Nat) :=
  UniqueKeyRegistry.new "example" true (fun item => item.1)

/-- A history entry that says only that the country is not civilised. -/
def example_uncivilised_history_entry : CountryHistoryEntry :=
  { empty_history_entry with civilised := some false }

/-- The example manager after a first call of `update_rankings`, at day 0, which makes the
country 5 a secondary power, and after `apply_history_to_country` of the country 5 with the
history entry that says that the country is not civilised. -/
def example_manager_after_history : Option CountryInstanceManager :=
  (example_manager.update_rankings std_insertion_sort 0 example_define_manager).map
    (fun m => m.modify_country 5 (fun country =>
      (country.apply_history_to_country 8 example_collaborators
        example_uncivilised_history_entry).2))

/-- A technology that activates the building type 0 and nothing else. -/
def example_building_technology : Technology :=
  ⟨0, none, [], [0]⟩

/-- A technology that activates nothing. -/
def example_plain_technology : Technology :=
  ⟨0, none, [], []⟩

/-- An invention that activates, enables and unlocks nothing. -/
def example_plain_invention : Invention :=
  ⟨0, [], [], [], false, false⟩

/-! ## Arithmetic of unlock levels -/

theorem to_signed_eq_self (bits : Nat) (x : Int) (hlo : -(2 ^ (bits - 1)) ≤ x)
    (hhi : x < 2 ^ (bits - 1)) : to_signed bits x = x := by
  unfold to_signed
  rw [Int.emod_eq_of_lt (by linarith) (by linarith)]
  ring

theorem pow_le_promoted (bits : Nat) :
    (2 : Int) ^ (bits - 1) ≤ 2 ^ (promoted_bits bits - 1) := by
  apply pow_le_pow_right₀ (by norm_num)
  unfold promoted_bits
  omega

theorem level_sum_eq (bits : Nat) (a d : Int)
    (hlo : -(2 ^ (promoted_bits bits - 1)) ≤ a + d) (hhi : a + d < 2 ^ (promoted_bits bits - 1)) :
    level_sum bits a d = a + d :=
  to_signed_eq_self _ _ hlo hhi

theorem level_sum_of_nonneg (bits : Nat) (a d : Int) (h0 : 0 ≤ a + d)
    (hmax : a + d ≤ max_unlock_level bits) : level_sum bits a d = a + d := by
  have hp := pow_le_promoted bits
  have hpos : (0 : Int) < 2 ^ (promoted_bits bits - 1) := by positivity
  unfold max_unlock_level at hmax
  exact level_sum_eq bits a d (by linarith) (by linarith)

theorem level_add_assign_of_nonneg (bits : Nat) (a d : Int) (h0 : 0 ≤ a + d)
    (hmax : a + d ≤ max_unlock_level bits) : level_add_assign bits a d = a + d := by
  unfold level_add_assign
  rw [level_sum_of_nonneg bits a d h0 hmax]
  have hpos : (0 : Int) < 2 ^ (bits - 1) := by positivity
  unfold max_unlock_level at hmax
  exact to_signed_eq_self _ _ (by linarith) (by linarith)

/-- For a level type narrower than `int` the sum of two of its values never leaves `int`. -/
theorem sum_defined_of_narrow (bits : Nat) (a d : Int) (hbits : bits < INT_BITS)
    (ha : min_unlock_level bits ≤ a ∧ a ≤ max_unlock_level bits)
    (hd : min_unlock_level bits ≤ d ∧ d ≤ max_unlock_level bits) :
    -(2 ^ (promoted_bits bits - 1)) ≤ a + d ∧ a + d < 2 ^ (promoted_bits bits - 1) := by
  have h1 : (2 : Int) * 2 ^ (bits - 1) ≤ 2 ^ (promoted_bits bits - 1) := by
    have : (2 : Int) * 2 ^ (bits - 1) = 2 ^ (bits - 1 + 1) := by ring
    rw [this]
    apply pow_le_pow_right₀ (by norm_num)
    unfold promoted_bits INT_BITS at *
    omega
  unfold min_unlock_level max_unlock_level at *
  constructor <;> linarith [ha.1, ha.2, hd.1, hd.2]

theorem to_signed_overflow (bits : Nat) (x : Int) (hlo : 2 ^ (bits - 1) ≤ x)
    (hhi : x < 3 * 2 ^ (bits - 1)) : to_signed bits x = x - 2 * 2 ^ (bits - 1) := by
  unfold to_signed
  have h : x + 2 ^ (bits - 1) = x - 2 ^ (bits - 1) + 2 * 2 ^ (bits - 1) * 1 := by ring
  rw [h, Int.add_mul_emod_self_left, Int.emod_eq_of_lt (by linarith) (by linarith)]
  ring

theorem to_signed_modEq (w : Nat) (x : Int) : Int.ModEq (2 * 2 ^ (w - 1)) (to_signed w x) x := by
  unfold to_signed
  have h := (Int.mod_modEq (x + 2 ^ (w - 1)) (2 * 2 ^ (w - 1))).sub
    (Int.ModEq.refl (n := 2 * 2 ^ (w - 1)) (2 ^ (w - 1)))
  rwa [add_sub_cancel_right] at h

theorem to_signed_range (w : Nat) (x : Int) :
    -(2 ^ (w - 1)) ≤ to_signed w x ∧ to_signed w x < 2 ^ (w - 1) := by
  unfold to_signed
  have hpos : (0 : Int) < 2 * 2 ^ (w - 1) := by positivity
  have h1 := Int.emod_nonneg (x + 2 ^ (w - 1)) (ne_of_gt hpos)
  have h2 := Int.emod_lt_of_pos (x + 2 ^ (w - 1)) hpos
  constructor <;> linarith

theorem to_signed_promoted_modEq (bits : Nat) (x : Int) :
    Int.ModEq (2 * 2 ^ (bits - 1)) (to_signed (promoted_bits bits) x) x := by
  apply Int.ModEq.of_dvd _ (to_signed_modEq (promoted_bits bits) x)
  apply mul_dvd_mul_left
  apply pow_dvd_pow
  unfold promoted_bits
  omega

theorem eq_of_modEq_of_range (h a b : Int) (hm : Int.ModEq (2 * h) a b)
    (ha : -h ≤ a ∧ a < h) (hb : -h ≤ b ∧ b < h) : a = b := by
  have hd := Int.modEq_iff_dvd.mp hm
  have h0 : b - a = 0 := by
    apply Int.eq_zero_of_abs_lt_dvd hd
    rw [abs_lt]
    constructor <;> linarith [ha.1, ha.2, hb.1, hb.2]
  linarith

/-- Adding to the current level the change that `set_..._unlock_level` computes for a target
stores the target, whenever the addition is performed. -/
theorem level_add_assign_level_difference (bits : Nat) (c v : Int)
    (hlo : min_unlock_level bits ≤ v) (hhi : v ≤ max_unlock_level bits) :
    level_add_assign bits c (level_difference bits v c) = v := by
  unfold min_unlock_level max_unlock_level at *
  apply eq_of_modEq_of_range (2 ^ (bits - 1)) _ _ _ (to_signed_range bits _)
    ⟨hlo, by linarith⟩
  unfold level_sum level_difference
  have h1 : Int.ModEq (2 * 2 ^ (bits - 1))
      (to_signed bits (to_signed (promoted_bits bits) (v - c))) (v - c) :=
    (to_signed_modEq bits _).trans (to_signed_promoted_modEq bits _)
  have h2 := (to_signed_modEq bits (to_signed (promoted_bits bits)
    (c + to_signed bits (to_signed (promoted_bits bits) (v - c))))).trans
      (to_signed_promoted_modEq bits _)
  have h3 := h2.trans (Int.ModEq.add_left c h1)
  rwa [add_sub_cancel] at h3

theorem level_difference_self (bits : Nat) (v : Int) : level_difference bits v v = 0 := by
  unfold level_difference
  rw [sub_self, to_signed_eq_self _ 0 (by simp) (by positivity),
    to_signed_eq_self _ 0 (by simp) (by positivity)]

theorem level_difference_of_nonneg (bits : Nat) (c v : Int) (hc : 0 ≤ c)
    (hcmax : c ≤ max_unlock_level bits) (hv : 0 ≤ v) (hvmax : v ≤ max_unlock_level bits) :
    level_difference bits v c = v - c := by
  unfold level_difference
  unfold max_unlock_level at *
  have hp := pow_le_promoted bits
  rw [to_signed_eq_self (promoted_bits bits) _ (by linarith) (by linarith),
    to_signed_eq_self bits _ (by linarith) (by linarith)]

/-! ## Frame lemmas for the cascades -/

open CountryInstance

theorem cascade_nil {κ : Type} (modify : CountryInstance → κ → Bool × CountryInstance)
    (acc : Bool × CountryInstance) : cascade modify [] acc = acc := rfl

theorem cascade_cons {κ : Type} (modify : CountryInstance → κ → Bool × CountryInstance)
    (key : κ) (keys : List κ) (acc : Bool × CountryInstance) :
    cascade modify (key :: keys) acc =
      cascade modify keys (acc.1 && (modify acc.2 key).1, (modify acc.2 key).2) := rfl

/-- An observation of the record that no call of the cascade changes is the same after the whole
cascade. -/
theorem cascade_preserves {κ α : Type} (modify : CountryInstance → κ → Bool × CountryInstance)
    (obs : CountryInstance → α) (hmod : ∀ c key, obs (modify c key).2 = obs c) (keys : List κ)
    (acc : Bool × CountryInstance) : obs (cascade modify keys acc).2 = obs acc.2 := by
  induction keys generalizing acc with
  | nil => rfl
  | cons key keys ih => rw [cascade_cons, ih, hmod]

/-- An observation of the record that the guarded step does not change is the same after it. -/
theorem cascade_if_preserves {α : Type} (condition : Bool)
    (modify : CountryInstance → Bool × CountryInstance) (obs : CountryInstance → α)
    (hmod : ∀ c, obs (modify c).2 = obs c) (acc : Bool × CountryInstance) :
    obs (cascade_if condition modify acc).2 = obs acc.2 := by
  unfold cascade_if
  split_ifs
  · exact hmod _
  · rfl

theorem modify_building_type_unlock_frame {α : Type} (obs : CountryInstance → α)
    (hobs : ∀ c l, obs { c with unlocked_building_types := l } = obs c) (bits : Nat)
    (c : CountryInstance) (k : Nat) (d : Int) :
    obs (modify_building_type_unlock bits c k d).2 = obs c := by
  simp only [modify_building_type_unlock]
  split_ifs
  · rfl
  · exact hobs _ _

theorem modify_crime_unlock_frame {α : Type} (obs : CountryInstance → α)
    (hobs : ∀ c l, obs { c with unlocked_crimes := l } = obs c) (bits : Nat)
    (c : CountryInstance) (k : Nat) (d : Int) :
    obs (modify_crime_unlock bits c k d).2 = obs c := by
  simp only [modify_crime_unlock]
  split_ifs
  · rfl
  · exact hobs _ _

theorem modify_unit_type_unlock_frame {α : Type} (obs : CountryInstance → α)
    (hland : ∀ c l, obs { c with unlocked_regiment_types := l } = obs c)
    (hnaval : ∀ c l, obs { c with unlocked_ship_types := l } = obs c) (bits : Nat)
    (c : CountryInstance) (u : UnitType) (d : Int) :
    obs (modify_unit_type_unlock bits c u d).2 = obs c := by
  simp only [modify_unit_type_unlock, modify_regiment_type_unlock, modify_ship_type_unlock]
  split
  · split_ifs
    · rfl
    · exact hland _ _
  · split_ifs
    · rfl
    · exact hnaval _ _
  · rfl

theorem modify_gas_attack_unlock_frame {α : Type} (obs : CountryInstance → α)
    (hobs : ∀ c l, obs { c with gas_attack_unlock_level := l } = obs c) (bits : Nat)
    (c : CountryInstance) (d : Int) :
    obs (modify_gas_attack_unlock bits c d).2 = obs c := by
  simp only [modify_gas_attack_unlock]
  split_ifs
  · rfl
  · exact hobs _ _

theorem modify_gas_defence_unlock_frame {α : Type} (obs : CountryInstance → α)
    (hobs : ∀ c l, obs { c with gas_defence_unlock_level := l } = obs c) (bits : Nat)
    (c : CountryInstance) (d : Int) :
    obs (modify_gas_defence_unlock bits c d).2 = obs c := by
  simp only [modify_gas_defence_unlock]
  split_ifs
  · rfl
  · exact hobs _ _

theorem modify_unit_variant_unlock_frame {α : Type} (obs : CountryInstance → α)
    (hobs : ∀ c l, obs { c with unit_variant_unlock_levels := l } = obs c) (bits : Nat)
    (c : CountryInstance) (v : Nat) (d : Int) :
    obs (modify_unit_variant_unlock bits c v d).2 = obs c := by
  simp only [modify_unit_variant_unlock]
  split_ifs <;> first | rfl | exact hobs _ _

/-- An accepted `modify_technology_unlock` shows, to every observation that does not depend on
the unit variant, unit type and building type ledgers, the record in which only the technology's
own level was replaced. -/
theorem modify_technology_unlock_accepted_frame {α : Type} (obs : CountryInstance → α)
    (hvar : ∀ c l, obs { c with unit_variant_unlock_levels := l } = obs c)
    (hland : ∀ c l, obs { c with unlocked_regiment_types := l } = obs c)
    (hnaval : ∀ c l, obs { c with unlocked_ship_types := l } = obs c)
    (hbuild : ∀ c l, obs { c with unlocked_building_types := l } = obs c) (bits : Nat)
    (c : CountryInstance) (t : Technology) (d : Int)
    (hs : ¬ level_sum bits (c.unlocked_technologies.getD t.index 0) d < 0) :
    obs (modify_technology_unlock bits c t d).2 =
      obs (c.with_unlock_level (.technology t)
        (level_add_assign bits (c.unlocked_technologies.getD t.index 0) d)) := by
  simp only [modify_technology_unlock, with_unlock_level]
  rw [if_neg hs,
    cascade_preserves _ obs (fun c k => modify_building_type_unlock_frame obs hbuild bits c k d),
    cascade_preserves _ obs
      (fun c k => modify_unit_type_unlock_frame obs hland hnaval bits c k d)]
  split
  · exact modify_unit_variant_unlock_frame obs hvar bits _ _ d
  · rfl

/-- An accepted `modify_invention_unlock` shows, to every observation that does not depend on
the unit type, building type and crime ledgers and the two gas levels, the record in which only
the invention's own level was replaced. -/
theorem modify_invention_unlock_accepted_frame {α : Type} (obs : CountryInstance → α)
    (hland : ∀ c l, obs { c with unlocked_regiment_types := l } = obs c)
    (hnaval : ∀ c l, obs { c with unlocked_ship_types := l } = obs c)
    (hbuild : ∀ c l, obs { c with unlocked_building_types := l } = obs c)
    (hcrime : ∀ c l, obs { c with unlocked_crimes := l } = obs c)
    (hattack : ∀ c l, obs { c with gas_attack_unlock_level := l } = obs c)
    (hdefence : ∀ c l, obs { c with gas_defence_unlock_level := l } = obs c) (bits : Nat)
    (c : CountryInstance) (i : Invention) (d : Int)
    (hs : ¬ level_sum bits (c.unlocked_inventions.getD i.index 0) d < 0) :
    obs (modify_invention_unlock bits c i d).2 =
      obs (c.with_unlock_level (.invention i)
        (level_add_assign bits (c.unlocked_inventions.getD i.index 0) d)) := by
  simp only [modify_invention_unlock, with_unlock_level]
  rw [if_neg hs,
    cascade_if_preserves _ _ obs (fun c => modify_gas_defence_unlock_frame obs hdefence bits c d),
    cascade_if_preserves _ _ obs (fun c => modify_gas_attack_unlock_frame obs hattack bits c d),
    cascade_preserves _ obs (fun c k => modify_crime_unlock_frame obs hcrime bits c k d),
    cascade_preserves _ obs (fun c k => modify_building_type_unlock_frame obs hbuild bits c k d),
    cascade_preserves _ obs
      (fun c k => modify_unit_type_unlock_frame obs hland hnaval bits c k d)]

theorem getD_set_self (l : List Int) (k : Nat) (v : Int) (hk : k < l.length) :
    (l.set k v).getD k 0 = v := by
  rw [List.getD_eq_getElem?_getD, List.getElem?_set_self hk]
  rfl

/-! ## C1, C2, C3: the contract of `modify` -/

/-- C1. For every ledger whose `modify` function checks the key's own level (building type,
crime, land and naval unit type, gas attack, gas defence, technology, invention), every key and
every change: when `current_level + change < 0`, the call returns `false` and the whole record is
unchanged, so that no entry of any ledger changes and no cascade is run. The first hypothesis says
that the addition itself is defined, that is, that the sum is a value of the type it is evaluated
in; `sum_defined_of_narrow` shows it to hold for all values of a level type narrower than
`int`. -/
theorem modify_unlock_underflow_rejected (bits : Nat) (s : CountryInstance) (key : UnlockKey)
    (d : Int) (hdef : -(2 ^ (promoted_bits bits - 1)) ≤ s.unlock_level key + d)
    (hneg : s.unlock_level key + d < 0) :
    s.modify_unlock bits key d = (false, s) := by
  have hs : level_sum bits (s.unlock_level key) d < 0 := by
    rw [level_sum_eq bits _ _ hdef (lt_trans hneg (by positivity))]
    exact hneg
  cases key <;>
    simp only [modify_unlock, modify_building_type_unlock, modify_crime_unlock,
      modify_regiment_type_unlock, modify_ship_type_unlock, modify_gas_attack_unlock,
      modify_gas_defence_unlock, modify_technology_unlock, modify_invention_unlock] <;>
    exact if_pos hs

/-- Witness of C1: a technology at level 0 with a unit variant and an activated building, changed
by -1. -/
theorem modify_unlock_underflow_rejected_witness :
    -(2 ^ (promoted_bits 8 - 1)) ≤
        (CountryInstance.new 8 [true] 1 0 [] [] [] none 0 0 0 16).unlock_level
          (.technology ⟨0, some 1, [], [0]⟩) + (-1) ∧
      (CountryInstance.new 8 [true] 1 0 [] [] [] none 0 0 0 16).unlock_level
          (.technology ⟨0, some 1, [], [0]⟩) + (-1) < 0 ∧
      (CountryInstance.new 8 [true] 1 0 [] [] [] none 0 0 0 16).modify_unlock 8
          (.technology ⟨0, some 1, [], [0]⟩) (-1) =
        (false, CountryInstance.new 8 [true] 1 0 [] [] [] none 0 0 0 16) :=
  ⟨by decide, by decide,
    modify_unlock_underflow_rejected 8 _ (.technology ⟨0, some 1, [], [0]⟩) (-1) (by decide)
      (by decide)⟩

/-- C2. When `0 ≤ current_level + change` and the sum does not exceed the greatest value of the
level type, the level of the key after the call is exactly `current_level + change`; this holds
for a technology and an invention too, whatever the cascade does. For the ledgers without a
cascade (building type, crime, land and naval unit type, gas attack, gas defence) the call returns
`true` and the record after it is the record before it with that one level replaced, so every
other key and every other ledger is unchanged. -/
theorem modify_unlock_applies (bits : Nat) (s : CountryInstance) (key : UnlockKey) (d : Int)
    (hkey : s.has_key key) (h0 : 0 ≤ s.unlock_level key + d)
    (hmax : s.unlock_level key + d ≤ max_unlock_level bits) :
    (s.modify_unlock bits key d).2.unlock_level key = s.unlock_level key + d ∧
      (key.cascades = false →
        s.modify_unlock bits key d = (true, s.with_unlock_level key (s.unlock_level key + d))) := by
  have hs : ¬ level_sum bits (s.unlock_level key) d < 0 := by
    rw [level_sum_of_nonneg bits _ _ h0 hmax]
    exact not_lt.mpr h0
  have ha := level_add_assign_of_nonneg bits _ _ h0 hmax
  cases key with
  | technology t =>
    refine ⟨?_, fun h => by simp [UnlockKey.cascades] at h⟩
    simp only [modify_unlock, unlock_level, has_key] at *
    rw [modify_technology_unlock_accepted_frame (fun c => c.unlocked_technologies.getD t.index 0)
      (fun _ _ => rfl) (fun _ _ => rfl) (fun _ _ => rfl) (fun _ _ => rfl) bits s t d hs, ha]
    exact getD_set_self _ _ _ hkey
  | invention i =>
    refine ⟨?_, fun h => by simp [UnlockKey.cascades] at h⟩
    simp only [modify_unlock, unlock_level, has_key] at *
    rw [modify_invention_unlock_accepted_frame (fun c => c.unlocked_inventions.getD i.index 0)
      (fun _ _ => rfl) (fun _ _ => rfl) (fun _ _ => rfl) (fun _ _ => rfl) (fun _ _ => rfl)
      (fun _ _ => rfl) bits s i d hs, ha]
    exact getD_set_self _ _ _ hkey
  | gas_attack =>
    simp only [modify_unlock, unlock_level, with_unlock_level, modify_gas_attack_unlock] at *
    rw [if_neg hs, ha]
    exact ⟨rfl, fun _ => rfl⟩
  | gas_defence =>
    simp only [modify_unlock, unlock_level, with_unlock_level, modify_gas_defence_unlock] at *
    rw [if_neg hs, ha]
    exact ⟨rfl, fun _ => rfl⟩
  | building_type k =>
    simp only [modify_unlock, unlock_level, has_key, with_unlock_level,
      modify_building_type_unlock] at *
    rw [if_neg hs, ha]
    exact ⟨getD_set_self _ _ _ hkey, fun _ => rfl⟩
  | crime k =>
    simp only [modify_unlock, unlock_level, has_key, with_unlock_level, modify_crime_unlock] at *
    rw [if_neg hs, ha]
    exact ⟨getD_set_self _ _ _ hkey, fun _ => rfl⟩
  | regiment_type k =>
    simp only [modify_unlock, unlock_level, has_key, with_unlock_level,
      modify_regiment_type_unlock] at *
    rw [if_neg hs, ha]
    exact ⟨getD_set_self _ _ _ hkey, fun _ => rfl⟩
  | ship_type k =>
    simp only [modify_unlock, unlock_level, has_key, with_unlock_level,
      modify_ship_type_unlock] at *
    rw [if_neg hs, ha]
    exact ⟨getD_set_self _ _ _ hkey, fun _ => rfl⟩

/-- Witness of C2: a default-enabled building type at level 1, changed by 5. -/
theorem modify_unlock_applies_witness :
    (CountryInstance.new 8 [true] 0 0 [] [] [] none 0 0 0 16).has_key (.building_type 0) ∧
      0 ≤ (CountryInstance.new 8 [true] 0 0 [] [] [] none 0 0 0 16).unlock_level (.building_type 0) + 5 ∧
      (CountryInstance.new 8 [true] 0 0 [] [] [] none 0 0 0 16).unlock_level (.building_type 0) + 5 ≤
        max_unlock_level 8 ∧
      (CountryInstance.new 8 [true] 0 0 [] [] [] none 0 0 0 16).modify_unlock 8 (.building_type 0) 5 =
        (true, { CountryInstance.new 8 [true] 0 0 [] [] [] none 0 0 0 16 with unlocked_building_types := [6] }) :=
  ⟨by decide, by decide, by decide,
    (modify_unlock_applies 8 (CountryInstance.new 8 [true] 0 0 [] [] [] none 0 0 0 16) (.building_type 0) 5
      (by decide) (by decide) (by decide)).2 rfl⟩

/-- C3 does not hold of the code. For a level type narrower than `int` and a ledger without a
cascade, a change that takes the level above the greatest value of the level type is accepted:
the sum is formed in `int`, where it is not negative, the call returns `true`, and the level that
is stored is the sum wrapped around, `current_level + change - 2 ^ bits`, which is negative. -/
theorem modify_unlock_overflow_accepted (bits : Nat) (s : CountryInstance) (key : UnlockKey)
    (d : Int) (hbits : bits < INT_BITS) (hsimple : key.cascades = false)
    (hl : s.unlock_level key ≤ max_unlock_level bits) (hd : d ≤ max_unlock_level bits)
    (hov : max_unlock_level bits < s.unlock_level key + d) :
    s.modify_unlock bits key d =
        (true, s.with_unlock_level key (s.unlock_level key + d - 2 * 2 ^ (bits - 1))) ∧
      s.unlock_level key + d - 2 * 2 ^ (bits - 1) < 0 := by
  have hp : (2 : Int) * 2 ^ (bits - 1) ≤ 2 ^ (promoted_bits bits - 1) := by
    have : (2 : Int) * 2 ^ (bits - 1) = 2 ^ (bits - 1 + 1) := by ring
    rw [this]
    apply pow_le_pow_right₀ (by norm_num)
    unfold promoted_bits INT_BITS at *
    omega
  have hpos : (0 : Int) < 2 ^ (bits - 1) := by positivity
  unfold max_unlock_level at hl hd hov
  have hsum : level_sum bits (s.unlock_level key) d = s.unlock_level key + d :=
    level_sum_eq bits _ _ (by linarith) (by linarith)
  have hs : ¬ level_sum bits (s.unlock_level key) d < 0 := by
    rw [hsum]
    linarith
  have ha : level_add_assign bits (s.unlock_level key) d =
      s.unlock_level key + d - 2 * 2 ^ (bits - 1) := by
    unfold level_add_assign
    rw [hsum]
    exact to_signed_overflow bits _ (by linarith) (by linarith)
  refine ⟨?_, by linarith⟩
  cases key with
  | technology t => simp [UnlockKey.cascades] at hsimple
  | invention i => simp [UnlockKey.cascades] at hsimple
  | gas_attack =>
    simp only [modify_unlock, unlock_level, with_unlock_level, modify_gas_attack_unlock] at *
    rw [if_neg hs, ha]
  | gas_defence =>
    simp only [modify_unlock, unlock_level, with_unlock_level, modify_gas_defence_unlock] at *
    rw [if_neg hs, ha]
  | building_type k =>
    simp only [modify_unlock, unlock_level, with_unlock_level, modify_building_type_unlock] at *
    rw [if_neg hs, ha]
  | crime k =>
    simp only [modify_unlock, unlock_level, with_unlock_level, modify_crime_unlock] at *
    rw [if_neg hs, ha]
  | regiment_type k =>
    simp only [modify_unlock, unlock_level, with_unlock_level, modify_regiment_type_unlock] at *
    rw [if_neg hs, ha]
  | ship_type k =>
    simp only [modify_unlock, unlock_level, with_unlock_level, modify_ship_type_unlock] at *
    rw [if_neg hs, ha]

/-- The failing input of C3: with an 8 bit level type, a building type at level 127 that is
unlocked once more gets level -128 and the call returns `true`. -/
theorem modify_unlock_overflow_accepted_witness :
    (8 < INT_BITS ∧ (UnlockKey.building_type 0).cascades = false) ∧
      ((CountryInstance.new 8 [false] 0 0 [] [] [] none 0 0 0 16).run 8
        [Call.modify (.building_type 0) 127]).unlocked_building_types = [127] ∧
      max_unlock_level 8 = 127 ∧
      ((CountryInstance.new 8 [false] 0 0 [] [] [] none 0 0 0 16).run 8
        [Call.modify (.building_type 0) 127]).modify_unlock 8 (.building_type 0) 1 =
        (true, ((CountryInstance.new 8 [false] 0 0 [] [] [] none 0 0 0 16).run 8
          [Call.modify (.building_type 0) 127]).with_unlock_level (.building_type 0) (-128)) :=
  ⟨by decide, by decide, by decide,
    (modify_unlock_overflow_accepted 8 ((CountryInstance.new 8 [false] 0 0 [] [] [] none 0 0 0 16).run 8
        [Call.modify (.building_type 0) 127]) (.building_type 0) 1 (by decide) (by decide)
      (by decide) (by decide) (by decide)).1⟩

/-! ## C4: the levels after a sequence of calls -/

theorem run_append (bits : Nat) (s : CountryInstance) (xs ys : List Call) :
    s.run bits (xs ++ ys) = (s.run bits xs).run bits ys := by
  simp only [run, List.foldl_append]

theorem run_cons (bits : Nat) (s : CountryInstance) (x : Call) (xs : List Call) :
    s.run bits (x :: xs) = (s.call bits x).2.run bits xs := rfl

/-- Unlocking the only building type `n` times from level `m` gives level `m + n` as long as
that is at most 127, for an 8 bit level type. -/
theorem run_unlock_building_type (n m : Nat) (s : CountryInstance)
    (hs : s.unlocked_building_types = [(m : Int)]) (hmn : m + n ≤ 127) :
    (s.run 8 (List.replicate n (Call.unlock (.building_type 0)))).unlocked_building_types =
      [((m + n : Nat) : Int)] := by
  induction n generalizing m s with
  | zero => simpa [run] using hs
  | succ n ih =>
    rw [List.replicate_succ, run_cons]
    have h0 : (0 : Int) ≤ (m : Int) + 1 := by positivity
    have hmax : (m : Int) + 1 ≤ max_unlock_level 8 := by
      have : max_unlock_level 8 = 127 := by decide
      rw [this]
      omega
    have hcall : (s.call 8 (Call.unlock (.building_type 0))).2.unlocked_building_types =
        [((m + 1 : Nat) : Int)] := by
      simp only [call, modify_unlock, modify_building_type_unlock, hs, List.getD_cons_zero]
      rw [if_neg (by rw [level_sum_of_nonneg 8 _ _ h0 hmax]; exact not_lt.mpr h0),
        level_add_assign_of_nonneg 8 _ _ h0 hmax]
      simp
    have := ih (m + 1) _ hcall (by omega)
    rw [this]
    congr 2
    omega

/-- C4 does not hold of the code. With an 8 bit level type, a freshly constructed record with one
building type has no negative unlock level, and after 128 calls of `unlock_building_type` on that
building type its stored level is -128. -/
theorem unlock_levels_negative_after_unlocks :
    (∀ x ∈ (CountryInstance.new 8 [false] 0 0 [] [] [] none 0 0 0 16).all_unlock_levels, 0 ≤ x) ∧
      ((CountryInstance.new 8 [false] 0 0 [] [] [] none 0 0 0 16).run 8
        (List.replicate 128 (Call.unlock (.building_type 0)))).unlocked_building_types =
          [-128] := by
  refine ⟨by decide, ?_⟩
  have h127 := run_unlock_building_type 127 0 (CountryInstance.new 8 [false] 0 0 [] [] [] none 0 0 0 16)
    (by decide) (by decide)
  rw [show (128 : Nat) = 127 + 1 from rfl, List.replicate_succ', run_append]
  generalize (CountryInstance.new 8 [false] 0 0 [] [] [] none 0 0 0 16).run 8
    (List.replicate 127 (Call.unlock (.building_type 0))) = s at h127 ⊢
  simp only [run, List.foldl_cons, List.foldl_nil, call, modify_unlock,
    modify_building_type_unlock, h127]
  rw [if_neg (by decide)]
  exact (by decide : [((0 + 127 : Nat) : Int)].set 0
    (level_add_assign 8 ([((0 + 127 : Nat) : Int)].getD 0 0) 1) = [-128])

/-! ## C5: `set_..._unlock_level` is idempotent -/

/-- After `set_technology_unlock_level` either the call was rejected and the record is the one
before the call, or the stored level is the target. -/
theorem set_technology_unlock_level_cases (bits : Nat) (s : CountryInstance) (t : Technology)
    (target : Int) (ht : t.index < s.unlocked_technologies.length)
    (hlo : min_unlock_level bits ≤ target) (hhi : target ≤ max_unlock_level bits) :
    set_technology_unlock_level bits s t target = (false, s) ∨
      level_difference bits target
        ((set_technology_unlock_level bits s t target).2.unlocked_technologies.getD t.index 0)
          = 0 := by
  by_cases hd : level_difference bits target (s.unlocked_technologies.getD t.index 0) = 0
  · right
    simp only [set_technology_unlock_level, hd, ne_eq, not_true_eq_false, if_false]
  · by_cases hs : level_sum bits (s.unlocked_technologies.getD t.index 0)
        (level_difference bits target (s.unlocked_technologies.getD t.index 0)) < 0
    · left
      simp only [set_technology_unlock_level, ne_eq, hd, not_false_eq_true, if_true,
        modify_technology_unlock, hs]
    · right
      simp only [set_technology_unlock_level, ne_eq, hd, not_false_eq_true, if_true]
      rw [modify_technology_unlock_accepted_frame
        (fun c => c.unlocked_technologies.getD t.index 0)
        (fun _ _ => rfl) (fun _ _ => rfl) (fun _ _ => rfl) (fun _ _ => rfl) bits s t _ hs,
        level_add_assign_level_difference bits _ _ hlo hhi]
      simp only [with_unlock_level, getD_set_self _ _ _ ht, level_difference_self]

theorem set_technology_unlock_level_twice (bits : Nat) (s : CountryInstance) (t : Technology)
    (target : Int) (ht : t.index < s.unlocked_technologies.length)
    (hlo : min_unlock_level bits ≤ target) (hhi : target ≤ max_unlock_level bits) :
    (set_technology_unlock_level bits (set_technology_unlock_level bits s t target).2 t target).2 =
      (set_technology_unlock_level bits s t target).2 := by
  rcases set_technology_unlock_level_cases bits s t target ht hlo hhi with h | h
  · rw [h, h]
  · generalize (set_technology_unlock_level bits s t target).2 = s1 at h ⊢
    simp only [set_technology_unlock_level, h, ne_eq, not_true_eq_false, if_false]

theorem set_technology_unlock_level_reaches (bits : Nat) (s : CountryInstance) (t : Technology)
    (target : Int) (ht : t.index < s.unlocked_technologies.length)
    (hc : 0 ≤ s.unlocked_technologies.getD t.index 0)
    (hcmax : s.unlocked_technologies.getD t.index 0 ≤ max_unlock_level bits)
    (hv : 0 ≤ target) (hvmax : target ≤ max_unlock_level bits) :
    (set_technology_unlock_level bits s t target).2.unlocked_technologies.getD t.index 0 = target ∧
      (set_technology_unlock_level bits
        (set_technology_unlock_level bits s t target).2 t target).1 = true := by
  have hdiff := level_difference_of_nonneg bits _ _ hc hcmax hv hvmax
  have hlevel : (set_technology_unlock_level bits s t target).2.unlocked_technologies.getD
      t.index 0 = target := by
    by_cases hd : level_difference bits target (s.unlocked_technologies.getD t.index 0) = 0
    · simp only [set_technology_unlock_level, hd, ne_eq, not_true_eq_false, if_false]
      rw [hdiff] at hd
      linarith
    · have hs : ¬ level_sum bits (s.unlocked_technologies.getD t.index 0)
          (level_difference bits target (s.unlocked_technologies.getD t.index 0)) < 0 := by
        rw [hdiff, level_sum_of_nonneg bits _ _ (by linarith) (by linarith)]
        linarith
      simp only [set_technology_unlock_level, ne_eq, hd, not_false_eq_true, if_true]
      rw [modify_technology_unlock_accepted_frame
        (fun c => c.unlocked_technologies.getD t.index 0)
        (fun _ _ => rfl) (fun _ _ => rfl) (fun _ _ => rfl) (fun _ _ => rfl) bits s t _ hs,
        level_add_assign_level_difference bits _ _
          (by unfold min_unlock_level; have : (0 : Int) < 2 ^ (bits - 1) := by positivity
              linarith) hvmax]
      simp only [with_unlock_level, getD_set_self _ _ _ ht]
  refine ⟨hlevel, ?_⟩
  generalize (set_technology_unlock_level bits s t target).2 = s1 at hlevel ⊢
  simp only [set_technology_unlock_level, hlevel, level_difference_self, ne_eq,
    not_true_eq_false, if_false]

/-- After `set_invention_unlock_level` either the call was rejected and the record is the one
before the call, or the stored level is the target. -/
theorem set_invention_unlock_level_cases (bits : Nat) (s : CountryInstance) (i : Invention)
    (target : Int) (hi : i.index < s.unlocked_inventions.length)
    (hlo : min_unlock_level bits ≤ target) (hhi : target ≤ max_unlock_level bits) :
    set_invention_unlock_level bits s i target = (false, s) ∨
      level_difference bits target
        ((set_invention_unlock_level bits s i target).2.unlocked_inventions.getD i.index 0)
          = 0 := by
  by_cases hd : level_difference bits target (s.unlocked_inventions.getD i.index 0) = 0
  · right
    simp only [set_invention_unlock_level, hd, ne_eq, not_true_eq_false, if_false]
  · by_cases hs : level_sum bits (s.unlocked_inventions.getD i.index 0)
        (level_difference bits target (s.unlocked_inventions.getD i.index 0)) < 0
    · left
      simp only [set_invention_unlock_level, ne_eq, hd, not_false_eq_true, if_true,
        modify_invention_unlock, hs]
    · right
      simp only [set_invention_unlock_level, ne_eq, hd, not_false_eq_true, if_true]
      rw [modify_invention_unlock_accepted_frame
        (fun c => c.unlocked_inventions.getD i.index 0)
        (fun _ _ => rfl) (fun _ _ => rfl) (fun _ _ => rfl) (fun _ _ => rfl) (fun _ _ => rfl)
        (fun _ _ => rfl) bits s i _ hs,
        level_add_assign_level_difference bits _ _ hlo hhi]
      simp only [with_unlock_level, getD_set_self _ _ _ hi, level_difference_self]

theorem set_invention_unlock_level_twice (bits : Nat) (s : CountryInstance) (i : Invention)
    (target : Int) (hi : i.index < s.unlocked_inventions.length)
    (hlo : min_unlock_level bits ≤ target) (hhi : target ≤ max_unlock_level bits) :
    (set_invention_unlock_level bits (set_invention_unlock_level bits s i target).2 i target).2 =
      (set_invention_unlock_level bits s i target).2 := by
  rcases set_invention_unlock_level_cases bits s i target hi hlo hhi with h | h
  · rw [h, h]
  · generalize (set_invention_unlock_level bits s i target).2 = s1 at h ⊢
    simp only [set_invention_unlock_level, h, ne_eq, not_true_eq_false, if_false]

theorem set_invention_unlock_level_reaches (bits : Nat) (s : CountryInstance) (i : Invention)
    (target : Int) (hi : i.index < s.unlocked_inventions.length)
    (hc : 0 ≤ s.unlocked_inventions.getD i.index 0)
    (hcmax : s.unlocked_inventions.getD i.index 0 ≤ max_unlock_level bits)
    (hv : 0 ≤ target) (hvmax : target ≤ max_unlock_level bits) :
    (set_invention_unlock_level bits s i target).2.unlocked_inventions.getD i.index 0 = target ∧
      (set_invention_unlock_level bits
        (set_invention_unlock_level bits s i target).2 i target).1 = true := by
  have hdiff := level_difference_of_nonneg bits _ _ hc hcmax hv hvmax
  have hlevel : (set_invention_unlock_level bits s i target).2.unlocked_inventions.getD
      i.index 0 = target := by
    by_cases hd : level_difference bits target (s.unlocked_inventions.getD i.index 0) = 0
    · simp only [set_invention_unlock_level, hd, ne_eq, not_true_eq_false, if_false]
      rw [hdiff] at hd
      linarith
    · have hs : ¬ level_sum bits (s.unlocked_inventions.getD i.index 0)
          (level_difference bits target (s.unlocked_inventions.getD i.index 0)) < 0 := by
        rw [hdiff, level_sum_of_nonneg bits _ _ (by linarith) (by linarith)]
        linarith
      simp only [set_invention_unlock_level, ne_eq, hd, not_false_eq_true, if_true]
      rw [modify_invention_unlock_accepted_frame
        (fun c => c.unlocked_inventions.getD i.index 0)
        (fun _ _ => rfl) (fun _ _ => rfl) (fun _ _ => rfl) (fun _ _ => rfl) (fun _ _ => rfl)
        (fun _ _ => rfl) bits s i _ hs,
        level_add_assign_level_difference bits _ _
          (by unfold min_unlock_level; have : (0 : Int) < 2 ^ (bits - 1) := by positivity
              linarith) hvmax]
      simp only [with_unlock_level, getD_set_self _ _ _ hi]
  refine ⟨hlevel, ?_⟩
  generalize (set_invention_unlock_level bits s i target).2 = s1 at hlevel ⊢
  simp only [set_invention_unlock_level, hlevel, level_difference_self, ne_eq,
    not_true_eq_false, if_false]

/-- What holds of `set_technology_unlock_level` and `set_invention_unlock_level` in every record
state. For a key of the record's key universe and a target that is a value of the level type,
the record after two calls with the same target is the record after one call, so the second
call changes no entry of any ledger. When moreover the target and the current level are not
negative, the level after the first call is the target and the second call returns `true`. -/
theorem set_unlock_level_idempotent (bits : Nat) (s : CountryInstance) (t : Technology)
    (i : Invention) (target : Int) (ht : t.index < s.unlocked_technologies.length)
    (hi : i.index < s.unlocked_inventions.length) (hlo : min_unlock_level bits ≤ target)
    (hhi : target ≤ max_unlock_level bits) :
    ((set_technology_unlock_level bits (set_technology_unlock_level bits s t target).2 t
          target).2 = (set_technology_unlock_level bits s t target).2 ∧
        (0 ≤ target → 0 ≤ s.unlocked_technologies.getD t.index 0 →
          s.unlocked_technologies.getD t.index 0 ≤ max_unlock_level bits →
          (set_technology_unlock_level bits s t target).2.unlocked_technologies.getD t.index 0
              = target ∧
            (set_technology_unlock_level bits (set_technology_unlock_level bits s t target).2 t
              target).1 = true)) ∧
      ((set_invention_unlock_level bits (set_invention_unlock_level bits s i target).2 i
          target).2 = (set_invention_unlock_level bits s i target).2 ∧
        (0 ≤ target → 0 ≤ s.unlocked_inventions.getD i.index 0 →
          s.unlocked_inventions.getD i.index 0 ≤ max_unlock_level bits →
          (set_invention_unlock_level bits s i target).2.unlocked_inventions.getD i.index 0
              = target ∧
            (set_invention_unlock_level bits (set_invention_unlock_level bits s i target).2 i
              target).1 = true)) :=
  ⟨⟨set_technology_unlock_level_twice bits s t target ht hlo hhi,
      fun hv hc hcmax => set_technology_unlock_level_reaches bits s t target ht hc hcmax hv hhi⟩,
    ⟨set_invention_unlock_level_twice bits s i target hi hlo hhi,
      fun hv hc hcmax => set_invention_unlock_level_reaches bits s i target hi hc hcmax hv hhi⟩⟩

/-- An instance: a technology with a unit variant, two activated unit types and an activated
building type, set to level 1 twice on a fresh record; the first call runs the cascade. -/
theorem set_unlock_level_idempotent_witness :
    (example_technology.index < example_country.unlocked_technologies.length ∧
        example_invention.index < example_country.unlocked_inventions.length ∧
        min_unlock_level 8 ≤ 1 ∧ (1 : Int) ≤ max_unlock_level 8) ∧
      (set_technology_unlock_level 8 example_country example_technology 1).2 ≠ example_country ∧
      (set_technology_unlock_level 8
          (set_technology_unlock_level 8 example_country example_technology 1).2
          example_technology 1).2 =
        (set_technology_unlock_level 8 example_country example_technology 1).2 :=
  ⟨by decide, by decide,
    (set_unlock_level_idempotent 8 example_country example_technology example_invention 1
      (by decide) (by decide) (by decide) (by decide)).1.1⟩

/-- The change that `set_..._unlock_level` computes for a target that is further above the
current level than the greatest value of the level type, for a level type narrower than `int`:
the difference wrapped around, which is negative, and with which the sum is negative. -/
theorem level_difference_wrapped (bits : Nat) (c v : Int) (hbits : bits < INT_BITS)
    (hc : min_unlock_level bits ≤ c) (hv : v ≤ max_unlock_level bits)
    (hgap : max_unlock_level bits < v - c) :
    level_difference bits v c ≠ 0 ∧ level_sum bits c (level_difference bits v c) < 0 := by
  have hpos : (0 : Int) < 2 ^ (bits - 1) := by positivity
  have hp : (2 : Int) * 2 ^ (bits - 1) ≤ 2 ^ (promoted_bits bits - 1) := by
    have : (2 : Int) * 2 ^ (bits - 1) = 2 ^ (bits - 1 + 1) := by ring
    rw [this]
    apply pow_le_pow_right₀ (by norm_num)
    unfold promoted_bits INT_BITS at *
    omega
  unfold min_unlock_level at hc
  unfold max_unlock_level at hv hgap
  have hdiff : level_difference bits v c = v - c - 2 * 2 ^ (bits - 1) := by
    unfold level_difference
    rw [to_signed_eq_self (promoted_bits bits) _ (by linarith) (by linarith),
      to_signed_overflow bits _ (by linarith) (by linarith)]
  rw [hdiff, level_sum_eq bits _ _ (by linarith) (by linarith)]
  constructor
  · linarith
  · linarith

/-- C5 does not hold of the code in every record state. For a level type narrower than `int`,
a key of the record and a target that is further above the current level than the greatest
value of the level type, which takes a negative current level: `set_technology_unlock_level`
and `set_invention_unlock_level` return `false` and leave the record as it is, so that the
level after the call is not the target and a second call returns `false` again. The change
that the functions compute is the difference wrapped around to the level type, with which the
sum is negative. -/
theorem set_unlock_level_rejected_below_zero (bits : Nat) (s : CountryInstance)
    (t : Technology) (i : Invention) (target : Int) (hbits : bits < INT_BITS)
    (hv : target ≤ max_unlock_level bits) :
    (min_unlock_level bits ≤ s.unlocked_technologies.getD t.index 0 →
      max_unlock_level bits < target - s.unlocked_technologies.getD t.index 0 →
      set_technology_unlock_level bits s t target = (false, s) ∧
      (set_technology_unlock_level bits (set_technology_unlock_level bits s t target).2 t
        target).1 = false ∧
      (set_technology_unlock_level bits s t target).2.unlocked_technologies.getD t.index 0 ≠
        target) ∧
    (min_unlock_level bits ≤ s.unlocked_inventions.getD i.index 0 →
      max_unlock_level bits < target - s.unlocked_inventions.getD i.index 0 →
      set_invention_unlock_level bits s i target = (false, s) ∧
      (set_invention_unlock_level bits (set_invention_unlock_level bits s i target).2 i
        target).1 = false ∧
      (set_invention_unlock_level bits s i target).2.unlocked_inventions.getD i.index 0 ≠
        target) := by
  have hpos : (0 : Int) < 2 ^ (bits - 1) := by positivity
  constructor
  · intro hc hgap
    obtain ⟨hd, hs⟩ := level_difference_wrapped bits _ _ hbits hc hv hgap
    have hcall : set_technology_unlock_level bits s t target = (false, s) := by
      simp only [set_technology_unlock_level, ne_eq, hd, not_false_eq_true, if_true,
        modify_technology_unlock, hs]
    refine ⟨hcall, ?_, ?_⟩
    · rw [hcall, hcall]
    · rw [hcall]
      intro h
      rw [h] at hgap
      unfold max_unlock_level at hgap
      linarith
  · intro hc hgap
    obtain ⟨hd, hs⟩ := level_difference_wrapped bits _ _ hbits hc hv hgap
    have hcall : set_invention_unlock_level bits s i target = (false, s) := by
      simp only [set_invention_unlock_level, ne_eq, hd, not_false_eq_true, if_true,
        modify_invention_unlock, hs]
    refine ⟨hcall, ?_, ?_⟩
    · rw [hcall, hcall]
    · rw [hcall]
      intro h
      rw [h] at hgap
      unfold max_unlock_level at hgap
      linarith

/-- The failing input of C5: with an 8 bit level type, the technology of the example record is
brought to the level 127 by `modify_technology_unlock` with the change 127 and unlocked once
more, which is accepted and stores the level -128. `set_technology_unlock_level` with the
target 5 then returns `false`, and the level stays -128; and likewise for the invention. -/
theorem set_unlock_level_rejected_below_zero_witness :
    (8 < INT_BITS ∧ (5 : Int) ≤ max_unlock_level 8) ∧
      (modify_technology_unlock 8 example_country example_plain_technology 127 =
          (true, { example_country with unlocked_technologies := [127] }) ∧
        unlock_technology 8 { example_country with unlocked_technologies := [127] }
            example_plain_technology =
          (true, { example_country with unlocked_technologies := [-128] })) ∧
      (modify_invention_unlock 8 example_country example_plain_invention 127 =
          (true, { example_country with unlocked_inventions := [127] }) ∧
        unlock_invention 8 { example_country with unlocked_inventions := [127] }
            example_plain_invention =
          (true, { example_country with unlocked_inventions := [-128] })) ∧
      (set_technology_unlock_level 8 { example_country with unlocked_technologies := [-128] }
          example_plain_technology 5 =
        (false, { example_country with unlocked_technologies := [-128] })) ∧
      (set_invention_unlock_level 8 { example_country with unlocked_inventions := [-128] }
          example_plain_invention 5 =
        (false, { example_country with unlocked_inventions := [-128] })) :=
  ⟨by decide, by decide, by decide,
    ((set_unlock_level_rejected_below_zero 8
      { example_country with unlocked_technologies := [-128] } example_plain_technology
      example_plain_invention 5 (by decide) (by decide)).1 (by decide) (by decide)).1,
    ((set_unlock_level_rejected_below_zero 8
      { example_country with unlocked_inventions := [-128] } example_plain_technology
      example_plain_invention 5 (by decide) (by decide)).2 (by decide) (by decide)).1⟩

/-! ## C6, C7: the cascades of technologies and inventions -/

theorem all_congr_of_mem {κ : Type} (f g : κ → Bool) (l : List κ)
    (h : ∀ k ∈ l, f k = g k) : l.all f = l.all g := by
  induction l with
  | nil => rfl
  | cons k ks ih =>
    rw [List.all_cons, List.all_cons, h k (List.mem_cons_self _ _),
      ih (fun k' hk' => h k' (List.mem_cons_of_mem _ hk'))]

/-- A cascade over distinct keys whose calls are independent of one another: each call returns
what it returns on the record before the cascade and leaves the entry of its key as it would on
that record, and the cascade returns the conjunction of all the results. Independence is stated
through an observation `obs key` of the entry of each key: a call changes no entry but its own,
and its result and the entry it leaves depend on that entry alone. -/
theorem cascade_independent {κ α : Type}
    (modify : CountryInstance → κ → Bool × CountryInstance) (obs : κ → CountryInstance → α)
    (hother : ∀ c k k', k ≠ k' → obs k' (modify c k).2 = obs k' c)
    (hres : ∀ c c' k, obs k c = obs k c' → (modify c k).1 = (modify c' k).1)
    (hobs : ∀ c c' k, obs k c = obs k c' → obs k (modify c k).2 = obs k (modify c' k).2)
    (keys : List κ) (hnd : keys.Nodup) (acc : Bool × CountryInstance) :
    (cascade modify keys acc).1 = (acc.1 && keys.all (fun k => (modify acc.2 k).1)) ∧
      (∀ k ∈ keys, obs k (cascade modify keys acc).2 = obs k (modify acc.2 k).2) ∧
      (∀ k, k ∉ keys → obs k (cascade modify keys acc).2 = obs k acc.2) := by
  induction keys generalizing acc with
  | nil => simp [cascade_nil]
  | cons k ks ih =>
    rw [List.nodup_cons] at hnd
    obtain ⟨h1, h2, h3⟩ := ih hnd.2 (acc.1 && (modify acc.2 k).1, (modify acc.2 k).2)
    have hne : ∀ k' ∈ ks, k ≠ k' := fun k' hk' h => hnd.1 (h ▸ hk')
    rw [cascade_cons]
    refine ⟨?_, ?_, ?_⟩
    · rw [h1, List.all_cons, Bool.and_assoc]
      congr 2
      apply all_congr_of_mem
      intro k' hk'
      exact hres _ _ _ (hother _ _ _ (hne k' hk'))
    · intro k' hk'
      rcases List.mem_cons.mp hk' with rfl | hk'
      · exact h3 _ hnd.1
      · rw [h2 k' hk']
        exact hobs _ _ _ (hother _ _ _ (hne k' hk'))
    · intro k' hk'
      rw [List.mem_cons, not_or] at hk'
      rw [h3 k' hk'.2]
      exact hother _ _ _ (fun h => hk'.1 h.symm)
/-! ### The single calls of a cascade are independent -/

theorem set_entry_congr (l l' : List Int) (k : Nat) (v : Int) (h : l[k]? = l'[k]?) :
    (l.set k v)[k]? = (l'.set k v)[k]? := by
  have hlen : k < l.length ↔ k < l'.length := by
    rw [← not_le, ← not_le, ← List.getElem?_eq_none_iff, ← List.getElem?_eq_none_iff, h]
  simp only [List.getElem?_set, if_true, hlen]

theorem building_type_other (bits : Nat) (d : Int) (c : CountryInstance) (k k' : Nat)
    (h : k ≠ k') :
    (modify_building_type_unlock bits c k d).2.unlocked_building_types[k']? =
      c.unlocked_building_types[k']? := by
  simp only [modify_building_type_unlock]
  split_ifs
  · rfl
  · exact List.getElem?_set_ne h

theorem building_type_result (bits : Nat) (d : Int) (c c' : CountryInstance) (k : Nat)
    (h : c.unlocked_building_types[k]? = c'.unlocked_building_types[k]?) :
    (modify_building_type_unlock bits c k d).1 = (modify_building_type_unlock bits c' k d).1 := by
  simp only [modify_building_type_unlock, List.getD_eq_getElem?_getD, h]
  split_ifs <;> rfl

theorem building_type_entry (bits : Nat) (d : Int) (c c' : CountryInstance) (k : Nat)
    (h : c.unlocked_building_types[k]? = c'.unlocked_building_types[k]?) :
    (modify_building_type_unlock bits c k d).2.unlocked_building_types[k]? =
      (modify_building_type_unlock bits c' k d).2.unlocked_building_types[k]? := by
  simp only [modify_building_type_unlock, List.getD_eq_getElem?_getD, h]
  split_ifs
  · exact h
  · exact set_entry_congr _ _ _ _ h

theorem crime_other (bits : Nat) (d : Int) (c : CountryInstance) (k k' : Nat) (h : k ≠ k') :
    (modify_crime_unlock bits c k d).2.unlocked_crimes[k']? = c.unlocked_crimes[k']? := by
  simp only [modify_crime_unlock]
  split_ifs
  · rfl
  · exact List.getElem?_set_ne h

theorem crime_result (bits : Nat) (d : Int) (c c' : CountryInstance) (k : Nat)
    (h : c.unlocked_crimes[k]? = c'.unlocked_crimes[k]?) :
    (modify_crime_unlock bits c k d).1 = (modify_crime_unlock bits c' k d).1 := by
  simp only [modify_crime_unlock, List.getD_eq_getElem?_getD, h]
  split_ifs <;> rfl

theorem crime_entry (bits : Nat) (d : Int) (c c' : CountryInstance) (k : Nat)
    (h : c.unlocked_crimes[k]? = c'.unlocked_crimes[k]?) :
    (modify_crime_unlock bits c k d).2.unlocked_crimes[k]? =
      (modify_crime_unlock bits c' k d).2.unlocked_crimes[k]? := by
  simp only [modify_crime_unlock, List.getD_eq_getElem?_getD, h]
  split_ifs
  · exact h
  · exact set_entry_congr _ _ _ _ h

theorem unit_type_other (bits : Nat) (d : Int) (c : CountryInstance) (u u' : UnitType)
    (h : u ≠ u') :
    (modify_unit_type_unlock bits c u d).2.unit_type_entry u' = c.unit_type_entry u' := by
  obtain ⟨b, k⟩ := u
  obtain ⟨b', k'⟩ := u'
  cases b <;> cases b' <;>
    simp only [modify_unit_type_unlock, modify_regiment_type_unlock, modify_ship_type_unlock,
      unit_type_entry] <;>
    (try split_ifs) <;> (try rfl) <;>
    exact List.getElem?_set_ne (fun hk => h (by rw [hk]))

theorem unit_type_result (bits : Nat) (d : Int) (c c' : CountryInstance) (u : UnitType)
    (h : c.unit_type_entry u = c'.unit_type_entry u) :
    (modify_unit_type_unlock bits c u d).1 = (modify_unit_type_unlock bits c' u d).1 := by
  obtain ⟨b, k⟩ := u
  cases b <;>
    simp only [modify_unit_type_unlock, modify_regiment_type_unlock, modify_ship_type_unlock,
      unit_type_entry, List.getD_eq_getElem?_getD] at h ⊢
  all_goals rw [h]
  all_goals split_ifs <;> rfl

theorem unit_type_entry_congr (bits : Nat) (d : Int) (c c' : CountryInstance) (u : UnitType)
    (h : c.unit_type_entry u = c'.unit_type_entry u) :
    (modify_unit_type_unlock bits c u d).2.unit_type_entry u =
      (modify_unit_type_unlock bits c' u d).2.unit_type_entry u := by
  obtain ⟨b, k⟩ := u
  cases b <;>
    simp only [modify_unit_type_unlock, modify_regiment_type_unlock, modify_ship_type_unlock,
      unit_type_entry, List.getD_eq_getElem?_getD] at h ⊢
  all_goals rw [h]
  all_goals split_ifs
  all_goals first | exact h | exact set_entry_congr _ _ _ _ h

theorem unit_type_unlock_level_eq (c : CountryInstance) (u : UnitType) :
    c.unit_type_unlock_level u = (c.unit_type_entry u).getD 0 := by
  obtain ⟨b, k⟩ := u
  cases b <;> simp [unit_type_unlock_level, unit_type_entry, List.getD_eq_getElem?_getD]
theorem modify_unit_variant_unlock_result (bits : Nat) (d : Int) (c c' : CountryInstance)
    (v : Nat) (h : c.unit_variant_unlock_levels = c'.unit_variant_unlock_levels) :
    (modify_unit_variant_unlock bits c v d).1 = (modify_unit_variant_unlock bits c' v d).1 := by
  simp only [modify_unit_variant_unlock, h]
  split_ifs <;> rfl

/-- An accepted `modify_technology_unlock` with distinct activated unit types and distinct
activated building types: the call returns the conjunction of what every sub-modification returns
on the record before the call, and the entry of every activated unit type and building type is
the one its own sub-modification leaves on that record. -/
theorem technology_cascade (bits : Nat) (s : CountryInstance) (t : Technology) (d : Int)
    (hs : ¬ level_sum bits (s.unlocked_technologies.getD t.index 0) d < 0)
    (hunits : t.activated_units.Nodup) (hbuildings : t.activated_buildings.Nodup) :
    (modify_technology_unlock bits s t d).1 =
        ((match t.unit_variant with
            | some v => (modify_unit_variant_unlock bits s v d).1
            | none => true) &&
          t.activated_units.all (fun u => (modify_unit_type_unlock bits s u d).1) &&
          t.activated_buildings.all (fun b => (modify_building_type_unlock bits s b d).1)) ∧
      (∀ u ∈ t.activated_units,
        (modify_technology_unlock bits s t d).2.unit_type_entry u =
          (modify_unit_type_unlock bits s u d).2.unit_type_entry u) ∧
      (∀ b ∈ t.activated_buildings,
        (modify_technology_unlock bits s t d).2.unlocked_building_types[b]? =
          (modify_building_type_unlock bits s b d).2.unlocked_building_types[b]?) := by
  simp only [modify_technology_unlock]
  rw [if_neg hs]
  generalize hs1 : s.with_unlock_level (.technology t)
    (level_add_assign bits (s.unlocked_technologies.getD t.index 0) d) = s1
  simp only [with_unlock_level] at hs1
  rw [hs1]
  have e1 : ∀ u, s1.unit_type_entry u = s.unit_type_entry u := fun u => by rw [← hs1]; rfl
  have b1 : s1.unlocked_building_types = s.unlocked_building_types := by rw [← hs1]
  have v1 : s1.unit_variant_unlock_levels = s.unit_variant_unlock_levels := by rw [← hs1]
  generalize hr0 : (match t.unit_variant with
    | some unit_variant =>
      (true && (modify_unit_variant_unlock bits s1 unit_variant d).1,
        (modify_unit_variant_unlock bits s1 unit_variant d).2)
    | none => (true, s1)) = r0
  have r0res : r0.1 = (match t.unit_variant with
      | some v => (modify_unit_variant_unlock bits s v d).1
      | none => true) := by
    rw [← hr0]
    split
    · simp only [Bool.true_and]
      exact modify_unit_variant_unlock_result bits d _ _ _ v1
    · rfl
  have e0 : ∀ u, r0.2.unit_type_entry u = s.unit_type_entry u := fun u => by
    rw [← hr0, ← e1 u]
    split
    · exact modify_unit_variant_unlock_frame (fun c => c.unit_type_entry u) (fun _ _ => rfl)
        bits _ _ d
    · rfl
  have b0 : r0.2.unlocked_building_types = s.unlocked_building_types := by
    rw [← hr0, ← b1]
    split
    · exact modify_unit_variant_unlock_frame (fun c => c.unlocked_building_types)
        (fun _ _ => rfl) bits _ _ d
    · rfl
  obtain ⟨u1, u2, -⟩ := cascade_independent
    (fun c unit => modify_unit_type_unlock bits c unit d) (fun u c => c.unit_type_entry u)
    (fun c k k' h => unit_type_other bits d c k k' h)
    (fun c c' k h => unit_type_result bits d c c' k h)
    (fun c c' k h => unit_type_entry_congr bits d c c' k h) t.activated_units hunits r0
  have bu : (cascade (fun c unit => modify_unit_type_unlock bits c unit d) t.activated_units
      r0).2.unlocked_building_types = s.unlocked_building_types := by
    rw [cascade_preserves _ (fun c => c.unlocked_building_types)
      (fun c k => modify_unit_type_unlock_frame (fun c => c.unlocked_building_types)
        (fun _ _ => rfl) (fun _ _ => rfl) bits c k d), b0]
  obtain ⟨c1, c2, -⟩ := cascade_independent
    (fun c building => modify_building_type_unlock bits c building d)
    (fun b c => c.unlocked_building_types[b]?)
    (fun c k k' h => building_type_other bits d c k k' h)
    (fun c c' k h => building_type_result bits d c c' k h)
    (fun c c' k h => building_type_entry bits d c c' k h) t.activated_buildings hbuildings
    (cascade (fun c unit => modify_unit_type_unlock bits c unit d) t.activated_units r0)
  refine ⟨?_, ?_, ?_⟩
  · rw [c1, u1, r0res]
    congr 1
    · congr 1
      exact all_congr_of_mem _ _ _ (fun u _ => unit_type_result bits d _ _ u (e0 u))
    · exact all_congr_of_mem _ _ _
        (fun b _ => building_type_result bits d _ _ b (by rw [bu]))
  · intro u hu
    rw [cascade_preserves _ (fun c => c.unit_type_entry u)
      (fun c k => modify_building_type_unlock_frame (fun c => c.unit_type_entry u)
        (fun _ _ => rfl) bits c k d), u2 u hu]
    exact unit_type_entry_congr bits d _ _ u (e0 u)
  · intro b hb
    rw [c2 b hb]
    exact building_type_entry bits d _ _ b (by rw [bu])

/-- The three cases of the addition of one to a level. A sum from zero to the greatest value of
the level type is accepted and stored. A negative sum is rejected. For a level type narrower
than `int`, the sum of the greatest value and one is formed in `int`, where it is not negative,
so it is accepted, and what is stored is the least value of the level type. -/
theorem level_step (bits : Nat) (a : Int) :
    (0 ≤ a + 1 → a + 1 ≤ max_unlock_level bits →
      ¬ level_sum bits a 1 < 0 ∧ level_add_assign bits a 1 = a + 1) ∧
    (min_unlock_level bits ≤ a → a + 1 < 0 → level_sum bits a 1 < 0) ∧
    (bits < INT_BITS → a = max_unlock_level bits →
      ¬ level_sum bits a 1 < 0 ∧ level_add_assign bits a 1 = min_unlock_level bits) := by
  have hpos : (0 : Int) < 2 ^ (bits - 1) := by positivity
  have hpromoted := pow_le_promoted bits
  refine ⟨fun h0 hmax => ?_, fun hmin hneg => ?_, fun hbits ha => ?_⟩
  · rw [level_sum_of_nonneg bits _ _ h0 hmax]
    exact ⟨not_lt.mpr h0, level_add_assign_of_nonneg bits _ _ h0 hmax⟩
  · unfold min_unlock_level at hmin
    rw [level_sum_eq bits _ _ (by linarith) (by linarith)]
    exact hneg
  · have hp : (2 : Int) * 2 ^ (bits - 1) ≤ 2 ^ (promoted_bits bits - 1) := by
      have : (2 : Int) * 2 ^ (bits - 1) = 2 ^ (bits - 1 + 1) := by ring
      rw [this]
      apply pow_le_pow_right₀ (by norm_num)
      unfold promoted_bits INT_BITS at *
      omega
    unfold max_unlock_level at ha
    have hsum : level_sum bits a 1 = a + 1 :=
      level_sum_eq bits _ _ (by linarith) (by linarith)
    refine ⟨by rw [hsum]; linarith, ?_⟩
    unfold level_add_assign min_unlock_level
    rw [hsum, to_signed_overflow bits _ (by linarith) (by linarith)]
    linarith

/-- What `modify_building_type_unlock` returns and stores for a building type of the record:
it is rejected, and the level stays, exactly when the sum is negative. -/
theorem building_type_step (bits : Nat) (s : CountryInstance) (b : Nat) (d : Int)
    (hb : b < s.unlocked_building_types.length) :
    (modify_building_type_unlock bits s b d).1 =
        !decide (level_sum bits (s.unlocked_building_types.getD b 0) d < 0) ∧
      (modify_building_type_unlock bits s b d).2.unlocked_building_types[b]? =
        some (if level_sum bits (s.unlocked_building_types.getD b 0) d < 0 then
          s.unlocked_building_types.getD b 0
          else level_add_assign bits (s.unlocked_building_types.getD b 0) d) := by
  simp only [modify_building_type_unlock]
  split_ifs with h
  · refine ⟨by simp only [h, decide_True, Bool.not_true], ?_⟩
    rw [List.getD_eq_getElem?_getD, List.getElem?_eq_getElem hb]
    rfl
  · exact ⟨by simp only [h, decide_False, Bool.not_false], List.getElem?_set_self hb⟩

/-- What `modify_unit_type_unlock` returns and stores for a unit type of a valid branch that
the record has: it is rejected, and the level stays, exactly when the sum is negative. -/
theorem unit_type_step (bits : Nat) (s : CountryInstance) (u : UnitType) (d : Int)
    (hbranch : u.branch ≠ branch_t.INVALID_BRANCH) (hu : s.has_unit_type u) :
    (modify_unit_type_unlock bits s u d).1 =
        !decide (level_sum bits (s.unit_type_unlock_level u) d < 0) ∧
      (modify_unit_type_unlock bits s u d).2.unit_type_entry u =
        some (if level_sum bits (s.unit_type_unlock_level u) d < 0 then
          s.unit_type_unlock_level u
          else level_add_assign bits (s.unit_type_unlock_level u) d) := by
  obtain ⟨b, k⟩ := u
  cases b
  case INVALID_BRANCH => exact absurd rfl hbranch
  all_goals
    simp only [has_unit_type, unit_type_unlock_level, modify_unit_type_unlock,
      modify_regiment_type_unlock, modify_ship_type_unlock, unit_type_entry] at *
    split_ifs with h
    · refine ⟨by simp only [h, decide_True, Bool.not_true], ?_⟩
      rw [List.getD_eq_getElem?_getD, List.getElem?_eq_getElem hu]
      rfl
    · exact ⟨by simp only [h, decide_False, Bool.not_false], List.getElem?_set_self hu⟩

/-- C6 does not hold of the code for a level at the greatest value of the level type. For a
technology with distinct activated unit types and distinct activated building types:
`unlock_technology` returns `false` and changes nothing when the check of the technology's own
level rejects the change; else every sub-modification is attempted on its own entry, whatever
the others return, and the call returns the conjunction of what all of them return on the record
before the call. An activated building type, and an activated unit type of a valid branch, of
the record has its level increased by exactly 1 when the sum is not negative and a value of the
level type; its sub-modification is rejected and its level stays when the sum is negative; and
when its level is the greatest value of a level type narrower than `int`, its sub-modification
is accepted and the level that is stored is the least value of the level type, not the level
plus 1. The sub-modification of an activated unit type of no valid branch is rejected. -/
theorem unlock_technology_cascade (bits : Nat) (s : CountryInstance) (t : Technology)
    (hunits : t.activated_units.Nodup) (hbuildings : t.activated_buildings.Nodup) :
    (level_sum bits (s.unlocked_technologies.getD t.index 0) 1 < 0 →
      unlock_technology bits s t = (false, s)) ∧
    (¬ level_sum bits (s.unlocked_technologies.getD t.index 0) 1 < 0 →
      (∀ b ∈ t.activated_buildings, b < s.unlocked_building_types.length →
        (0 ≤ s.unlocked_building_types.getD b 0 + 1 →
          s.unlocked_building_types.getD b 0 + 1 ≤ max_unlock_level bits →
          (unlock_technology bits s t).2.unlocked_building_types.getD b 0 =
            s.unlocked_building_types.getD b 0 + 1 ∧
          (modify_building_type_unlock bits s b 1).1 = true) ∧
        (min_unlock_level bits ≤ s.unlocked_building_types.getD b 0 →
          s.unlocked_building_types.getD b 0 + 1 < 0 →
          (unlock_technology bits s t).2.unlocked_building_types.getD b 0 =
            s.unlocked_building_types.getD b 0 ∧
          (modify_building_type_unlock bits s b 1).1 = false) ∧
        (bits < INT_BITS → s.unlocked_building_types.getD b 0 = max_unlock_level bits →
          (unlock_technology bits s t).2.unlocked_building_types.getD b 0 =
            min_unlock_level bits ∧
          (modify_building_type_unlock bits s b 1).1 = true)) ∧
      (∀ u ∈ t.activated_units, u.branch ≠ branch_t.INVALID_BRANCH → s.has_unit_type u →
        (0 ≤ s.unit_type_unlock_level u + 1 →
          s.unit_type_unlock_level u + 1 ≤ max_unlock_level bits →
          (unlock_technology bits s t).2.unit_type_unlock_level u =
            s.unit_type_unlock_level u + 1 ∧
          (modify_unit_type_unlock bits s u 1).1 = true) ∧
        (min_unlock_level bits ≤ s.unit_type_unlock_level u →
          s.unit_type_unlock_level u + 1 < 0 →
          (unlock_technology bits s t).2.unit_type_unlock_level u =
            s.unit_type_unlock_level u ∧
          (modify_unit_type_unlock bits s u 1).1 = false) ∧
        (bits < INT_BITS → s.unit_type_unlock_level u = max_unlock_level bits →
          (unlock_technology bits s t).2.unit_type_unlock_level u = min_unlock_level bits ∧
          (modify_unit_type_unlock bits s u 1).1 = true)) ∧
      (∀ u ∈ t.activated_units, u.branch = branch_t.INVALID_BRANCH →
        (modify_unit_type_unlock bits s u 1).1 = false) ∧
      (unlock_technology bits s t).1 =
        ((match t.unit_variant with
            | some v => (modify_unit_variant_unlock bits s v 1).1
            | none => true) &&
          t.activated_units.all (fun u => (modify_unit_type_unlock bits s u 1).1) &&
          t.activated_buildings.all (fun b => (modify_building_type_unlock bits s b 1).1))) := by
  refine ⟨fun hown => ?_, fun hown => ?_⟩
  · simp only [unlock_technology, modify_technology_unlock, hown, if_true]
  obtain ⟨h1, h2, h3⟩ := technology_cascade bits s t 1 hown hunits hbuildings
  refine ⟨fun b hmem hb => ?_, fun u hmem hbranch hu => ?_, fun u _ hbranch => ?_, h1⟩
  · obtain ⟨hresult, hentry⟩ := building_type_step bits s b 1 hb
    obtain ⟨haccept, hreject, hwrap⟩ := level_step bits (s.unlocked_building_types.getD b 0)
    have hafter : (unlock_technology bits s t).2.unlocked_building_types.getD b 0 =
        if level_sum bits (s.unlocked_building_types.getD b 0) 1 < 0 then
          s.unlocked_building_types.getD b 0
        else level_add_assign bits (s.unlocked_building_types.getD b 0) 1 := by
      rw [List.getD_eq_getElem?_getD, unlock_technology, h3 b hmem, hentry]
      rfl
    rw [hafter, hresult]
    refine ⟨fun h0 hmax => ?_, fun hmin hneg => ?_, fun hbits hlevel => ?_⟩
    · obtain ⟨hs, ha⟩ := haccept h0 hmax
      rw [if_neg hs, ha]
      exact ⟨rfl, by simp only [hs, decide_False, Bool.not_false]⟩
    · have hs := hreject hmin hneg
      rw [if_pos hs]
      exact ⟨rfl, by simp only [hs, decide_True, Bool.not_true]⟩
    · obtain ⟨hs, ha⟩ := hwrap hbits hlevel
      rw [if_neg hs, ha]
      exact ⟨rfl, by simp only [hs, decide_False, Bool.not_false]⟩
  · obtain ⟨hresult, hentry⟩ := unit_type_step bits s u 1 hbranch hu
    obtain ⟨haccept, hreject, hwrap⟩ := level_step bits (s.unit_type_unlock_level u)
    have hafter : (unlock_technology bits s t).2.unit_type_unlock_level u =
        if level_sum bits (s.unit_type_unlock_level u) 1 < 0 then s.unit_type_unlock_level u
        else level_add_assign bits (s.unit_type_unlock_level u) 1 := by
      rw [unit_type_unlock_level_eq, unlock_technology, h2 u hmem, hentry]
      rfl
    rw [hafter, hresult]
    refine ⟨fun h0 hmax => ?_, fun hmin hneg => ?_, fun hbits hlevel => ?_⟩
    · obtain ⟨hs, ha⟩ := haccept h0 hmax
      rw [if_neg hs, ha]
      exact ⟨rfl, by simp only [hs, decide_False, Bool.not_false]⟩
    · have hs := hreject hmin hneg
      rw [if_pos hs]
      exact ⟨rfl, by simp only [hs, decide_True, Bool.not_true]⟩
    · obtain ⟨hs, ha⟩ := hwrap hbits hlevel
      rw [if_neg hs, ha]
      exact ⟨rfl, by simp only [hs, decide_False, Bool.not_false]⟩
  · obtain ⟨b, k⟩ := u
    cases hbranch
    rfl

/-- The failing input of C6: with an 8 bit level type, the building type 0 of the example
record is brought to the level 127 by `modify_building_type_unlock` with the change 126, and the
technology that activates this building type is unlocked. The call returns `true`, and the level
of the building type is -128 after it, not 128. On the example record itself the same call
brings the building type from the level 1 to the level 2; and the example technology, whose unit
type of no valid branch is rejected, returns `false` and still brings the building type to the
level 2. -/
theorem unlock_technology_cascade_witness :
    (example_building_technology.activated_units.Nodup ∧
        example_building_technology.activated_buildings.Nodup) ∧
      (modify_building_type_unlock 8 example_country 0 126 =
        (true, { example_country with unlocked_building_types := [127] })) ∧
      unlock_technology 8 { example_country with unlocked_building_types := [127] }
          example_building_technology =
        (true, { example_country with
          unlocked_building_types := [-128]
          unlocked_technologies := [1] }) ∧
      (unlock_technology 8 example_country example_building_technology).2.unlocked_building_types
        = [2] ∧
      ((unlock_technology 8 example_country example_technology).1 = false ∧
        (unlock_technology 8 example_country example_technology).2.unlocked_building_types =
          [2]) ∧
      ((unlock_technology 8 { example_country with unlocked_building_types := [127] }
          example_building_technology).2.unlocked_building_types.getD 0 0 =
          min_unlock_level 8 ∧
        (modify_building_type_unlock 8 { example_country with unlocked_building_types := [127] }
          0 1).1 = true) :=
  ⟨by decide, by decide, by decide, by decide, by decide,
    (((unlock_technology_cascade 8 { example_country with unlocked_building_types := [127] }
      example_building_technology (by decide) (by decide)).2 (by decide)).1 0 (by decide)
      (by decide)).2.2 (by decide) (by decide)⟩

theorem gas_attack_result (bits : Nat) (d : Int) (c c' : CountryInstance)
    (h : c.gas_attack_unlock_level = c'.gas_attack_unlock_level) :
    (modify_gas_attack_unlock bits c d).1 = (modify_gas_attack_unlock bits c' d).1 ∧
      (modify_gas_attack_unlock bits c d).2.gas_attack_unlock_level =
        (modify_gas_attack_unlock bits c' d).2.gas_attack_unlock_level := by
  simp only [modify_gas_attack_unlock, h]
  split_ifs
  · exact ⟨rfl, h⟩
  · exact ⟨rfl, rfl⟩

theorem gas_defence_result (bits : Nat) (d : Int) (c c' : CountryInstance)
    (h : c.gas_defence_unlock_level = c'.gas_defence_unlock_level) :
    (modify_gas_defence_unlock bits c d).1 = (modify_gas_defence_unlock bits c' d).1 ∧
      (modify_gas_defence_unlock bits c d).2.gas_defence_unlock_level =
        (modify_gas_defence_unlock bits c' d).2.gas_defence_unlock_level := by
  simp only [modify_gas_defence_unlock, h]
  split_ifs
  · exact ⟨rfl, h⟩
  · exact ⟨rfl, rfl⟩

/-- The three loops of `modify_invention_unlock`, run from a record `s1` that agrees with `s` on
the unit type, building type and crime ledgers: the result is the conjunction of what every
sub-modification returns on `s`, every entry of a visited key is the one its own sub-modification
leaves on `s`, and every observation that does not depend on these ledgers is unchanged. -/
theorem invention_loops (bits : Nat) (s s1 : CountryInstance) (i : Invention) (d : Int)
    (hunits : i.activated_units.Nodup) (hbuildings : i.activated_buildings.Nodup)
    (hcrimes : i.enabled_crimes.Nodup)
    (e1 : ∀ u, s1.unit_type_entry u = s.unit_type_entry u)
    (b1 : s1.unlocked_building_types = s.unlocked_building_types)
    (c1 : s1.unlocked_crimes = s.unlocked_crimes) (r3 : Bool × CountryInstance)
    (hr3 : r3 = cascade (fun c crime => modify_crime_unlock bits c crime d) i.enabled_crimes
      (cascade (fun c building => modify_building_type_unlock bits c building d)
        i.activated_buildings
        (cascade (fun c unit => modify_unit_type_unlock bits c unit d) i.activated_units
          (true, s1)))) :
    r3.1 = (i.activated_units.all (fun u => (modify_unit_type_unlock bits s u d).1) &&
        i.activated_buildings.all (fun b => (modify_building_type_unlock bits s b d).1) &&
        i.enabled_crimes.all (fun c => (modify_crime_unlock bits s c d).1)) ∧
      (∀ u ∈ i.activated_units,
        r3.2.unit_type_entry u = (modify_unit_type_unlock bits s u d).2.unit_type_entry u) ∧
      (∀ b ∈ i.activated_buildings, r3.2.unlocked_building_types[b]? =
        (modify_building_type_unlock bits s b d).2.unlocked_building_types[b]?) ∧
      (∀ c ∈ i.enabled_crimes, r3.2.unlocked_crimes[c]? =
        (modify_crime_unlock bits s c d).2.unlocked_crimes[c]?) ∧
      r3.2.gas_attack_unlock_level = s1.gas_attack_unlock_level ∧
      r3.2.gas_defence_unlock_level = s1.gas_defence_unlock_level := by
  obtain ⟨u1, u2, -⟩ := cascade_independent
    (fun c unit => modify_unit_type_unlock bits c unit d) (fun u c => c.unit_type_entry u)
    (fun c k k' h => unit_type_other bits d c k k' h)
    (fun c c' k h => unit_type_result bits d c c' k h)
    (fun c c' k h => unit_type_entry_congr bits d c c' k h) i.activated_units hunits (true, s1)
  generalize hr1 : cascade (fun c unit => modify_unit_type_unlock bits c unit d)
    i.activated_units (true, s1) = r1 at hr3 u1 u2
  have hframe1 : ∀ {α : Type} (obs : CountryInstance → α),
      (∀ c l, obs { c with unlocked_regiment_types := l } = obs c) →
      (∀ c l, obs { c with unlocked_ship_types := l } = obs c) → obs r1.2 = obs s1 := by
    intro α obs hl hn
    rw [← hr1]
    exact cascade_preserves _ obs (fun c k => modify_unit_type_unlock_frame obs hl hn bits c k d)
      _ _
  obtain ⟨v1, v2, -⟩ := cascade_independent
    (fun c building => modify_building_type_unlock bits c building d)
    (fun b c => c.unlocked_building_types[b]?)
    (fun c k k' h => building_type_other bits d c k k' h)
    (fun c c' k h => building_type_result bits d c c' k h)
    (fun c c' k h => building_type_entry bits d c c' k h) i.activated_buildings hbuildings r1
  generalize hr2 : cascade (fun c building => modify_building_type_unlock bits c building d)
    i.activated_buildings r1 = r2 at hr3 v1 v2
  have hframe2 : ∀ {α : Type} (obs : CountryInstance → α),
      (∀ c l, obs { c with unlocked_building_types := l } = obs c) → obs r2.2 = obs r1.2 := by
    intro α obs hb
    rw [← hr2]
    exact cascade_preserves _ obs (fun c k => modify_building_type_unlock_frame obs hb bits c k d)
      _ _
  obtain ⟨w1, w2, -⟩ := cascade_independent
    (fun c crime => modify_crime_unlock bits c crime d) (fun k c => c.unlocked_crimes[k]?)
    (fun c k k' h => crime_other bits d c k k' h)
    (fun c c' k h => crime_result bits d c c' k h)
    (fun c c' k h => crime_entry bits d c c' k h) i.enabled_crimes hcrimes r2
  have hframe3 : ∀ {α : Type} (obs : CountryInstance → α),
      (∀ c l, obs { c with unlocked_crimes := l } = obs c) → obs r3.2 = obs r2.2 := by
    intro α obs hc
    rw [hr3]
    exact cascade_preserves _ obs (fun c k => modify_crime_unlock_frame obs hc bits c k d) _ _
  rw [← hr3] at w1 w2
  have hb1 : r1.2.unlocked_building_types = s.unlocked_building_types := by
    rw [hframe1 (fun c => c.unlocked_building_types) (fun _ _ => rfl) (fun _ _ => rfl), b1]
  have hc2 : r2.2.unlocked_crimes = s.unlocked_crimes := by
    rw [hframe2 (fun c => c.unlocked_crimes) (fun _ _ => rfl),
      hframe1 (fun c => c.unlocked_crimes) (fun _ _ => rfl) (fun _ _ => rfl), c1]
  refine ⟨?_, ?_, ?_, ?_, ?_, ?_⟩
  · rw [w1, v1, u1, Bool.true_and]
    congr 1
    · congr 1
      · exact all_congr_of_mem _ _ _ (fun u _ => unit_type_result bits d _ _ u (e1 u))
      · exact all_congr_of_mem _ _ _
          (fun b _ => building_type_result bits d _ _ b (by rw [hb1]))
    · exact all_congr_of_mem _ _ _ (fun c _ => crime_result bits d _ _ c (by rw [hc2]))
  · intro u hu
    rw [hframe3 (fun c => c.unit_type_entry u) (fun _ _ => rfl),
      hframe2 (fun c => c.unit_type_entry u) (fun _ _ => rfl), u2 u hu]
    exact unit_type_entry_congr bits d _ _ u (e1 u)
  · intro b hb
    rw [hframe3 (fun c => c.unlocked_building_types[b]?) (fun _ _ => rfl), v2 b hb]
    exact building_type_entry bits d _ _ b (by rw [hb1])
  · intro c hc
    rw [w2 c hc]
    exact crime_entry bits d _ _ c (by rw [hc2])
  · rw [hframe3 (fun c => c.gas_attack_unlock_level) (fun _ _ => rfl),
      hframe2 (fun c => c.gas_attack_unlock_level) (fun _ _ => rfl),
      hframe1 (fun c => c.gas_attack_unlock_level) (fun _ _ => rfl) (fun _ _ => rfl)]
  · rw [hframe3 (fun c => c.gas_defence_unlock_level) (fun _ _ => rfl),
      hframe2 (fun c => c.gas_defence_unlock_level) (fun _ _ => rfl),
      hframe1 (fun c => c.gas_defence_unlock_level) (fun _ _ => rfl) (fun _ _ => rfl)]

theorem cascade_if_result (condition : Bool) (modify : CountryInstance → Bool × CountryInstance)
    (acc : Bool × CountryInstance) :
    (cascade_if condition modify acc).1 = (acc.1 && (!condition || (modify acc.2).1)) := by
  unfold cascade_if
  cases condition <;> simp

theorem cascade_if_state (condition : Bool) (modify : CountryInstance → Bool × CountryInstance)
    (acc : Bool × CountryInstance) :
    (cascade_if condition modify acc).2 = if condition then (modify acc.2).2 else acc.2 := by
  unfold cascade_if
  cases condition <;> simp

/-- C7. For every invention with distinct activated unit types, distinct activated building
types and distinct enabled crimes, and every change for which the invention's own level check
passes: after `modify_invention_unlock` the level of every activated unit type, of every
activated building type and of every enabled crime is the level that its own sub-modification by
the same change leaves on the record before the call, the gas attack level is what
`modify_gas_attack_unlock` leaves when the invention unlocks gas attack and is unchanged
otherwise, and likewise the gas defence level; so every sub-modification is attempted whatever
the others return. The call returns the conjunction of the results of all sub-modifications. -/
theorem modify_invention_unlock_cascade (bits : Nat) (s : CountryInstance) (i : Invention)
    (d : Int) (hown : ¬ level_sum bits (s.unlocked_inventions.getD i.index 0) d < 0)
    (hunits : i.activated_units.Nodup) (hbuildings : i.activated_buildings.Nodup)
    (hcrimes : i.enabled_crimes.Nodup) :
    (∀ u ∈ i.activated_units,
        (modify_invention_unlock bits s i d).2.unit_type_unlock_level u =
          (modify_unit_type_unlock bits s u d).2.unit_type_unlock_level u) ∧
      (∀ b ∈ i.activated_buildings,
        (modify_invention_unlock bits s i d).2.unlocked_building_types.getD b 0 =
          (modify_building_type_unlock bits s b d).2.unlocked_building_types.getD b 0) ∧
      (∀ c ∈ i.enabled_crimes,
        (modify_invention_unlock bits s i d).2.unlocked_crimes.getD c 0 =
          (modify_crime_unlock bits s c d).2.unlocked_crimes.getD c 0) ∧
      (modify_invention_unlock bits s i d).2.gas_attack_unlock_level =
        (if i.unlock_gas_attack then (modify_gas_attack_unlock bits s d).2.gas_attack_unlock_level
          else s.gas_attack_unlock_level) ∧
      (modify_invention_unlock bits s i d).2.gas_defence_unlock_level =
        (if i.unlock_gas_defence then
          (modify_gas_defence_unlock bits s d).2.gas_defence_unlock_level
          else s.gas_defence_unlock_level) ∧
      (modify_invention_unlock bits s i d).1 =
        (i.activated_units.all (fun u => (modify_unit_type_unlock bits s u d).1) &&
          i.activated_buildings.all (fun b => (modify_building_type_unlock bits s b d).1) &&
          i.enabled_crimes.all (fun c => (modify_crime_unlock bits s c d).1) &&
          (!i.unlock_gas_attack || (modify_gas_attack_unlock bits s d).1) &&
          (!i.unlock_gas_defence || (modify_gas_defence_unlock bits s d).1)) := by
  obtain ⟨h1, h2, h3, h4, h5, h6⟩ := invention_loops bits s
    (s.with_unlock_level (.invention i)
      (level_add_assign bits (s.unlocked_inventions.getD i.index 0) d)) i d hunits hbuildings
    hcrimes (fun _ => rfl) rfl rfl _ rfl
  simp only [modify_invention_unlock]
  rw [if_neg hown]
  simp only [with_unlock_level] at h1 h2 h3 h4 h5 h6
  generalize cascade (fun c crime => modify_crime_unlock bits c crime d) i.enabled_crimes
    (cascade (fun c building => modify_building_type_unlock bits c building d)
      i.activated_buildings
      (cascade (fun c unit => modify_unit_type_unlock bits c unit d) i.activated_units
        (true, _))) = r3 at h1 h2 h3 h4 h5 h6 ⊢
  have hframe : ∀ {α : Type} (obs : CountryInstance → α),
      (∀ c l, obs { c with gas_attack_unlock_level := l } = obs c) →
      (∀ c l, obs { c with gas_defence_unlock_level := l } = obs c) →
      obs (cascade_if i.unlock_gas_defence (fun c => modify_gas_defence_unlock bits c d)
        (cascade_if i.unlock_gas_attack (fun c => modify_gas_attack_unlock bits c d) r3)).2 =
          obs r3.2 := by
    intro α obs ha hd
    rw [cascade_if_preserves _ _ obs (fun c => modify_gas_defence_unlock_frame obs hd bits c d),
      cascade_if_preserves _ _ obs (fun c => modify_gas_attack_unlock_frame obs ha bits c d)]
  refine ⟨?_, ?_, ?_, ?_, ?_, ?_⟩
  · intro u hu
    rw [unit_type_unlock_level_eq, unit_type_unlock_level_eq,
      hframe (fun c => c.unit_type_entry u) (fun _ _ => rfl) (fun _ _ => rfl), h2 u hu]
  · intro b hb
    rw [List.getD_eq_getElem?_getD, List.getD_eq_getElem?_getD,
      hframe (fun c => c.unlocked_building_types[b]?) (fun _ _ => rfl) (fun _ _ => rfl),
      h3 b hb]
  · intro c hc
    rw [List.getD_eq_getElem?_getD, List.getD_eq_getElem?_getD,
      hframe (fun c' => c'.unlocked_crimes[c]?) (fun _ _ => rfl) (fun _ _ => rfl), h4 c hc]
  · rw [cascade_if_preserves _ _ (fun c => c.gas_attack_unlock_level)
      (fun c => modify_gas_defence_unlock_frame (fun c => c.gas_attack_unlock_level)
        (fun _ _ => rfl) bits c d), cascade_if_state]
    split_ifs
    · exact (gas_attack_result bits d _ _ h5).2
    · exact h5
  · rw [cascade_if_state]
    have hd : (cascade_if i.unlock_gas_attack (fun c => modify_gas_attack_unlock bits c d)
        r3).2.gas_defence_unlock_level = s.gas_defence_unlock_level := by
      rw [cascade_if_preserves _ _ (fun c => c.gas_defence_unlock_level)
        (fun c => modify_gas_attack_unlock_frame (fun c => c.gas_defence_unlock_level)
          (fun _ _ => rfl) bits c d)]
      exact h6
    split_ifs
    · exact (gas_defence_result bits d _ _ hd).2
    · exact hd
  · have hd : (cascade_if i.unlock_gas_attack (fun c => modify_gas_attack_unlock bits c d)
        r3).2.gas_defence_unlock_level = s.gas_defence_unlock_level := by
      rw [cascade_if_preserves _ _ (fun c => c.gas_defence_unlock_level)
        (fun c => modify_gas_attack_unlock_frame (fun c => c.gas_defence_unlock_level)
          (fun _ _ => rfl) bits c d)]
      exact h6
    rw [cascade_if_result, cascade_if_result, h1, (gas_attack_result bits d _ _ h5).1,
      (gas_defence_result bits d _ _ hd).1]

set_option maxRecDepth 4096 in
/-- Witness of C7: the example invention is taken back (change -1) on a record on which it was
unlocked and one of its two crimes was then locked again. The sub-modification of that crime is
rejected and the call returns `false`; the regiment type, the building type, the other crime and
the gas attack level are lowered by 1 all the same, which gives the example record again. -/
theorem modify_invention_unlock_cascade_witness :
    (¬ level_sum 8 (example_country_unlocked.unlocked_inventions.getD example_invention.index 0)
          (-1) < 0 ∧
        example_invention.activated_units.Nodup ∧ example_invention.activated_buildings.Nodup ∧
        example_invention.enabled_crimes.Nodup) ∧
      example_country_unlocked =
        { example_country with
          unlocked_inventions := [1]
          unlocked_regiment_types := [2]
          unlocked_building_types := [2]
          unlocked_crimes := [0, 1]
          gas_attack_unlock_level := 1 } ∧
      modify_invention_unlock 8 example_country_unlocked example_invention (-1) =
        (false, example_country) ∧
      ∀ c ∈ example_invention.enabled_crimes,
        (modify_invention_unlock 8 example_country_unlocked example_invention
            (-1)).2.unlocked_crimes.getD c 0 =
          (modify_crime_unlock 8 example_country_unlocked c (-1)).2.unlocked_crimes.getD c 0 :=
  ⟨by decide, by decide, by decide,
    (modify_invention_unlock_cascade 8 example_country_unlocked example_invention (-1)
      (by decide) (by decide) (by decide) (by decide)).2.2.1⟩

/-! ## C8, C9: the unit variant ledger -/

theorem getD_last (l : List Int) (hl : l ≠ []) : l.getD (l.length - 1) 0 = l.getLast hl := by
  rw [List.getD_eq_getElem?_getD, ← List.getLast?_eq_getElem?, List.getLast?_eq_getLast l hl]
  rfl

theorem trimmed_iff (l : List Int) :
    (l.length = 0 ∨ 1 ≤ l.getD (l.length - 1) 0) ↔
      ∀ hl : l ≠ [], ¬ (decide (l.getLast hl < 1) = true) := by
  constructor
  · intro h hl
    rcases h with h | h
    · exact absurd (List.length_eq_zero.mp h) hl
    · rw [getD_last l hl] at h
      simpa using h
  · intro h
    by_cases hl : l = []
    · left
      rw [hl]
      rfl
    · right
      rw [getD_last l hl]
      simpa using h hl

theorem pop_locked_back_trimmed (l : List Int) :
    (pop_locked_back l).length = 0 ∨
      1 ≤ (pop_locked_back l).getD ((pop_locked_back l).length - 1) 0 :=
  (trimmed_iff _).mpr (fun hl => List.rdropWhile_last_not _ _ hl)

theorem pop_locked_back_of_trimmed (l : List Int)
    (h : l.length = 0 ∨ 1 ≤ l.getD (l.length - 1) 0) : pop_locked_back l = l :=
  List.rdropWhile_eq_self_iff.mpr ((trimmed_iff l).mp h)

theorem pop_locked_back_append_zeros (l : List Int) (k : Nat) :
    pop_locked_back (l ++ List.replicate k 0) = pop_locked_back l := by
  induction k with
  | zero => simp
  | succ k ih =>
    rw [List.replicate_succ', ← List.append_assoc]
    unfold pop_locked_back at *
    rw [List.rdropWhile_concat_pos _ _ _ (by decide), ih]

theorem resize_grow (l : List Int) (n : Nat) (h : l.length < n) :
    resize l n = l ++ List.replicate (n - l.length) 0 := by
  unfold resize
  rw [List.take_of_length_le (le_of_lt h)]

theorem modify_unit_variant_unlock_trimmed (bits : Nat) (s : CountryInstance) (v : Nat) (d : Int)
    (h : s.unit_variants_trimmed) :
    (modify_unit_variant_unlock bits s v d).2.unit_variants_trimmed := by
  unfold unit_variants_trimmed at *
  simp only [modify_unit_variant_unlock]
  split_ifs
  · exact h
  all_goals exact pop_locked_back_trimmed _

theorem modify_unit_variant_unlock_rejected (bits : Nat) (s : CountryInstance) (v : Nat) (d : Int)
    (h : s.unit_variants_trimmed)
    (hfalse : (modify_unit_variant_unlock bits s v d).1 = false) :
    (modify_unit_variant_unlock bits s v d).2 = s := by
  unfold unit_variants_trimmed at h
  simp only [modify_unit_variant_unlock] at hfalse ⊢
  split_ifs at hfalse ⊢ with h1 h2 h3 h3
  · rfl
  · simp only []
    rw [resize_grow _ _ h2, pop_locked_back_append_zeros, pop_locked_back_of_trimmed _ h]
  · simp only []
    rw [pop_locked_back_of_trimmed _ h]
theorem modify_technology_unlock_trimmed (bits : Nat) (s : CountryInstance) (t : Technology)
    (d : Int) (h : s.unit_variants_trimmed) :
    (modify_technology_unlock bits s t d).2.unit_variants_trimmed := by
  simp only [modify_technology_unlock]
  split_ifs
  · exact h
  · rw [cascade_preserves _ (fun c => c.unit_variants_trimmed)
      (fun c k => modify_building_type_unlock_frame (fun c => c.unit_variants_trimmed)
        (fun _ _ => rfl) bits c k d),
      cascade_preserves _ (fun c => c.unit_variants_trimmed)
        (fun c k => modify_unit_type_unlock_frame (fun c => c.unit_variants_trimmed)
          (fun _ _ => rfl) (fun _ _ => rfl) bits c k d)]
    split
    · exact modify_unit_variant_unlock_trimmed bits _ _ d h
    · exact h

theorem modify_invention_unlock_trimmed (bits : Nat) (s : CountryInstance) (i : Invention)
    (d : Int) (h : s.unit_variants_trimmed) :
    (modify_invention_unlock bits s i d).2.unit_variants_trimmed := by
  by_cases hs : level_sum bits (s.unlocked_inventions.getD i.index 0) d < 0
  · simp only [modify_invention_unlock, hs, if_true]
    exact h
  · rw [modify_invention_unlock_accepted_frame (fun c => c.unit_variants_trimmed)
      (fun _ _ => rfl) (fun _ _ => rfl) (fun _ _ => rfl) (fun _ _ => rfl) (fun _ _ => rfl)
      (fun _ _ => rfl) bits s i d hs]
    exact h

theorem modify_unlock_trimmed (bits : Nat) (s : CountryInstance) (key : UnlockKey) (d : Int)
    (h : s.unit_variants_trimmed) : (s.modify_unlock bits key d).2.unit_variants_trimmed := by
  cases key with
  | technology t => exact modify_technology_unlock_trimmed bits s t d h
  | invention i => exact modify_invention_unlock_trimmed bits s i d h
  | building_type k =>
    exact (modify_building_type_unlock_frame (fun c => c.unit_variants_trimmed)
      (fun _ _ => rfl) bits s k d).mpr h
  | crime k =>
    exact (modify_crime_unlock_frame (fun c => c.unit_variants_trimmed)
      (fun _ _ => rfl) bits s k d).mpr h
  | regiment_type k =>
    exact (modify_unit_type_unlock_frame (fun c => c.unit_variants_trimmed)
      (fun _ _ => rfl) (fun _ _ => rfl) bits s ⟨branch_t.LAND, k⟩ d).mpr h
  | ship_type k =>
    exact (modify_unit_type_unlock_frame (fun c => c.unit_variants_trimmed)
      (fun _ _ => rfl) (fun _ _ => rfl) bits s ⟨branch_t.NAVAL, k⟩ d).mpr h
  | gas_attack =>
    exact (modify_gas_attack_unlock_frame (fun c => c.unit_variants_trimmed)
      (fun _ _ => rfl) bits s d).mpr h
  | gas_defence =>
    exact (modify_gas_defence_unlock_frame (fun c => c.unit_variants_trimmed)
      (fun _ _ => rfl) bits s d).mpr h

/-- Every call on the unlock ledgers keeps the unit variant ledger trimmed. -/
theorem call_trimmed (bits : Nat) (s : CountryInstance) (x : Call)
    (h : s.unit_variants_trimmed) : (s.call bits x).2.unit_variants_trimmed := by
  cases x with
  | modify key d => exact modify_unlock_trimmed bits s key d h
  | unlock key => exact modify_unlock_trimmed bits s key 1 h
  | modify_unit_type_unlock u d =>
    exact (modify_unit_type_unlock_frame (fun c => c.unit_variants_trimmed)
      (fun _ _ => rfl) (fun _ _ => rfl) bits s u d).mpr h
  | unlock_unit_type u =>
    exact (modify_unit_type_unlock_frame (fun c => c.unit_variants_trimmed)
      (fun _ _ => rfl) (fun _ _ => rfl) bits s u 1).mpr h
  | modify_unit_variant_unlock v d => exact modify_unit_variant_unlock_trimmed bits s v d h
  | unlock_unit_variant v => exact modify_unit_variant_unlock_trimmed bits s v 1 h
  | set_technology_unlock_level t v =>
    simp only [call, set_technology_unlock_level]
    split_ifs
    · exact modify_technology_unlock_trimmed bits s t _ h
    · exact h
  | set_invention_unlock_level i v =>
    simp only [call, set_invention_unlock_level]
    split_ifs
    · exact modify_invention_unlock_trimmed bits s i _ h
    · exact h

theorem run_trimmed (bits : Nat) (s : CountryInstance) (calls : List Call)
    (h : s.unit_variants_trimmed) : (s.run bits calls).unit_variants_trimmed := by
  induction calls generalizing s with
  | nil => exact h
  | cons x xs ih => exact ih _ (call_trimmed bits s x h)

/-- C8. After any sequence of calls on the unlock ledgers of a record whose unit variant ledger
is empty, and so after any sequence of `modify_unit_variant_unlock` calls, the ledger is empty or
its last entry is at least 1. Equivalently `get_max_unlocked_unit_variant` is the greatest unit
variant whose level is at least 1: no variant above it has such a level, the variant it names has
one unless it is 0, and it is 0 when no variant is unlocked. -/
theorem unit_variant_ledger_trimmed (bits : Nat) (s : CountryInstance) (calls : List Call)
    (hs : s.unit_variant_unlock_levels = []) :
    (s.run bits calls).unit_variants_trimmed ∧
      (∀ v, 1 ≤ (s.run bits calls).unit_variant_unlock_level v →
        v ≤ (s.run bits calls).get_max_unlocked_unit_variant) ∧
      ((s.run bits calls).get_max_unlocked_unit_variant ≠ 0 →
        1 ≤ (s.run bits calls).unit_variant_unlock_level
          (s.run bits calls).get_max_unlocked_unit_variant) ∧
      ((∀ v, (s.run bits calls).unit_variant_unlock_level v < 1) →
        (s.run bits calls).get_max_unlocked_unit_variant = 0) := by
  have htrim : (s.run bits calls).unit_variants_trimmed :=
    run_trimmed bits s calls (Or.inl (by rw [hs]; rfl))
  generalize s.run bits calls = s1 at htrim ⊢
  have hlast : s1.get_max_unlocked_unit_variant ≠ 0 →
      1 ≤ s1.unit_variant_unlock_level s1.get_max_unlocked_unit_variant := by
    intro hne
    unfold unit_variants_trimmed get_max_unlocked_unit_variant unit_variant_unlock_level at *
    rcases htrim with h | h
    · exact absurd h hne
    · rw [if_neg (by omega)]
      exact h
  refine ⟨htrim, ?_, hlast, ?_⟩
  · intro v hv
    unfold unit_variant_unlock_level get_max_unlocked_unit_variant at *
    by_contra hgt
    rw [if_neg (by omega), List.getD_eq_getElem?_getD,
      List.getElem?_eq_none (by omega)] at hv
    simp at hv
  · intro hall
    by_contra hne
    have := hlast hne
    have := hall s1.get_max_unlocked_unit_variant
    omega

/-- Witness of C8: unit variants 3 and 1 are unlocked, the example technology unlocks variant 2,
and variant 3 is locked again; the ledger shrinks to the two entries of variants 1 and 2. -/
theorem unit_variant_ledger_trimmed_witness :
    example_country.unit_variant_unlock_levels = [] ∧
      (example_country.run 8 [Call.unlock_unit_variant 3, Call.unlock_unit_variant 1,
        Call.unlock (.technology example_technology),
        Call.modify_unit_variant_unlock 3 (-1)]).unit_variant_unlock_levels = [1, 1] ∧
      (example_country.run 8 [Call.unlock_unit_variant 3, Call.unlock_unit_variant 1,
        Call.unlock (.technology example_technology),
        Call.modify_unit_variant_unlock 3 (-1)]).unit_variants_trimmed :=
  ⟨by decide, by decide,
    (unit_variant_ledger_trimmed 8 example_country [Call.unlock_unit_variant 3,
      Call.unlock_unit_variant 1, Call.unlock (.technology example_technology),
      Call.modify_unit_variant_unlock 3 (-1)] (by decide)).1⟩

/-- C9. On a record whose unit variant ledger is empty or ends in an entry of at least 1:
whenever `modify_unit_variant_unlock` returns `false`, the record after the call is the record
before it. The call returns `false` for unit variant 0 with every change, and for a unit variant
of at least 1 whose level plus the change is negative, also when the variant lies beyond the size
of the ledger (the sum being a value of the type it is evaluated in). -/
theorem modify_unit_variant_unlock_rejected_unchanged (bits : Nat) (s : CountryInstance)
    (v : Nat) (d : Int) (h : s.unit_variants_trimmed) :
    ((modify_unit_variant_unlock bits s v d).1 = false →
        (modify_unit_variant_unlock bits s v d).2 = s) ∧
      modify_unit_variant_unlock bits s 0 d = (false, s) ∧
      (1 ≤ v → -(2 ^ (promoted_bits bits - 1)) ≤ s.unit_variant_unlock_level v + d →
        s.unit_variant_unlock_level v + d < 0 →
        modify_unit_variant_unlock bits s v d = (false, s)) := by
  refine ⟨modify_unit_variant_unlock_rejected bits s v d h, rfl, ?_⟩
  intro hv hdef hneg
  have hfalse : (modify_unit_variant_unlock bits s v d).1 = false := by
    have hlevel : (if s.unit_variant_unlock_levels.length < v then
        resize s.unit_variant_unlock_levels v else s.unit_variant_unlock_levels).getD (v - 1) 0 =
          s.unit_variant_unlock_level v := by
      unfold unit_variant_unlock_level
      rw [if_neg (show ¬ v < 1 by omega)]
      split_ifs with hlt
      · rw [resize_grow _ _ hlt, List.getD_eq_getElem?_getD, List.getD_eq_getElem?_getD]
        by_cases hin : v - 1 < s.unit_variant_unlock_levels.length
        · rw [List.getElem?_append_left hin]
        · rw [List.getElem?_append_right (by omega), List.getElem?_replicate,
            List.getElem?_eq_none (by omega)]
          split_ifs <;> rfl
      · rfl
    simp only [modify_unit_variant_unlock]
    rw [if_neg (show ¬ v < 1 by omega), hlevel,
      if_pos (by rw [level_sum_eq bits _ _ hdef (lt_trans hneg (by positivity))]; exact hneg)]
  exact Prod.ext hfalse (modify_unit_variant_unlock_rejected bits s v d h hfalse)

/-- Witness of C9: with only unit variant 2 unlocked, locking unit variant 5, which lies beyond
the size of the ledger, is rejected and leaves the ledger at its two entries. -/
theorem modify_unit_variant_unlock_rejected_unchanged_witness :
    (example_country.run 8 [Call.unlock_unit_variant 2]).unit_variants_trimmed ∧
      (example_country.run 8 [Call.unlock_unit_variant 2]).unit_variant_unlock_levels = [0, 1] ∧
      modify_unit_variant_unlock 8 (example_country.run 8 [Call.unlock_unit_variant 2]) 5 (-1) =
        (false, example_country.run 8 [Call.unlock_unit_variant 2]) :=
  ⟨by decide, by decide,
    (modify_unit_variant_unlock_rejected_unchanged 8
      (example_country.run 8 [Call.unlock_unit_variant 2]) 5 (-1) (by decide)).2.2 (by decide)
        (by decide) (by decide)⟩

/-! ## C10: existence of a country -/

/-- C10. `exists()` is true if and only if the set of owned provinces is not empty. A successful
`add_owned_province` makes `exists()` true, in particular on a record that owns no province, and
a successful `remove_owned_province` of the only owned province makes `exists()` false. -/
theorem exists_iff_owns_province (s : CountryInstance) (province : Nat) :
    (s.exists = true ↔ s.owned_provinces ≠ []) ∧
      ((s.add_owned_province province).1 = true →
        (s.add_owned_province province).2.exists = true) ∧
      (s.owned_provinces = [] → (s.add_owned_province province).1 = true) ∧
      (s.owned_provinces = [province] →
        (s.remove_owned_province province).1 = true ∧
          (s.remove_owned_province province).2.exists = false) := by
  refine ⟨?_, ?_, ?_, ?_⟩
  · unfold CountryInstance.exists
    cases s.owned_provinces <;> simp
  · unfold add_owned_province CountryInstance.exists
    split_ifs
    · simp
    · cases s.owned_provinces <;> simp
  · intro h
    unfold add_owned_province
    rw [h]
    rfl
  · intro h
    unfold remove_owned_province CountryInstance.exists
    rw [h]
    simp

/-- Witness of C10: the example record owns no province and does not exist; after province 7 is
added it exists, and after that province is removed again it does not. -/
theorem exists_iff_owns_province_witness :
    example_country.owned_provinces = [] ∧ example_country.exists = false ∧
      (example_country.add_owned_province 7).1 = true ∧
      (example_country.add_owned_province 7).2.exists = true ∧
      (example_country.add_owned_province 7).2.owned_provinces = [7] ∧
      ((example_country.add_owned_province 7).2.remove_owned_province 7).1 = true ∧
      ((example_country.add_owned_province 7).2.remove_owned_province 7).2.exists = false :=
  ⟨by decide, by decide, by decide,
    (exists_iff_owns_province example_country 7).2.1 (by decide), by decide,
    ((exists_iff_owns_province (example_country.add_owned_province 7).2 7).2.2.2 (by decide))⟩

/-! ## C11, C12: membership sets and the reform list -/

theorem with_members_members (s : CountryInstance) (set other : MemberSet) (l : List Nat) :
    (s.with_members set l).members other = if other = set then l else s.members other := by
  cases set <;> cases other <;> rfl

theorem with_members_self (s : CountryInstance) (set : MemberSet) :
    s.with_members set (s.members set) = s := by
  cases set <;> rfl

theorem add_member_eq (s : CountryInstance) (set : MemberSet) (item : Nat) :
    s.add_member set item =
      if item ∈ s.members set then (false, s)
      else (true, s.with_members set (s.members set ++ [item])) := by
  cases set <;> rfl

theorem remove_member_eq (s : CountryInstance) (set : MemberSet) (item : Nat) :
    s.remove_member set item =
      if item ∈ s.members set then (true, s.with_members set ((s.members set).erase item))
      else (false, s) := by
  cases set <;> rfl

/-- C11. For each of the sets of owned provinces, controlled provinces, core provinces, states,
accepted cultures, armies and navies: the add function returns `false` exactly when the item is a
member already and the remove function returns `false` exactly when the item is no member, and in
both cases the record is unchanged. A successful add appends the item, so that the members are
the old ones and the item; a successful remove erases the item, so that, the members being
distinct, the members are the old ones except the item; every other set of the record is
unchanged by either function, and the members stay distinct. -/
theorem member_set_contract (s : CountryInstance) (set : MemberSet) (item : Nat) :
    ((s.add_member set item).1 = false ↔ item ∈ s.members set) ∧
      ((s.add_member set item).1 = false → (s.add_member set item).2 = s) ∧
      ((s.add_member set item).1 = true →
        (s.add_member set item).2 = s.with_members set (s.members set ++ [item]) ∧
          ∀ x, x ∈ (s.add_member set item).2.members set ↔ x ∈ s.members set ∨ x = item) ∧
      ((s.remove_member set item).1 = false ↔ item ∉ s.members set) ∧
      ((s.remove_member set item).1 = false → (s.remove_member set item).2 = s) ∧
      ((s.remove_member set item).1 = true →
        (s.remove_member set item).2 = s.with_members set ((s.members set).erase item) ∧
          ((s.members set).Nodup →
            ∀ x, x ∈ (s.remove_member set item).2.members set ↔ x ∈ s.members set ∧ x ≠ item)) ∧
      (∀ other, other ≠ set →
        (s.add_member set item).2.members other = s.members other ∧
          (s.remove_member set item).2.members other = s.members other) ∧
      ((s.members set).Nodup →
        ((s.add_member set item).2.members set).Nodup ∧
          ((s.remove_member set item).2.members set).Nodup) := by
  rw [add_member_eq, remove_member_eq]
  have hother : ∀ l other, other ≠ set → (s.with_members set l).members other = s.members other :=
    fun l other hne => by rw [with_members_members, if_neg hne]
  have hself : ∀ l, (s.with_members set l).members set = l :=
    fun l => by rw [with_members_members, if_pos rfl]
  by_cases h : item ∈ s.members set
  · rw [if_pos h, if_pos h]
    refine ⟨⟨fun _ => h, fun _ => rfl⟩, fun _ => rfl, fun hc => absurd hc (by simp),
      ⟨fun hc => absurd hc (by simp), fun hn => absurd h hn⟩, fun hc => absurd hc (by simp),
      fun _ => ⟨rfl, fun hnd x => ?_⟩, fun other hne => ⟨rfl, hother _ other hne⟩,
      fun hnd => ⟨hnd, ?_⟩⟩
    · rw [hself, List.Nodup.mem_erase_iff hnd, and_comm]
    · rw [hself]
      exact hnd.erase item
  · rw [if_neg h, if_neg h]
    refine ⟨⟨fun hc => absurd hc (by simp), fun hm => absurd hm h⟩,
      fun hc => absurd hc (by simp), fun _ => ⟨rfl, fun x => ?_⟩, ⟨fun _ => h, fun _ => rfl⟩,
      fun _ => rfl, fun hc => absurd hc (by simp), fun other hne => ⟨hother _ other hne, rfl⟩,
      fun hnd => ⟨?_, hnd⟩⟩
    · rw [hself, List.mem_append, List.mem_singleton]
    · rw [hself, List.nodup_append]
      refine ⟨hnd, List.nodup_singleton item, ?_⟩
      intro a ha hb
      rw [List.mem_singleton] at hb
      exact h (hb ▸ ha)

/-- Witness of C11: a state is added to the example record twice and removed twice; the second
add and the second remove fail and change nothing, and the armies are untouched. -/
theorem member_set_contract_witness :
    (example_country.add_member .states 4).1 = true ∧
      (example_country.add_member .states 4).2.states = [4] ∧
      ((example_country.add_member .states 4).2.add_member .states 4).1 = false ∧
      (((example_country.add_member .states 4).2.add_member .states 4).1 = false →
        ((example_country.add_member .states 4).2.add_member .states 4).2 =
          (example_country.add_member .states 4).2) ∧
      ((example_country.add_member .states 4).2.remove_member .states 4).2 = example_country ∧
      (example_country.remove_member .states 4).1 = false :=
  ⟨by decide, by decide, by decide,
    (member_set_contract (example_country.add_member .states 4).2 .states 4).2.1, by decide,
    by decide⟩
theorem reform_call_nodup (s : CountryInstance) (x : ReformCall) (h : s.reforms.Nodup) :
    (s.reform_call x).2.reforms.Nodup := by
  cases x with
  | add_reform r =>
    simp only [reform_call, add_reform]
    split_ifs with hr
    · exact h
    · rw [List.nodup_append]
      refine ⟨h, List.nodup_singleton r, ?_⟩
      intro a ha hb
      rw [List.mem_singleton] at hb
      exact hr (hb ▸ ha)
  | remove_reform r =>
    simp only [reform_call, remove_reform]
    split_ifs
    · exact h.erase r
    · exact h

theorem run_reform_calls_nodup (s : CountryInstance) (calls : List ReformCall)
    (h : s.reforms.Nodup) : (s.run_reform_calls calls).reforms.Nodup := by
  induction calls generalizing s with
  | nil => exact h
  | cons x xs ih => exact ih _ (reform_call_nodup s x h)

/-- C12. `add_reform` returns `false` and leaves the record unchanged when the reform is in the
list, and else appends it at the end and returns `true`. `remove_reform` returns `false` and
leaves the record unchanged when the reform is not in the list, and else returns `true` and
removes its first entry, the entries before and after it staying as they are and in their order.
After any sequence of `add_reform` and `remove_reform` calls on a record with an empty reform
list, no reform is in the list twice. -/
theorem reform_list_contract (s : CountryInstance) (r : Nat) (calls : List ReformCall) :
    (r ∈ s.reforms → s.add_reform r = (false, s)) ∧
      (r ∉ s.reforms → s.add_reform r = (true, { s with reforms := s.reforms ++ [r] })) ∧
      (r ∉ s.reforms → s.remove_reform r = (false, s)) ∧
      (r ∈ s.reforms → ∃ before after, r ∉ before ∧ s.reforms = before ++ r :: after ∧
        s.remove_reform r = (true, { s with reforms := before ++ after })) ∧
      (s.reforms = [] → (s.run_reform_calls calls).reforms.Nodup) := by
  refine ⟨fun h => ?_, fun h => ?_, fun h => ?_, fun h => ?_, fun h => ?_⟩
  · simp only [add_reform, h, if_true]
  · simp only [add_reform, h, if_false]
  · simp only [remove_reform, h, if_false]
  · obtain ⟨before, after, h1, h2, h3⟩ := List.exists_erase_eq h
    refine ⟨before, after, h1, h2, ?_⟩
    simp only [remove_reform, h, if_true, h3]
  · exact run_reform_calls_nodup s calls (by rw [h]; exact List.nodup_nil)

/-- Witness of C12: reforms 5, 6 and 7 are added to the example record, 6 is added again, which
fails, and 6 is removed; the list is 5, 7. -/
theorem reform_list_contract_witness :
    example_country.reforms = [] ∧
      (example_country.run_reform_calls [.add_reform 5, .add_reform 6, .add_reform 7]).reforms =
        [5, 6, 7] ∧
      ((example_country.run_reform_calls [.add_reform 5, .add_reform 6,
        .add_reform 7]).add_reform 6).1 = false ∧
      ((example_country.run_reform_calls [.add_reform 5, .add_reform 6,
        .add_reform 7]).remove_reform 6).2.reforms = [5, 7] ∧
      (example_country.run_reform_calls [.add_reform 5, .add_reform 6, .add_reform 7,
        .add_reform 6, .remove_reform 6]).reforms.Nodup :=
  ⟨by decide, by decide, by decide, by decide,
    (reform_list_contract example_country 0 [.add_reform 5, .add_reform 6, .add_reform 7,
      .add_reform 6, .remove_reform 6]).2.2.2.2 (by decide)⟩

/-! ## C13: the status of a country -/

/-- C13. The ordinals of the statuses increase from great power over secondary power, civilised,
partially civilised and uncivilised to primitive. `is_civilised()` holds exactly for the statuses
great power, secondary power and civilised, and `can_colonise()` exactly for great power and
secondary power; so `is_great_power()` implies `can_colonise()`, and `can_colonise()` implies
`is_civilised()`. -/
theorem status_predicates (s : CountryInstance) :
    (country_status_t.COUNTRY_STATUS_GREAT_POWER.ordinal <
        country_status_t.COUNTRY_STATUS_SECONDARY_POWER.ordinal ∧
      country_status_t.COUNTRY_STATUS_SECONDARY_POWER.ordinal <
        country_status_t.COUNTRY_STATUS_CIVILISED.ordinal ∧
      country_status_t.COUNTRY_STATUS_CIVILISED.ordinal <
        country_status_t.COUNTRY_STATUS_PARTIALLY_CIVILISED.ordinal ∧
      country_status_t.COUNTRY_STATUS_PARTIALLY_CIVILISED.ordinal <
        country_status_t.COUNTRY_STATUS_UNCIVILISED.ordinal ∧
      country_status_t.COUNTRY_STATUS_UNCIVILISED.ordinal <
        country_status_t.COUNTRY_STATUS_PRIMITIVE.ordinal) ∧
      (s.is_civilised = true ↔
        s.country_status = country_status_t.COUNTRY_STATUS_GREAT_POWER ∨
          s.country_status = country_status_t.COUNTRY_STATUS_SECONDARY_POWER ∨
          s.country_status = country_status_t.COUNTRY_STATUS_CIVILISED) ∧
      (s.can_colonise = true ↔
        s.country_status = country_status_t.COUNTRY_STATUS_GREAT_POWER ∨
          s.country_status = country_status_t.COUNTRY_STATUS_SECONDARY_POWER) ∧
      (s.is_great_power = true → s.can_colonise = true) ∧
      (s.can_colonise = true → s.is_civilised = true) := by
  unfold is_civilised can_colonise is_great_power
  refine ⟨by decide, ?_, ?_, ?_, ?_⟩ <;>
    cases s.country_status <;> simp [country_status_t.ordinal]

/-! ## C14 to C17: the production phase and the total score -/

theorem foldl_add_int {κ : Type} (f : κ → Int) (l : List κ) (init : Int) :
    l.foldl (fun acc x => acc + f x) init = init + (l.map f).sum := by
  induction l generalizing init with
  | nil => simp
  | cons x xs ih => rw [List.foldl_cons, ih, List.map_cons, List.sum_cons, add_assoc]

theorem foldl_add_nat {κ : Type} (f : κ → Nat) (l : List κ) (init : Nat) :
    l.foldl (fun acc x => acc + f x) init = init + (l.map f).sum := by
  induction l generalizing init with
  | nil => simp
  | cons x xs ih => rw [List.foldl_cons, ih, List.map_cons, List.sum_cons, add_assoc]

theorem with_production_self (s : CountryInstance) :
    s.with_production s.industrial_power s.industrial_power_from_states
      s.industrial_power_from_investments = s := rfl

/-- The loop over the states of `_update_production`. -/
theorem states_loop (objects : Objects) (states : List Nat) (c : CountryInstance) :
    states.foldl (add_state_industrial_power objects) c =
      c.with_production
        (c.industrial_power + (states.map (fun st => (objects.state st).industrial_power)).sum)
        (c.industrial_power_from_states ++
          (states.filter (fun st => decide ((objects.state st).industrial_power ≠ 0))).map
            (fun st => (st, (objects.state st).industrial_power)))
        c.industrial_power_from_investments := by
  induction states generalizing c with
  | nil => simp [with_production_self]
  | cons st sts ih =>
    rw [List.foldl_cons, ih]
    by_cases h : (objects.state st).industrial_power = 0
    · simp [add_state_industrial_power, h]
    · simp only [add_state_industrial_power, ne_eq, h, not_false_eq_true, if_true,
        with_production, List.map_cons, List.sum_cons, List.filter_cons, decide_True,
        List.append_assoc, List.singleton_append, add_assoc]

/-- The loop over the foreign investments of `_update_production`. -/
theorem investments_loop (precision : Nat) (define_manager : DefineManager)
    (country_exists : Nat → Bool) (investments : List (Nat × fixed_point_t))
    (c : CountryInstance) :
    investments.foldl (add_investment_industrial_power precision define_manager country_exists) c =
      c.with_production
        (c.industrial_power +
          ((investments.filter (fun i => country_exists i.1)).map
            (fun i => investment_industrial_power precision define_manager i.2)).sum)
        c.industrial_power_from_states
        (c.industrial_power_from_investments ++
          ((investments.filter (fun i => country_exists i.1 &&
              decide (investment_industrial_power precision define_manager i.2 ≠ 0))).map
            (fun i => (i.1, investment_industrial_power precision define_manager i.2)))) := by
  induction investments generalizing c with
  | nil => simp [with_production_self]
  | cons i is ih =>
    rw [List.foldl_cons, ih]
    by_cases he : country_exists i.1 = true
    · by_cases h : investment_industrial_power precision define_manager i.2 = 0
      · simp [add_investment_industrial_power, he, h]
      · simp only [add_investment_industrial_power, he, ne_eq, h, not_false_eq_true, if_true,
          with_production, List.map_cons, List.sum_cons, List.filter_cons, decide_True,
          List.append_assoc, List.singleton_append, add_assoc, Bool.and_self]
    · simp [add_investment_industrial_power, he]

/-- What `_update_production` computes, in closed form. -/
theorem update_production_eq (precision : Nat) (define_manager : DefineManager) (std : StdSort)
    (country_exists : Nat → Bool) (objects : Objects) (s : CountryInstance) :
    _update_production precision define_manager std country_exists objects s =
      s.with_production
        ((s.states.map (fun st => (objects.state st).industrial_power)).sum +
          ((s.foreign_investments.filter (fun i => country_exists i.1)).map
            (fun i => investment_industrial_power precision define_manager i.2)).sum)
        (std.sort by_second_descending
          ((s.states.filter (fun st => decide ((objects.state st).industrial_power ≠ 0))).map
            (fun st => (st, (objects.state st).industrial_power))))
        (std.sort by_second_descending
          ((s.foreign_investments.filter (fun i => country_exists i.1 &&
              decide (investment_industrial_power precision define_manager i.2 ≠ 0))).map
            (fun i => (i.1, investment_industrial_power precision define_manager i.2)))) := by
  simp only [_update_production, states_loop, investments_loop, with_production, zero_add,
    List.nil_append]

theorem update_population_frame {α : Type} (obs : CountryInstance → α)
    (hobs : ∀ (c : CountryInstance) n l1 l2 l3 d,
      obs { c with
        total_population := n
        national_literacy := l1
        national_consciousness := l2
        national_militancy := l3
        pop_type_distribution := d } = obs c)
    (precision : Nat) (objects : Objects) (s : CountryInstance) :
    obs (_update_population precision objects s) = obs s := by
  have hloop : ∀ (states : List Nat) (c : CountryInstance),
      obs (states.foldl (add_state_population precision objects) c) = obs c := by
    intro states
    induction states with
    | nil => intro c; rfl
    | cons st sts ih =>
      intro c
      rw [List.foldl_cons, ih]
      exact hobs _ _ _ _ _ _
  simp only [_update_population]
  split_ifs
  · exact ((hobs _ _ _ _ _ _).trans (hloop _ _)).trans (hobs _ _ _ _ _ _)
  · exact (hloop _ _).trans (hobs _ _ _ _ _ _)

/-- C14. After `update_gamestate` the total score is the sum of the prestige, the industrial
power and the military power of the record after the call. Of these, the industrial power is the
one the production phase of the call computes, the military power the one its military phase
computes, and the prestige the one the record had, which no phase changes. -/
theorem update_gamestate_total_score (precision : Nat) (define_manager : DefineManager)
    (unit_type_manager : UnitTypeManager) (std : StdSort) (country_exists : Nat → Bool)
    (objects : Objects) (s : CountryInstance) :
    (update_gamestate precision define_manager unit_type_manager std country_exists objects
        s).total_score =
        (update_gamestate precision define_manager unit_type_manager std country_exists objects
            s).prestige +
          (update_gamestate precision define_manager unit_type_manager std country_exists objects
            s).industrial_power +
          (update_gamestate precision define_manager unit_type_manager std country_exists objects
            s).military_power ∧
      (update_gamestate precision define_manager unit_type_manager std country_exists objects
        s).prestige = s.prestige ∧
      (update_gamestate precision define_manager unit_type_manager std country_exists objects
        s).industrial_power =
        (_update_production precision define_manager std country_exists objects
          s).industrial_power ∧
      (update_gamestate precision define_manager unit_type_manager std country_exists objects
        s).military_power =
        (_update_military precision define_manager unit_type_manager objects
          (_update_population precision objects
            (_update_production precision define_manager std country_exists objects
              s))).military_power := by
  refine ⟨rfl, ?_, ?_, rfl⟩
  · simp only [update_gamestate, _update_budget, _update_technology, _update_politics,
      _update_trade, _update_diplomacy, _update_military]
    rw [update_population_frame (fun c => c.prestige) (fun _ _ _ _ _ _ => rfl),
      update_production_eq]
    rfl
  · simp only [update_gamestate, _update_budget, _update_technology, _update_politics,
      _update_trade, _update_diplomacy, _update_military]
    rw [update_population_frame (fun c => c.industrial_power) (fun _ _ _ _ _ _ => rfl)]

/-- Witness of C14: the example record is updated; its industrial power becomes 9, whatever it
was before the call, and its total score is the sum of its prestige, that industrial power and
the military power that the call computes. -/
theorem update_gamestate_total_score_witness :
    example_country_at_war.industrial_power = 99 ∧
      (update_gamestate 16 example_define_manager example_unit_type_manager std_insertion_sort
        (fun country => decide (country = 1)) example_objects
        example_country_at_war).industrial_power = fixed_point_t.parse 16 9 ∧
      (update_gamestate 16 example_define_manager example_unit_type_manager std_insertion_sort
        (fun country => decide (country = 1)) example_objects
        example_country_at_war).total_score =
        (update_gamestate 16 example_define_manager example_unit_type_manager
          std_insertion_sort (fun country => decide (country = 1)) example_objects
          example_country_at_war).prestige +
        (update_gamestate 16 example_define_manager example_unit_type_manager
          std_insertion_sort (fun country => decide (country = 1)) example_objects
          example_country_at_war).industrial_power +
        (update_gamestate 16 example_define_manager example_unit_type_manager
          std_insertion_sort (fun country => decide (country = 1)) example_objects
          example_country_at_war).military_power :=
  ⟨by decide, by decide,
    (update_gamestate_total_score 16 example_define_manager example_unit_type_manager
      std_insertion_sort (fun country => decide (country = 1)) example_objects
      example_country_at_war).1⟩

theorem by_second_descending_total (a b : Nat × fixed_point_t) :
    by_second_descending a b = false ∨ by_second_descending b a = false := by
  unfold by_second_descending
  by_cases h : a.2 > b.2
  · right
    simp only [decide_eq_false_iff_not, not_lt]
    exact le_of_lt h
  · left
    simpa using h

theorem by_second_descending_trans (a b c : Nat × fixed_point_t)
    (hab : by_second_descending b a = false) (hbc : by_second_descending c b = false) :
    by_second_descending c a = false := by
  unfold by_second_descending at *
  simp only [decide_eq_false_iff_not, not_lt, gt_iff_lt] at *
  exact le_trans hbc hab

/-- A list sorted by `std::sort` with the comparator of `_update_production` is a rearrangement
of the list that descends in the second components. -/
theorem sort_by_second_descending (std : StdSort) (l : List (Nat × fixed_point_t)) :
    (std.sort by_second_descending l).Perm l ∧
      (std.sort by_second_descending l).Pairwise (fun a b => a.2 ≥ b.2) := by
  refine ⟨std.perm _ l, ?_⟩
  refine (std.sorted by_second_descending l by_second_descending_total
    by_second_descending_trans).imp ?_
  intro a b h
  unfold by_second_descending at h
  simpa using h

/-- C15. After the production phase the industrial power is the sum of the industrial power of
all owned states plus the sum of the contributions of exactly those foreign investments whose
country exists. Every entry of the investment breakdown is for a country that exists, so an
investment in a country that does not exist adds nothing and is not listed. The result does not
depend on the industrial power and the breakdowns the record had before the phase. -/
theorem update_production_industrial_power (precision : Nat) (define_manager : DefineManager)
    (std : StdSort) (country_exists : Nat → Bool) (objects : Objects) (s : CountryInstance) :
    (_update_production precision define_manager std country_exists objects s).industrial_power =
        (s.states.map (fun st => (objects.state st).industrial_power)).sum +
          ((s.foreign_investments.filter (fun i => country_exists i.1)).map
            (fun i => investment_industrial_power precision define_manager i.2)).sum ∧
      (∀ e ∈ (_update_production precision define_manager std country_exists objects
          s).industrial_power_from_investments, country_exists e.1 = true) ∧
      (∀ power from_states from_investments,
        _update_production precision define_manager std country_exists objects
            (s.with_production power from_states from_investments) =
          _update_production precision define_manager std country_exists objects s) := by
  refine ⟨?_, ?_, ?_⟩
  · rw [update_production_eq]
    rfl
  · intro e he
    rw [update_production_eq] at he
    have hmem := ((sort_by_second_descending std _).1.mem_iff).mp he
    rw [List.mem_map] at hmem
    obtain ⟨i, hi, rfl⟩ := hmem
    rw [List.mem_filter, Bool.and_eq_true] at hi
    exact hi.2.1
  · intro power from_states from_investments
    rw [update_production_eq, update_production_eq]
    rfl

/-- Witness of C15: the example record has the states 2, 0 and 1 of industrial power 0, 3 and 5
and invests 100 in country 1, which exists, and 7 in country 2, which does not. Its industrial
power after the phase is 9, not the 99 from before, and the breakdown of the investments lists
country 1 alone. -/
theorem update_production_industrial_power_witness :
    example_country_at_war.industrial_power = 99 ∧
      (_update_production 16 example_define_manager std_insertion_sort
        (fun country => decide (country = 1)) example_objects
        example_country_at_war).industrial_power_from_investments =
          [(1, fixed_point_t.parse 16 1)] ∧
      (_update_production 16 example_define_manager std_insertion_sort
        (fun country => decide (country = 1)) example_objects
        example_country_at_war).industrial_power = fixed_point_t.parse 16 9 ∧
      (_update_production 16 example_define_manager std_insertion_sort
        (fun country => decide (country = 1)) example_objects
        example_country_at_war).industrial_power =
        (example_country_at_war.states.map
          (fun st => (example_objects.state st).industrial_power)).sum +
          ((example_country_at_war.foreign_investments.filter
            (fun i => decide (i.1 = 1))).map
              (fun i => investment_industrial_power 16 example_define_manager i.2)).sum :=
  ⟨by decide, by decide, by decide,
    (update_production_industrial_power 16 example_define_manager std_insertion_sort
      (fun country => decide (country = 1)) example_objects example_country_at_war).1⟩

/-- C16 does not hold as it is worded. With 16 fractional bits, an investment of 100 in a
country that exists and a factor of one, the production phase computes the contribution one,
the fixed-point number 65536 / 65536, while `invested_amount × (factor / 100)` is the
fixed-point number 65500 / 65536: there the factor divided by 100 is truncated before it is
multiplied. -/
theorem investment_industrial_power_not_spec :
    (_update_production 16 example_define_manager std_insertion_sort (fun _ => true)
        example_objects example_investor).industrial_power_from_investments = [(1, 65536)] ∧
      investment_industrial_power 16 example_define_manager (fixed_point_t.parse 16 100) =
        65536 ∧
      investment_industrial_power_spec 16 example_define_manager (fixed_point_t.parse 16 100) =
        65500 ∧
      investment_industrial_power 16 example_define_manager (fixed_point_t.parse 16 100) ≠
        investment_industrial_power_spec 16 example_define_manager
          (fixed_point_t.parse 16 100) := by
  decide

/-- C16 as amended. The contribution of a foreign investment that the production phase computes
is `(invested_amount × factor) / 100`: the fixed-point product of the amount and the factor,
which is the product of the two integers shifted right by the fractional bits, is formed first
and is then divided by the integer 100 with truncation towards zero. Every entry of the
investment breakdown is the contribution of an investment in a country that exists, and every
such investment with a contribution other than zero has its entry. -/
theorem investment_industrial_power_formula (precision : Nat) (define_manager : DefineManager)
    (std : StdSort) (country_exists : Nat → Bool) (objects : Objects) (s : CountryInstance) :
    (∀ money, investment_industrial_power precision define_manager money =
        Int.tdiv ((money * define_manager.country_investment_industrial_score_factor) /
          2 ^ precision) 100) ∧
      (∀ e, e ∈ (_update_production precision define_manager std country_exists objects
          s).industrial_power_from_investments ↔
        ∃ money, (e.1, money) ∈ s.foreign_investments ∧ country_exists e.1 = true ∧
          e.2 = Int.tdiv ((money * define_manager.country_investment_industrial_score_factor) /
            2 ^ precision) 100 ∧ e.2 ≠ 0) := by
  refine ⟨fun _ => rfl, fun e => ?_⟩
  rw [update_production_eq]
  show e ∈ std.sort by_second_descending _ ↔ _
  rw [(sort_by_second_descending std _).1.mem_iff, List.mem_map]
  constructor
  · rintro ⟨i, hi, rfl⟩
    rw [List.mem_filter, Bool.and_eq_true, decide_eq_true_iff] at hi
    exact ⟨i.2, hi.1, hi.2.1, rfl, hi.2.2⟩
  · rintro ⟨money, hmem, hex, hval, hne⟩
    refine ⟨(e.1, money), ?_, ?_⟩
    · rw [List.mem_filter, Bool.and_eq_true, decide_eq_true_iff]
      refine ⟨hmem, hex, ?_⟩
      show investment_industrial_power precision define_manager money ≠ 0
      rw [show investment_industrial_power precision define_manager money = e.2 from hval.symm]
      exact hne
    · exact Prod.ext rfl hval.symm

theorem pairwise_abs_of_nonneg (l : List (Nat × fixed_point_t))
    (hsorted : l.Pairwise (fun a b => a.2 ≥ b.2)) (hnonneg : ∀ e ∈ l, 0 ≤ e.2) :
    l.Pairwise (fun a b => |a.2| ≥ |b.2|) := by
  refine hsorted.imp_of_mem ?_
  intro a b ha hb hab
  rw [abs_of_nonneg (hnonneg a ha), abs_of_nonneg (hnonneg b hb)]
  exact hab

/-- C17. After the production phase the breakdown by states is a rearrangement of the owned
states of industrial power other than zero, each with its industrial power: a state with
industrial power zero has no entry, and when the owned states are distinct no state has two
entries. The breakdown by investments is, in the same way, a rearrangement of the investments in
countries that exist with a contribution other than zero. Both breakdowns descend in the
contribution, and so in its magnitude when no contribution is negative. -/
theorem update_production_breakdowns (precision : Nat) (define_manager : DefineManager)
    (std : StdSort) (country_exists : Nat → Bool) (objects : Objects) (s : CountryInstance) :
    ((_update_production precision define_manager std country_exists objects
          s).industrial_power_from_states.Perm
        ((s.states.filter (fun st => decide ((objects.state st).industrial_power ≠ 0))).map
          (fun st => (st, (objects.state st).industrial_power))) ∧
      (s.states.Nodup →
        ((_update_production precision define_manager std country_exists objects
          s).industrial_power_from_states.map Prod.fst).Nodup) ∧
      (_update_production precision define_manager std country_exists objects
          s).industrial_power_from_states.Pairwise (fun a b => a.2 ≥ b.2) ∧
      ((∀ st ∈ s.states, 0 ≤ (objects.state st).industrial_power) →
        (_update_production precision define_manager std country_exists objects
          s).industrial_power_from_states.Pairwise (fun a b => |a.2| ≥ |b.2|))) ∧
      ((_update_production precision define_manager std country_exists objects
          s).industrial_power_from_investments.Perm
        ((s.foreign_investments.filter (fun i => country_exists i.1 &&
            decide (investment_industrial_power precision define_manager i.2 ≠ 0))).map
          (fun i => (i.1, investment_industrial_power precision define_manager i.2))) ∧
      ((s.foreign_investments.map Prod.fst).Nodup →
        ((_update_production precision define_manager std country_exists objects
          s).industrial_power_from_investments.map Prod.fst).Nodup) ∧
      (_update_production precision define_manager std country_exists objects
          s).industrial_power_from_investments.Pairwise (fun a b => a.2 ≥ b.2) ∧
      ((∀ i ∈ s.foreign_investments,
          0 ≤ investment_industrial_power precision define_manager i.2) →
        (_update_production precision define_manager std country_exists objects
          s).industrial_power_from_investments.Pairwise (fun a b => |a.2| ≥ |b.2|))) := by
  rw [update_production_eq]
  simp only [with_production]
  obtain ⟨hp1, hs1⟩ := sort_by_second_descending std
    ((s.states.filter (fun st => decide ((objects.state st).industrial_power ≠ 0))).map
      (fun st => (st, (objects.state st).industrial_power)))
  obtain ⟨hp2, hs2⟩ := sort_by_second_descending std
    ((s.foreign_investments.filter (fun i => country_exists i.1 &&
        decide (investment_industrial_power precision define_manager i.2 ≠ 0))).map
      (fun i => (i.1, investment_industrial_power precision define_manager i.2)))
  refine ⟨⟨hp1, fun hnd => ?_, hs1, fun hnonneg => ?_⟩,
    ⟨hp2, fun hnd => ?_, hs2, fun hnonneg => ?_⟩⟩
  · rw [(hp1.map Prod.fst).nodup_iff, List.map_map]
    exact (hnd.filter _).map_on (fun _ _ _ _ h => h)
  · refine pairwise_abs_of_nonneg _ hs1 (fun e he => ?_)
    obtain ⟨st, hst, rfl⟩ := List.mem_map.mp (hp1.mem_iff.mp he)
    exact hnonneg st (List.mem_filter.mp hst).1
  · rw [(hp2.map Prod.fst).nodup_iff, List.map_map]
    have hsub : ((s.foreign_investments.filter (fun i => country_exists i.1 &&
        decide (investment_industrial_power precision define_manager i.2 ≠ 0))).map
          Prod.fst).Sublist (s.foreign_investments.map Prod.fst) :=
      (List.filter_sublist _).map _
    exact hsub.nodup hnd
  · refine pairwise_abs_of_nonneg _ hs2 (fun e he => ?_)
    obtain ⟨i, hi, rfl⟩ := List.mem_map.mp (hp2.mem_iff.mp he)
    exact hnonneg i (List.mem_filter.mp hi).1

/-- Witness of C17: in the example the state of industrial power 0 has no entry, the state of
industrial power 5 is listed before the state of industrial power 3, and the investment in the
country that does not exist has no entry. No state has a negative industrial power, so the
breakdown by states descends in the magnitude of the contribution. -/
theorem update_production_breakdowns_witness :
    example_country_at_war.states = [2, 0, 1] ∧
      (_update_production 16 example_define_manager std_insertion_sort
        (fun country => decide (country = 1)) example_objects
        example_country_at_war).industrial_power_from_states =
          [(1, fixed_point_t.parse 16 5), (0, fixed_point_t.parse 16 3)] ∧
      (_update_production 16 example_define_manager std_insertion_sort
        (fun country => decide (country = 1)) example_objects
        example_country_at_war).industrial_power_from_investments =
          [(1, fixed_point_t.parse 16 1)] ∧
      (_update_production 16 example_define_manager std_insertion_sort
        (fun country => decide (country = 1)) example_objects
        example_country_at_war).industrial_power_from_states.Pairwise
          (fun a b => |a.2| ≥ |b.2|) :=
  ⟨by decide, by decide, by decide,
    (update_production_breakdowns 16 example_define_manager std_insertion_sort
      (fun country => decide (country = 1)) example_objects example_country_at_war).1.2.2.2
      (by decide)⟩

/-! ## C18: the population phase -/

/-- The loop over the states of `_update_population`: what it adds to the total population and to
the three national sums. -/
theorem population_loop (precision : Nat) (objects : Objects) (states : List Nat)
    (c : CountryInstance) :
    (states.foldl (add_state_population precision objects) c).total_population =
        c.total_population + (states.map (fun st => (objects.state st).total_population)).sum ∧
      (states.foldl (add_state_population precision objects) c).national_literacy =
        c.national_literacy + (states.map (fun st =>
          fixed_point_t.mul precision (objects.state st).average_literacy
            (fixed_point_t.parse precision (objects.state st).total_population))).sum ∧
      (states.foldl (add_state_population precision objects) c).national_consciousness =
        c.national_consciousness + (states.map (fun st =>
          fixed_point_t.mul precision (objects.state st).average_consciousness
            (fixed_point_t.parse precision (objects.state st).total_population))).sum ∧
      (states.foldl (add_state_population precision objects) c).national_militancy =
        c.national_militancy + (states.map (fun st =>
          fixed_point_t.mul precision (objects.state st).average_militancy
            (fixed_point_t.parse precision (objects.state st).total_population))).sum := by
  induction states generalizing c with
  | nil => simp
  | cons st sts ih =>
    obtain ⟨h1, h2, h3, h4⟩ := ih (add_state_population precision objects c st)
    rw [List.foldl_cons, h1, h2, h3, h4]
    simp only [add_state_population, List.map_cons, List.sum_cons, add_assoc, and_self]

theorem mul_parse_zero (precision : Nat) (x : fixed_point_t) :
    fixed_point_t.mul precision x (fixed_point_t.parse precision ((0 : Nat) : Int)) = 0 := by
  simp [fixed_point_t.mul, fixed_point_t.parse]

/-- When the populations of the states add up to zero, every weighted sum over the states is
zero. -/
theorem weighted_sum_zero (precision : Nat) (objects : Objects) (states : List Nat)
    (average : State → fixed_point_t)
    (h : (states.map (fun st => (objects.state st).total_population)).sum = 0) :
    (states.map (fun st => fixed_point_t.mul precision (average (objects.state st))
      (fixed_point_t.parse precision (objects.state st).total_population))).sum = 0 := by
  apply List.sum_eq_zero
  intro x hx
  obtain ⟨st, hst, rfl⟩ := List.mem_map.mp hx
  have h0 : (objects.state st).total_population = 0 :=
    List.sum_eq_zero_iff.mp h _ (List.mem_map.mpr ⟨st, hst, rfl⟩)
  rw [h0]
  exact mul_parse_zero precision _

/-- C18. After the population phase the total population is the sum of the populations of the
owned states. When it is greater than zero, each of the national literacy, consciousness and
militancy is the sum over the owned states of the state's average times the state's population,
divided by the total population; when it is zero, and so when there is no owned state, each of
them is zero, and that without a division. -/
theorem update_population_averages (precision : Nat) (objects : Objects) (s : CountryInstance) :
    (_update_population precision objects s).total_population =
        (s.states.map (fun st => (objects.state st).total_population)).sum ∧
      (0 < (_update_population precision objects s).total_population →
        (_update_population precision objects s).national_literacy =
            Int.tdiv (s.states.map (fun st =>
              fixed_point_t.mul precision (objects.state st).average_literacy
                (fixed_point_t.parse precision (objects.state st).total_population))).sum
              (_update_population precision objects s).total_population ∧
          (_update_population precision objects s).national_consciousness =
            Int.tdiv (s.states.map (fun st =>
              fixed_point_t.mul precision (objects.state st).average_consciousness
                (fixed_point_t.parse precision (objects.state st).total_population))).sum
              (_update_population precision objects s).total_population ∧
          (_update_population precision objects s).national_militancy =
            Int.tdiv (s.states.map (fun st =>
              fixed_point_t.mul precision (objects.state st).average_militancy
                (fixed_point_t.parse precision (objects.state st).total_population))).sum
              (_update_population precision objects s).total_population) ∧
      ((_update_population precision objects s).total_population = 0 →
        (_update_population precision objects s).national_literacy = 0 ∧
          (_update_population precision objects s).national_consciousness = 0 ∧
          (_update_population precision objects s).national_militancy = 0 ∧
          _update_population precision objects s =
            s.states.foldl (add_state_population precision objects)
              { s with
                total_population := 0
                national_literacy := 0
                national_consciousness := 0
                national_militancy := 0
                pop_type_distribution := indexed_map_clear s.pop_type_distribution }) ∧
      (s.states = [] →
        (_update_population precision objects s).total_population = 0) := by
  obtain ⟨h1, h2, h3, h4⟩ := population_loop precision objects s.states
    { s with
      total_population := 0
      national_literacy := 0
      national_consciousness := 0
      national_militancy := 0
      pop_type_distribution := indexed_map_clear s.pop_type_distribution }
  simp only [zero_add] at h1 h2 h3 h4
  have htotal : (_update_population precision objects s).total_population =
      (s.states.map (fun st => (objects.state st).total_population)).sum := by
    simp only [_update_population]
    split_ifs <;> exact h1
  refine ⟨htotal, ?_, ?_, ?_⟩
  · intro hpos
    rw [htotal] at hpos ⊢
    simp only [_update_population]
    rw [if_pos (by rw [h1]; exact hpos)]
    simp only [fixed_point_t.div_int, h1, h2, h3, h4, and_self]
  · intro hzero
    rw [htotal] at hzero
    simp only [_update_population]
    rw [if_neg (by rw [h1, hzero]; exact lt_irrefl 0)]
    refine ⟨?_, ?_, ?_, rfl⟩
    · rw [h2]
      exact weighted_sum_zero precision objects s.states (fun st => st.average_literacy) hzero
    · rw [h3]
      exact weighted_sum_zero precision objects s.states (fun st => st.average_consciousness)
        hzero
    · rw [h4]
      exact weighted_sum_zero precision objects s.states (fun st => st.average_militancy) hzero
  · intro hnil
    rw [htotal, hnil]
    rfl

/-- Witness of C18: the example record owns an empty state, a state of 1000 inhabitants of
literacy one half and a state of 3000 inhabitants of literacy one; its total population is 4000
and its literacy seven eighths, and a record that owns the empty state alone has literacy 0. -/
theorem update_population_averages_witness :
    (_update_population 16 example_objects example_country_at_war).total_population = 4000 ∧
      (_update_population 16 example_objects example_country_at_war).national_literacy =
        57344 ∧
      (_update_population 16 example_objects
        { example_country with states := [2], national_literacy := 5 }).total_population = 0 ∧
      (_update_population 16 example_objects
        { example_country with states := [2], national_literacy := 5 }).national_literacy = 0 :=
  ⟨by decide, by decide, by decide,
    ((update_population_averages 16 example_objects
      { example_country with states := [2], national_literacy := 5 }).2.2.1 (by decide)).1⟩

/-! ## C19, C20: the military phase -/

theorem count_non_mobilised (units : List RegimentInstance) (count : Nat) :
    units.foldl (fun count regiment => if !regiment.mobilised then count + 1 else count) count =
      count + (units.filter (fun regiment => !regiment.mobilised)).length := by
  induction units generalizing count with
  | nil => rfl
  | cons r rs ih =>
    rw [List.foldl_cons, ih]
    cases hr : r.mobilised
    · simp [hr, List.filter_cons]
      omega
    · simp [hr, List.filter_cons]

/-- The number of deployed regiments that are not mobilised, as a sum over the armies. -/
theorem deployed_non_mobilised_regiments_eq (objects : Objects) (s : CountryInstance) :
    deployed_non_mobilised_regiments objects s =
      (s.armies.map (fun army =>
        ((objects.army army).units.filter (fun regiment => !regiment.mobilised)).length)).sum := by
  unfold deployed_non_mobilised_regiments
  simp only [count_non_mobilised]
  rw [foldl_add_nat, zero_add]

/-- The sum of the statistics of the regiment types, as a sum over the regiment types. -/
theorem sum_of_regiment_type_stats_eq (precision : Nat) (unit_type_manager : UnitTypeManager) :
    sum_of_regiment_type_stats precision unit_type_manager =
      (unit_type_manager.regiment_types.map (fun regiment_type =>
        fixed_point_t.mul precision (regiment_type.attack + regiment_type.defence)
          regiment_type.discipline)).sum := by
  unfold sum_of_regiment_type_stats
  rw [foldl_add_int, zero_add]

theorem capital_ships_loop (precision : Nat) (units : List ShipInstance)
    (power : fixed_point_t) :
    units.foldl
        (fun power ship =>
          if ship.unit_type.capital then
            power + fixed_point_t.mul precision ship.unit_type.gun_power ship.unit_type.hull
          else power) power =
      power + ((units.filter (fun ship => ship.unit_type.capital)).map (fun ship =>
        fixed_point_t.mul precision ship.unit_type.gun_power ship.unit_type.hull)).sum := by
  induction units generalizing power with
  | nil => simp
  | cons u us ih =>
    rw [List.foldl_cons, ih]
    cases hu : u.unit_type.capital <;> simp [hu, List.filter_cons, add_assoc]

/-- The power of the capital ships, as a sum over the navies and their capital ships. -/
theorem capital_ship_power_eq (precision : Nat) (objects : Objects) (s : CountryInstance) :
    capital_ship_power precision objects s =
      (s.navies.map (fun navy =>
        (((objects.navy navy).units.filter (fun ship => ship.unit_type.capital)).map
          (fun ship => fixed_point_t.mul precision ship.unit_type.gun_power
            ship.unit_type.hull)).sum)).sum := by
  unfold capital_ship_power
  simp only [capital_ships_loop]
  rw [foldl_add_int, zero_add]

/-- C19. After the military phase the military power from land is
`supply_consumption × min(4 × deployed_non_mobilised_regiments, max_supported_regiments) ×
sum_of_regiment_type_stats / (7 × (1 + regiment_type_count))`, multiplied by the disarmament
penalty when the country is disarmed, with the products and the quotient those of the
fixed-point numbers, taken from left to right. In it the supply consumption is the one the phase
stores, which is one, the deployed regiments that are not mobilised are counted over all armies,
the supported regiments are summed over the owned states, and the sum of the statistics is the
sum over all regiment types of `(attack + defence) × discipline`. -/
theorem update_military_land_power (precision : Nat) (define_manager : DefineManager)
    (unit_type_manager : UnitTypeManager) (objects : Objects) (s : CountryInstance) :
    (_update_military precision define_manager unit_type_manager objects
        s).military_power_from_land =
        (if s.disarmed then
          fixed_point_t.mul precision
            (fixed_point_t.div precision
              (fixed_point_t.mul precision
                (fixed_point_t.mul precision
                  (_update_military precision define_manager unit_type_manager objects
                    s).supply_consumption
                  (fixed_point_t.parse precision
                    (min (4 * deployed_non_mobilised_regiments objects s)
                      (_update_military precision define_manager unit_type_manager objects
                        s).max_supported_regiment_count)))
                (sum_of_regiment_type_stats precision unit_type_manager))
              (fixed_point_t.parse precision
                (7 * (1 + unit_type_manager.regiment_types.length))))
            define_manager.disarmed_penalty
        else
          fixed_point_t.div precision
            (fixed_point_t.mul precision
              (fixed_point_t.mul precision
                (_update_military precision define_manager unit_type_manager objects
                  s).supply_consumption
                (fixed_point_t.parse precision
                  (min (4 * deployed_non_mobilised_regiments objects s)
                    (_update_military precision define_manager unit_type_manager objects
                      s).max_supported_regiment_count)))
              (sum_of_regiment_type_stats precision unit_type_manager))
            (fixed_point_t.parse precision
              (7 * (1 + unit_type_manager.regiment_types.length)))) ∧
      (_update_military precision define_manager unit_type_manager objects
        s).supply_consumption = fixed_point_t.parse precision 1 ∧
      deployed_non_mobilised_regiments objects s =
        (s.armies.map (fun army =>
          ((objects.army army).units.filter
            (fun regiment => !regiment.mobilised)).length)).sum ∧
      (_update_military precision define_manager unit_type_manager objects
        s).max_supported_regiment_count =
        (s.states.map (fun st => (objects.state st).max_supported_regiments)).sum ∧
      sum_of_regiment_type_stats precision unit_type_manager =
        (unit_type_manager.regiment_types.map (fun regiment_type =>
          fixed_point_t.mul precision (regiment_type.attack + regiment_type.defence)
            regiment_type.discipline)).sum := by
  refine ⟨?_, rfl, deployed_non_mobilised_regiments_eq objects s, ?_,
    sum_of_regiment_type_stats_eq precision unit_type_manager⟩
  · simp only [_update_military]
    split_ifs <;> simp only [Nat.cast_min, Nat.cast_mul, Nat.cast_add, Nat.cast_ofNat,
      Nat.cast_one]
  · simp only [_update_military]
    rw [foldl_add_nat, zero_add]

/-- Witness of C19: the example record has one army of ten regiments that are not mobilised
and states that support 50 regiments. The size of the regular army is 40, the sum of the
statistics of the two regiment types is 9, and the military power from land is
`1 × 40 × 9 / (7 × 3)`, the fixed-point number 1123474 / 65536. -/
theorem update_military_land_power_witness :
    deployed_non_mobilised_regiments example_objects example_country_at_war = 10 ∧
      (_update_military 16 example_define_manager example_unit_type_manager example_objects
        example_country_at_war).max_supported_regiment_count = 50 ∧
      min (4 * deployed_non_mobilised_regiments example_objects example_country_at_war)
        (_update_military 16 example_define_manager example_unit_type_manager example_objects
          example_country_at_war).max_supported_regiment_count = 40 ∧
      sum_of_regiment_type_stats 16 example_unit_type_manager = fixed_point_t.parse 16 9 ∧
      (_update_military 16 example_define_manager example_unit_type_manager example_objects
        example_country_at_war).military_power_from_land = 1123474 ∧
      Int.tdiv (fixed_point_t.parse 16 (1 * 40 * 9) * 2 ^ 16) (fixed_point_t.parse 16 (7 * 3)) =
        1123474 ∧
      (_update_military 16 example_define_manager example_unit_type_manager example_objects
        example_country_at_war).supply_consumption = fixed_point_t.parse 16 1 :=
  ⟨by decide, by decide, by decide, by decide, by decide, by decide,
    (update_military_land_power 16 example_define_manager example_unit_type_manager
      example_objects example_country_at_war).2.1⟩

/-- C20. After the military phase the military power is the sum of the military power from
land, from sea and from leaders. The military power from sea is the sum of `gun_power × hull`
over the capital ships of the navies of the country, divided by 250; a ship that is no capital
ship adds nothing. The military power from leaders is the smaller of the number of generals and
admirals and the number of deployed regiments that are not mobilised. -/
theorem update_military_power (precision : Nat) (define_manager : DefineManager)
    (unit_type_manager : UnitTypeManager) (objects : Objects) (s : CountryInstance) :
    (_update_military precision define_manager unit_type_manager objects s).military_power =
        (_update_military precision define_manager unit_type_manager objects
            s).military_power_from_land +
          (_update_military precision define_manager unit_type_manager objects
            s).military_power_from_sea +
          (_update_military precision define_manager unit_type_manager objects
            s).military_power_from_leaders ∧
      (_update_military precision define_manager unit_type_manager objects
        s).military_power_from_sea =
        Int.tdiv (s.navies.map (fun navy =>
          (((objects.navy navy).units.filter (fun ship => ship.unit_type.capital)).map
            (fun ship => fixed_point_t.mul precision ship.unit_type.gun_power
              ship.unit_type.hull)).sum)).sum 250 ∧
      (_update_military precision define_manager unit_type_manager objects
        s).military_power_from_leaders =
        fixed_point_t.parse precision
          (min (s.generals.length + s.admirals.length)
            (s.armies.map (fun army =>
              ((objects.army army).units.filter
                (fun regiment => !regiment.mobilised)).length)).sum : Nat) := by
  refine ⟨rfl, ?_, ?_⟩
  · simp only [_update_military, fixed_point_t.div_int, capital_ship_power_eq]
  · simp only [_update_military, deployed_non_mobilised_regiments_eq, Nat.cast_min, Nat.cast_add]

/-- Witness of C20: the example record has a navy with a capital ship of gun power 10 and hull
50 and a ship of gun power 20 and hull 20 that is no capital ship, and one general. Its military
power from sea is `10 × 50 / 250 = 2`, its military power from leaders is 1, and its military
power is the sum of these and the military power from land. -/
theorem update_military_power_witness :
    (_update_military 16 example_define_manager example_unit_type_manager example_objects
        example_country_at_war).military_power_from_sea = fixed_point_t.parse 16 2 ∧
      (_update_military 16 example_define_manager example_unit_type_manager example_objects
        example_country_at_war).military_power_from_leaders = fixed_point_t.parse 16 1 ∧
      (_update_military 16 example_define_manager example_unit_type_manager example_objects
        example_country_at_war).military_power = 1123474 + 131072 + 65536 ∧
      (_update_military 16 example_define_manager example_unit_type_manager example_objects
        example_country_at_war).military_power =
        (_update_military 16 example_define_manager example_unit_type_manager example_objects
          example_country_at_war).military_power_from_land +
        (_update_military 16 example_define_manager example_unit_type_manager example_objects
          example_country_at_war).military_power_from_sea +
        (_update_military 16 example_define_manager example_unit_type_manager example_objects
          example_country_at_war).military_power_from_leaders :=
  ⟨by decide, by decide, by decide,
    (update_military_power 16 example_define_manager example_unit_type_manager
      example_objects example_country_at_war).1⟩

/-! ## The country manager: writes through pointers -/

namespace CountryInstanceManager

theorem modify_country_country_instances (m : CountryInstanceManager) (country : Nat)
    (write : CountryInstance → CountryInstance) (other : Nat) :
    (m.modify_country country write).country_instances other =
      if other = country then write (m.country_instances country)
      else m.country_instances other := rfl

theorem modify_country_self (m : CountryInstanceManager) (country : Nat)
    (write : CountryInstance → CountryInstance) :
    (m.modify_country country write).country_instances country =
      write (m.country_instances country) := by
  rw [modify_country_country_instances, if_pos rfl]

theorem modify_country_other (m : CountryInstanceManager) (country : Nat)
    (write : CountryInstance → CountryInstance) (other : Nat) (h : other ≠ country) :
    (m.modify_country country write).country_instances other = m.country_instances other := by
  rw [modify_country_country_instances, if_neg h]

/-- A write that an observation does not see leaves the observation of every country as it
is. -/
theorem modify_country_frame {α : Type} (obs : CountryInstance → α)
    (m : CountryInstanceManager) (country : Nat) (write : CountryInstance → CountryInstance)
    (hobs : ∀ c, obs (write c) = obs c) (other : Nat) :
    obs ((m.modify_country country write).country_instances other) =
      obs (m.country_instances other) := by
  rw [modify_country_country_instances]
  split_ifs with h
  · rw [hobs, h]
  · rfl

end CountryInstanceManager

/-! ## C21: the colour and the flag of a country -/

/-- The phases of `update_gamestate` leave the country definition, the government type and the
flag overrides of the record as they are. -/
theorem update_gamestate_government (precision : Nat) (define_manager : DefineManager)
    (unit_type_manager : UnitTypeManager) (std : StdSort) (country_exists : Nat → Bool)
    (objects : Objects) (s : CountryInstance) :
    (update_gamestate precision define_manager unit_type_manager std country_exists objects
        s).country_definition = s.country_definition ∧
      (update_gamestate precision define_manager unit_type_manager std country_exists objects
        s).government_type = s.government_type ∧
      (update_gamestate precision define_manager unit_type_manager std country_exists objects
        s).government_flag_overrides = s.government_flag_overrides := by
  refine ⟨?_, ?_, ?_⟩
  · simp only [update_gamestate, _update_budget, _update_technology, _update_politics,
      _update_trade, _update_diplomacy, _update_military]
    rw [update_population_frame (fun c => c.country_definition) (fun _ _ _ _ _ _ => rfl),
      update_production_eq]
    rfl
  · simp only [update_gamestate, _update_budget, _update_technology, _update_politics,
      _update_trade, _update_diplomacy, _update_military]
    rw [update_population_frame (fun c => c.government_type) (fun _ _ _ _ _ _ => rfl),
      update_production_eq]
    rfl
  · simp only [update_gamestate, _update_budget, _update_technology, _update_politics,
      _update_trade, _update_diplomacy, _update_military]
    rw [update_population_frame (fun c => c.government_flag_overrides)
      (fun _ _ _ _ _ _ => rfl), update_production_eq]
    rfl

/-- The colour and the flag government type after `update_gamestate` are those that
`gamestate_colour` and `gamestate_flag_government_type` compute from the record before it. -/
theorem update_gamestate_colour_flag (precision : Nat) (define_manager : DefineManager)
    (unit_type_manager : UnitTypeManager) (std : StdSort) (country_exists : Nat → Bool)
    (objects : Objects) (s : CountryInstance) :
    (update_gamestate precision define_manager unit_type_manager std country_exists objects
        s).colour = gamestate_colour s ∧
      (update_gamestate precision define_manager unit_type_manager std country_exists objects
        s).flag_government_type = gamestate_flag_government_type s := by
  refine ⟨?_, ?_⟩
  · simp only [update_gamestate, _update_budget, _update_technology, _update_politics,
      _update_trade, _update_diplomacy, _update_military, gamestate_colour]
    rw [update_population_frame (fun c => c.country_definition) (fun _ _ _ _ _ _ => rfl),
      update_population_frame (fun c => c.government_type) (fun _ _ _ _ _ _ => rfl),
      update_production_eq]
    rfl
  · simp only [update_gamestate, _update_budget, _update_technology, _update_politics,
      _update_trade, _update_diplomacy, _update_military, gamestate_flag_government_type]
    rw [update_population_frame (fun c => c.government_type) (fun _ _ _ _ _ _ => rfl),
      update_population_frame (fun c => c.government_flag_overrides)
        (fun _ _ _ _ _ _ => rfl), update_production_eq]
    rfl

/-- C21. `update_gamestate` leaves the country definition and the government type as they are
and, for a record with a country definition, stores as colour the colour that the definition
has for the government type when it has one, and else the colour of the definition. As flag
government type it stores the override of the government type when one is set, else the
government type itself, and none when the record has no government type. The call has a result
in each of these cases; without a country definition the colour is `ERROR_COLOUR`. -/
theorem update_gamestate_presentation (precision : Nat) (define_manager : DefineManager)
    (unit_type_manager : UnitTypeManager) (std : StdSort) (country_exists : Nat → Bool)
    (objects : Objects) (s : CountryInstance) :
    ((update_gamestate precision define_manager unit_type_manager std country_exists objects
        s).country_definition = s.country_definition ∧
      (update_gamestate precision define_manager unit_type_manager std country_exists objects
        s).government_type = s.government_type) ∧
      (∀ definition, s.country_definition = some definition →
        (∀ government alternative, s.government_type = some government →
          definition.alternative_colours.lookup government = some alternative →
          (update_gamestate precision define_manager unit_type_manager std country_exists
            objects s).colour = alternative) ∧
        ((∀ government, s.government_type = some government →
            definition.alternative_colours.lookup government = none) →
          (update_gamestate precision define_manager unit_type_manager std country_exists
            objects s).colour = definition.colour)) ∧
      (s.country_definition = none →
        (update_gamestate precision define_manager unit_type_manager std country_exists
          objects s).colour = ERROR_COLOUR) ∧
      (∀ government, s.government_type = some government →
        (∀ flag, s.government_flag_overrides.getD government none = some flag →
          (update_gamestate precision define_manager unit_type_manager std country_exists
            objects s).flag_government_type = some flag) ∧
        (s.government_flag_overrides.getD government none = none →
          (update_gamestate precision define_manager unit_type_manager std country_exists
            objects s).flag_government_type = some government)) ∧
      (s.government_type = none →
        (update_gamestate precision define_manager unit_type_manager std country_exists
          objects s).flag_government_type = none) := by
  obtain ⟨hdefinition, hgovernment, _⟩ := update_gamestate_government precision define_manager
    unit_type_manager std country_exists objects s
  obtain ⟨hcolour, hflag⟩ := update_gamestate_colour_flag precision define_manager
    unit_type_manager std country_exists objects s
  rw [hcolour, hflag]
  refine ⟨⟨hdefinition, hgovernment⟩, fun definition hd => ⟨fun government alternative hg ha => ?_,
    fun hnone => ?_⟩, fun hd => ?_, fun government hg => ⟨fun flag hf => ?_, fun hf => ?_⟩,
    fun hg => ?_⟩
  · simp [gamestate_colour, hd, hg, ha]
  · cases hg : s.government_type with
    | none => simp [gamestate_colour, hd, hg]
    | some government => simp [gamestate_colour, hd, hg, hnone government hg]
  · simp [gamestate_colour, hd]
  · simp only [gamestate_flag_government_type, hg, hf]
  · simp only [gamestate_flag_government_type, hg, hf]
  · simp [gamestate_flag_government_type, hg]

/-! ## The country manager: the rankings -/

namespace CountryInstanceManager

/-- A round of the rank loop leaves the lists of the manager as they are. -/
theorem assign_rank_lists (m : CountryInstanceManager) (index : Nat) :
    (m.assign_rank index).total_ranking = m.total_ranking ∧
      (m.assign_rank index).prestige_ranking = m.prestige_ranking ∧
      (m.assign_rank index).industrial_power_ranking = m.industrial_power_ranking ∧
      (m.assign_rank index).military_power_ranking = m.military_power_ranking ∧
      (m.assign_rank index).great_powers = m.great_powers ∧
      (m.assign_rank index).secondary_powers = m.secondary_powers ∧
      (m.assign_rank index).country_instance_count = m.country_instance_count :=
  ⟨rfl, rfl, rfl, rfl, rfl, rfl, rfl⟩

/-- A round of the rank loop changes nothing of a country but its four ranks. -/
theorem assign_rank_frame {α : Type} (obs : CountryInstance → α)
    (htotal : ∀ (c : CountryInstance) r, obs { c with total_rank := r } = obs c)
    (hprestige : ∀ (c : CountryInstance) r, obs { c with prestige_rank := r } = obs c)
    (hindustrial : ∀ (c : CountryInstance) r, obs { c with industrial_rank := r } = obs c)
    (hmilitary : ∀ (c : CountryInstance) r, obs { c with military_rank := r } = obs c)
    (m : CountryInstanceManager) (index : Nat) (country : Nat) :
    obs ((m.assign_rank index).country_instances country) =
      obs (m.country_instances country) := by
  unfold assign_rank
  refine (modify_country_frame obs _ _ _ ?_ _).trans
    ((modify_country_frame obs _ _ _ ?_ _).trans
      ((modify_country_frame obs _ _ _ ?_ _).trans
        (modify_country_frame obs _ _ _ ?_ _)))
  · exact fun c => hmilitary c _
  · exact fun c => hindustrial c _
  · exact fun c => hprestige c _
  · exact fun c => htotal c _

theorem assign_rank_total_rank (m : CountryInstanceManager) (index : Nat) (country : Nat) :
    ((m.assign_rank index).country_instances country).total_rank =
      if country = m.total_ranking.getD index 0 then index + 1
      else (m.country_instances country).total_rank := by
  unfold assign_rank
  refine Eq.trans (modify_country_frame (fun c => c.total_rank) _ _ _ (by intro _; rfl) _)
    (Eq.trans (modify_country_frame (fun c => c.total_rank) _ _ _ (by intro _; rfl) _)
    (Eq.trans (modify_country_frame (fun c => c.total_rank) _ _ _ (by intro _; rfl) _)
    (?_)))
  by_cases h : country = m.total_ranking.getD index 0
  · rw [if_pos h, h]
    exact congrArg (fun c => c.total_rank) (modify_country_self _ _ _)
  · rw [if_neg h]
    exact congrArg (fun c => c.total_rank) (modify_country_other _ _ _ _ h)

theorem assign_rank_prestige_rank (m : CountryInstanceManager) (index : Nat) (country : Nat) :
    ((m.assign_rank index).country_instances country).prestige_rank =
      if country = m.prestige_ranking.getD index 0 then index + 1
      else (m.country_instances country).prestige_rank := by
  unfold assign_rank
  refine Eq.trans (modify_country_frame (fun c => c.prestige_rank) _ _ _ (by intro _; rfl) _)
    (Eq.trans (modify_country_frame (fun c => c.prestige_rank) _ _ _ (by intro _; rfl) _)
    (?_))
  by_cases h : country = m.prestige_ranking.getD index 0
  · rw [if_pos h, h]
    exact congrArg (fun c => c.prestige_rank) (modify_country_self _ _ _)
  · rw [if_neg h]
    refine Eq.trans (congrArg (fun c => c.prestige_rank) (modify_country_other _ _ _ _ h)) ?_
    exact (modify_country_frame (fun c => c.prestige_rank) _ _ _ (by intro _; rfl) _)

theorem assign_rank_industrial_rank (m : CountryInstanceManager) (index : Nat) (country : Nat) :
    ((m.assign_rank index).country_instances country).industrial_rank =
      if country = m.industrial_power_ranking.getD index 0 then index + 1
      else (m.country_instances country).industrial_rank := by
  unfold assign_rank
  refine Eq.trans (modify_country_frame (fun c => c.industrial_rank) _ _ _ (by intro _; rfl) _)
    (?_)
  by_cases h : country = m.industrial_power_ranking.getD index 0
  · rw [if_pos h, h]
    exact congrArg (fun c => c.industrial_rank) (modify_country_self _ _ _)
  · rw [if_neg h]
    refine Eq.trans (congrArg (fun c => c.industrial_rank) (modify_country_other _ _ _ _ h)) ?_
    exact Eq.trans (modify_country_frame (fun c => c.industrial_rank) _ _ _ (by intro _; rfl) _)
      ((modify_country_frame (fun c => c.industrial_rank) _ _ _ (by intro _; rfl) _))

theorem assign_rank_military_rank (m : CountryInstanceManager) (index : Nat) (country : Nat) :
    ((m.assign_rank index).country_instances country).military_rank =
      if country = m.military_power_ranking.getD index 0 then index + 1
      else (m.country_instances country).military_rank := by
  unfold assign_rank
  show ((CountryInstanceManager.modify_country _ _ _).country_instances country).military_rank = _
  by_cases h : country = m.military_power_ranking.getD index 0
  · rw [if_pos h, h]
    exact congrArg (fun c => c.military_rank) (modify_country_self _ _ _)
  · rw [if_neg h]
    refine Eq.trans (congrArg (fun c => c.military_rank) (modify_country_other _ _ _ _ h)) ?_
    exact Eq.trans (modify_country_frame (fun c => c.military_rank) _ _ _ (by intro _; rfl) _)
      (Eq.trans (modify_country_frame (fun c => c.military_rank) _ _ _ (by intro _; rfl) _)
      ((modify_country_frame (fun c => c.military_rank) _ _ _ (by intro _; rfl) _)))

/-- The rank loop, for one of the four rankings and its rank: after `n` rounds the country at
a position below `n` has the position plus one as rank, and a country at no such position has
the rank it had. -/
theorem assign_ranks_rank (rank : CountryInstance → Nat)
    (ranking : CountryInstanceManager → List Nat)
    (hranking : ∀ m index, ranking (assign_rank m index) = ranking m)
    (hrank : ∀ m index country, rank ((assign_rank m index).country_instances country) =
      if country = (ranking m).getD index 0 then index + 1
      else rank (m.country_instances country))
    (m : CountryInstanceManager) (hnodup : (ranking m).Nodup) (n : Nat)
    (hn : n ≤ (ranking m).length) :
    ranking ((List.range n).foldl assign_rank m) = ranking m ∧
      (∀ index country, index < n → (ranking m)[index]? = some country →
        rank (((List.range n).foldl assign_rank m).country_instances country) = index + 1) ∧
      (∀ country, (∀ index, index < n → (ranking m)[index]? ≠ some country) →
        rank (((List.range n).foldl assign_rank m).country_instances country) =
          rank (m.country_instances country)) := by
  induction n with
  | zero =>
    refine ⟨rfl, fun index country h => absurd h (Nat.not_lt_zero index), fun _ _ => rfl⟩
  | succ n ih =>
    obtain ⟨h1, h2, h3⟩ := ih (Nat.le_of_succ_le hn)
    have hlt : n < (ranking m).length := hn
    rw [List.range_succ, List.foldl_append, List.foldl_cons, List.foldl_nil]
    refine ⟨by rw [hranking, h1], fun index country hindex hcountry => ?_, fun country hnot => ?_⟩
    · rw [hrank, h1, List.getD_eq_getElem?_getD]
      by_cases hlast : index = n
      · subst hlast
        rw [hcountry, Option.getD_some, if_pos rfl]
      · have hne : country ≠ (ranking m)[n]?.getD 0 := by
          intro heq
          apply hlast
          have hsome : (ranking m)[n]? = some country := by
            rw [List.getElem?_eq_getElem hlt] at heq ⊢
            rw [Option.getD_some] at heq
            rw [heq]
          exact List.getElem?_inj (by omega) hnodup (hcountry.trans hsome.symm)
        rw [if_neg hne]
        exact h2 index country (by omega) hcountry
    · rw [hrank, h1, List.getD_eq_getElem?_getD]
      have hne : country ≠ (ranking m)[n]?.getD 0 := by
        intro heq
        apply hnot n (Nat.lt_succ_self n)
        rw [List.getElem?_eq_getElem hlt] at heq ⊢
        rw [Option.getD_some] at heq
        rw [heq]
      rw [if_neg hne]
      exact h3 country (fun index hindex => hnot index (Nat.lt_succ_of_lt hindex))

end CountryInstanceManager

namespace CountryInstanceManager

/-- Rounds of the rank loop leave the lists of the manager as they are. -/
theorem assign_ranks_lists (indices : List Nat) (m : CountryInstanceManager) :
    (indices.foldl assign_rank m).total_ranking = m.total_ranking ∧
      (indices.foldl assign_rank m).prestige_ranking = m.prestige_ranking ∧
      (indices.foldl assign_rank m).industrial_power_ranking = m.industrial_power_ranking ∧
      (indices.foldl assign_rank m).military_power_ranking = m.military_power_ranking ∧
      (indices.foldl assign_rank m).great_powers = m.great_powers ∧
      (indices.foldl assign_rank m).secondary_powers = m.secondary_powers ∧
      (indices.foldl assign_rank m).country_instance_count = m.country_instance_count := by
  induction indices generalizing m with
  | nil => exact ⟨rfl, rfl, rfl, rfl, rfl, rfl, rfl⟩
  | cons index indices ih => exact ih (m.assign_rank index)

/-- Rounds of the rank loop change nothing of a country but its four ranks. -/
theorem assign_ranks_frame {α : Type} (obs : CountryInstance → α)
    (htotal : ∀ (c : CountryInstance) r, obs { c with total_rank := r } = obs c)
    (hprestige : ∀ (c : CountryInstance) r, obs { c with prestige_rank := r } = obs c)
    (hindustrial : ∀ (c : CountryInstance) r, obs { c with industrial_rank := r } = obs c)
    (hmilitary : ∀ (c : CountryInstance) r, obs { c with military_rank := r } = obs c)
    (indices : List Nat) (m : CountryInstanceManager) (country : Nat) :
    obs ((indices.foldl assign_rank m).country_instances country) =
      obs (m.country_instances country) := by
  induction indices generalizing m with
  | nil => rfl
  | cons index indices ih =>
    rw [List.foldl_cons, ih]
    exact assign_rank_frame obs htotal hprestige hindustrial hmilitary m index country

/-- The countries that exist are distinct. -/
theorem existing_countries_nodup (m : CountryInstanceManager) : m.existing_countries.Nodup :=
  (List.nodup_range _).filter _

/-- The first part of `update_rankings` leaves the lists of great and secondary powers and the
number of countries as they are, and the rankings are the sorted lists of the countries that
exist. -/
theorem rank_countries_lists (std : StdSort) (m : CountryInstanceManager) :
    (m.rank_countries std).total_ranking =
        std.sort m.total_ranking_before m.existing_countries ∧
      (m.rank_countries std).prestige_ranking =
        std.sort m.prestige_ranking_before m.existing_countries ∧
      (m.rank_countries std).industrial_power_ranking =
        std.sort m.industrial_power_ranking_before m.existing_countries ∧
      (m.rank_countries std).military_power_ranking =
        std.sort m.military_power_ranking_before m.existing_countries ∧
      (m.rank_countries std).great_powers = m.great_powers ∧
      (m.rank_countries std).secondary_powers = m.secondary_powers ∧
      (m.rank_countries std).country_instance_count = m.country_instance_count := by
  unfold rank_countries
  exact assign_ranks_lists _ _

/-- The first part of `update_rankings` changes nothing of a country but its four ranks. -/
theorem rank_countries_frame {α : Type} (obs : CountryInstance → α)
    (htotal : ∀ (c : CountryInstance) r, obs { c with total_rank := r } = obs c)
    (hprestige : ∀ (c : CountryInstance) r, obs { c with prestige_rank := r } = obs c)
    (hindustrial : ∀ (c : CountryInstance) r, obs { c with industrial_rank := r } = obs c)
    (hmilitary : ∀ (c : CountryInstance) r, obs { c with military_rank := r } = obs c)
    (std : StdSort) (m : CountryInstanceManager) (country : Nat) :
    obs ((m.rank_countries std).country_instances country) =
      obs (m.country_instances country) := by
  unfold rank_countries
  exact assign_ranks_frame obs htotal hprestige hindustrial hmilitary _ _ country

/-- The whole rank loop, for one of the four rankings and its rank. -/
theorem assign_all_ranks (rank : CountryInstance → Nat)
    (ranking : CountryInstanceManager → List Nat)
    (hranking : ∀ m index, ranking (assign_rank m index) = ranking m)
    (hrank : ∀ m index country, rank ((assign_rank m index).country_instances country) =
      if country = (ranking m).getD index 0 then index + 1
      else rank (m.country_instances country))
    (m : CountryInstanceManager) (hnodup : (ranking m).Nodup)
    (hlength : (ranking m).length = m.total_ranking.length) :
    (∀ index country, (ranking m)[index]? = some country →
        rank (((List.range m.total_ranking.length).foldl assign_rank m).country_instances
          country) = index + 1) ∧
      (∀ country, country ∉ ranking m →
        rank (((List.range m.total_ranking.length).foldl assign_rank m).country_instances
          country) = rank (m.country_instances country)) := by
  obtain ⟨-, h2, h3⟩ := assign_ranks_rank rank ranking hranking hrank m hnodup
    m.total_ranking.length (le_of_eq hlength.symm)
  refine ⟨fun index country hcountry => ?_, fun country hnot => ?_⟩
  · exact h2 index country
      (by rw [← hlength]; exact (List.getElem?_eq_some_iff.mp hcountry).1) hcountry
  · exact h3 country
      (fun index _ hcountry => hnot (List.mem_iff_getElem?.mpr ⟨index, hcountry⟩))

/-- The ranks after the first part of `update_rankings`: the country at a position of a ranking
has the position plus one as the rank of that ranking, and a country that does not exist has the
ranks it had. -/
theorem rank_countries_ranks (std : StdSort) (m : CountryInstanceManager) :
    ((∀ index country, (m.rank_countries std).total_ranking[index]? = some country →
        ((m.rank_countries std).country_instances country).total_rank = index + 1) ∧
      (∀ index country, (m.rank_countries std).prestige_ranking[index]? = some country →
        ((m.rank_countries std).country_instances country).prestige_rank = index + 1) ∧
      (∀ index country,
        (m.rank_countries std).industrial_power_ranking[index]? = some country →
        ((m.rank_countries std).country_instances country).industrial_rank = index + 1) ∧
      (∀ index country, (m.rank_countries std).military_power_ranking[index]? = some country →
        ((m.rank_countries std).country_instances country).military_rank = index + 1)) ∧
      (∀ country, country ∉ m.existing_countries →
        ((m.rank_countries std).country_instances country).total_rank =
          (m.country_instances country).total_rank ∧
        ((m.rank_countries std).country_instances country).prestige_rank =
          (m.country_instances country).prestige_rank ∧
        ((m.rank_countries std).country_instances country).industrial_rank =
          (m.country_instances country).industrial_rank ∧
        ((m.rank_countries std).country_instances country).military_rank =
          (m.country_instances country).military_rank) := by
  obtain ⟨hl1, hl2, hl3, hl4, -⟩ := rank_countries_lists std m
  have hp1 := std.perm m.total_ranking_before m.existing_countries
  have hp2 := std.perm m.prestige_ranking_before m.existing_countries
  have hp3 := std.perm m.industrial_power_ranking_before m.existing_countries
  have hp4 := std.perm m.military_power_ranking_before m.existing_countries
  have hnodup := existing_countries_nodup m
  rw [hl1, hl2, hl3, hl4]
  unfold rank_countries
  simp only []
  generalize hm0 : ({ m with
    total_ranking := std.sort m.total_ranking_before m.existing_countries
    prestige_ranking := std.sort m.prestige_ranking_before m.existing_countries
    industrial_power_ranking := std.sort m.industrial_power_ranking_before m.existing_countries
    military_power_ranking := std.sort m.military_power_ranking_before m.existing_countries } :
      CountryInstanceManager) = m0
  have hr1 : m0.total_ranking = std.sort m.total_ranking_before m.existing_countries := by
    rw [← hm0]
  have hr2 : m0.prestige_ranking = std.sort m.prestige_ranking_before m.existing_countries := by
    rw [← hm0]
  have hr3 : m0.industrial_power_ranking =
      std.sort m.industrial_power_ranking_before m.existing_countries := by
    rw [← hm0]
  have hr4 : m0.military_power_ranking =
      std.sort m.military_power_ranking_before m.existing_countries := by
    rw [← hm0]
  have hinstances : m0.country_instances = m.country_instances := by rw [← hm0]
  have h1 := assign_all_ranks (fun c => c.total_rank) (fun m => m.total_ranking)
    (fun m index => (assign_rank_lists m index).1) assign_rank_total_rank m0
    (by
      show m0.total_ranking.Nodup
      rw [hr1]
      exact hp1.nodup_iff.mpr hnodup) rfl
  have h2 := assign_all_ranks (fun c => c.prestige_rank) (fun m => m.prestige_ranking)
    (fun m index => (assign_rank_lists m index).2.1) assign_rank_prestige_rank m0
    (by
      show m0.prestige_ranking.Nodup
      rw [hr2]
      exact hp2.nodup_iff.mpr hnodup)
    (by
      show m0.prestige_ranking.length = m0.total_ranking.length
      rw [hr1, hr2, hp1.length_eq, hp2.length_eq])
  have h3 := assign_all_ranks (fun c => c.industrial_rank) (fun m => m.industrial_power_ranking)
    (fun m index => (assign_rank_lists m index).2.2.1) assign_rank_industrial_rank m0
    (by
      show m0.industrial_power_ranking.Nodup
      rw [hr3]
      exact hp3.nodup_iff.mpr hnodup)
    (by
      show m0.industrial_power_ranking.length = m0.total_ranking.length
      rw [hr1, hr3, hp1.length_eq, hp3.length_eq])
  have h4 := assign_all_ranks (fun c => c.military_rank) (fun m => m.military_power_ranking)
    (fun m index => (assign_rank_lists m index).2.2.2.1) assign_rank_military_rank m0
    (by
      show m0.military_power_ranking.Nodup
      rw [hr4]
      exact hp4.nodup_iff.mpr hnodup)
    (by
      show m0.military_power_ranking.length = m0.total_ranking.length
      rw [hr1, hr4, hp1.length_eq, hp4.length_eq])
  simp only [hr1, hr2, hr3, hr4] at h1 h2 h3 h4
  rw [← hinstances]
  refine ⟨⟨h1.1, h2.1, h3.1, h4.1⟩, fun country hnot => ⟨?_, ?_, ?_, ?_⟩⟩
  · exact h1.2 country (fun h => hnot (hp1.mem_iff.mp h))
  · exact h2.2 country (fun h => hnot (hp2.mem_iff.mp h))
  · exact h3.2 country (fun h => hnot (hp3.mem_iff.mp h))
  · exact h4.2 country (fun h => hnot (hp4.mem_iff.mp h))

end CountryInstanceManager

/-! ## The country manager: demotion -/

namespace CountryInstanceManager

/-- A loop of writes to countries leaves the lists of the manager as they are. -/
theorem foldl_write_lists (P : CountryInstance → Prop) [DecidablePred P]
    (write : CountryInstance → CountryInstance) (l : List Nat) (m : CountryInstanceManager) :
    (l.foldl (fun m country =>
        if P (m.country_instances country) then m.modify_country country write else m)
        m).total_ranking = m.total_ranking ∧
      (l.foldl (fun m country =>
        if P (m.country_instances country) then m.modify_country country write else m)
        m).prestige_ranking = m.prestige_ranking ∧
      (l.foldl (fun m country =>
        if P (m.country_instances country) then m.modify_country country write else m)
        m).industrial_power_ranking = m.industrial_power_ranking ∧
      (l.foldl (fun m country =>
        if P (m.country_instances country) then m.modify_country country write else m)
        m).military_power_ranking = m.military_power_ranking ∧
      (l.foldl (fun m country =>
        if P (m.country_instances country) then m.modify_country country write else m)
        m).great_powers = m.great_powers ∧
      (l.foldl (fun m country =>
        if P (m.country_instances country) then m.modify_country country write else m)
        m).secondary_powers = m.secondary_powers ∧
      (l.foldl (fun m country =>
        if P (m.country_instances country) then m.modify_country country write else m)
        m).country_instance_count = m.country_instance_count := by
  induction l generalizing m with
  | nil => exact ⟨rfl, rfl, rfl, rfl, rfl, rfl, rfl⟩
  | cons country rest ih =>
    rw [List.foldl_cons]
    by_cases h : P (m.country_instances country)
    · rw [if_pos h]
      exact ih _
    · rw [if_neg h]
      exact ih _

/-- A loop of writes to the countries of a list that satisfy a condition which the write does
not change: the countries of the list that satisfy the condition are written, once, and every
other country is as it was. -/
theorem foldl_write_country_instances (P : CountryInstance → Prop) [DecidablePred P]
    (write : CountryInstance → CountryInstance) (hP : ∀ c, P (write c) ↔ P c)
    (hwrite : ∀ c, write (write c) = write c) (l : List Nat) (m : CountryInstanceManager)
    (other : Nat) :
    (l.foldl (fun m country =>
        if P (m.country_instances country) then m.modify_country country write else m)
        m).country_instances other =
      if other ∈ l ∧ P (m.country_instances other) then write (m.country_instances other)
      else m.country_instances other := by
  induction l generalizing m with
  | nil => simp
  | cons country rest ih =>
    rw [List.foldl_cons, ih]
    by_cases h : P (m.country_instances country)
    · rw [if_pos h]
      by_cases hother : other = country
      · subst hother
        rw [modify_country_self]
        simp only [hP, h, and_true, List.mem_cons, true_or, hwrite, if_true]
        split_ifs <;> rfl
      · rw [modify_country_other _ _ _ _ hother]
        simp only [List.mem_cons, hother, false_or]
    · rw [if_neg h]
      by_cases hother : other = country
      · subst hother
        simp only [h, and_false, if_false]
      · simp only [List.mem_cons, hother, false_or]

end CountryInstanceManager

namespace CountryInstanceManager

/-- The second part of `update_rankings` in closed form. A country of the secondary power list,
and a country of the great power list with a total rank beyond the maximum and a
`lose_great_power_date` before today, has its status set to civilised, and nothing else of a
country is changed. The great powers kept are those of status great power that are not demoted;
the list of secondary powers is empty, and the rankings are as they were. -/
theorem demote_powers_eq (today : Int) (define_manager : DefineManager)
    (m : CountryInstanceManager) :
    (∀ country, (m.demote_powers today define_manager).country_instances country =
        if country ∈ m.secondary_powers ∨ (country ∈ m.great_powers ∧
            (m.country_instances country).total_rank > define_manager.great_power_rank ∧
            (m.country_instances country).lose_great_power_date < today) then
          { m.country_instances country with
            country_status := country_status_t.COUNTRY_STATUS_CIVILISED }
        else m.country_instances country) ∧
      (m.demote_powers today define_manager).great_powers =
        m.great_powers.filter (fun country =>
          decide ((m.country_instances country).country_status =
              country_status_t.COUNTRY_STATUS_GREAT_POWER ∧
            ¬ ((m.country_instances country).total_rank > define_manager.great_power_rank ∧
              (m.country_instances country).lose_great_power_date < today))) ∧
      (m.demote_powers today define_manager).secondary_powers = [] ∧
      (m.demote_powers today define_manager).total_ranking = m.total_ranking ∧
      (m.demote_powers today define_manager).prestige_ranking = m.prestige_ranking ∧
      (m.demote_powers today define_manager).industrial_power_ranking =
        m.industrial_power_ranking ∧
      (m.demote_powers today define_manager).military_power_ranking =
        m.military_power_ranking ∧
      (m.demote_powers today define_manager).country_instance_count =
        m.country_instance_count := by
  have hfirst := foldl_write_country_instances
    (fun c => c.total_rank > define_manager.great_power_rank ∧ c.lose_great_power_date < today)
    (fun c => { c with country_status := country_status_t.COUNTRY_STATUS_CIVILISED })
    (fun _ => Iff.rfl) (fun _ => rfl) m.great_powers m
  obtain ⟨hf1, hf2, hf3, hf4, hf5, hf6, hf7⟩ := foldl_write_lists
    (fun c => c.total_rank > define_manager.great_power_rank ∧ c.lose_great_power_date < today)
    (fun c => { c with country_status := country_status_t.COUNTRY_STATUS_CIVILISED })
    m.great_powers m
  generalize hm1 : m.great_powers.foldl (fun m country =>
    if (fun (c : CountryInstance) => c.total_rank > define_manager.great_power_rank ∧
        c.lose_great_power_date < today) (m.country_instances country) then
      m.modify_country country
        (fun c => { c with country_status := country_status_t.COUNTRY_STATUS_CIVILISED })
    else m) m = m1 at hfirst hf1 hf2 hf3 hf4 hf5 hf6 hf7
  have hdef : m.demote_powers today define_manager =
      { (({ m1 with great_powers := m1.great_powers.filter (fun country =>
            decide ((m1.country_instances country).country_status =
              country_status_t.COUNTRY_STATUS_GREAT_POWER)) } :
          CountryInstanceManager).secondary_powers.foldl (fun m country =>
            if (fun (_ : CountryInstance) => True) (m.country_instances country) then
              m.modify_country country
                (fun c => { c with country_status := country_status_t.COUNTRY_STATUS_CIVILISED })
            else m)
          { m1 with great_powers := m1.great_powers.filter (fun country =>
            decide ((m1.country_instances country).country_status =
              country_status_t.COUNTRY_STATUS_GREAT_POWER)) }) with secondary_powers := [] } := by
    rw [← hm1]
    simp only [if_true]
    rfl
  rw [hdef]
  generalize hm2 : ({ m1 with great_powers := m1.great_powers.filter (fun country =>
    decide ((m1.country_instances country).country_status =
      country_status_t.COUNTRY_STATUS_GREAT_POWER)) } : CountryInstanceManager) = m2
  have hsecond := foldl_write_country_instances (fun _ => True)
    (fun c => { c with country_status := country_status_t.COUNTRY_STATUS_CIVILISED })
    (fun _ => Iff.rfl) (fun _ => rfl) m2.secondary_powers m2
  obtain ⟨hs1, hs2, hs3, hs4, hs5, hs6, hs7⟩ := foldl_write_lists (fun _ => True)
    (fun c => { c with country_status := country_status_t.COUNTRY_STATUS_CIVILISED })
    m2.secondary_powers m2
  have hm2_instances : m2.country_instances = m1.country_instances := by rw [← hm2]
  have hm2_secondary : m2.secondary_powers = m.secondary_powers := by rw [← hm2, hf6]
  have hm2_great : m2.great_powers = m1.great_powers.filter (fun country =>
      decide ((m1.country_instances country).country_status =
        country_status_t.COUNTRY_STATUS_GREAT_POWER)) := by rw [← hm2]
  refine ⟨fun country => ?_, ?_, rfl, ?_, ?_, ?_, ?_, ?_⟩
  · show (List.foldl _ m2 m2.secondary_powers).country_instances country = _
    rw [hsecond, hm2_instances, hfirst, hm2_secondary]
    by_cases hs : country ∈ m.secondary_powers
    · simp only [hs, and_true, true_or, if_true]
      split_ifs <;> rfl
    · simp only [hs, false_and, false_or, if_false]
  · show (List.foldl _ m2 m2.secondary_powers).great_powers = _
    rw [hs5, hm2_great, hf5]
    apply List.filter_congr
    intro country hcountry
    rw [hfirst]
    by_cases hd : (m.country_instances country).total_rank > define_manager.great_power_rank ∧
        (m.country_instances country).lose_great_power_date < today
    · simp [hcountry, hd]
    · simp [hcountry, hd]
  · show (List.foldl _ m2 m2.secondary_powers).total_ranking = _
    rw [hs1, ← hm2]
    exact hf1
  · show (List.foldl _ m2 m2.secondary_powers).prestige_ranking = _
    rw [hs2, ← hm2]
    exact hf2
  · show (List.foldl _ m2 m2.secondary_powers).industrial_power_ranking = _
    rw [hs3, ← hm2]
    exact hf3
  · show (List.foldl _ m2 m2.secondary_powers).military_power_ranking = _
    rw [hs4, ← hm2]
    exact hf4
  · show (List.foldl _ m2 m2.secondary_powers).country_instance_count = _
    rw [hs7, ← hm2]
    exact hf7

end CountryInstanceManager

/-! ## The country manager: promotion -/

namespace CountryInstanceManager

/-- The three outcomes of the body of the promotion loop for a civilised country. -/
theorem promote_power_cases (max_great_power_rank max_secondary_power_rank : Nat)
    (m : CountryInstanceManager) (country : Nat) :
    (m.promote_power max_great_power_rank max_secondary_power_rank country = m ∧
        ((m.country_instances country).country_status =
            country_status_t.COUNTRY_STATUS_GREAT_POWER ∨
          (¬ (m.great_powers.length < max_great_power_rank ∧
              (m.country_instances country).total_rank ≤ max_great_power_rank) ∧
            ¬ (m.country_instances country).total_rank ≤ max_secondary_power_rank))) ∨
      (m.promote_power max_great_power_rank max_secondary_power_rank country =
          m.promote_great_power country ∧
        (m.country_instances country).country_status ≠
          country_status_t.COUNTRY_STATUS_GREAT_POWER ∧
        m.great_powers.length < max_great_power_rank ∧
        (m.country_instances country).total_rank ≤ max_great_power_rank) ∨
      (m.promote_power max_great_power_rank max_secondary_power_rank country =
          m.promote_secondary_power country ∧
        (m.country_instances country).country_status ≠
          country_status_t.COUNTRY_STATUS_GREAT_POWER ∧
        ¬ (m.great_powers.length < max_great_power_rank ∧
          (m.country_instances country).total_rank ≤ max_great_power_rank) ∧
        (m.country_instances country).total_rank ≤ max_secondary_power_rank) := by
  unfold promote_power
  by_cases hgreat : (m.country_instances country).country_status =
      country_status_t.COUNTRY_STATUS_GREAT_POWER
  · left
    refine ⟨?_, Or.inl hgreat⟩
    rw [if_pos (by simp [is_great_power, hgreat])]
  · rw [if_neg (by simp [is_great_power, hgreat])]
    by_cases hroom : m.great_powers.length < max_great_power_rank ∧
        (m.country_instances country).total_rank ≤ max_great_power_rank
    · right
      left
      rw [if_pos hroom]
      exact ⟨rfl, hgreat, hroom.1, hroom.2⟩
    · rw [if_neg hroom]
      by_cases hsecondary :
          (m.country_instances country).total_rank ≤ max_secondary_power_rank
      · right
        right
        rw [if_pos hsecondary]
        exact ⟨rfl, hgreat, hroom, hsecondary⟩
      · left
        rw [if_neg hsecondary]
        exact ⟨rfl, Or.inr ⟨hroom, hsecondary⟩⟩

/-- The loop over the head of the total ranking has a result when it reads countries only. -/
theorem promotion_scan_in_bounds (max_great_power_rank max_secondary_power_rank : Nat)
    (l : List Nat) (m : CountryInstanceManager) :
    ∃ m', promotion_scan max_great_power_rank max_secondary_power_rank (l.map some) m =
      some m' := by
  induction l generalizing m with
  | nil => exact ⟨m, rfl⟩
  | cons country rest ih =>
    rw [List.map_cons, promotion_scan]
    split_ifs
    · exact ⟨m, rfl⟩
    · exact ih _

/-- What the loop reads at the indices below a bound within the length of the ranking is the
head of the ranking of that length. -/
theorem reads_in_bounds (ranking : List Nat) (bound : Nat) (h : bound ≤ ranking.length) :
    (List.range bound).map (fun index => ranking[index]?) = (ranking.take bound).map some := by
  apply List.ext_getElem?
  intro n
  by_cases hn : n < bound
  · have hlength : n < ranking.length := lt_of_lt_of_le hn h
    simp [List.getElem?_range, hn, List.getElem?_take, hlength]
  · simp [List.getElem?_range, hn, List.getElem?_take, List.getElem?_eq_none_iff, h]
    omega

end CountryInstanceManager

namespace CountryInstanceManager

/-- What the loop over the head of the total ranking does, for a head of distinct countries:
it appends distinct countries to the great powers and to the secondary powers, all of them
civilised countries of the head that were no great powers, with a total rank within the maximum
of their list; their status becomes that of their list, and nothing else of any country
changes. The great powers do not grow beyond the maximum great power rank. -/
theorem promotion_scan_spec (max_great_power_rank max_secondary_power_rank : Nat)
    (l : List Nat) (hnodup : l.Nodup) (m m' : CountryInstanceManager)
    (h : promotion_scan max_great_power_rank max_secondary_power_rank (l.map some) m =
      some m') :
    ∃ new_great new_secondary : List Nat,
      m'.great_powers = m.great_powers ++ new_great ∧
      m'.secondary_powers = m.secondary_powers ++ new_secondary ∧
      new_great.Nodup ∧ new_secondary.Nodup ∧
      (∀ country ∈ new_great, country ∈ l ∧ country ∉ new_secondary ∧
        (m.country_instances country).is_civilised = true ∧
        (m.country_instances country).country_status ≠
          country_status_t.COUNTRY_STATUS_GREAT_POWER ∧
        (m.country_instances country).total_rank ≤ max_great_power_rank) ∧
      (∀ country ∈ new_secondary, country ∈ l ∧
        (m.country_instances country).is_civilised = true ∧
        (m.country_instances country).country_status ≠
          country_status_t.COUNTRY_STATUS_GREAT_POWER ∧
        (m.country_instances country).total_rank ≤ max_secondary_power_rank) ∧
      m.great_powers.length + new_great.length ≤
        max m.great_powers.length max_great_power_rank ∧
      (∀ country, m'.country_instances country =
        if country ∈ new_great then
          { m.country_instances country with
            country_status := country_status_t.COUNTRY_STATUS_GREAT_POWER }
        else if country ∈ new_secondary then
          { m.country_instances country with
            country_status := country_status_t.COUNTRY_STATUS_SECONDARY_POWER }
        else m.country_instances country) ∧
      m'.total_ranking = m.total_ranking ∧
      m'.prestige_ranking = m.prestige_ranking ∧
      m'.industrial_power_ranking = m.industrial_power_ranking ∧
      m'.military_power_ranking = m.military_power_ranking ∧
      m'.country_instance_count = m.country_instance_count := by
  induction l generalizing m with
  | nil =>
    rw [List.map_nil, promotion_scan] at h
    cases h
    exact ⟨[], [], by simp, by simp, List.nodup_nil, List.nodup_nil, by simp, by simp,
      by simp, by simp, rfl, rfl, rfl, rfl, rfl⟩
  | cons first rest ih =>
    rw [List.map_cons, promotion_scan] at h
    by_cases hciv : (m.country_instances first).is_civilised = true
    · rw [if_neg (by simp [hciv])] at h
      obtain ⟨hfirst, hrest⟩ := List.nodup_cons.mp hnodup
      obtain ⟨new_great, new_secondary, hg, hs, hgn, hsn, hgreat, hsecondary, hlen, hci, hr1,
        hr2, hr3, hr4, hcount⟩ := ih hrest _ h
      have hne_great : ∀ country ∈ new_great, country ≠ first :=
        fun country hc heq => hfirst (heq ▸ (hgreat country hc).1)
      have hne_secondary : ∀ country ∈ new_secondary, country ≠ first :=
        fun country hc heq => hfirst (heq ▸ (hsecondary country hc).1)
      have hfirst_great : first ∉ new_great := fun hc => hne_great first hc rfl
      have hfirst_secondary : first ∉ new_secondary := fun hc => hne_secondary first hc rfl
      rcases promote_power_cases max_great_power_rank max_secondary_power_rank m first with
        ⟨hstep, -⟩ | ⟨hstep, hstatus, hroom, hrank⟩ | ⟨hstep, hstatus, -, hrank⟩
      · rw [hstep] at hg hs hgreat hsecondary hlen hci hr1 hr2 hr3 hr4 hcount
        refine ⟨new_great, new_secondary, hg, hs, hgn, hsn, ?_, ?_, hlen, hci, hr1, hr2, hr3,
          hr4, hcount⟩
        · intro country hc
          obtain ⟨h1, h2⟩ := hgreat country hc
          exact ⟨List.mem_cons_of_mem _ h1, h2⟩
        · intro country hc
          obtain ⟨h1, h2⟩ := hsecondary country hc
          exact ⟨List.mem_cons_of_mem _ h1, h2⟩
      · rw [hstep] at hg hs hgreat hsecondary hlen hci hr1 hr2 hr3 hr4 hcount
        have hother : ∀ country, country ≠ first →
            (m.promote_great_power first).country_instances country =
              m.country_instances country :=
          fun country hne => modify_country_other m first
            (fun c => { c with country_status := country_status_t.COUNTRY_STATUS_GREAT_POWER })
            country hne
        have hself : (m.promote_great_power first).country_instances first =
            { m.country_instances first with
              country_status := country_status_t.COUNTRY_STATUS_GREAT_POWER } :=
          modify_country_self m first
            (fun c => { c with country_status := country_status_t.COUNTRY_STATUS_GREAT_POWER })
        have hlist : (m.promote_great_power first).great_powers = m.great_powers ++ [first] :=
          rfl
        have hlist2 : (m.promote_great_power first).secondary_powers = m.secondary_powers :=
          rfl
        refine ⟨first :: new_great, new_secondary, ?_, ?_, ?_, hsn, ?_, ?_, ?_, ?_, hr1, hr2,
          hr3, hr4, hcount⟩
        · rw [hg, hlist, List.append_assoc, List.singleton_append]
        · rw [hs, hlist2]
        · exact List.nodup_cons.mpr ⟨hfirst_great, hgn⟩
        · intro country hc
          rcases List.mem_cons.mp hc with rfl | hc
          · exact ⟨List.mem_cons_self _ _, hfirst_secondary, hciv, hstatus, hrank⟩
          · obtain ⟨h1, h2, h3⟩ := hgreat country hc
            rw [hother country (hne_great country hc)] at h3
            exact ⟨List.mem_cons_of_mem _ h1, h2, h3⟩
        · intro country hc
          obtain ⟨h1, h2⟩ := hsecondary country hc
          rw [hother country (hne_secondary country hc)] at h2
          exact ⟨List.mem_cons_of_mem _ h1, h2⟩
        · rw [hlist, List.length_append, List.length_singleton] at hlen
          rw [List.length_cons]
          have := le_max_right m.great_powers.length max_great_power_rank
          rw [max_eq_right (by omega : m.great_powers.length + 1 ≤ max_great_power_rank)]
            at hlen
          omega
        · intro country
          rw [hci]
          by_cases hc : country = first
          · subst hc
            rw [if_neg hfirst_great, if_neg hfirst_secondary, if_pos (List.mem_cons_self _ _),
              hself]
          · rw [hother country hc]
            simp only [List.mem_cons, hc, false_or]
      · rw [hstep] at hg hs hgreat hsecondary hlen hci hr1 hr2 hr3 hr4 hcount
        have hother : ∀ country, country ≠ first →
            (m.promote_secondary_power first).country_instances country =
              m.country_instances country :=
          fun country hne => modify_country_other m first
            (fun c => { c with country_status := country_status_t.COUNTRY_STATUS_SECONDARY_POWER })
            country hne
        have hself : (m.promote_secondary_power first).country_instances first =
            { m.country_instances first with
              country_status := country_status_t.COUNTRY_STATUS_SECONDARY_POWER } :=
          modify_country_self m first
            (fun c => { c with country_status := country_status_t.COUNTRY_STATUS_SECONDARY_POWER })
        have hlist : (m.promote_secondary_power first).secondary_powers =
            m.secondary_powers ++ [first] := rfl
        have hlist2 : (m.promote_secondary_power first).great_powers = m.great_powers := rfl
        refine ⟨new_great, first :: new_secondary, ?_, ?_, hgn, ?_, ?_, ?_, ?_, ?_, hr1, hr2,
          hr3, hr4, hcount⟩
        · rw [hg, hlist2]
        · rw [hs, hlist, List.append_assoc, List.singleton_append]
        · exact List.nodup_cons.mpr ⟨hfirst_secondary, hsn⟩
        · intro country hc
          obtain ⟨h1, h2, h3⟩ := hgreat country hc
          rw [hother country (hne_great country hc)] at h3
          refine ⟨List.mem_cons_of_mem _ h1, ?_, h3⟩
          intro hmem
          rcases List.mem_cons.mp hmem with heq | hmem
          · exact hne_great country hc heq
          · exact h2 hmem
        · intro country hc
          rcases List.mem_cons.mp hc with rfl | hc
          · exact ⟨List.mem_cons_self _ _, hciv, hstatus, hrank⟩
          · obtain ⟨h1, h2⟩ := hsecondary country hc
            rw [hother country (hne_secondary country hc)] at h2
            exact ⟨List.mem_cons_of_mem _ h1, h2⟩
        · rw [hlist2] at hlen
          exact hlen
        · intro country
          rw [hci]
          by_cases hc : country = first
          · subst hc
            rw [if_neg hfirst_great, if_neg hfirst_secondary, if_neg hfirst_great,
              if_pos (List.mem_cons_self _ _), hself]
          · rw [hother country hc]
            simp only [List.mem_cons, hc, false_or]
    · rw [if_pos (by simp [hciv])] at h
      cases h
      exact ⟨[], [], by simp, by simp, List.nodup_nil, List.nodup_nil, by simp, by simp,
        by simp, by simp, rfl, rfl, rfl, rfl, rfl⟩

end CountryInstanceManager

/-! ## The country manager: the whole of `update_rankings` -/

namespace CountryInstanceManager

/-- The last part of `update_rankings` in closed form: the great powers are sorted, each great
power of a total rank within the maximum gets the new `lose_great_power_date`, and nothing else
changes. -/
theorem refresh_great_powers_eq (std : StdSort) (today : Int) (define_manager : DefineManager)
    (m : CountryInstanceManager) :
    (∀ country, (m.refresh_great_powers std today define_manager).country_instances country =
        if country ∈ m.great_powers ∧
            (m.country_instances country).total_rank ≤ define_manager.great_power_rank then
          { m.country_instances country with
            lose_great_power_date := today + define_manager.lose_great_power_grace_days }
        else m.country_instances country) ∧
      (m.refresh_great_powers std today define_manager).great_powers =
        std.sort m.great_power_before m.great_powers ∧
      (m.refresh_great_powers std today define_manager).secondary_powers =
        m.secondary_powers ∧
      (m.refresh_great_powers std today define_manager).total_ranking = m.total_ranking ∧
      (m.refresh_great_powers std today define_manager).prestige_ranking =
        m.prestige_ranking ∧
      (m.refresh_great_powers std today define_manager).industrial_power_ranking =
        m.industrial_power_ranking ∧
      (m.refresh_great_powers std today define_manager).military_power_ranking =
        m.military_power_ranking ∧
      (m.refresh_great_powers std today define_manager).country_instance_count =
        m.country_instance_count := by
  generalize hm1 : ({ m with great_powers := std.sort m.great_power_before m.great_powers } :
    CountryInstanceManager) = m1
  have hinstances : m1.country_instances = m.country_instances := by rw [← hm1]
  have hgreat : m1.great_powers = std.sort m.great_power_before m.great_powers := by rw [← hm1]
  have hdef : m.refresh_great_powers std today define_manager =
      m1.great_powers.foldl (fun m country =>
        if (fun (c : CountryInstance) => c.total_rank ≤ define_manager.great_power_rank)
            (m.country_instances country) then
          m.modify_country country (fun c => { c with
            lose_great_power_date := today + define_manager.lose_great_power_grace_days })
        else m) m1 := by
    rw [← hm1]
    rfl
  have hloop := foldl_write_country_instances
    (fun c => c.total_rank ≤ define_manager.great_power_rank)
    (fun c => { c with
      lose_great_power_date := today + define_manager.lose_great_power_grace_days })
    (fun _ => Iff.rfl) (fun _ => rfl) m1.great_powers m1
  obtain ⟨h1, h2, h3, h4, h5, h6, h7⟩ := foldl_write_lists
    (fun c => c.total_rank ≤ define_manager.great_power_rank)
    (fun c => { c with
      lose_great_power_date := today + define_manager.lose_great_power_grace_days })
    m1.great_powers m1
  rw [hdef]
  refine ⟨fun country => ?_, ?_, ?_, ?_, ?_, ?_, ?_, ?_⟩
  · rw [hloop, hinstances, hgreat]
    simp only [(std.perm m.great_power_before m.great_powers).mem_iff]
  · rw [h5, hgreat]
  · rw [h6, ← hm1]
  · rw [h1, ← hm1]
  · rw [h2, ← hm1]
  · rw [h3, ← hm1]
  · rw [h4, ← hm1]
  · rw [h7, ← hm1]

/-- When `lo` is within `v` or within `hi`, the value of `std::clamp` is the one that every
implementation of the library returns, `(v < lo) ? lo : (hi < v) ? hi : v`: these are the cases
in which `lo` is not beyond `hi`, for which the standard prescribes the value, and the case of a
`lo` beyond `hi` in which the implementations agree on `hi`. -/
theorem std_clamp_eq (v lo hi : Nat) (h : lo ≤ v ∨ lo ≤ hi) :
    std_clamp v lo hi = if v < lo then lo else if hi < v then hi else v := by
  unfold std_clamp
  split_ifs <;> omega

/-- The bound of the loop over the head of the total ranking is within the ranking when the
maximum great power rank is within the maximum secondary power rank or within the length of the
ranking, whatever the implementation of `std::clamp`. -/
theorem std_clamp_in_bounds (v lo hi : Nat) (h : lo ≤ v ∨ lo ≤ hi) : std_clamp v lo hi ≤ hi := by
  rw [std_clamp_eq v lo hi h]
  split_ifs <;> omega

end CountryInstanceManager

namespace CountryInstanceManager

/-- The steps of `update_rankings`. When the maximum great power rank is within the maximum
secondary power rank or within the number of countries that exist, the loop over the head of the
total ranking reads countries only, the head being distinct countries, and `update_rankings` has
the result of the last part, applied to the result of that loop. -/
theorem update_rankings_steps (std : StdSort) (today : Int) (define_manager : DefineManager)
    (m : CountryInstanceManager)
    (hbound : define_manager.great_power_rank ≤ define_manager.secondary_power_rank ∨
      define_manager.great_power_rank ≤ m.existing_countries.length) :
    ((m.rank_countries std).total_ranking.take
        (std_clamp define_manager.secondary_power_rank define_manager.great_power_rank
          m.existing_countries.length)).Nodup ∧
      ∃ m3, promotion_scan define_manager.great_power_rank define_manager.secondary_power_rank
          (((m.rank_countries std).total_ranking.take
            (std_clamp define_manager.secondary_power_rank define_manager.great_power_rank
              m.existing_countries.length)).map some)
          ((m.rank_countries std).demote_powers today define_manager) = some m3 ∧
        m.update_rankings std today define_manager =
          some (m3.refresh_great_powers std today define_manager) := by
  obtain ⟨hl1, -⟩ := rank_countries_lists std m
  have hperm := std.perm m.total_ranking_before m.existing_countries
  have hlength : (m.rank_countries std).total_ranking.length = m.existing_countries.length := by
    rw [hl1, hperm.length_eq]
  have hnodup : (m.rank_countries std).total_ranking.Nodup := by
    rw [hl1]
    exact hperm.nodup_iff.mpr (existing_countries_nodup m)
  obtain ⟨-, -, -, hd4, -⟩ := demote_powers_eq today define_manager (m.rank_countries std)
  refine ⟨(List.take_sublist _ _).nodup hnodup, ?_⟩
  obtain ⟨m3, hm3⟩ := promotion_scan_in_bounds define_manager.great_power_rank
    define_manager.secondary_power_rank
    ((m.rank_countries std).total_ranking.take
      (std_clamp define_manager.secondary_power_rank define_manager.great_power_rank
        m.existing_countries.length))
    ((m.rank_countries std).demote_powers today define_manager)
  refine ⟨m3, hm3, ?_⟩
  unfold update_rankings promote_powers
  simp only []
  rw [hd4, hlength, reads_in_bounds _ _
    (by rw [hlength]; exact std_clamp_in_bounds _ _ _ hbound), hm3]
  rfl

end CountryInstanceManager

namespace CountryInstanceManager

/-- The result of `update_rankings`, given by the countries that the loop over the head of the
total ranking makes great powers and secondary powers. The rankings and the ranks are those
of the first part. The great powers are those that the second part keeps and the new ones, the
secondary powers the new ones. The status of a country is that of the list it is added to, and
else the one after the second part; its `lose_great_power_date` is new when it is a great power
of a total rank within the maximum, and else as before the call; nothing else of a country
changes after the first part. -/
theorem update_rankings_spec (std : StdSort) (today : Int) (define_manager : DefineManager)
    (m : CountryInstanceManager)
    (hbound : define_manager.great_power_rank ≤ define_manager.secondary_power_rank ∨
      define_manager.great_power_rank ≤ m.existing_countries.length) :
    ∃ m' new_great new_secondary,
      m.update_rankings std today define_manager = some m' ∧
      (m'.total_ranking = (m.rank_countries std).total_ranking ∧
        m'.prestige_ranking = (m.rank_countries std).prestige_ranking ∧
        m'.industrial_power_ranking = (m.rank_countries std).industrial_power_ranking ∧
        m'.military_power_ranking = (m.rank_countries std).military_power_ranking ∧
        m'.country_instance_count = m.country_instance_count) ∧
      (m'.great_powers.Perm
          (((m.rank_countries std).demote_powers today define_manager).great_powers ++
            new_great) ∧
        m'.secondary_powers = new_secondary ∧ new_great.Nodup ∧ new_secondary.Nodup ∧
        ((m.rank_countries std).demote_powers today define_manager).great_powers.length +
            new_great.length ≤
          max ((m.rank_countries std).demote_powers today define_manager).great_powers.length
            define_manager.great_power_rank) ∧
      (∀ country ∈ new_great,
        country ∈ (m.rank_countries std).total_ranking.take
          (std_clamp define_manager.secondary_power_rank define_manager.great_power_rank
            m.existing_countries.length) ∧
        country ∉ new_secondary ∧
        (((m.rank_countries std).demote_powers today define_manager).country_instances
          country).is_civilised = true ∧
        (((m.rank_countries std).demote_powers today define_manager).country_instances
          country).country_status ≠ country_status_t.COUNTRY_STATUS_GREAT_POWER ∧
        ((m.rank_countries std).country_instances country).total_rank ≤
          define_manager.great_power_rank) ∧
      (∀ country ∈ new_secondary,
        country ∈ (m.rank_countries std).total_ranking.take
          (std_clamp define_manager.secondary_power_rank define_manager.great_power_rank
            m.existing_countries.length) ∧
        (((m.rank_countries std).demote_powers today define_manager).country_instances
          country).is_civilised = true ∧
        (((m.rank_countries std).demote_powers today define_manager).country_instances
          country).country_status ≠ country_status_t.COUNTRY_STATUS_GREAT_POWER ∧
        ((m.rank_countries std).country_instances country).total_rank ≤
          define_manager.secondary_power_rank) ∧
      (∀ country, (m'.country_instances country).country_status =
        if country ∈ new_great then country_status_t.COUNTRY_STATUS_GREAT_POWER
        else if country ∈ new_secondary then country_status_t.COUNTRY_STATUS_SECONDARY_POWER
        else (((m.rank_countries std).demote_powers today define_manager).country_instances
          country).country_status) ∧
      (∀ country, (m'.country_instances country).lose_great_power_date =
        if country ∈ m'.great_powers ∧
            ((m.rank_countries std).country_instances country).total_rank ≤
              define_manager.great_power_rank then
          today + define_manager.lose_great_power_grace_days
        else (m.country_instances country).lose_great_power_date) ∧
      (∀ {α : Type} (obs : CountryInstance → α),
        (∀ (c : CountryInstance) status, obs { c with country_status := status } = obs c) →
        (∀ (c : CountryInstance) date, obs { c with lose_great_power_date := date } = obs c) →
        ∀ country, obs (m'.country_instances country) =
          obs ((m.rank_countries std).country_instances country)) := by
  obtain ⟨hnodup, m3, hscan, hresult⟩ := update_rankings_steps std today define_manager m hbound
  obtain ⟨new_great, new_secondary, hg, hs, hgn, hsn, hgreat, hsecondary, hlen, hci, hr1, hr2,
    hr3, hr4, hcount⟩ := promotion_scan_spec _ _ _ hnodup _ _ hscan
  obtain ⟨hd, -, hd_secondary, hd1, hd2, hd3, hd4, hd_count⟩ :=
    demote_powers_eq today define_manager (m.rank_countries std)
  obtain ⟨hf, hf_great, hf_secondary, hf1, hf2, hf3, hf4, hf_count⟩ :=
    refresh_great_powers_eq std today define_manager m3
  obtain ⟨-, -, -, -, -, -, hcount1⟩ := rank_countries_lists std m
  have hframe2 : ∀ {α : Type} (obs : CountryInstance → α),
      (∀ (c : CountryInstance) status, obs { c with country_status := status } = obs c) →
      ∀ country,
        obs (((m.rank_countries std).demote_powers today define_manager).country_instances
          country) = obs ((m.rank_countries std).country_instances country) := by
    intro α obs hobs country
    rw [hd]
    split_ifs
    · exact hobs _ _
    · rfl
  have hframe3 : ∀ {α : Type} (obs : CountryInstance → α),
      (∀ (c : CountryInstance) status, obs { c with country_status := status } = obs c) →
      ∀ country, obs (m3.country_instances country) =
        obs ((m.rank_countries std).country_instances country) := by
    intro α obs hobs country
    rw [hci, ← hframe2 obs hobs country]
    split_ifs
    · exact hobs _ _
    · exact hobs _ _
    · rfl
  have hgreat_perm : (m3.refresh_great_powers std today define_manager).great_powers.Perm
      (((m.rank_countries std).demote_powers today define_manager).great_powers ++
        new_great) := by
    rw [hf_great, ← hg]
    exact std.perm _ _
  refine ⟨m3.refresh_great_powers std today define_manager, new_great, new_secondary, hresult,
    ⟨by rw [hf1, hr1, hd1], by rw [hf2, hr2, hd2], by rw [hf3, hr3, hd3], by rw [hf4, hr4, hd4],
      by rw [hf_count, hcount, hd_count, hcount1]⟩,
    ⟨hgreat_perm, by rw [hf_secondary, hs, hd_secondary, List.nil_append], hgn, hsn, hlen⟩,
    ?_, ?_, ?_, ?_, ?_⟩
  · intro country hc
    obtain ⟨h1, h2, h3, h4, h5⟩ := hgreat country hc
    rw [hframe2 (fun c => c.total_rank) (fun _ _ => rfl)] at h5
    exact ⟨h1, h2, h3, h4, h5⟩
  · intro country hc
    obtain ⟨h1, h2, h3, h4⟩ := hsecondary country hc
    rw [hframe2 (fun c => c.total_rank) (fun _ _ => rfl)] at h4
    exact ⟨h1, h2, h3, h4⟩
  · intro country
    rw [hf]
    have hstatus : (m3.country_instances country).country_status =
        if country ∈ new_great then country_status_t.COUNTRY_STATUS_GREAT_POWER
        else if country ∈ new_secondary then country_status_t.COUNTRY_STATUS_SECONDARY_POWER
        else (((m.rank_countries std).demote_powers today define_manager).country_instances
          country).country_status := by
      rw [hci]
      split_ifs <;> rfl
    rw [← hstatus]
    split_ifs <;> rfl
  · intro country
    rw [hf]
    have hrank : (m3.country_instances country).total_rank =
        ((m.rank_countries std).country_instances country).total_rank :=
      hframe3 (fun c => c.total_rank) (fun _ _ => rfl) country
    have hdate : (m3.country_instances country).lose_great_power_date =
        (m.country_instances country).lose_great_power_date := by
      rw [hframe3 (fun c => c.lose_great_power_date) (fun _ _ => rfl) country]
      exact rank_countries_frame (fun c => c.lose_great_power_date) (fun _ _ => rfl)
        (fun _ _ => rfl) (fun _ _ => rfl) (fun _ _ => rfl) std m country
    have hmem : country ∈ (m3.refresh_great_powers std today define_manager).great_powers ↔
        country ∈ m3.great_powers := by
      rw [hf_great]
      exact (std.perm _ _).mem_iff
    simp only [hmem, hrank]
    split_ifs
    · rfl
    · exact hdate
  · intro α obs hstatus hdate country
    rw [hf, ← hframe3 obs hstatus country]
    split_ifs
    · exact hdate _ _
    · rfl

end CountryInstanceManager

namespace CountryInstanceManager

/-- The status of a country after the second part of `update_rankings`, in terms of the manager
before the call: civilised for a secondary power of the list and for a great power of the list
with a new total rank beyond the maximum and a `lose_great_power_date` before today, and else as
it was. -/
theorem demote_powers_status (std : StdSort) (today : Int) (define_manager : DefineManager)
    (m : CountryInstanceManager) (country : Nat) :
    (((m.rank_countries std).demote_powers today define_manager).country_instances
        country).country_status =
      if country ∈ m.secondary_powers ∨ (country ∈ m.great_powers ∧
          ((m.rank_countries std).country_instances country).total_rank >
            define_manager.great_power_rank ∧
          (m.country_instances country).lose_great_power_date < today) then
        country_status_t.COUNTRY_STATUS_CIVILISED
      else (m.country_instances country).country_status := by
  obtain ⟨hd, -⟩ := demote_powers_eq today define_manager (m.rank_countries std)
  obtain ⟨-, -, -, -, hgreat, hsecondary, -⟩ := rank_countries_lists std m
  have hdate : ((m.rank_countries std).country_instances country).lose_great_power_date =
      (m.country_instances country).lose_great_power_date :=
    rank_countries_frame (fun c => c.lose_great_power_date) (fun _ _ => rfl)
      (fun _ _ => rfl) (fun _ _ => rfl) (fun _ _ => rfl) std m country
  have hstatus : ((m.rank_countries std).country_instances country).country_status =
      (m.country_instances country).country_status :=
    rank_countries_frame (fun c => c.country_status) (fun _ _ => rfl)
      (fun _ _ => rfl) (fun _ _ => rfl) (fun _ _ => rfl) std m country
  rw [hd, hgreat, hsecondary, hdate, ← hstatus]
  split_ifs <;> rfl

/-- The great powers that the second part of `update_rankings` keeps, in terms of the manager
before the call. -/
theorem demote_powers_great_powers (std : StdSort) (today : Int)
    (define_manager : DefineManager) (m : CountryInstanceManager) (country : Nat) :
    country ∈ ((m.rank_countries std).demote_powers today define_manager).great_powers ↔
      country ∈ m.great_powers ∧
        (m.country_instances country).country_status =
          country_status_t.COUNTRY_STATUS_GREAT_POWER ∧
        ¬ (((m.rank_countries std).country_instances country).total_rank >
            define_manager.great_power_rank ∧
          (m.country_instances country).lose_great_power_date < today) := by
  obtain ⟨-, hd, -⟩ := demote_powers_eq today define_manager (m.rank_countries std)
  obtain ⟨-, -, -, -, hgreat, -⟩ := rank_countries_lists std m
  have hdate : ((m.rank_countries std).country_instances country).lose_great_power_date =
      (m.country_instances country).lose_great_power_date :=
    rank_countries_frame (fun c => c.lose_great_power_date) (fun _ _ => rfl)
      (fun _ _ => rfl) (fun _ _ => rfl) (fun _ _ => rfl) std m country
  have hstatus : ((m.rank_countries std).country_instances country).country_status =
      (m.country_instances country).country_status :=
    rank_countries_frame (fun c => c.country_status) (fun _ _ => rfl)
      (fun _ _ => rfl) (fun _ _ => rfl) (fun _ _ => rfl) std m country
  rw [hd, hgreat, List.mem_filter, decide_eq_true_iff, hdate, hstatus]

/-- `update_rankings` leaves every country civilised or not as it was, when the members of the
lists of great powers and of secondary powers are civilised before the call. -/
theorem update_rankings_is_civilised (std : StdSort) (today : Int)
    (define_manager : DefineManager) (m m' : CountryInstanceManager)
    (hgreat : ∀ country ∈ m.great_powers, (m.country_instances country).is_civilised = true)
    (hsecondary : ∀ country ∈ m.secondary_powers,
      (m.country_instances country).is_civilised = true)
    (hbound : define_manager.great_power_rank ≤ define_manager.secondary_power_rank ∨
      define_manager.great_power_rank ≤ m.existing_countries.length)
    (h : m.update_rankings std today define_manager = some m') (country : Nat) :
    (m'.country_instances country).is_civilised =
      (m.country_instances country).is_civilised := by
  obtain ⟨m'', new_great, new_secondary, hresult, -, -, hng, hns, hstatus, -⟩ :=
    update_rankings_spec std today define_manager m hbound
  rw [hresult] at h
  cases h
  have h2 : (((m.rank_countries std).demote_powers today define_manager).country_instances
      country).is_civilised = (m.country_instances country).is_civilised := by
    unfold is_civilised
    rw [demote_powers_status]
    split_ifs with hdemoted
    · rcases hdemoted with hs | ⟨hg, -⟩
      · have := hsecondary country hs
        unfold is_civilised at this
        rw [this]
        rfl
      · have := hgreat country hg
        unfold is_civilised at this
        rw [this]
        rfl
    · rfl
  rw [← h2]
  have hs := hstatus country
  by_cases hg : country ∈ new_great
  · rw [if_pos hg] at hs
    rw [(hng country hg).2.2.1]
    unfold is_civilised
    rw [hs]
    rfl
  · rw [if_neg hg] at hs
    by_cases hsec : country ∈ new_secondary
    · rw [if_pos hsec] at hs
      rw [(hns country hsec).2.1]
      unfold is_civilised
      rw [hs]
      rfl
    · rw [if_neg hsec] at hs
      unfold is_civilised
      rw [hs]

end CountryInstanceManager

/-! ## C22, C23: the rankings -/

/-- The ranks along a ranking of which the country at each position has the position plus one
as rank are the numbers from one to the length of the ranking. -/
theorem map_rank_eq_range' (ranking : List Nat) (rank : Nat → Nat)
    (h : ∀ index country, ranking[index]? = some country → rank country = index + 1) :
    ranking.map rank = List.range' 1 ranking.length := by
  apply List.ext_getElem?
  intro n
  by_cases hn : n < ranking.length
  · rw [List.getElem?_map, List.getElem?_eq_getElem hn, Option.map_some',
      h n ranking[n] (List.getElem?_eq_getElem hn), List.getElem?_range' _ _ hn]
    simp [Nat.add_comm]
  · rw [List.getElem?_eq_none_iff.mpr (by simpa using hn),
      List.getElem?_eq_none_iff.mpr (by simpa using hn)]

namespace CountryInstanceManager

/-- The countries that exist are the same before and after `update_rankings`. -/
theorem update_rankings_existing_countries (std : StdSort) (today : Int)
    (define_manager : DefineManager) (m m' : CountryInstanceManager)
    (hbound : define_manager.great_power_rank ≤ define_manager.secondary_power_rank ∨
      define_manager.great_power_rank ≤ m.existing_countries.length)
    (h : m.update_rankings std today define_manager = some m') :
    m'.existing_countries = m.existing_countries := by
  obtain ⟨m'', new_great, new_secondary, hresult, ⟨-, -, -, -, hcount⟩, -, -, -, -, -, hframe⟩ :=
    update_rankings_spec std today define_manager m hbound
  rw [hresult] at h
  cases h
  unfold existing_countries
  rw [hcount]
  apply List.filter_congr
  intro country _
  rw [hframe (fun c => c.«exists») (fun _ _ => rfl) (fun _ _ => rfl) country]
  exact rank_countries_frame (fun c => c.«exists») (fun _ _ => rfl) (fun _ _ => rfl)
    (fun _ _ => rfl) (fun _ _ => rfl) std m country

end CountryInstanceManager

open CountryInstanceManager

/-- C22. `update_rankings` has a result when the maximum great power rank is within the maximum
secondary power rank or within the number of countries that exist. In the result each of the
four rankings is a rearrangement of the countries that exist, which are the same before and
after the call; the country at position `index` of a ranking has `index + 1` as the rank of that
ranking; and so each of the four ranks, over the countries that exist, takes each of the values
from one to their number once, whatever the scores are. -/
theorem update_rankings_dense_ranks (std : StdSort) (today : Int)
    (define_manager : DefineManager) (m : CountryInstanceManager)
    (hbound : define_manager.great_power_rank ≤ define_manager.secondary_power_rank ∨
      define_manager.great_power_rank ≤ m.existing_countries.length) :
    ∃ m', m.update_rankings std today define_manager = some m' ∧
      m'.existing_countries = m.existing_countries ∧
      (m'.total_ranking.Perm m.existing_countries ∧
        m'.prestige_ranking.Perm m.existing_countries ∧
        m'.industrial_power_ranking.Perm m.existing_countries ∧
        m'.military_power_ranking.Perm m.existing_countries) ∧
      ((∀ index country, m'.total_ranking[index]? = some country →
          (m'.country_instances country).total_rank = index + 1) ∧
        (∀ index country, m'.prestige_ranking[index]? = some country →
          (m'.country_instances country).prestige_rank = index + 1) ∧
        (∀ index country, m'.industrial_power_ranking[index]? = some country →
          (m'.country_instances country).industrial_rank = index + 1) ∧
        (∀ index country, m'.military_power_ranking[index]? = some country →
          (m'.country_instances country).military_rank = index + 1)) ∧
      ((m.existing_countries.map (fun country =>
          (m'.country_instances country).total_rank)).Perm
          (List.range' 1 m.existing_countries.length) ∧
        (m.existing_countries.map (fun country =>
          (m'.country_instances country).prestige_rank)).Perm
          (List.range' 1 m.existing_countries.length) ∧
        (m.existing_countries.map (fun country =>
          (m'.country_instances country).industrial_rank)).Perm
          (List.range' 1 m.existing_countries.length) ∧
        (m.existing_countries.map (fun country =>
          (m'.country_instances country).military_rank)).Perm
          (List.range' 1 m.existing_countries.length)) := by
  obtain ⟨m', new_great, new_secondary, hresult, ⟨hr1, hr2, hr3, hr4, -⟩, -, -, -, -, -,
    hframe⟩ := update_rankings_spec std today define_manager m hbound
  obtain ⟨hl1, hl2, hl3, hl4, -⟩ := rank_countries_lists std m
  obtain ⟨⟨hk1, hk2, hk3, hk4⟩, -⟩ := rank_countries_ranks std m
  have hp1 : m'.total_ranking.Perm m.existing_countries := by
    rw [hr1, hl1]
    exact std.perm _ _
  have hp2 : m'.prestige_ranking.Perm m.existing_countries := by
    rw [hr2, hl2]
    exact std.perm _ _
  have hp3 : m'.industrial_power_ranking.Perm m.existing_countries := by
    rw [hr3, hl3]
    exact std.perm _ _
  have hp4 : m'.military_power_ranking.Perm m.existing_countries := by
    rw [hr4, hl4]
    exact std.perm _ _
  have ht1 : ∀ index country, m'.total_ranking[index]? = some country →
      (m'.country_instances country).total_rank = index + 1 := by
    intro index country hc
    rw [hframe (fun c => c.total_rank) (fun _ _ => rfl) (fun _ _ => rfl) country]
    exact hk1 index country (hr1 ▸ hc)
  have ht2 : ∀ index country, m'.prestige_ranking[index]? = some country →
      (m'.country_instances country).prestige_rank = index + 1 := by
    intro index country hc
    rw [hframe (fun c => c.prestige_rank) (fun _ _ => rfl) (fun _ _ => rfl) country]
    exact hk2 index country (hr2 ▸ hc)
  have ht3 : ∀ index country, m'.industrial_power_ranking[index]? = some country →
      (m'.country_instances country).industrial_rank = index + 1 := by
    intro index country hc
    rw [hframe (fun c => c.industrial_rank) (fun _ _ => rfl) (fun _ _ => rfl) country]
    exact hk3 index country (hr3 ▸ hc)
  have ht4 : ∀ index country, m'.military_power_ranking[index]? = some country →
      (m'.country_instances country).military_rank = index + 1 := by
    intro index country hc
    rw [hframe (fun c => c.military_rank) (fun _ _ => rfl) (fun _ _ => rfl) country]
    exact hk4 index country (hr4 ▸ hc)
  refine ⟨m', hresult,
    update_rankings_existing_countries std today define_manager m m' hbound hresult,
    ⟨hp1, hp2, hp3, hp4⟩, ⟨ht1, ht2, ht3, ht4⟩, ?_, ?_, ?_, ?_⟩
  · rw [← hp1.length_eq, ← map_rank_eq_range' m'.total_ranking _ ht1]
    exact (hp1.map _).symm
  · rw [← hp2.length_eq, ← map_rank_eq_range' m'.prestige_ranking _ ht2]
    exact (hp2.map _).symm
  · rw [← hp3.length_eq, ← map_rank_eq_range' m'.industrial_power_ranking _ ht3]
    exact (hp3.map _).symm
  · rw [← hp4.length_eq, ← map_rank_eq_range' m'.military_power_ranking _ ht4]
    exact (hp4.map _).symm

/-- Witness of C22: the example manager has six countries that exist and one that does not. The
total ranking is the six countries by their total score, the military ranking, in which all
scores tie, is a rearrangement of them, and the total ranks and the military ranks of the six
countries are the numbers from one to six. -/
theorem update_rankings_dense_ranks_witness :
    example_manager.existing_countries = [0, 1, 2, 3, 4, 5] ∧
      (example_manager.update_rankings std_insertion_sort 0 example_define_manager).map
        (fun m => m.total_ranking) = some [1, 3, 5, 0, 4, 2] ∧
      (example_manager.update_rankings std_insertion_sort 0 example_define_manager).map
        (fun m => [0, 1, 2, 3, 4, 5].map (fun country =>
          (m.country_instances country).total_rank)) = some [4, 1, 6, 2, 5, 3] ∧
      (example_manager.update_rankings std_insertion_sort 0 example_define_manager).map
        (fun m => [0, 1, 2, 3, 4, 5].map (fun country =>
          (m.country_instances country).military_rank)) = some [1, 2, 3, 4, 5, 6] ∧
      ∃ m', example_manager.update_rankings std_insertion_sort 0 example_define_manager =
          some m' ∧
        ((example_manager.existing_countries.map (fun country =>
            (m'.country_instances country).total_rank)).Perm
            (List.range' 1 example_manager.existing_countries.length) ∧
          (example_manager.existing_countries.map (fun country =>
            (m'.country_instances country).military_rank)).Perm
            (List.range' 1 example_manager.existing_countries.length)) := by
  refine ⟨by decide, by decide, by decide, by decide, ?_⟩
  obtain ⟨m', hresult, -, -, -, h1, -, -, h4⟩ :=
    update_rankings_dense_ranks std_insertion_sort 0 example_define_manager example_manager
      (Or.inl (by decide))
  exact ⟨m', hresult, h1, h4⟩

namespace CountryInstanceManager

theorem total_ranking_before_total (m : CountryInstanceManager) (a b : Nat) :
    m.total_ranking_before a b = false ∨ m.total_ranking_before b a = false := by
  unfold total_ranking_before
  cases (m.country_instances a).is_civilised <;> cases (m.country_instances b).is_civilised <;>
    simp
  all_goals exact le_total _ _

theorem total_ranking_before_trans (m : CountryInstanceManager) (a b c : Nat)
    (hab : m.total_ranking_before b a = false) (hbc : m.total_ranking_before c b = false) :
    m.total_ranking_before c a = false := by
  unfold total_ranking_before at *
  cases ha : (m.country_instances a).is_civilised <;>
    cases hb : (m.country_instances b).is_civilised <;>
    cases hc : (m.country_instances c).is_civilised <;>
    simp [ha, hb, hc] at hab hbc ⊢
  all_goals exact le_trans hbc hab

/-- What it means that the comparator of the total ranking does not put `b` before `a`. -/
theorem total_ranking_before_false (m : CountryInstanceManager) (a b : Nat)
    (h : m.total_ranking_before b a = false) :
    ((m.country_instances b).is_civilised = true →
        (m.country_instances a).is_civilised = true) ∧
      ((m.country_instances a).is_civilised = (m.country_instances b).is_civilised →
        (m.country_instances a).total_score ≥ (m.country_instances b).total_score) := by
  unfold total_ranking_before at h
  cases ha : (m.country_instances a).is_civilised <;>
    cases hb : (m.country_instances b).is_civilised <;>
    simp [ha, hb] at h ⊢
  all_goals exact h

/-- A list sorted by `std::sort` with a comparator `a > b` of scores descends in the scores. -/
theorem sort_descending (std : StdSort) (score : Nat → Int) (l : List Nat) :
    (std.sort (fun a b => decide (score a > score b)) l).Pairwise
      (fun a b => score a ≥ score b) := by
  refine (std.sorted (fun a b => decide (score a > score b)) l ?_ ?_).imp ?_
  · intro a b
    simp only [decide_eq_false_iff_not, not_lt, gt_iff_lt]
    exact le_total _ _
  · intro a b c hab hbc
    simp only [decide_eq_false_iff_not, not_lt, gt_iff_lt] at *
    exact le_trans hbc hab
  · intro a b h
    simpa using h

end CountryInstanceManager

/-- C23 does not hold as it is worded. From empty lists, `update_rankings` makes the country 5
of the example, of the total score 40, a secondary power; the history entry that says that the
country is not civilised is then applied to it, which leaves it in the list of secondary
powers. The next call of `update_rankings` sorts the total ranking with the country 5 as a
country that is not civilised, so behind the country 2 of the total score 10, and then demotes
it as a member of the list of secondary powers to civilised: in the result all countries of
the total ranking are civilised, and the total scores along it are 60, 50, 30, 20, 10
and 40. -/
theorem total_ranking_unsorted_after_history :
    example_manager_after_history.map (fun m =>
        (m.great_powers, m.secondary_powers, (m.country_instances 5).country_status)) =
      some ([1, 3], [5, 0, 4], country_status_t.COUNTRY_STATUS_UNCIVILISED) ∧
      (example_manager_after_history.bind (fun m =>
        m.update_rankings std_insertion_sort 1 example_define_manager)).map (fun m =>
          m.total_ranking.map (fun country =>
            (country, (m.country_instances country).is_civilised,
              (m.country_instances country).total_score))) =
        some [(1, true, 60), (3, true, 50), (0, true, 30), (4, true, 20), (2, true, 10),
          (5, true, 40)] ∧
      ∃ m', example_manager_after_history.bind (fun m =>
          m.update_rankings std_insertion_sort 1 example_define_manager) = some m' ∧
        ¬ m'.total_ranking.Pairwise (fun a b =>
          ((m'.country_instances b).is_civilised = true →
            (m'.country_instances a).is_civilised = true) ∧
          ((m'.country_instances a).is_civilised = (m'.country_instances b).is_civilised →
            (m'.country_instances a).total_score ≥
              (m'.country_instances b).total_score)) := by
  refine ⟨by decide, by decide, ?_⟩
  have h : (example_manager_after_history.bind (fun m =>
      m.update_rankings std_insertion_sort 1 example_define_manager)).map (fun m =>
        (m.total_ranking, (m.country_instances 2).is_civilised,
          (m.country_instances 5).is_civilised, (m.country_instances 2).total_score,
          (m.country_instances 5).total_score)) =
      some ([1, 3, 0, 4, 2, 5], true, true, 10, 40) := by decide
  obtain ⟨m', hm', hvalues⟩ := Option.map_eq_some'.mp h
  simp only [Prod.mk.injEq] at hvalues
  obtain ⟨hranking, hc2, hc5, hs2, hs5⟩ := hvalues
  refine ⟨m', hm', fun hsorted => ?_⟩
  rw [hranking] at hsorted
  have hpair := List.pairwise_pair.mp
    (hsorted.sublist (by decide : List.Sublist [2, 5] [1, 3, 0, 4, 2, 5]))
  have hscore := hpair.2 (hc2.trans hc5.symm)
  rw [hs2, hs5] at hscore
  exact absurd hscore (by decide)

/-- C23 as amended. `update_rankings` has a result when the maximum great power rank is within
the maximum secondary power rank or within the number of countries that exist. In the total
ranking of the result a country stands before another only if it is civilised before the call
or the other is not, and among countries that are both civilised or both not civilised before
the call only if its total score is not smaller; once the total ranking reaches a country that
is not civilised before the call, all later ones are not civilised before the call. The
prestige ranking, the industrial power ranking and the military power ranking descend in the
prestige, the industrial power and the military power. When the great powers and the secondary
powers of the lists are civilised before the call, every country is civilised after the call
exactly when it is before it, so that all this holds of the countries as they are after the
call. -/
theorem update_rankings_sorted (std : StdSort) (today : Int) (define_manager : DefineManager)
    (m : CountryInstanceManager)
    (hbound : define_manager.great_power_rank ≤ define_manager.secondary_power_rank ∨
      define_manager.great_power_rank ≤ m.existing_countries.length) :
    ∃ m', m.update_rankings std today define_manager = some m' ∧
      m'.total_ranking.Pairwise (fun a b =>
        ((m.country_instances b).is_civilised = true →
          (m.country_instances a).is_civilised = true) ∧
        ((m.country_instances a).is_civilised = (m.country_instances b).is_civilised →
          (m'.country_instances a).total_score ≥ (m'.country_instances b).total_score)) ∧
      (∀ (i j a b : Nat), i < j → m'.total_ranking[i]? = some a → m'.total_ranking[j]? = some b →
        (m.country_instances a).is_civilised = false →
        (m.country_instances b).is_civilised = false) ∧
      m'.prestige_ranking.Pairwise (fun a b =>
        (m'.country_instances a).prestige ≥ (m'.country_instances b).prestige) ∧
      m'.industrial_power_ranking.Pairwise (fun a b =>
        (m'.country_instances a).industrial_power ≥
          (m'.country_instances b).industrial_power) ∧
      m'.military_power_ranking.Pairwise (fun a b =>
        (m'.country_instances a).military_power ≥ (m'.country_instances b).military_power) ∧
      ((∀ country ∈ m.great_powers, (m.country_instances country).is_civilised = true) →
        (∀ country ∈ m.secondary_powers, (m.country_instances country).is_civilised = true) →
        (∀ country, (m'.country_instances country).is_civilised =
          (m.country_instances country).is_civilised) ∧
        m'.total_ranking.Pairwise (fun a b =>
          ((m'.country_instances b).is_civilised = true →
            (m'.country_instances a).is_civilised = true) ∧
          ((m'.country_instances a).is_civilised = (m'.country_instances b).is_civilised →
            (m'.country_instances a).total_score ≥ (m'.country_instances b).total_score)) ∧
        (∀ (i j a b : Nat), i < j → m'.total_ranking[i]? = some a →
          m'.total_ranking[j]? = some b → (m'.country_instances a).is_civilised = false →
          (m'.country_instances b).is_civilised = false)) := by
  obtain ⟨m', new_great, new_secondary, hresult, ⟨hr1, hr2, hr3, hr4, -⟩, -, -, -, -, -,
    hframe⟩ := update_rankings_spec std today define_manager m hbound
  obtain ⟨hl1, hl2, hl3, hl4, -⟩ := rank_countries_lists std m
  have hobs : ∀ {α : Type} (obs : CountryInstance → α),
      (∀ (c : CountryInstance) status, obs { c with country_status := status } = obs c) →
      (∀ (c : CountryInstance) date, obs { c with lose_great_power_date := date } = obs c) →
      (∀ (c : CountryInstance) r, obs { c with total_rank := r } = obs c) →
      (∀ (c : CountryInstance) r, obs { c with prestige_rank := r } = obs c) →
      (∀ (c : CountryInstance) r, obs { c with industrial_rank := r } = obs c) →
      (∀ (c : CountryInstance) r, obs { c with military_rank := r } = obs c) →
      ∀ country, obs (m'.country_instances country) = obs (m.country_instances country) :=
    fun obs h1 h2 h3 h4 h5 h6 country => (hframe obs h1 h2 country).trans
      (rank_countries_frame obs h3 h4 h5 h6 std m country)
  have hscore := hobs (fun c => c.total_score) (fun _ _ => rfl) (fun _ _ => rfl)
    (fun _ _ => rfl) (fun _ _ => rfl) (fun _ _ => rfl) (fun _ _ => rfl)
  have hprestige := hobs (fun c => c.prestige) (fun _ _ => rfl) (fun _ _ => rfl)
    (fun _ _ => rfl) (fun _ _ => rfl) (fun _ _ => rfl) (fun _ _ => rfl)
  have hindustrial := hobs (fun c => c.industrial_power) (fun _ _ => rfl) (fun _ _ => rfl)
    (fun _ _ => rfl) (fun _ _ => rfl) (fun _ _ => rfl) (fun _ _ => rfl)
  have hmilitary := hobs (fun c => c.military_power) (fun _ _ => rfl) (fun _ _ => rfl)
    (fun _ _ => rfl) (fun _ _ => rfl) (fun _ _ => rfl) (fun _ _ => rfl)
  have htotal : m'.total_ranking.Pairwise (fun a b =>
      ((m.country_instances b).is_civilised = true →
        (m.country_instances a).is_civilised = true) ∧
      ((m.country_instances a).is_civilised = (m.country_instances b).is_civilised →
        (m'.country_instances a).total_score ≥ (m'.country_instances b).total_score)) := by
    rw [hr1, hl1]
    refine (std.sorted m.total_ranking_before m.existing_countries
      (total_ranking_before_total m) (total_ranking_before_trans m)).imp ?_
    intro a b h
    simp only [hscore]
    exact total_ranking_before_false m a b h
  have htiers : ∀ (i j a b : Nat), i < j → m'.total_ranking[i]? = some a →
      m'.total_ranking[j]? = some b → (m.country_instances a).is_civilised = false →
      (m.country_instances b).is_civilised = false := by
    intro i j a b hij ha hb hnot
    obtain ⟨hi, rfl⟩ := List.getElem?_eq_some_iff.mp ha
    obtain ⟨hj, rfl⟩ := List.getElem?_eq_some_iff.mp hb
    have := (List.pairwise_iff_getElem.mp htotal i j hi hj hij).1
    cases hb' : (m.country_instances m'.total_ranking[j]).is_civilised
    · rfl
    · rw [this hb'] at hnot
      cases hnot
  refine ⟨m', hresult, htotal, htiers, ?_, ?_, ?_, fun hgreat hsecondary => ?_⟩
  · rw [hr2, hl2]
    simp only [hprestige]
    exact sort_descending std (fun a => (m.country_instances a).prestige) _
  · rw [hr3, hl3]
    simp only [hindustrial]
    exact sort_descending std (fun a => (m.country_instances a).industrial_power) _
  · rw [hr4, hl4]
    simp only [hmilitary]
    exact sort_descending std (fun a => (m.country_instances a).military_power) _
  · have hciv := update_rankings_is_civilised std today define_manager m m' hgreat hsecondary
      hbound hresult
    refine ⟨hciv, ?_, ?_⟩
    · simp only [hciv]
      exact htotal
    · simp only [hciv]
      exact htiers

/-- Witness of C23: in the example manager in which country 3, of the second highest total
score, is uncivilised, the total ranking has the five civilised countries by their total score
and then country 3. -/
theorem update_rankings_sorted_witness :
    (example_manager_uncivilised.update_rankings std_insertion_sort 0
        example_define_manager).map (fun m => m.total_ranking) = some [1, 5, 0, 4, 2, 3] ∧
      (example_manager_uncivilised.update_rankings std_insertion_sort 0
        example_define_manager).map (fun m => m.prestige_ranking) = some [5, 4, 3, 2, 1, 0] ∧
      ∃ m', example_manager_uncivilised.update_rankings std_insertion_sort 0
          example_define_manager = some m' ∧
        ∀ (i j a b : Nat), i < j → m'.total_ranking[i]? = some a →
          m'.total_ranking[j]? = some b → (m'.country_instances a).is_civilised = false →
          (m'.country_instances b).is_civilised = false := by
  refine ⟨by decide, by decide, ?_⟩
  obtain ⟨m', hresult, -, -, -, -, -, h⟩ :=
    update_rankings_sorted std_insertion_sort 0 example_define_manager
      example_manager_uncivilised (Or.inl (by decide))
  exact ⟨m', hresult, (h (by decide) (by decide)).2.2⟩

/-! ## C24, C25: great powers keep and lose their status -/

/-- C24. `update_rankings` has a result when the maximum great power rank is within the maximum
secondary power rank or within the number of countries that exist. A country that is in the list
of great powers with the status of a great power before the call, and not in the list of
secondary powers, has the status of a great power and is in the list of great powers after the
call if and only if it is not so that its new total rank is beyond the maximum great power rank
and its `lose_great_power_date` is before today. So a great power of a total rank beyond the
maximum with a `lose_great_power_date` of today or later keeps its status. -/
theorem great_power_retention (std : StdSort) (today : Int) (define_manager : DefineManager)
    (m : CountryInstanceManager) (country : Nat) (hmember : country ∈ m.great_powers)
    (hstatus : (m.country_instances country).country_status =
      country_status_t.COUNTRY_STATUS_GREAT_POWER)
    (hnot_secondary : country ∉ m.secondary_powers)
    (hbound : define_manager.great_power_rank ≤ define_manager.secondary_power_rank ∨
      define_manager.great_power_rank ≤ m.existing_countries.length) :
    ∃ m', m.update_rankings std today define_manager = some m' ∧
      (((m'.country_instances country).country_status =
            country_status_t.COUNTRY_STATUS_GREAT_POWER ∧ country ∈ m'.great_powers) ↔
        ¬ ((m'.country_instances country).total_rank > define_manager.great_power_rank ∧
          (m.country_instances country).lose_great_power_date < today)) ∧
      ((m'.country_instances country).total_rank > define_manager.great_power_rank →
        today ≤ (m.country_instances country).lose_great_power_date →
        (m'.country_instances country).country_status =
            country_status_t.COUNTRY_STATUS_GREAT_POWER ∧ country ∈ m'.great_powers) := by
  obtain ⟨m', new_great, new_secondary, hresult, -, ⟨hperm, -⟩, hng, hns, hstatus', -,
    hframe⟩ := update_rankings_spec std today define_manager m hbound
  have hrank : (m'.country_instances country).total_rank =
      ((m.rank_countries std).country_instances country).total_rank :=
    hframe (fun c => c.total_rank) (fun _ _ => rfl) (fun _ _ => rfl) country
  have h2 := demote_powers_status std today define_manager m country
  have hkept := demote_powers_great_powers std today define_manager m country
  have hiff : ((m'.country_instances country).country_status =
        country_status_t.COUNTRY_STATUS_GREAT_POWER ∧ country ∈ m'.great_powers) ↔
      ¬ ((m'.country_instances country).total_rank > define_manager.great_power_rank ∧
        (m.country_instances country).lose_great_power_date < today) := by
    rw [hrank, hstatus' country]
    by_cases hd : ((m.rank_countries std).country_instances country).total_rank >
        define_manager.great_power_rank ∧
        (m.country_instances country).lose_great_power_date < today
    · have hnot_great : country ∉ new_great := fun hc =>
        absurd (hng country hc).2.2.2.2 (not_le.mpr hd.1)
      rw [if_pos (Or.inr ⟨hmember, hd⟩)] at h2
      rw [if_neg hnot_great, h2]
      constructor
      · rintro ⟨h, -⟩
        split_ifs at h
      · intro h
        exact absurd hd h
    · rw [if_neg (by
        rintro (h | ⟨-, h⟩)
        · exact hnot_secondary h
        · exact hd h), hstatus] at h2
      have hnot_great : country ∉ new_great := fun hc => (hng country hc).2.2.2.1 h2
      have hnot_second : country ∉ new_secondary := fun hc => (hns country hc).2.2.1 h2
      rw [if_neg hnot_great, if_neg hnot_second, h2]
      refine ⟨fun _ => hd, fun _ => ⟨rfl, ?_⟩⟩
      exact hperm.mem_iff.mpr (List.mem_append_left _ (hkept.mpr ⟨hmember, hstatus, hd⟩))
  refine ⟨m', hresult, hiff, fun _ hdate => hiff.mpr ?_⟩
  rintro ⟨-, h⟩
  exact absurd hdate (not_le.mpr h)

/-- Witness of C24: country 1 of the example is a great power with the third of the total
scores, the maximum great power rank being two. With a `lose_great_power_date` of day 110 it is
a great power after `update_rankings` on day 100, with a `lose_great_power_date` of day 90 it is
none. -/
theorem great_power_retention_witness :
    ((example_manager_with_great_power 110).update_rankings std_insertion_sort 100
        example_define_manager).map (fun m => ((m.country_instances 1).total_rank,
          (m.country_instances 1).country_status, m.great_powers)) =
        some (3, country_status_t.COUNTRY_STATUS_GREAT_POWER, [3, 1]) ∧
      ((example_manager_with_great_power 90).update_rankings std_insertion_sort 100
        example_define_manager).map (fun m => ((m.country_instances 1).total_rank,
          decide ((m.country_instances 1).country_status =
            country_status_t.COUNTRY_STATUS_GREAT_POWER), m.great_powers)) =
        some (3, false, [3, 5]) ∧
      ∃ m', (example_manager_with_great_power 110).update_rankings std_insertion_sort 100
          example_define_manager = some m' ∧
        (((m'.country_instances 1).country_status =
            country_status_t.COUNTRY_STATUS_GREAT_POWER ∧ 1 ∈ m'.great_powers) ↔
          ¬ ((m'.country_instances 1).total_rank > example_define_manager.great_power_rank ∧
            ((example_manager_with_great_power 110).country_instances
              1).lose_great_power_date < 100)) := by
  refine ⟨by decide, by decide, ?_⟩
  obtain ⟨m', hresult, h, -⟩ :=
    great_power_retention std_insertion_sort 100 example_define_manager
      (example_manager_with_great_power 110) 1 (by decide) (by decide) (by decide)
      (Or.inl (by decide))
  exact ⟨m', hresult, h⟩

namespace CountryInstanceManager

/-- The body of the promotion loop changes no other country. -/
theorem promote_power_other (max_great_power_rank max_secondary_power_rank : Nat)
    (m : CountryInstanceManager) (country other : Nat) (h : other ≠ country) :
    (m.promote_power max_great_power_rank max_secondary_power_rank country).country_instances
      other = m.country_instances other := by
  rcases promote_power_cases max_great_power_rank max_secondary_power_rank m country with
    ⟨hstep, -⟩ | ⟨hstep, -⟩ | ⟨hstep, -⟩
  · rw [hstep]
  · rw [hstep]
    exact modify_country_other m country
      (fun c => { c with country_status := country_status_t.COUNTRY_STATUS_GREAT_POWER })
      other h
  · rw [hstep]
    exact modify_country_other m country
      (fun c => { c with country_status := country_status_t.COUNTRY_STATUS_SECONDARY_POWER })
      other h

/-- The status that the body of the promotion loop gives to a country that is no great power
and has a total rank beyond the maximum great power rank: secondary power when the total rank is
within the maximum secondary power rank, and else the status it has. -/
theorem promote_power_beyond (max_great_power_rank max_secondary_power_rank : Nat)
    (m : CountryInstanceManager) (country : Nat)
    (hstatus : (m.country_instances country).country_status ≠
      country_status_t.COUNTRY_STATUS_GREAT_POWER)
    (hrank : (m.country_instances country).total_rank > max_great_power_rank) :
    ((m.promote_power max_great_power_rank max_secondary_power_rank country).country_instances
        country).country_status =
      if (m.country_instances country).total_rank ≤ max_secondary_power_rank then
        country_status_t.COUNTRY_STATUS_SECONDARY_POWER
      else (m.country_instances country).country_status := by
  rcases promote_power_cases max_great_power_rank max_secondary_power_rank m country with
    ⟨hstep, h | ⟨-, h⟩⟩ | ⟨-, -, -, h⟩ | ⟨hstep, -, -, h⟩
  · exact absurd h hstatus
  · rw [hstep, if_neg h]
  · exact absurd h (not_le.mpr hrank)
  · rw [hstep, if_pos h]
    exact congrArg (fun c => c.country_status) (modify_country_self m country
      (fun c => { c with country_status := country_status_t.COUNTRY_STATUS_SECONDARY_POWER }))

/-- The loop over the head of the total ranking comes to every country of the head before which
there are only civilised countries: the country is, after the loop, as the body of the loop
leaves it, applied to a manager in which the country is as before the loop. -/
theorem promotion_scan_visit (max_great_power_rank max_secondary_power_rank : Nat)
    (before after : List Nat) (country : Nat) (hnodup : (before ++ country :: after).Nodup)
    (m m' : CountryInstanceManager)
    (hbefore : ∀ c ∈ before, (m.country_instances c).is_civilised = true)
    (hcountry : (m.country_instances country).is_civilised = true)
    (h : promotion_scan max_great_power_rank max_secondary_power_rank
      ((before ++ country :: after).map some) m = some m') :
    ∃ m0 : CountryInstanceManager, m0.country_instances country = m.country_instances country ∧
      m'.country_instances country =
        (m0.promote_power max_great_power_rank max_secondary_power_rank
          country).country_instances country := by
  induction before generalizing m with
  | nil =>
    rw [List.nil_append, List.map_cons, promotion_scan, if_neg (by simp [hcountry])] at h
    obtain ⟨hnot, hafter⟩ := List.nodup_cons.mp hnodup
    obtain ⟨new_great, new_secondary, -, -, -, -, hng, hns, -, hci, -⟩ :=
      promotion_scan_spec _ _ _ hafter _ _ h
    refine ⟨m, rfl, ?_⟩
    rw [hci, if_neg (fun hc => hnot (hng country hc).1),
      if_neg (fun hc => hnot (hns country hc).1)]
  | cons first rest ih =>
    rw [List.cons_append, List.map_cons, promotion_scan,
      if_neg (by simp [hbefore first (List.mem_cons_self _ _)])] at h
    rw [List.cons_append] at hnodup
    obtain ⟨hnot, hrest⟩ := List.nodup_cons.mp hnodup
    have hne : ∀ c ∈ rest ++ country :: after, c ≠ first := fun c hc heq => hnot (heq ▸ hc)
    obtain ⟨m0, h0, hm0⟩ := ih hrest _
      (fun c hc => by
        rw [promote_power_other _ _ _ _ _ (hne c (List.mem_append_left _ hc))]
        exact hbefore c (List.mem_cons_of_mem _ hc))
      (by
        rw [promote_power_other _ _ _ _ _
          (hne country (List.mem_append_right _ (List.mem_cons_self _ _)))]
        exact hcountry) h
    refine ⟨m0, ?_, hm0⟩
    rw [h0, promote_power_other _ _ _ _ _
      (hne country (List.mem_append_right _ (List.mem_cons_self _ _)))]

/-- The countries of a head of the total ranking are the countries that exist with a total rank
within the length of the head. -/
theorem mem_take_total_ranking (std : StdSort) (m : CountryInstanceManager) (bound : Nat)
    (country : Nat) :
    country ∈ (m.rank_countries std).total_ranking.take bound ↔
      country ∈ m.existing_countries ∧
        ((m.rank_countries std).country_instances country).total_rank ≤ bound := by
  obtain ⟨hl1, -⟩ := rank_countries_lists std m
  obtain ⟨⟨hk1, -⟩, -⟩ := rank_countries_ranks std m
  have hperm := std.perm m.total_ranking_before m.existing_countries
  constructor
  · intro h
    obtain ⟨index, hindex⟩ := List.mem_iff_getElem?.mp h
    have hlt : index < bound := by
      have := (List.getElem?_eq_some_iff.mp hindex).1
      rw [List.length_take] at this
      omega
    rw [List.getElem?_take_of_lt hlt] at hindex
    refine ⟨?_, by rw [hk1 index country hindex]; omega⟩
    exact hperm.mem_iff.mp (hl1 ▸ List.mem_iff_getElem?.mpr ⟨index, hindex⟩)
  · rintro ⟨hexists, hrank⟩
    obtain ⟨index, hindex⟩ := List.mem_iff_getElem?.mp
      (hl1 ▸ hperm.mem_iff.mpr hexists : country ∈ (m.rank_countries std).total_ranking)
    rw [hk1 index country hindex] at hrank
    refine List.mem_iff_getElem?.mpr ⟨index, ?_⟩
    rw [List.getElem?_take_of_lt (by omega)]
    exact hindex

end CountryInstanceManager

namespace CountryInstanceManager

/-- A country that is civilised before `update_rankings` is civilised after its second part. -/
theorem demote_powers_is_civilised (std : StdSort) (today : Int)
    (define_manager : DefineManager) (m : CountryInstanceManager) (country : Nat)
    (h : (m.country_instances country).is_civilised = true) :
    (((m.rank_countries std).demote_powers today define_manager).country_instances
      country).is_civilised = true := by
  unfold is_civilised at h ⊢
  rw [demote_powers_status]
  split_ifs
  · rfl
  · exact h

/-- The status after `update_rankings` of a country that its second part demotes from great
power, the new total rank of the country being beyond the maximum great power rank: secondary
power when the country exists and its total rank is within the maximum secondary power rank, and
civilised else. -/
theorem update_rankings_demoted (std : StdSort) (today : Int) (define_manager : DefineManager)
    (m m' : CountryInstanceManager) (country : Nat) (hmember : country ∈ m.great_powers)
    (hstatus : (m.country_instances country).country_status =
      country_status_t.COUNTRY_STATUS_GREAT_POWER)
    (hbound : define_manager.great_power_rank ≤ define_manager.secondary_power_rank ∨
      define_manager.great_power_rank ≤ m.existing_countries.length)
    (hresult : m.update_rankings std today define_manager = some m')
    (hrank : ((m.rank_countries std).country_instances country).total_rank >
      define_manager.great_power_rank)
    (hdate : (m.country_instances country).lose_great_power_date < today) :
    (m'.country_instances country).country_status =
      if country ∈ m.existing_countries ∧
          ((m.rank_countries std).country_instances country).total_rank ≤
            define_manager.secondary_power_rank then
        country_status_t.COUNTRY_STATUS_SECONDARY_POWER
      else country_status_t.COUNTRY_STATUS_CIVILISED := by
  obtain ⟨hnodup, m3, hscan, hresult3⟩ :=
    update_rankings_steps std today define_manager m hbound
  rw [hresult] at hresult3
  cases hresult3
  obtain ⟨hf, -⟩ := refresh_great_powers_eq std today define_manager m3
  have hstatus3 : ((m3.refresh_great_powers std today define_manager).country_instances
      country).country_status = (m3.country_instances country).country_status := by
    rw [hf]
    split_ifs <;> rfl
  rw [hstatus3]
  have hstatus2 := demote_powers_status std today define_manager m country
  rw [if_pos (Or.inr ⟨hmember, hrank, hdate⟩)] at hstatus2
  obtain ⟨hd, -⟩ := demote_powers_eq today define_manager (m.rank_countries std)
  have hrank2 : (((m.rank_countries std).demote_powers today define_manager).country_instances
      country).total_rank = ((m.rank_countries std).country_instances country).total_rank := by
    rw [hd]
    split_ifs <;> rfl
  have hciv : (m.country_instances country).is_civilised = true := by
    unfold is_civilised
    rw [hstatus]
    rfl
  by_cases hhead : country ∈ (m.rank_countries std).total_ranking.take
      (std_clamp define_manager.secondary_power_rank define_manager.great_power_rank
        m.existing_countries.length)
  · obtain ⟨before, after, hsplit⟩ := List.append_of_mem hhead
    obtain ⟨hl1, -⟩ := rank_countries_lists std m
    have hsorted : ((m.rank_countries std).total_ranking.take
        (std_clamp define_manager.secondary_power_rank define_manager.great_power_rank
          m.existing_countries.length)).Pairwise
        (fun a b => m.total_ranking_before b a = false) := by
      rw [hl1]
      exact (std.sorted m.total_ranking_before m.existing_countries
        (total_ranking_before_total m) (total_ranking_before_trans m)).sublist
        (List.take_sublist _ _)
    rw [hsplit] at hsorted hnodup hscan
    have hbefore : ∀ c ∈ before,
        (((m.rank_countries std).demote_powers today define_manager).country_instances
          c).is_civilised = true := by
      intro c hc
      apply demote_powers_is_civilised
      exact (total_ranking_before_false m c country
        ((List.pairwise_append.mp hsorted).2.2 c hc country (List.mem_cons_self _ _))).1 hciv
    obtain ⟨m0, h0, hm0⟩ := promotion_scan_visit _ _ before after country hnodup _ _ hbefore
      (demote_powers_is_civilised std today define_manager m country hciv) hscan
    rw [hm0, promote_power_beyond _ _ m0 country (by rw [h0, hstatus2]; decide)
      (by rw [h0, hrank2]; exact hrank), h0, hrank2, hstatus2,
      if_congr (and_iff_right ((mem_take_total_ranking std m _ country).mp hhead).1)
        rfl rfl]
  · obtain ⟨new_great, new_secondary, -, -, -, -, hng, hns, -, hci, -⟩ :=
      promotion_scan_spec _ _ _ hnodup _ _ hscan
    rw [hci, if_neg (fun hc => hhead (hng country hc).1),
      if_neg (fun hc => hhead (hns country hc).1), hstatus2, if_neg]
    rintro ⟨hexists, hsecondary⟩
    apply hhead
    rw [mem_take_total_ranking]
    refine ⟨hexists, ?_⟩
    have hlength : ((m.rank_countries std).country_instances country).total_rank ≤
        m.existing_countries.length := by
      have hall : country ∈ (m.rank_countries std).total_ranking.take
          m.existing_countries.length := by
        obtain ⟨hl1, -⟩ := rank_countries_lists std m
        rw [List.take_of_length_le (by
          rw [hl1, (std.perm m.total_ranking_before m.existing_countries).length_eq]), hl1]
        exact (std.perm m.total_ranking_before m.existing_countries).mem_iff.mpr hexists
      exact ((mem_take_total_ranking std m _ country).mp hall).2
    unfold std_clamp
    omega

end CountryInstanceManager

/-- C25 does not hold as it is worded. With a maximum great power rank of two, a maximum
secondary power rank of five and thirty days of grace, country 1 of the example is a great
power of the list with the third of the total scores and a `lose_great_power_date` of day 90.
After `update_rankings` on day 100 its total rank is three and its status is that of a secondary
power, not civilised: the call demotes it and then, as its total rank is within five, makes it
a secondary power. -/
theorem great_power_hysteresis_not_civilised :
    example_define_manager.great_power_rank = 2 ∧
      example_define_manager.lose_great_power_grace_days = 30 ∧
      (example_manager_with_great_power 90).great_powers = [1] ∧
      ((example_manager_with_great_power 90).country_instances 1).country_status =
        country_status_t.COUNTRY_STATUS_GREAT_POWER ∧
      ((example_manager_with_great_power 90).country_instances 1).lose_great_power_date <
        100 ∧
      ((example_manager_with_great_power 90).update_rankings std_insertion_sort 100
        example_define_manager).map (fun m => ((m.country_instances 1).total_rank,
          (m.country_instances 1).country_status)) =
        some (3, country_status_t.COUNTRY_STATUS_SECONDARY_POWER) ∧
      ((example_manager_with_great_power 90).update_rankings std_insertion_sort 100
        example_define_manager).map (fun m => (m.country_instances 1).country_status) ≠
        some country_status_t.COUNTRY_STATUS_CIVILISED := by
  decide

/-- C25 as amended. `update_rankings` has a result when the maximum great power rank is within
the maximum secondary power rank or within the number of countries that exist. A country that is
in the list of great powers with the status of a great power, and not in the list of secondary
powers, is a great power after the call when its `lose_great_power_date` is today or later,
whatever its total rank. When its new total rank is beyond the maximum great power rank and its
`lose_great_power_date` is before today, it is no great power after the call: it is a secondary
power when it exists and its total rank is within the maximum secondary power rank, and
civilised else. -/
theorem great_power_hysteresis (std : StdSort) (today : Int) (define_manager : DefineManager)
    (m : CountryInstanceManager) (country : Nat) (hmember : country ∈ m.great_powers)
    (hstatus : (m.country_instances country).country_status =
      country_status_t.COUNTRY_STATUS_GREAT_POWER)
    (hbound : define_manager.great_power_rank ≤ define_manager.secondary_power_rank ∨
      define_manager.great_power_rank ≤ m.existing_countries.length) :
    ∃ m', m.update_rankings std today define_manager = some m' ∧
      (country ∉ m.secondary_powers →
        today ≤ (m.country_instances country).lose_great_power_date →
        (m'.country_instances country).country_status =
            country_status_t.COUNTRY_STATUS_GREAT_POWER ∧ country ∈ m'.great_powers) ∧
      ((m'.country_instances country).total_rank > define_manager.great_power_rank →
        (m.country_instances country).lose_great_power_date < today →
        (m'.country_instances country).country_status =
          if country ∈ m.existing_countries ∧
              (m'.country_instances country).total_rank ≤
                define_manager.secondary_power_rank then
            country_status_t.COUNTRY_STATUS_SECONDARY_POWER
          else country_status_t.COUNTRY_STATUS_CIVILISED) := by
  obtain ⟨m', new_great, new_secondary, hresult, -, ⟨hperm, -⟩, hng, hns, hstatus', -,
    hframe⟩ := update_rankings_spec std today define_manager m hbound
  have hrank : (m'.country_instances country).total_rank =
      ((m.rank_countries std).country_instances country).total_rank :=
    hframe (fun c => c.total_rank) (fun _ _ => rfl) (fun _ _ => rfl) country
  refine ⟨m', hresult, fun hnot_secondary hdate => ?_, fun hbeyond hdate => ?_⟩
  · have hkeep : ¬ (country ∈ m.secondary_powers ∨ (country ∈ m.great_powers ∧
        ((m.rank_countries std).country_instances country).total_rank >
          define_manager.great_power_rank ∧
        (m.country_instances country).lose_great_power_date < today)) := by
      rintro (h | ⟨-, -, h⟩)
      · exact hnot_secondary h
      · exact absurd hdate (not_le.mpr h)
    have h2 := demote_powers_status std today define_manager m country
    rw [if_neg hkeep, hstatus] at h2
    rw [hstatus' country, if_neg (fun hc => (hng country hc).2.2.2.1 h2),
      if_neg (fun hc => (hns country hc).2.2.1 h2), h2]
    refine ⟨rfl, hperm.mem_iff.mpr (List.mem_append_left _ ?_)⟩
    exact (demote_powers_great_powers std today define_manager m country).mpr
      ⟨hmember, hstatus, fun h => absurd hdate (not_le.mpr h.2)⟩
  · rw [hrank] at hbeyond ⊢
    exact update_rankings_demoted std today define_manager m m' country hmember hstatus hbound
      hresult hbeyond hdate

/-- Witness of C25 as amended: the maximum great power rank is two, the maximum secondary
power rank five, the grace thirty days and today day 100. Country 1 of the example, a great
power with the third of the total scores, is a great power after `update_rankings` when its
`lose_great_power_date` is day 110, and a secondary power when it is day 90. -/
theorem great_power_hysteresis_witness :
    ((example_manager_with_great_power 110).update_rankings std_insertion_sort 100
        example_define_manager).map (fun m => ((m.country_instances 1).total_rank,
          (m.country_instances 1).country_status)) =
        some (3, country_status_t.COUNTRY_STATUS_GREAT_POWER) ∧
      (∃ m', (example_manager_with_great_power 110).update_rankings std_insertion_sort 100
          example_define_manager = some m' ∧
        (m'.country_instances 1).country_status =
          country_status_t.COUNTRY_STATUS_GREAT_POWER ∧ 1 ∈ m'.great_powers) ∧
      ∃ m', (example_manager_with_great_power 90).update_rankings std_insertion_sort 100
          example_define_manager = some m' ∧
        ((m'.country_instances 1).total_rank > example_define_manager.great_power_rank →
          (m'.country_instances 1).country_status =
            if 1 ∈ (example_manager_with_great_power 90).existing_countries ∧
                (m'.country_instances 1).total_rank ≤
                  example_define_manager.secondary_power_rank then
              country_status_t.COUNTRY_STATUS_SECONDARY_POWER
            else country_status_t.COUNTRY_STATUS_CIVILISED) := by
  refine ⟨by decide, ?_, ?_⟩
  · obtain ⟨m', hresult, h, -⟩ :=
      great_power_hysteresis std_insertion_sort 100 example_define_manager
        (example_manager_with_great_power 110) 1 (by decide) (by decide) (Or.inl (by decide))
    exact ⟨m', hresult, h (by decide) (by decide)⟩
  · obtain ⟨m', hresult, -, h⟩ :=
      great_power_hysteresis std_insertion_sort 100 example_define_manager
        (example_manager_with_great_power 90) 1 (by decide) (by decide) (Or.inl (by decide))
    exact ⟨m', hresult, fun hbeyond => h hbeyond (by decide)⟩

/-! ## C26, C27, C28: secondary powers, promotion and the grace of great powers -/

/-- C26. `update_rankings` has a result when the maximum great power rank is within the maximum
secondary power rank or within the number of countries that exist. When the countries with the
status of a secondary power are the members of the list of secondary powers before the call,
they are so after the call. The list after the call has no country twice, and each of its
members exists, is civilised and has a total rank within the maximum secondary power rank. A
member of the list before the call that is no member after it is civilised or a great power. -/
theorem secondary_powers_rebuilt (std : StdSort) (today : Int) (define_manager : DefineManager)
    (m : CountryInstanceManager)
    (hlist : ∀ country, (m.country_instances country).country_status =
      country_status_t.COUNTRY_STATUS_SECONDARY_POWER ↔ country ∈ m.secondary_powers)
    (hbound : define_manager.great_power_rank ≤ define_manager.secondary_power_rank ∨
      define_manager.great_power_rank ≤ m.existing_countries.length) :
    ∃ m', m.update_rankings std today define_manager = some m' ∧
      (∀ country, (m'.country_instances country).country_status =
        country_status_t.COUNTRY_STATUS_SECONDARY_POWER ↔ country ∈ m'.secondary_powers) ∧
      m'.secondary_powers.Nodup ∧
      (∀ country ∈ m'.secondary_powers,
        country ∈ m'.existing_countries ∧
        (m'.country_instances country).«exists» = true ∧
        (m'.country_instances country).is_civilised = true ∧
        (m'.country_instances country).total_rank ≤ define_manager.secondary_power_rank) ∧
      (∀ country ∈ m.secondary_powers, country ∉ m'.secondary_powers →
        (m'.country_instances country).country_status =
            country_status_t.COUNTRY_STATUS_CIVILISED ∨
          (m'.country_instances country).country_status =
            country_status_t.COUNTRY_STATUS_GREAT_POWER) := by
  obtain ⟨m', new_great, new_secondary, hresult, -, ⟨-, hsecondary, -, hnodup, -⟩, hng, hns,
    hstatus', -, hframe⟩ := update_rankings_spec std today define_manager m hbound
  have hrank : ∀ country, (m'.country_instances country).total_rank =
      ((m.rank_countries std).country_instances country).total_rank :=
    hframe (fun c => c.total_rank) (fun _ _ => rfl) (fun _ _ => rfl)
  have hexisting := update_rankings_existing_countries std today define_manager m m' hbound
    hresult
  have h2 : ∀ country,
      (((m.rank_countries std).demote_powers today define_manager).country_instances
        country).country_status ≠ country_status_t.COUNTRY_STATUS_SECONDARY_POWER := by
    intro country
    rw [demote_powers_status]
    split_ifs with hdemoted
    · decide
    · exact fun h => hdemoted (Or.inl ((hlist country).mp h))
  have hmember : ∀ country ∈ new_secondary, (m'.country_instances country).country_status =
      country_status_t.COUNTRY_STATUS_SECONDARY_POWER := by
    intro country hc
    rw [hstatus' country, if_neg (fun hg => (hng country hg).2.1 hc), if_pos hc]
  refine ⟨m', hresult, ?_⟩
  rw [hsecondary]
  refine ⟨fun country => ⟨fun h => ?_, hmember country⟩, hnodup,
    fun country hc => ?_, fun country hc hnot => ?_⟩
  · rw [hstatus' country] at h
    by_contra hnot
    rw [if_neg hnot] at h
    split_ifs at h
    exact h2 country h
  · have hmem := (mem_take_total_ranking std m _ country).mp (hns country hc).1
    have hexists : country ∈ m'.existing_countries := hexisting ▸ hmem.1
    refine ⟨hexists, ?_, ?_, ?_⟩
    · unfold existing_countries at hexists
      exact (List.mem_filter.mp hexists).2
    · unfold is_civilised
      rw [hmember country hc]
      rfl
    · rw [hrank]
      exact (hns country hc).2.2.2
  · rw [hstatus' country, if_neg hnot]
    by_cases hg : country ∈ new_great
    · rw [if_pos hg]
      exact Or.inr rfl
    · rw [if_neg hg, demote_powers_status, if_pos (Or.inl hc)]
      exact Or.inl rfl

/-- Witness of C26: in the example with the great powers 3 and 1 and the secondary powers 5, 0
and 4, country 5 becomes a great power in the place of country 1, which has lost its grace, and
the secondary powers after the call are the countries 1, 0 and 4. -/
theorem secondary_powers_rebuilt_witness :
    (example_manager_with_secondary_powers.update_rankings std_insertion_sort 100
        example_define_manager).map (fun m => (m.great_powers, m.secondary_powers,
          [5, 0, 4, 1].map (fun country => (m.country_instances country).country_status))) =
        some ([3, 5], [1, 0, 4], [country_status_t.COUNTRY_STATUS_GREAT_POWER,
          country_status_t.COUNTRY_STATUS_SECONDARY_POWER,
          country_status_t.COUNTRY_STATUS_SECONDARY_POWER,
          country_status_t.COUNTRY_STATUS_SECONDARY_POWER]) ∧
      ∃ m', example_manager_with_secondary_powers.update_rankings std_insertion_sort 100
          example_define_manager = some m' ∧
        (∀ country, (m'.country_instances country).country_status =
          country_status_t.COUNTRY_STATUS_SECONDARY_POWER ↔ country ∈ m'.secondary_powers) := by
  refine ⟨by decide, ?_⟩
  obtain ⟨m', hresult, h, -⟩ :=
    secondary_powers_rebuilt std_insertion_sort 100 example_define_manager
      example_manager_with_secondary_powers (fun country => by
        unfold example_manager_with_secondary_powers
        by_cases h5 : country = 5
        · subst h5
          decide
        · by_cases h0 : country = 0
          · subst h0
            decide
          · by_cases h4 : country = 4
            · subst h4
              decide
            · by_cases h1 : country = 1
              · subst h1
                decide
              · by_cases h3 : country = 3
                · subst h3
                  decide
                · simp [h5, h0, h4, h1, h3, example_manager_with_great_power,
                    example_manager])
      (Or.inl (by decide))
  exact ⟨m', hresult, h⟩

namespace CountryInstanceManager

/-- The status that the body of the promotion loop gives to a country. -/
theorem promote_power_status (max_great_power_rank max_secondary_power_rank : Nat)
    (m : CountryInstanceManager) (country : Nat) :
    ((m.promote_power max_great_power_rank max_secondary_power_rank country).country_instances
        country).country_status =
      if (m.country_instances country).country_status =
          country_status_t.COUNTRY_STATUS_GREAT_POWER then
        country_status_t.COUNTRY_STATUS_GREAT_POWER
      else if m.great_powers.length < max_great_power_rank ∧
          (m.country_instances country).total_rank ≤ max_great_power_rank then
        country_status_t.COUNTRY_STATUS_GREAT_POWER
      else if (m.country_instances country).total_rank ≤ max_secondary_power_rank then
        country_status_t.COUNTRY_STATUS_SECONDARY_POWER
      else (m.country_instances country).country_status := by
  rcases promote_power_cases max_great_power_rank max_secondary_power_rank m country with
    ⟨hstep, h | ⟨h1, h2⟩⟩ | ⟨hstep, h1, h2, h3⟩ | ⟨hstep, h1, h2, h3⟩
  · rw [hstep, if_pos h, h]
  · rw [hstep, if_neg h1, if_neg h2]
    split_ifs with h
    · exact h
    · rfl
  · rw [hstep, if_neg h1, if_pos ⟨h2, h3⟩]
    exact congrArg (fun c => c.country_status) (modify_country_self m country
      (fun c => { c with country_status := country_status_t.COUNTRY_STATUS_GREAT_POWER }))
  · rw [hstep, if_neg h1, if_neg h2, if_pos h3]
    exact congrArg (fun c => c.country_status) (modify_country_self m country
      (fun c => { c with country_status := country_status_t.COUNTRY_STATUS_SECONDARY_POWER }))

/-- The number of great powers after the body of the promotion loop. -/
theorem promote_power_great_powers (max_great_power_rank max_secondary_power_rank : Nat)
    (m : CountryInstanceManager) (country : Nat) :
    (m.promote_power max_great_power_rank max_secondary_power_rank
        country).great_powers.length =
      if (m.country_instances country).country_status ≠
            country_status_t.COUNTRY_STATUS_GREAT_POWER ∧
          m.great_powers.length < max_great_power_rank ∧
          (m.country_instances country).total_rank ≤ max_great_power_rank then
        m.great_powers.length + 1
      else m.great_powers.length := by
  rcases promote_power_cases max_great_power_rank max_secondary_power_rank m country with
    ⟨hstep, h | ⟨h1, h2⟩⟩ | ⟨hstep, h1, h2, h3⟩ | ⟨hstep, h1, h2, h3⟩
  · rw [hstep, if_neg (fun hc => hc.1 h)]
  · rw [hstep, if_neg (fun hc => h1 hc.2)]
  · rw [hstep, if_pos ⟨h1, h2, h3⟩]
    show (m.great_powers ++ [country]).length = _
    rw [List.length_append, List.length_singleton]
  · rw [hstep, if_neg (fun hc => h2 hc.2)]
    rfl

/-- The loop over the head of the total ranking from a clean slate: when the countries of the
head are civilised and no great powers, their total ranks count up from `base + 1`, and the
number of great powers is the smaller of `base` and the maximum great power rank, then each of
the countries has after the loop the status that its total rank gives it. -/
theorem promotion_scan_clean (max_great_power_rank max_secondary_power_rank : Nat)
    (l : List Nat) (hnodup : l.Nodup) (base : Nat) (m m' : CountryInstanceManager)
    (hl : ∀ index country, l[index]? = some country →
      (m.country_instances country).country_status =
          country_status_t.COUNTRY_STATUS_CIVILISED ∧
        (m.country_instances country).total_rank = base + index + 1)
    (hlength : m.great_powers.length = min base max_great_power_rank)
    (h : promotion_scan max_great_power_rank max_secondary_power_rank (l.map some) m =
      some m') :
    ∀ index country, l[index]? = some country →
      (m'.country_instances country).country_status =
        if base + index + 1 ≤ max_great_power_rank then
          country_status_t.COUNTRY_STATUS_GREAT_POWER
        else if base + index + 1 ≤ max_secondary_power_rank then
          country_status_t.COUNTRY_STATUS_SECONDARY_POWER
        else country_status_t.COUNTRY_STATUS_CIVILISED := by
  induction l generalizing m base with
  | nil =>
    intro index country hc
    simp at hc
  | cons first rest ih =>
    obtain ⟨hfirst_status, hfirst_rank⟩ := hl 0 first (by simp)
    obtain ⟨hnot, hrest⟩ := List.nodup_cons.mp hnodup
    have hciv : (m.country_instances first).is_civilised = true := by
      unfold is_civilised
      rw [hfirst_status]
      rfl
    rw [List.map_cons, promotion_scan, if_neg (by simp [hciv])] at h
    have hstep_status := promote_power_status max_great_power_rank max_secondary_power_rank m
      first
    have hstep_length := promote_power_great_powers max_great_power_rank
      max_secondary_power_rank m first
    rw [hfirst_status, hfirst_rank, hlength] at hstep_status hstep_length
    rw [if_neg (show ¬ country_status_t.COUNTRY_STATUS_CIVILISED =
      country_status_t.COUNTRY_STATUS_GREAT_POWER by decide)] at hstep_status
    intro index country hc
    cases index with
    | zero =>
      obtain rfl : first = country := by simpa using hc
      obtain ⟨new_great, new_secondary, -, -, -, -, hng, hns, -, hci, -⟩ :=
        promotion_scan_spec _ _ _ hrest _ _ h
      rw [hci, if_neg (fun hc => hnot (hng first hc).1),
        if_neg (fun hc => hnot (hns first hc).1), hstep_status]
      have hroom : (min base max_great_power_rank < max_great_power_rank ∧
          base + 0 + 1 ≤ max_great_power_rank) ↔ base + 0 + 1 ≤ max_great_power_rank := by
        constructor
        · exact fun h => h.2
        · intro h
          exact ⟨by rw [min_eq_left (by omega)]; omega, h⟩
      simp only [hroom]
    | succ index =>
      have hmem : country ∈ rest := List.mem_iff_getElem?.mpr ⟨index, by simpa using hc⟩
      have hne : ∀ c ∈ rest, c ≠ first := fun c hc heq => hnot (heq ▸ hc)
      have := ih hrest (base + 1) _
        (fun index' country' hc' => by
          have hmem' : country' ∈ rest := List.mem_iff_getElem?.mpr ⟨index', hc'⟩
          rw [promote_power_other _ _ _ _ _ (hne country' hmem')]
          obtain ⟨h1, h2⟩ := hl (index' + 1) country' (by simpa using hc')
          exact ⟨h1, by rw [h2]; omega⟩)
        (by
          rw [hstep_length]
          split_ifs with hroom
          · obtain ⟨-, h1, h2⟩ := hroom
            rw [min_eq_left (by omega)] at h1 ⊢
            rw [min_eq_left (by omega)]
          · have hge : max_great_power_rank ≤ base := by
              by_contra hlt
              apply hroom
              refine ⟨by decide, ?_, by omega⟩
              rw [min_eq_left (by omega)]
              omega
            rw [min_eq_right hge, min_eq_right (by omega)])
        h index country (by simpa using hc)
      rw [this]
      have harith : base + 1 + index + 1 = base + (index + 1) + 1 := by omega
      rw [harith]

end CountryInstanceManager

/-- C27. `update_rankings` has a result when the maximum great power rank is within the maximum
secondary power rank or within the number of countries that exist. When there are no great
powers and no secondary powers before the call and every country that exists is civilised, then
after the call a country that exists is a great power when its total rank is within the maximum
great power rank, else a secondary power when its total rank is within the maximum secondary
power rank, and else civilised. -/
theorem promotion_from_clean_slate (std : StdSort) (today : Int)
    (define_manager : DefineManager) (m : CountryInstanceManager)
    (hgreat : m.great_powers = []) (hsecondary : m.secondary_powers = [])
    (hcivilised : ∀ country ∈ m.existing_countries,
      (m.country_instances country).country_status =
        country_status_t.COUNTRY_STATUS_CIVILISED)
    (hbound : define_manager.great_power_rank ≤ define_manager.secondary_power_rank ∨
      define_manager.great_power_rank ≤ m.existing_countries.length) :
    ∃ m', m.update_rankings std today define_manager = some m' ∧
      ∀ country ∈ m.existing_countries,
        (m'.country_instances country).country_status =
          if (m'.country_instances country).total_rank ≤ define_manager.great_power_rank then
            country_status_t.COUNTRY_STATUS_GREAT_POWER
          else if (m'.country_instances country).total_rank ≤
              define_manager.secondary_power_rank then
            country_status_t.COUNTRY_STATUS_SECONDARY_POWER
          else country_status_t.COUNTRY_STATUS_CIVILISED := by
  obtain ⟨hnodup, m3, hscan, hresult⟩ :=
    update_rankings_steps std today define_manager m hbound
  obtain ⟨hf, -⟩ := refresh_great_powers_eq std today define_manager m3
  obtain ⟨new_great, new_secondary, -, -, -, -, hng, hns, -, hci, -⟩ :=
    promotion_scan_spec _ _ _ hnodup _ _ hscan
  obtain ⟨hd, hd_great, -⟩ := demote_powers_eq today define_manager (m.rank_countries std)
  obtain ⟨hl1, -, -, -, hgreat1, -⟩ := rank_countries_lists std m
  obtain ⟨⟨hk1, -⟩, -⟩ := rank_countries_ranks std m
  have hperm := std.perm m.total_ranking_before m.existing_countries
  have hstatus2 : ∀ country ∈ m.existing_countries,
      (((m.rank_countries std).demote_powers today define_manager).country_instances
        country).country_status = country_status_t.COUNTRY_STATUS_CIVILISED := by
    intro country hc
    rw [demote_powers_status, hgreat, hsecondary, if_neg (by simp)]
    exact hcivilised country hc
  have hrank2 : ∀ country,
      (((m.rank_countries std).demote_powers today define_manager).country_instances
        country).total_rank = ((m.rank_countries std).country_instances country).total_rank := by
    intro country
    rw [hd]
    split_ifs <;> rfl
  have hrank3 : ∀ country, (m3.country_instances country).total_rank =
      ((m.rank_countries std).country_instances country).total_rank := by
    intro country
    rw [hci, ← hrank2 country]
    split_ifs <;> rfl
  have hclean := promotion_scan_clean _ _ _ hnodup 0 _ _
    (fun index country hc => by
      have hlt : index < std_clamp define_manager.secondary_power_rank
          define_manager.great_power_rank m.existing_countries.length := by
        have := (List.getElem?_eq_some_iff.mp hc).1
        rw [List.length_take] at this
        omega
      rw [List.getElem?_take_of_lt hlt] at hc
      refine ⟨hstatus2 country ?_, by rw [hrank2, hk1 index country hc]; omega⟩
      exact hperm.mem_iff.mp (hl1 ▸ List.mem_iff_getElem?.mpr ⟨index, hc⟩))
    (by rw [hd_great, hgreat1, hgreat, List.filter_nil, List.length_nil, Nat.zero_min]) hscan
  refine ⟨_, hresult, fun country hc => ?_⟩
  have hstatus' : ((m3.refresh_great_powers std today define_manager).country_instances
      country).country_status = (m3.country_instances country).country_status := by
    rw [hf]
    split_ifs <;> rfl
  have hrank' : ((m3.refresh_great_powers std today define_manager).country_instances
      country).total_rank = ((m.rank_countries std).country_instances country).total_rank := by
    rw [hf, ← hrank3 country]
    split_ifs <;> rfl
  rw [hstatus', hrank']
  obtain ⟨index, hindex⟩ := List.mem_iff_getElem?.mp
    (hl1 ▸ hperm.mem_iff.mpr hc : country ∈ (m.rank_countries std).total_ranking)
  have hrank := hk1 index country hindex
  have hlength : index < m.existing_countries.length := by
    rw [← hperm.length_eq, ← hl1]
    exact (List.getElem?_eq_some_iff.mp hindex).1
  by_cases hlt : index < std_clamp define_manager.secondary_power_rank
      define_manager.great_power_rank m.existing_countries.length
  · rw [hclean index country (by rw [List.getElem?_take_of_lt hlt]; exact hindex), hrank,
      Nat.zero_add]
  · have hnot : country ∉ (m.rank_countries std).total_ranking.take
        (std_clamp define_manager.secondary_power_rank define_manager.great_power_rank
          m.existing_countries.length) := by
      rw [mem_take_total_ranking, hrank]
      rintro ⟨-, h⟩
      omega
    rw [hci, if_neg (fun hc => hnot (hng country hc).1),
      if_neg (fun hc => hnot (hns country hc).1), hstatus2 country hc, hrank]
    unfold std_clamp at hlt
    rw [if_neg, if_neg]
    · omega
    · omega

/-- Witness of C27: with a maximum great power rank of two and a maximum secondary power rank of
five, the six civilised countries of the example are after `update_rankings`, in the order of
their total ranks, two great powers, three secondary powers and a civilised country. -/
theorem promotion_from_clean_slate_witness :
    (example_manager.update_rankings std_insertion_sort 0 example_define_manager).map
        (fun m => (m.total_ranking.map (fun country =>
          ((m.country_instances country).total_rank,
            (m.country_instances country).country_status)))) =
        some [(1, country_status_t.COUNTRY_STATUS_GREAT_POWER),
          (2, country_status_t.COUNTRY_STATUS_GREAT_POWER),
          (3, country_status_t.COUNTRY_STATUS_SECONDARY_POWER),
          (4, country_status_t.COUNTRY_STATUS_SECONDARY_POWER),
          (5, country_status_t.COUNTRY_STATUS_SECONDARY_POWER),
          (6, country_status_t.COUNTRY_STATUS_CIVILISED)] ∧
      ∃ m', example_manager.update_rankings std_insertion_sort 0 example_define_manager =
          some m' ∧
        ∀ country ∈ example_manager.existing_countries,
          (m'.country_instances country).country_status =
            if (m'.country_instances country).total_rank ≤
                example_define_manager.great_power_rank then
              country_status_t.COUNTRY_STATUS_GREAT_POWER
            else if (m'.country_instances country).total_rank ≤
                example_define_manager.secondary_power_rank then
              country_status_t.COUNTRY_STATUS_SECONDARY_POWER
            else country_status_t.COUNTRY_STATUS_CIVILISED :=
  ⟨by decide,
    promotion_from_clean_slate std_insertion_sort 0 example_define_manager example_manager
      (by decide) (by decide) (by decide) (Or.inl (by decide))⟩

/-- C28. `update_rankings` has a result when the maximum great power rank is within the maximum
secondary power rank or within the number of countries that exist. After the call every member
of the list of great powers with a total rank within the maximum great power rank has today
plus the days of grace as `lose_great_power_date`, and every other country has the
`lose_great_power_date` it had before the call. The new great powers of the call are members
of the list with a total rank within the maximum. -/
theorem grace_refreshed (std : StdSort) (today : Int) (define_manager : DefineManager)
    (m : CountryInstanceManager)
    (hbound : define_manager.great_power_rank ≤ define_manager.secondary_power_rank ∨
      define_manager.great_power_rank ≤ m.existing_countries.length) :
    ∃ m', m.update_rankings std today define_manager = some m' ∧
      (∀ country ∈ m'.great_powers,
        (m'.country_instances country).total_rank ≤ define_manager.great_power_rank →
        (m'.country_instances country).lose_great_power_date =
          today + define_manager.lose_great_power_grace_days) ∧
      (∀ country, ¬ (country ∈ m'.great_powers ∧
          (m'.country_instances country).total_rank ≤ define_manager.great_power_rank) →
        (m'.country_instances country).lose_great_power_date =
          (m.country_instances country).lose_great_power_date) ∧
      (∀ country, (m.country_instances country).country_status ≠
          country_status_t.COUNTRY_STATUS_GREAT_POWER →
        (m'.country_instances country).country_status =
          country_status_t.COUNTRY_STATUS_GREAT_POWER →
        country ∈ m'.great_powers ∧
          (m'.country_instances country).total_rank ≤ define_manager.great_power_rank) := by
  obtain ⟨m', new_great, new_secondary, hresult, -, ⟨hperm, -⟩, hng, hns, hstatus', hdate,
    hframe⟩ := update_rankings_spec std today define_manager m hbound
  have hrank : ∀ country, (m'.country_instances country).total_rank =
      ((m.rank_countries std).country_instances country).total_rank :=
    hframe (fun c => c.total_rank) (fun _ _ => rfl) (fun _ _ => rfl)
  refine ⟨m', hresult, fun country hc hr => ?_, fun country hnot => ?_,
    fun country hbefore hafter => ?_⟩
  · rw [hdate, if_pos ⟨hc, hrank country ▸ hr⟩]
  · rw [hdate, if_neg (fun h => hnot ⟨h.1, (hrank country).symm ▸ h.2⟩)]
  · rw [hstatus' country] at hafter
    by_cases hg : country ∈ new_great
    · exact ⟨hperm.mem_iff.mpr (List.mem_append_right _ hg),
        (hrank country).symm ▸ (hng country hg).2.2.2.2⟩
    · rw [if_neg hg] at hafter
      exfalso
      split_ifs at hafter
      rw [demote_powers_status] at hafter
      split_ifs at hafter
      exact hbefore hafter

/-- Witness of C28: after `update_rankings` on day 100 with thirty days of grace, country 3 of
the example, a new great power of total rank one, has day 130 as `lose_great_power_date`, and
country 1, a great power of total rank three, keeps day 110. -/
theorem grace_refreshed_witness :
    ((example_manager_with_great_power 110).update_rankings std_insertion_sort 100
        example_define_manager).map (fun m => (m.great_powers,
          [3, 1, 5].map (fun country => ((m.country_instances country).total_rank,
            (m.country_instances country).lose_great_power_date)))) =
        some ([3, 1], [(1, 130), (3, 110), (2, 0)]) ∧
      ∃ m', (example_manager_with_great_power 110).update_rankings std_insertion_sort 100
          example_define_manager = some m' ∧
        (∀ country ∈ m'.great_powers,
          (m'.country_instances country).total_rank ≤
            example_define_manager.great_power_rank →
          (m'.country_instances country).lose_great_power_date =
            100 + example_define_manager.lose_great_power_grace_days) := by
  refine ⟨by decide, ?_⟩
  obtain ⟨m', hresult, h, -⟩ := grace_refreshed std_insertion_sort 100 example_define_manager
    (example_manager_with_great_power 110) (Or.inl (by decide))
  exact ⟨m', hresult, h⟩

/-! ## The history of a country: what it leaves as it is -/

theorem add_accepted_culture_frame {α : Type} (obs : CountryInstance → α)
    (hobs : ∀ c l, obs { c with accepted_cultures := l } = obs c) (c : CountryInstance)
    (culture : Nat) : obs (c.add_accepted_culture culture).2 = obs c := by
  unfold add_accepted_culture
  split_ifs
  · rfl
  · exact hobs _ _

theorem add_reform_frame {α : Type} (obs : CountryInstance → α)
    (hobs : ∀ c l, obs { c with reforms := l } = obs c) (c : CountryInstance)
    (reform : Nat) : obs (c.add_reform reform).2 = obs c := by
  unfold add_reform
  split_ifs
  · rfl
  · exact hobs _ _

theorem set_country_flag_frame {α : Type} (obs : CountryInstance → α)
    (hobs : ∀ c l, obs { c with country_flags := l } = obs c) (c : CountryInstance)
    (flag : String) : obs (c.set_country_flag flag).2 = obs c := by
  unfold set_country_flag
  split_ifs
  · rfl
  · rfl
  · exact hobs _ _

theorem apply_foreign_investments_frame {α : Type} (obs : CountryInstance → α)
    (hobs : ∀ c l, obs { c with foreign_investments := l } = obs c) (c : CountryInstance)
    (investments : List (CountryDefinition × fixed_point_t)) :
    obs (c.apply_foreign_investments investments) = obs c := by
  unfold apply_foreign_investments
  induction investments generalizing c with
  | nil => rfl
  | cons investment rest ih =>
    rw [List.foldl_cons, ih]
    exact hobs _ _

/-- The function `modify_technology_unlock` changes nothing but unlock levels. -/
theorem modify_technology_unlock_frame {α : Type} (obs : CountryInstance → α)
    (htech : ∀ c l, obs { c with unlocked_technologies := l } = obs c)
    (hvar : ∀ c l, obs { c with unit_variant_unlock_levels := l } = obs c)
    (hland : ∀ c l, obs { c with unlocked_regiment_types := l } = obs c)
    (hnaval : ∀ c l, obs { c with unlocked_ship_types := l } = obs c)
    (hbuild : ∀ c l, obs { c with unlocked_building_types := l } = obs c) (bits : Nat)
    (c : CountryInstance) (t : Technology) (d : Int) :
    obs (modify_technology_unlock bits c t d).2 = obs c := by
  by_cases hs : level_sum bits (c.unlocked_technologies.getD t.index 0) d < 0
  · simp only [modify_technology_unlock, hs, if_true]
  · rw [modify_technology_unlock_accepted_frame obs hvar hland hnaval hbuild bits c t d hs]
    exact htech _ _

/-- The function `modify_invention_unlock` changes nothing but unlock levels. -/
theorem modify_invention_unlock_frame {α : Type} (obs : CountryInstance → α)
    (hinvention : ∀ c l, obs { c with unlocked_inventions := l } = obs c)
    (hland : ∀ c l, obs { c with unlocked_regiment_types := l } = obs c)
    (hnaval : ∀ c l, obs { c with unlocked_ship_types := l } = obs c)
    (hbuild : ∀ c l, obs { c with unlocked_building_types := l } = obs c)
    (hcrime : ∀ c l, obs { c with unlocked_crimes := l } = obs c)
    (hattack : ∀ c l, obs { c with gas_attack_unlock_level := l } = obs c)
    (hdefence : ∀ c l, obs { c with gas_defence_unlock_level := l } = obs c) (bits : Nat)
    (c : CountryInstance) (i : Invention) (d : Int) :
    obs (modify_invention_unlock bits c i d).2 = obs c := by
  by_cases hs : level_sum bits (c.unlocked_inventions.getD i.index 0) d < 0
  · simp only [modify_invention_unlock, hs, if_true]
  · rw [modify_invention_unlock_accepted_frame obs hland hnaval hbuild hcrime hattack hdefence
      bits c i d hs]
    exact hinvention _ _

/-- The function `set_technology_unlock_level` changes nothing but unlock levels. -/
theorem set_technology_unlock_level_frame {α : Type} (obs : CountryInstance → α)
    (htech : ∀ c l, obs { c with unlocked_technologies := l } = obs c)
    (hvar : ∀ c l, obs { c with unit_variant_unlock_levels := l } = obs c)
    (hland : ∀ c l, obs { c with unlocked_regiment_types := l } = obs c)
    (hnaval : ∀ c l, obs { c with unlocked_ship_types := l } = obs c)
    (hbuild : ∀ c l, obs { c with unlocked_building_types := l } = obs c) (bits : Nat)
    (c : CountryInstance) (t : Technology) (v : Int) :
    obs (set_technology_unlock_level bits c t v).2 = obs c := by
  simp only [set_technology_unlock_level]
  split_ifs
  · exact modify_technology_unlock_frame obs htech hvar hland hnaval hbuild bits c t _
  · rfl

/-- The function `set_invention_unlock_level` changes nothing but unlock levels. -/
theorem set_invention_unlock_level_frame {α : Type} (obs : CountryInstance → α)
    (hinvention : ∀ c l, obs { c with unlocked_inventions := l } = obs c)
    (hland : ∀ c l, obs { c with unlocked_regiment_types := l } = obs c)
    (hnaval : ∀ c l, obs { c with unlocked_ship_types := l } = obs c)
    (hbuild : ∀ c l, obs { c with unlocked_building_types := l } = obs c)
    (hcrime : ∀ c l, obs { c with unlocked_crimes := l } = obs c)
    (hattack : ∀ c l, obs { c with gas_attack_unlock_level := l } = obs c)
    (hdefence : ∀ c l, obs { c with gas_defence_unlock_level := l } = obs c) (bits : Nat)
    (c : CountryInstance) (i : Invention) (v : Int) :
    obs (set_invention_unlock_level bits c i v).2 = obs c := by
  simp only [set_invention_unlock_level]
  split_ifs
  · exact modify_invention_unlock_frame obs hinvention hland hnaval hbuild hcrime hattack
      hdefence bits c i _
  · rfl

theorem set_technology_unlock_level_status (bits : Nat) (c : CountryInstance)
    (t : Technology) (v : Int) :
    (set_technology_unlock_level bits c t v).2.country_status = c.country_status :=
  set_technology_unlock_level_frame (fun c => c.country_status) (fun _ _ => rfl)
    (fun _ _ => rfl) (fun _ _ => rfl) (fun _ _ => rfl) (fun _ _ => rfl) bits c t v

theorem set_invention_unlock_level_status (bits : Nat) (c : CountryInstance)
    (i : Invention) (v : Int) :
    (set_invention_unlock_level bits c i v).2.country_status = c.country_status :=
  set_invention_unlock_level_frame (fun c => c.country_status) (fun _ _ => rfl)
    (fun _ _ => rfl) (fun _ _ => rfl) (fun _ _ => rfl) (fun _ _ => rfl) (fun _ _ => rfl)
    (fun _ _ => rfl) bits c i v

/-- The functions that change unlock levels leave the status of the country as it is. -/
theorem call_country_status (bits : Nat) (s : CountryInstance) (x : Call) :
    (s.call bits x).2.country_status = s.country_status := by
  have hmodify : ∀ key d, (s.modify_unlock bits key d).2.country_status = s.country_status := by
    intro key d
    cases key with
    | building_type k =>
      exact modify_building_type_unlock_frame (fun c => c.country_status) (fun _ _ => rfl)
        bits s k d
    | crime k =>
      exact modify_crime_unlock_frame (fun c => c.country_status) (fun _ _ => rfl) bits s k d
    | regiment_type k =>
      simp only [modify_unlock, modify_regiment_type_unlock]
      split_ifs <;> rfl
    | ship_type k =>
      simp only [modify_unlock, modify_ship_type_unlock]
      split_ifs <;> rfl
    | gas_attack =>
      exact modify_gas_attack_unlock_frame (fun c => c.country_status) (fun _ _ => rfl)
        bits s d
    | gas_defence =>
      exact modify_gas_defence_unlock_frame (fun c => c.country_status) (fun _ _ => rfl)
        bits s d
    | technology t =>
      exact modify_technology_unlock_frame (fun c => c.country_status) (fun _ _ => rfl)
        (fun _ _ => rfl) (fun _ _ => rfl) (fun _ _ => rfl) (fun _ _ => rfl) bits s t d
    | invention i =>
      exact modify_invention_unlock_frame (fun c => c.country_status) (fun _ _ => rfl)
        (fun _ _ => rfl) (fun _ _ => rfl) (fun _ _ => rfl) (fun _ _ => rfl) (fun _ _ => rfl)
        (fun _ _ => rfl) bits s i d
  cases x with
  | modify key d => exact hmodify key d
  | unlock key => exact hmodify key 1
  | modify_unit_type_unlock u d =>
    exact modify_unit_type_unlock_frame (fun c => c.country_status) (fun _ _ => rfl)
      (fun _ _ => rfl) bits s u d
  | unlock_unit_type u =>
    exact modify_unit_type_unlock_frame (fun c => c.country_status) (fun _ _ => rfl)
      (fun _ _ => rfl) bits s u 1
  | modify_unit_variant_unlock v d =>
    exact modify_unit_variant_unlock_frame (fun c => c.country_status) (fun _ _ => rfl)
      bits s v d
  | unlock_unit_variant v =>
    exact modify_unit_variant_unlock_frame (fun c => c.country_status) (fun _ _ => rfl)
      bits s v 1
  | set_technology_unlock_level t v =>
    exact set_technology_unlock_level_frame (fun c => c.country_status) (fun _ _ => rfl)
      (fun _ _ => rfl) (fun _ _ => rfl) (fun _ _ => rfl) (fun _ _ => rfl) bits s t v
  | set_invention_unlock_level i v =>
    exact set_invention_unlock_level_frame (fun c => c.country_status) (fun _ _ => rfl)
      (fun _ _ => rfl) (fun _ _ => rfl) (fun _ _ => rfl) (fun _ _ => rfl) (fun _ _ => rfl)
      (fun _ _ => rfl) bits s i v

/-- The functions that add to and remove from the sets of a country leave its status as it
is. -/
theorem member_country_status (s : CountryInstance) (set : MemberSet) (item : Nat) :
    (s.add_member set item).2.country_status = s.country_status ∧
      (s.remove_member set item).2.country_status = s.country_status := by
  rw [add_member_eq, remove_member_eq]
  constructor
  · split_ifs
    · rfl
    · cases set <;> rfl
  · split_ifs
    · cases set <;> rfl
    · rfl

/-- The status of a country after `apply_history_to_country`: civilised or uncivilised as the
entry says, and the status it had when the entry says nothing. -/
theorem apply_history_to_country_status (bits : Nat) (collaborators : HistoryCollaborators)
    (s : CountryInstance) (entry : CountryHistoryEntry) :
    (s.apply_history_to_country bits collaborators entry).2.country_status =
      match entry.civilised with
      | some civilised =>
        if civilised then country_status_t.COUNTRY_STATUS_CIVILISED
        else country_status_t.COUNTRY_STATUS_UNCIVILISED
      | none => s.country_status := by
  obtain ⟨s1, hs1⟩ : ∃ s1 : CountryInstance, s1 = { s with
      primary_culture := set_optional_pointer s.primary_culture entry.primary_culture } :=
    ⟨_, rfl⟩
  obtain ⟨r2, hr2⟩ : ∃ r2, r2 = cascade add_accepted_culture entry.accepted_cultures
      (true, s1) := ⟨_, rfl⟩
  obtain ⟨s3, hs3⟩ : ∃ s3 : CountryInstance, s3 = { r2.2 with
      religion := set_optional_pointer r2.2.religion entry.religion
      ruling_party := set_optional_pointer r2.2.ruling_party entry.ruling_party
      last_election := set_optional r2.2.last_election entry.last_election } := ⟨_, rfl⟩
  obtain ⟨copied, hcopied⟩ : ∃ copied,
      copied = collaborators.upper_house_copy s3.upper_house entry.upper_house := ⟨_, rfl⟩
  obtain ⟨capital, hcapital⟩ : ∃ capital, capital =
      match entry.capital with
      | some province => some (collaborators.get_province_instance_from_definition province)
      | none => s3.capital := ⟨_, rfl⟩
  obtain ⟨status, hstatus⟩ : ∃ status, status =
      match entry.civilised with
      | some civilised =>
        if civilised then country_status_t.COUNTRY_STATUS_CIVILISED
        else country_status_t.COUNTRY_STATUS_UNCIVILISED
      | none => s3.country_status := ⟨_, rfl⟩
  obtain ⟨s4, hs4⟩ : ∃ s4 : CountryInstance, s4 = { s3 with
      upper_house := copied.2
      capital := capital
      government_type := set_optional_pointer s3.government_type entry.government_type
      plurality := set_optional s3.plurality entry.plurality
      national_value := set_optional_pointer s3.national_value entry.national_value
      country_status := status
      prestige := set_optional s3.prestige entry.prestige } := ⟨_, rfl⟩
  obtain ⟨r5, hr5⟩ : ∃ r5, r5 = cascade add_reform entry.reforms (r2.1 && copied.1, s4) :=
    ⟨_, rfl⟩
  obtain ⟨s6, hs6⟩ : ∃ s6 : CountryInstance, s6 = { r5.2 with
      tech_school := set_optional_pointer r5.2.tech_school entry.tech_school } := ⟨_, rfl⟩
  obtain ⟨r7, hr7⟩ : ∃ r7, r7 = cascade
      (fun c technology => set_technology_unlock_level bits c technology.1 technology.2)
      entry.technologies (r5.1, s6) := ⟨_, rfl⟩
  obtain ⟨r8, hr8⟩ : ∃ r8, r8 = cascade
      (fun c invention =>
        set_invention_unlock_level bits c invention.1 (if invention.2 then 1 else 0))
      entry.inventions r7 := ⟨_, rfl⟩
  obtain ⟨s9, hs9⟩ : ∃ s9, s9 = r8.2.apply_foreign_investments entry.foreign_investment :=
    ⟨_, rfl⟩
  obtain ⟨s10, hs10⟩ : ∃ s10 : CountryInstance, s10 = { s9 with
      releasable_vassal := set_optional s9.releasable_vassal entry.releasable_vassal } :=
    ⟨_, rfl⟩
  obtain ⟨r11, hr11⟩ : ∃ r11, r11 = cascade set_country_flag entry.country_flags
      (r8.1, s10) := ⟨_, rfl⟩
  have hresult : s.apply_history_to_country bits collaborators entry =
      (r11.1, { r11.2 with
        government_flag_overrides := collaborators.write_non_empty_values
          r11.2.government_flag_overrides entry.government_flag_overrides }) := by
    subst_vars
    rfl
  have h2 : r2.2.country_status = s.country_status := by
    rw [hr2, cascade_preserves _ (fun c => c.country_status)
      (fun c culture => add_accepted_culture_frame (fun c => c.country_status)
        (fun _ _ => rfl) c culture), hs1]
  have h5 : r5.2.country_status = status := by
    rw [hr5, cascade_preserves _ (fun c => c.country_status)
      (fun c reform => add_reform_frame (fun c => c.country_status) (fun _ _ => rfl) c
        reform), hs4]
  have h7 : r7.2.country_status = r5.2.country_status := by
    rw [hr7]
    exact (cascade_preserves
      (fun c (technology : Technology × Int) =>
        set_technology_unlock_level bits c technology.1 technology.2)
      (fun c => c.country_status)
      (fun c technology => set_technology_unlock_level_status bits c technology.1 technology.2)
      entry.technologies (r5.1, s6)).trans (by rw [hs6])
  have h8 : r8.2.country_status = r7.2.country_status := by
    rw [hr8]
    exact cascade_preserves
      (fun c (invention : Invention × Bool) =>
        set_invention_unlock_level bits c invention.1 (if invention.2 then 1 else 0))
      (fun c => c.country_status)
      (fun c invention => set_invention_unlock_level_status bits c invention.1 _)
      entry.inventions r7
  have h9 : s9.country_status = r8.2.country_status := by
    rw [hs9, apply_foreign_investments_frame (fun c => c.country_status) (fun _ _ => rfl)]
  have h11 : r11.2.country_status = s9.country_status := by
    rw [hr11, cascade_preserves _ (fun c => c.country_status)
      (fun c flag => set_country_flag_frame (fun c => c.country_status) (fun _ _ => rfl)
        c flag), hs10]
  rw [hresult]
  show r11.2.country_status = _
  rw [h11, h9, h8, h7, h5, hstatus, hs3]
  show (match entry.civilised with
    | some civilised =>
      if civilised then country_status_t.COUNTRY_STATUS_CIVILISED
      else country_status_t.COUNTRY_STATUS_UNCIVILISED
    | none => r2.2.country_status) = _
  rw [h2]

/-! ## C29: the status of a country outside `update_rankings` -/

/-- The function `update_gamestate` of a country leaves its status as it is. -/
theorem update_gamestate_country_status (precision : Nat) (define_manager : DefineManager)
    (unit_type_manager : UnitTypeManager) (std : StdSort) (country_exists : Nat → Bool)
    (objects : Objects) (s : CountryInstance) :
    (update_gamestate precision define_manager unit_type_manager std country_exists objects
      s).country_status = s.country_status := by
  simp only [CountryInstance.update_gamestate, _update_budget, _update_technology, _update_politics,
    _update_trade, _update_diplomacy, _update_military]
  rw [update_population_frame (fun c => c.country_status) (fun _ _ _ _ _ _ => rfl),
    update_production_eq]
  rfl

/-- C29 does not hold as it is worded. A history entry that says that the country is civilised
is applied to a great power: after `apply_history_to_country` the status of the country is
civilised and no longer that of a great power. -/
theorem apply_history_changes_great_power :
    example_history_entry.civilised = some true ∧
      ({ example_country with
          country_status := country_status_t.COUNTRY_STATUS_GREAT_POWER }.apply_history_to_country
        8 example_collaborators example_history_entry).2.country_status =
        country_status_t.COUNTRY_STATUS_CIVILISED ∧
      ({ example_country with
          country_status := country_status_t.COUNTRY_STATUS_GREAT_POWER }.apply_history_to_country
        8 example_collaborators example_history_entry).2.country_status ≠
        ({ example_country with
          country_status := country_status_t.COUNTRY_STATUS_GREAT_POWER } :
            CountryInstance).country_status := by
  decide

/-- C29 as amended. No function of a country record sets its status to great power or
secondary power. The status after `apply_history_to_country` is civilised when the entry says
that the country is civilised and uncivilised when it says that it is not, whatever the status
was, and the status before when the entry says neither; so the status after is that of a great
power or a secondary power only when it was so before and the entry says neither. The other
functions leave the status as it is: `apply_foreign_investments`, the functions that change
unlock levels, the functions that add to and remove from the sets and the reforms of the
country, `set_country_flag` and `update_gamestate`. -/
theorem status_outside_update_rankings (bits precision : Nat)
    (collaborators : HistoryCollaborators) (define_manager : DefineManager)
    (unit_type_manager : UnitTypeManager) (std : StdSort) (country_exists : Nat → Bool)
    (objects : Objects) (s : CountryInstance) :
    (∀ entry : CountryHistoryEntry,
        ((s.apply_history_to_country bits collaborators entry).2.country_status =
          match entry.civilised with
          | some civilised =>
            if civilised then country_status_t.COUNTRY_STATUS_CIVILISED
            else country_status_t.COUNTRY_STATUS_UNCIVILISED
          | none => s.country_status) ∧
        (((s.apply_history_to_country bits collaborators entry).2.country_status =
              country_status_t.COUNTRY_STATUS_GREAT_POWER ∨
            (s.apply_history_to_country bits collaborators entry).2.country_status =
              country_status_t.COUNTRY_STATUS_SECONDARY_POWER) →
          entry.civilised = none ∧
            (s.apply_history_to_country bits collaborators entry).2.country_status =
              s.country_status)) ∧
      (∀ investments, (s.apply_foreign_investments investments).country_status =
        s.country_status) ∧
      (∀ x : Call, (s.call bits x).2.country_status = s.country_status) ∧
      (∀ set item, (s.add_member set item).2.country_status = s.country_status ∧
        (s.remove_member set item).2.country_status = s.country_status) ∧
      (∀ x : ReformCall, (s.reform_call x).2.country_status = s.country_status) ∧
      (∀ flag, (s.set_country_flag flag).2.country_status = s.country_status) ∧
      (update_gamestate precision define_manager unit_type_manager std country_exists objects
        s).country_status = s.country_status := by
  refine ⟨fun entry => ?_, fun investments => ?_, call_country_status bits s,
    member_country_status s, fun x => ?_, fun flag => ?_,
    update_gamestate_country_status precision define_manager unit_type_manager std
      country_exists objects s⟩
  · have h := apply_history_to_country_status bits collaborators s entry
    refine ⟨h, fun hpower => ?_⟩
    rw [h] at hpower ⊢
    cases hcivilised : entry.civilised with
    | none => exact ⟨rfl, rfl⟩
    | some civilised =>
      rw [hcivilised] at hpower
      cases civilised <;> simp at hpower
  · exact apply_foreign_investments_frame (fun c => c.country_status) (fun _ _ => rfl) s
      investments
  · cases x with
    | add_reform reform =>
      exact add_reform_frame (fun c => c.country_status) (fun _ _ => rfl) s reform
    | remove_reform reform =>
      simp only [reform_call, remove_reform]
      split_ifs <;> rfl
  · exact set_country_flag_frame (fun c => c.country_status) (fun _ _ => rfl) s flag

/-! ## C30: the history of the countries -/

namespace CountryInstanceManager

/-- The country after the loop over the entries of a history map: the entries dated up to the
date are applied in the order of the map, and of the later entries the foreign investments. -/
theorem apply_history_entries_country (bits : Nat) (collaborators : HistoryCollaborators)
    (date : Int) (history_map : List (Int × CountryHistoryEntry))
    (acc : Bool × CountryInstance × Option CountryHistoryEntry) :
    (history_map.foldl (apply_history_entry bits collaborators date) acc).2.1 =
      history_map.foldl (fun c dated =>
        if dated.1 ≤ date then (c.apply_history_to_country bits collaborators dated.2).2
        else c.apply_foreign_investments dated.2.foreign_investment) acc.2.1 := by
  induction history_map generalizing acc with
  | nil => rfl
  | cons dated rest ih =>
    rw [List.foldl_cons, List.foldl_cons, ih]
    unfold apply_history_entry
    split_ifs <;> rfl

/-- The entry with the order of battle after the loop over the entries of a history map: the
last entry dated up to the date that has one. -/
theorem apply_history_entries_oob (bits : Nat) (collaborators : HistoryCollaborators)
    (date : Int) (history_map : List (Int × CountryHistoryEntry))
    (acc : Bool × CountryInstance × Option CountryHistoryEntry) :
    (history_map.foldl (apply_history_entry bits collaborators date) acc).2.2 =
      match (history_map.filter (fun dated =>
        decide (dated.1 ≤ date) && dated.2.inital_oob.isSome)).getLast? with
      | some dated => some dated.2
      | none => acc.2.2 := by
  induction history_map generalizing acc with
  | nil => rfl
  | cons dated rest ih =>
    rw [List.foldl_cons, ih]
    unfold apply_history_entry
    by_cases hdate : dated.1 ≤ date
    · by_cases hoob : dated.2.inital_oob.isSome = true
      · rw [List.filter_cons_of_pos (by simp [hdate, hoob]), List.getLast?_cons]
        cases (rest.filter (fun dated =>
          decide (dated.1 ≤ date) && dated.2.inital_oob.isSome)).getLast? with
        | none => simp [hdate, hoob]
        | some last => simp
      · rw [List.filter_cons_of_neg (by simp [hdate, hoob])]
        simp [hdate, hoob]
    · rw [List.filter_cons_of_neg (by simp [hdate])]
      simp [hdate]

/-- The result of the loop over the entries of a history map is true only if it was so
before. -/
theorem apply_history_entries_ret (bits : Nat) (collaborators : HistoryCollaborators)
    (date : Int) (history_map : List (Int × CountryHistoryEntry))
    (acc : Bool × CountryInstance × Option CountryHistoryEntry)
    (h : (history_map.foldl (apply_history_entry bits collaborators date) acc).1 = true) :
    acc.1 = true := by
  induction history_map generalizing acc with
  | nil => exact h
  | cons dated rest ih =>
    rw [List.foldl_cons] at h
    have := ih _ h
    simp only [apply_history_entry] at this
    split_ifs at this
    all_goals first
      | exact this
      | exact (Bool.and_eq_true _ _ ▸ this : acc.1 = true ∧ _).1

/-- The body of the loop of `apply_history_to_countries` for a country with a history map: the
country after it is the country with the entries applied, and with the units of the last order
of battle dated up to the date deployed; the result is true only if it was so before. -/
theorem apply_history_map_eq (bits : Nat) (collaborators : HistoryCollaborators) (date : Int)
    (ret : Bool) (country_instance : CountryInstance)
    (history_map : List (Int × CountryHistoryEntry)) :
    (apply_history_map bits collaborators date ret country_instance history_map).2 =
        (match ((history_map.filter (fun dated =>
            decide (dated.1 ≤ date) && dated.2.inital_oob.isSome)).getLast?).bind
            (fun dated => dated.2.inital_oob) with
        | some inital_oob =>
          (collaborators.generate_deployment
            (history_map.foldl (fun c dated =>
              if dated.1 ≤ date then (c.apply_history_to_country bits collaborators dated.2).2
              else c.apply_foreign_investments dated.2.foreign_investment) country_instance)
            inital_oob).2
        | none =>
          history_map.foldl (fun c dated =>
            if dated.1 ≤ date then (c.apply_history_to_country bits collaborators dated.2).2
            else c.apply_foreign_investments dated.2.foreign_investment) country_instance) ∧
      ((apply_history_map bits collaborators date ret country_instance history_map).1 = true →
        ret = true) := by
  unfold apply_history_map
  simp only []
  have hcountry := apply_history_entries_country bits collaborators date history_map
    (ret, country_instance, none)
  have hoob := apply_history_entries_oob bits collaborators date history_map
    (ret, country_instance, none)
  have hret := apply_history_entries_ret bits collaborators date history_map
    (ret, country_instance, none)
  generalize history_map.foldl (apply_history_entry bits collaborators date)
    (ret, country_instance, none) = r at hcountry hoob hret
  rw [hoob, hcountry]
  cases (history_map.filter (fun dated =>
    decide (dated.1 ≤ date) && dated.2.inital_oob.isSome)).getLast? with
  | none => exact ⟨rfl, hret⟩
  | some last =>
    simp only [Option.some_bind]
    cases last.2.inital_oob with
    | none => exact ⟨rfl, hret⟩
    | some inital_oob =>
      refine ⟨rfl, fun h => hret ?_⟩
      simp only [Bool.and_eq_true] at h
      exact h.1

end CountryInstanceManager

namespace CountryInstanceManager

/-- The loop of `apply_history_to_countries` over distinct countries with a country definition:
it has a result, which is true only if it was so before; a country with a dynamic tag and a
country without a history map are as before, the latter making the result false; a country
with a history map is as the body of the loop leaves it; and a country that the loop does not
come to is as before. -/
theorem apply_history_loop_spec (bits : Nat) (collaborators : HistoryCollaborators)
    (date : Int) (l : List Nat) (hnodup : l.Nodup) (acc : Bool × CountryInstanceManager)
    (hdefined : ∀ country ∈ l, (acc.2.country_instances country).country_definition ≠ none) :
    ∃ ret m', apply_history_loop bits collaborators date l acc = some (ret, m') ∧
      (ret = true → acc.1 = true) ∧
      (∀ country, country ∉ l → m'.country_instances country =
        acc.2.country_instances country) ∧
      (∀ country ∈ l, ∀ definition,
        (acc.2.country_instances country).country_definition = some definition →
        (definition.dynamic_tag = true →
          m'.country_instances country = acc.2.country_instances country) ∧
        (definition.dynamic_tag = false →
          collaborators.get_country_history definition = none →
          m'.country_instances country = acc.2.country_instances country ∧ ret = false) ∧
        (definition.dynamic_tag = false → ∀ history_map,
          collaborators.get_country_history definition = some history_map →
          m'.country_instances country =
            (apply_history_map bits collaborators date true
              (acc.2.country_instances country) history_map).2)) := by
  induction l generalizing acc with
  | nil =>
    exact ⟨acc.1, acc.2, rfl, fun h => h, fun _ _ => rfl,
      fun country hc => absurd hc (List.not_mem_nil _)⟩
  | cons first rest ih =>
    obtain ⟨hnot, hrest⟩ := List.nodup_cons.mp hnodup
    have hne : ∀ country ∈ rest, country ≠ first := fun country hc heq => hnot (heq ▸ hc)
    obtain ⟨definition, hdefinition⟩ := Option.ne_none_iff_exists'.mp
      (hdefined first (List.mem_cons_self _ _))
    rw [apply_history_loop]
    simp only [hdefinition]
    by_cases hdynamic : definition.dynamic_tag = true
    · rw [if_neg (by simp [hdynamic])]
      obtain ⟨ret, m', hloop, hret, hother, hmember⟩ := ih hrest acc
        (fun country hc => hdefined country (List.mem_cons_of_mem _ hc))
      refine ⟨ret, m', hloop, hret, fun country hc => hother country
        (fun h => hc (List.mem_cons_of_mem _ h)), fun country hc definition' hd => ?_⟩
      rcases List.mem_cons.mp hc with rfl | hc
      · rw [hdefinition] at hd
        cases hd
        rw [hother country hnot]
        exact ⟨fun _ => rfl, fun h => absurd hdynamic (by simp [h]),
          fun h => absurd hdynamic (by simp [h])⟩
      · exact hmember country hc definition' hd
    · rw [if_pos (by simpa using hdynamic)]
      cases hhistory : collaborators.get_country_history definition with
      | none =>
        simp only []
        obtain ⟨ret, m', hloop, hret, hother, hmember⟩ := ih hrest (false, acc.2)
          (fun country hc => hdefined country (List.mem_cons_of_mem _ hc))
        have hfalse : ret = false := by
          cases ret
          · rfl
          · exact absurd (hret rfl) (by simp)
        refine ⟨ret, m', hloop, fun h => absurd (hret h) (by simp),
          fun country hc => hother country (fun h => hc (List.mem_cons_of_mem _ h)),
          fun country hc definition' hd => ?_⟩
        rcases List.mem_cons.mp hc with rfl | hc
        · rw [hdefinition] at hd
          cases hd
          rw [hother country hnot]
          exact ⟨fun _ => rfl, fun _ _ => ⟨rfl, hfalse⟩,
            fun _ history_map h => by rw [hhistory] at h; cases h⟩
        · exact hmember country hc definition' hd
      | some history_map =>
        simp only []
        obtain ⟨hcountry, hmap_ret⟩ := apply_history_map_eq bits collaborators date acc.1
          (acc.2.country_instances first) history_map
        obtain ⟨hcountry_true, -⟩ := apply_history_map_eq bits collaborators date true
          (acc.2.country_instances first) history_map
        obtain ⟨ret, m', hloop, hret, hother, hmember⟩ := ih hrest
          ((apply_history_map bits collaborators date acc.1
            (acc.2.country_instances first) history_map).1,
            acc.2.modify_country first (fun _ =>
              (apply_history_map bits collaborators date acc.1
                (acc.2.country_instances first) history_map).2))
          (fun country hc => by
            rw [modify_country_other _ _ _ _ (hne country hc)]
            exact hdefined country (List.mem_cons_of_mem _ hc))
        refine ⟨ret, m', hloop, fun h => hmap_ret (hret h), fun country hc => ?_,
          fun country hc definition' hd => ?_⟩
        · rw [hother country (fun h => hc (List.mem_cons_of_mem _ h))]
          have hfirst : country ≠ first := fun h => hc (h ▸ List.mem_cons_self _ _)
          simp only [modify_country_other _ _ _ _ hfirst]
        · rcases List.mem_cons.mp hc with rfl | hc
          · rw [hdefinition] at hd
            cases hd
            rw [hother country hnot, modify_country_self]
            refine ⟨fun h => absurd h hdynamic, fun _ h => (by rw [hhistory] at h; cases h),
              fun _ history_map' h => ?_⟩
            rw [hhistory] at h
            cases h
            rw [hcountry, hcountry_true]
          · have := hmember country hc definition' (by
              rw [modify_country_other _ _ _ _ (hne country hc)]
              exact hd)
            rw [modify_country_other _ _ _ _ (hne country hc)] at this
            exact this

end CountryInstanceManager

namespace CountryInstanceManager

/-- The loop over the entries of a history map has the same result for two history maps of the
same dates whose entries dated up to the date are the same and whose entries dated later have
the same foreign investments. -/
theorem apply_history_entries_congr (bits : Nat) (collaborators : HistoryCollaborators)
    (date : Int) (history_map other_map : List (Int × CountryHistoryEntry))
    (hmaps : List.Forall₂ (fun dated other => dated.1 = other.1 ∧
      (dated.1 ≤ date → dated.2 = other.2) ∧
      (date < dated.1 → dated.2.foreign_investment = other.2.foreign_investment))
      history_map other_map) (acc : Bool × CountryInstance × Option CountryHistoryEntry) :
    other_map.foldl (apply_history_entry bits collaborators date) acc =
      history_map.foldl (apply_history_entry bits collaborators date) acc := by
  induction hmaps generalizing acc with
  | nil => rfl
  | @cons dated other _ _ hfirst _ ih =>
    obtain ⟨hdate, hfull, hlater⟩ := hfirst
    rw [List.foldl_cons, List.foldl_cons, ih]
    congr 1
    unfold apply_history_entry
    by_cases hle : dated.1 ≤ date
    · rw [if_pos hle, if_pos (show other.1 ≤ date from hdate ▸ hle), hfull hle]
    · rw [if_neg hle, if_neg (show ¬ other.1 ≤ date from hdate ▸ hle),
        hlater (not_le.mp hle)]

end CountryInstanceManager

/-- C30. `apply_history_to_countries` has a result when every country of the registry has a
country definition. A country whose definition is a dynamic tag is after the call as it was
before. A country whose definition is no dynamic tag and has no history map is as it was
before, and the result is false. A country whose definition is no dynamic tag and has a
history map has had its entries applied in the order of the map, those dated up to the date in
full by `apply_history_to_country` and of those dated later the foreign investments by
`apply_foreign_investments`, and then the units deployed of the last entry dated up to the date
that has an initial order of battle; the same country comes of any history map of the same
dates whose entries dated up to the date are the same and whose entries dated later have the
same foreign investments, so that no other field of a later entry has an effect. What is not a
country of the registry is as before. -/
theorem apply_history_to_countries_spec (bits : Nat) (collaborators : HistoryCollaborators)
    (date : Int) (m : CountryInstanceManager)
    (hdefined : ∀ country, country < m.country_instance_count →
      (m.country_instances country).country_definition ≠ none) :
    ∃ ret m', m.apply_history_to_countries bits collaborators date = some (ret, m') ∧
      (∀ country, m.country_instance_count ≤ country →
        m'.country_instances country = m.country_instances country) ∧
      ∀ country definition, country < m.country_instance_count →
        (m.country_instances country).country_definition = some definition →
        (definition.dynamic_tag = true →
          m'.country_instances country = m.country_instances country) ∧
        (definition.dynamic_tag = false →
          collaborators.get_country_history definition = none →
          m'.country_instances country = m.country_instances country ∧ ret = false) ∧
        (definition.dynamic_tag = false → ∀ history_map,
          collaborators.get_country_history definition = some history_map →
          m'.country_instances country =
            (match (history_map.filter (fun dated =>
                decide (dated.1 ≤ date) && dated.2.inital_oob.isSome)).getLast?.bind
                (fun dated => dated.2.inital_oob) with
            | some inital_oob =>
              (collaborators.generate_deployment
                ((m.country_instances country).history_applied_spec bits collaborators date
                  history_map) inital_oob).2
            | none =>
              (m.country_instances country).history_applied_spec bits collaborators date
                history_map) ∧
          ∀ other_map, List.Forall₂ (fun dated other => dated.1 = other.1 ∧
              (dated.1 ≤ date → dated.2 = other.2) ∧
              (date < dated.1 → dated.2.foreign_investment = other.2.foreign_investment))
              history_map other_map →
            (apply_history_map bits collaborators date true (m.country_instances country)
              other_map).2 = m'.country_instances country) := by
  obtain ⟨ret, m', hloop, -, hother, hmember⟩ := apply_history_loop_spec bits collaborators
    date (List.range m.country_instance_count) (List.nodup_range _) (true, m)
    (fun country hc => hdefined country (List.mem_range.mp hc))
  refine ⟨ret, m', hloop, fun country hc => hother country
    (fun h => absurd (List.mem_range.mp h) (by omega)), fun country definition hc hd => ?_⟩
  obtain ⟨hdynamic, hnone, hsome⟩ := hmember country (List.mem_range.mpr hc) definition hd
  refine ⟨hdynamic, hnone, fun hstatic history_map hhistory => ⟨?_, fun other_map hmaps => ?_⟩⟩
  · rw [hsome hstatic history_map hhistory]
    exact (apply_history_map_eq bits collaborators date true (m.country_instances country)
      history_map).1
  · rw [hsome hstatic history_map hhistory]
    unfold apply_history_map
    rw [apply_history_entries_congr bits collaborators date history_map other_map hmaps]

/-- Witness of C30: the history of the example is applied at day 15 to the three countries of
the example, of which the first has a history with an entry of day 10 and an entry of day 20,
the second has no history and the third is a dynamic tag. The result is false, the first
country is civilised with a prestige of 5, as the entry of day 10 says, and has the foreign
investments of both entries, and the other two countries are as before. -/
theorem apply_history_to_countries_spec_witness :
    (∀ country, country < example_manager_with_definitions.country_instance_count →
      (example_manager_with_definitions.country_instances country).country_definition ≠
        none) ∧
      (example_manager_with_definitions.apply_history_to_countries 8 example_collaborators
        15).map (fun r => r.1) = some false ∧
      (example_manager_with_definitions.apply_history_to_countries 8 example_collaborators
        15).map (fun r => ((r.2.country_instances 0).country_status,
          (r.2.country_instances 0).prestige)) =
        some (country_status_t.COUNTRY_STATUS_CIVILISED, 5) ∧
      (example_manager_with_definitions.apply_history_to_countries 8 example_collaborators
        15).map (fun r => (r.2.country_instances 0).foreign_investments) =
        some [(1, 3), (2, 7)] ∧
      (example_manager_with_definitions.apply_history_to_countries 8 example_collaborators
        15).map (fun r => decide (r.2.country_instances 1 =
          example_manager_with_definitions.country_instances 1 ∧
          r.2.country_instances 2 = example_manager_with_definitions.country_instances 2)) =
        some true ∧
      ∃ ret m', example_manager_with_definitions.apply_history_to_countries 8
          example_collaborators 15 = some (ret, m') ∧
        (∀ country, example_manager_with_definitions.country_instance_count ≤ country →
          m'.country_instances country =
            example_manager_with_definitions.country_instances country) ∧
        ∀ country definition,
          country < example_manager_with_definitions.country_instance_count →
          (example_manager_with_definitions.country_instances country).country_definition =
            some definition →
          definition.dynamic_tag = true →
          m'.country_instances country =
            example_manager_with_definitions.country_instances country :=
  ⟨fun _ _ => Option.some_ne_none _, by decide, by decide, by decide, by decide,
    (apply_history_to_countries_spec 8 example_collaborators 15
      example_manager_with_definitions (fun _ _ => Option.some_ne_none _)).imp
      (fun _ h => h.imp (fun _ h => ⟨h.1, h.2.1, fun country definition hc hd =>
        (h.2.2 country definition hc hd).1⟩))⟩

/-! ## C31: the order of the great powers -/

namespace CountryInstanceManager

/-- The total rank of a country is the same after `refresh_great_powers`. -/
theorem refresh_great_powers_total_rank (std : StdSort) (today : Int)
    (define_manager : DefineManager) (m : CountryInstanceManager) (country : Nat) :
    ((m.refresh_great_powers std today define_manager).country_instances country).total_rank =
      (m.country_instances country).total_rank := by
  rw [(refresh_great_powers_eq std today define_manager m).1 country]
  split_ifs <;> rfl

/-- A list that `std::sort` has sorted with the comparator of the great powers ascends in the
total rank. -/
theorem sort_great_powers (std : StdSort) (m : CountryInstanceManager) (l : List Nat) :
    (std.sort m.great_power_before l).Pairwise (fun a b =>
      (m.country_instances a).total_rank ≤ (m.country_instances b).total_rank) := by
  refine (std.sorted m.great_power_before l ?_ ?_).imp ?_
  · intro a b
    simp only [great_power_before, decide_eq_false_iff_not, not_lt]
    exact le_total _ _
  · intro a b c hab hbc
    simp only [great_power_before, decide_eq_false_iff_not, not_lt] at *
    exact le_trans hab hbc
  · intro a b h
    simpa [great_power_before] using h

end CountryInstanceManager

/-- C31. `update_rankings` has a result when the maximum great power rank is within the maximum
secondary power rank or within the number of countries that exist. In the list of great powers
of the result no great power is followed by one of a smaller total rank: the total ranks of
the list, in the order of the list, do not decrease, whatever the list was before the call and
whichever countries the call has added to it. -/
theorem great_powers_sorted (std : StdSort) (today : Int) (define_manager : DefineManager)
    (m : CountryInstanceManager)
    (hbound : define_manager.great_power_rank ≤ define_manager.secondary_power_rank ∨
      define_manager.great_power_rank ≤ m.existing_countries.length) :
    ∃ m', m.update_rankings std today define_manager = some m' ∧
      m'.great_powers.Pairwise (fun a b =>
        (m'.country_instances a).total_rank ≤ (m'.country_instances b).total_rank) := by
  obtain ⟨-, m3, -, hresult⟩ := update_rankings_steps std today define_manager m hbound
  have hsorted : (m3.refresh_great_powers std today define_manager).great_powers.Pairwise
      (fun a b =>
        ((m3.refresh_great_powers std today define_manager).country_instances a).total_rank ≤
        ((m3.refresh_great_powers std today define_manager).country_instances
          b).total_rank) := by
    rw [(refresh_great_powers_eq std today define_manager m3).2.1]
    simp only [refresh_great_powers_total_rank]
    exact sort_great_powers std m3 m3.great_powers
  exact ⟨_, hresult, hsorted⟩

/-- Witness of C31: the great power of the example is the country 1, which has the third total
rank among the six countries and is within its days of grace, and the call promotes the
country 3, which has the first total rank and is added to the end of the list: the list of
great powers of the result has the country 3 before the country 1. -/
theorem great_powers_sorted_witness :
    (example_define_manager.great_power_rank ≤ example_define_manager.secondary_power_rank ∨
      example_define_manager.great_power_rank ≤
        (example_manager_with_great_power 110).existing_countries.length) ∧
      ((example_manager_with_great_power 110).update_rankings std_insertion_sort 100
        example_define_manager).map (fun m => m.great_powers.map (fun country =>
          (country, (m.country_instances country).total_rank))) = some [(3, 1), (1, 3)] ∧
      ∃ m', (example_manager_with_great_power 110).update_rankings std_insertion_sort 100
          example_define_manager = some m' ∧
        m'.great_powers.Pairwise (fun a b =>
          (m'.country_instances a).total_rank ≤ (m'.country_instances b).total_rank) :=
  ⟨Or.inl (by decide), by decide,
    great_powers_sorted std_insertion_sort 100 example_define_manager
      (example_manager_with_great_power 110) (Or.inl (by decide))⟩

/-! ## C32: the countries that are not civilised -/

/-- A country is not civilised exactly when its status is one of the three below that of a
civilised country, and civilised exactly when it is one of the three others. -/
theorem is_civilised_iff (s : CountryInstance) :
    (s.is_civilised = false ↔
      s.country_status = country_status_t.COUNTRY_STATUS_PARTIALLY_CIVILISED ∨
      s.country_status = country_status_t.COUNTRY_STATUS_UNCIVILISED ∨
      s.country_status = country_status_t.COUNTRY_STATUS_PRIMITIVE) ∧
    (s.is_civilised = true ↔
      s.country_status = country_status_t.COUNTRY_STATUS_GREAT_POWER ∨
      s.country_status = country_status_t.COUNTRY_STATUS_SECONDARY_POWER ∨
      s.country_status = country_status_t.COUNTRY_STATUS_CIVILISED) := by
  unfold is_civilised
  cases s.country_status <;> decide

/-- C32. `update_rankings` has a result when the maximum great power rank is within the maximum
secondary power rank or within the number of countries that exist. When the members of the list
of great powers have the status of a great power and the members of the list of secondary
powers that of a secondary power before the call, then a country that is not civilised before
the call, that is, partially civilised, uncivilised or primitive, has the same status after
it, and a country that is civilised before the call is after it a great power, a secondary
power or civilised. -/
theorem uncivilised_status_unchanged (std : StdSort) (today : Int)
    (define_manager : DefineManager) (m : CountryInstanceManager)
    (hgreat : ∀ country ∈ m.great_powers, (m.country_instances country).country_status =
      country_status_t.COUNTRY_STATUS_GREAT_POWER)
    (hsecondary : ∀ country ∈ m.secondary_powers,
      (m.country_instances country).country_status =
        country_status_t.COUNTRY_STATUS_SECONDARY_POWER)
    (hbound : define_manager.great_power_rank ≤ define_manager.secondary_power_rank ∨
      define_manager.great_power_rank ≤ m.existing_countries.length) :
    ∃ m', m.update_rankings std today define_manager = some m' ∧
      ∀ country,
        ((m.country_instances country).is_civilised = false →
          (m'.country_instances country).country_status =
            (m.country_instances country).country_status) ∧
        ((m.country_instances country).country_status =
              country_status_t.COUNTRY_STATUS_PARTIALLY_CIVILISED ∨
            (m.country_instances country).country_status =
              country_status_t.COUNTRY_STATUS_UNCIVILISED ∨
            (m.country_instances country).country_status =
              country_status_t.COUNTRY_STATUS_PRIMITIVE →
          (m'.country_instances country).country_status =
            (m.country_instances country).country_status) ∧
        ((m.country_instances country).is_civilised = true →
          (m'.country_instances country).is_civilised = true ∧
          ((m'.country_instances country).country_status =
              country_status_t.COUNTRY_STATUS_GREAT_POWER ∨
            (m'.country_instances country).country_status =
              country_status_t.COUNTRY_STATUS_SECONDARY_POWER ∨
            (m'.country_instances country).country_status =
              country_status_t.COUNTRY_STATUS_CIVILISED)) := by
  obtain ⟨m', new_great, new_secondary, hresult, -, -, hnew_great, hnew_secondary, hstatus,
    -, -⟩ := update_rankings_spec std today define_manager m hbound
  have hcivilised := update_rankings_is_civilised std today define_manager m m'
    (fun country hc => (is_civilised_iff _).2.mpr (Or.inl (hgreat country hc)))
    (fun country hc => (is_civilised_iff _).2.mpr (Or.inr (Or.inl (hsecondary country hc))))
    hbound hresult
  have hnot : ∀ country, (m.country_instances country).is_civilised = false →
      (m'.country_instances country).country_status =
        (m.country_instances country).country_status := by
    intro country hc
    have hlists : ¬ (country ∈ m.secondary_powers ∨ (country ∈ m.great_powers ∧
        ((m.rank_countries std).country_instances country).total_rank >
          define_manager.great_power_rank ∧
        (m.country_instances country).lose_great_power_date < today)) := by
      rintro (h | ⟨h, -⟩)
      · have := (is_civilised_iff _).2.mpr (Or.inr (Or.inl (hsecondary country h)))
        rw [hc] at this
        cases this
      · have := (is_civilised_iff _).2.mpr (Or.inl (hgreat country h))
        rw [hc] at this
        cases this
    have hdemoted := demote_powers_status std today define_manager m country
    rw [if_neg hlists] at hdemoted
    have hdemoted_civilised :
        (((m.rank_countries std).demote_powers today define_manager).country_instances
          country).is_civilised = false := by
      unfold is_civilised at hc ⊢
      rw [hdemoted]
      exact hc
    rw [hstatus country, if_neg, if_neg, hdemoted]
    · intro h
      have := (hnew_secondary country h).2.1
      rw [hdemoted_civilised] at this
      cases this
    · intro h
      have := (hnew_great country h).2.2.1
      rw [hdemoted_civilised] at this
      cases this
  refine ⟨m', hresult, fun country => ⟨hnot country,
    fun h => hnot country ((is_civilised_iff _).1.mpr h), fun h => ?_⟩⟩
  have := hcivilised country
  rw [h] at this
  exact ⟨this, (is_civilised_iff _).2.mp this⟩

/-- Witness of C32: in the example the countries 3 and 1 are great powers, the country 5 is a
secondary power, the country 0 is partially civilised and the country 4 is primitive. After
`update_rankings` at day 100 the countries 0 and 4 have the status they had, the country 1,
whose days of grace are over, is a secondary power and the country 5 is a great power. -/
theorem uncivilised_status_unchanged_witness :
    (example_manager_mixed.update_rankings std_insertion_sort 100
      example_define_manager).map (fun m => (List.range 6).map (fun country =>
        (m.country_instances country).country_status)) =
      some [country_status_t.COUNTRY_STATUS_PARTIALLY_CIVILISED,
        country_status_t.COUNTRY_STATUS_SECONDARY_POWER,
        country_status_t.COUNTRY_STATUS_SECONDARY_POWER,
        country_status_t.COUNTRY_STATUS_GREAT_POWER,
        country_status_t.COUNTRY_STATUS_PRIMITIVE,
        country_status_t.COUNTRY_STATUS_GREAT_POWER] ∧
      ∃ m', example_manager_mixed.update_rankings std_insertion_sort 100
          example_define_manager = some m' ∧
        ∀ country,
          ((example_manager_mixed.country_instances country).is_civilised = false →
            (m'.country_instances country).country_status =
              (example_manager_mixed.country_instances country).country_status) ∧
          ((example_manager_mixed.country_instances country).is_civilised = true →
            (m'.country_instances country).is_civilised = true) :=
  ⟨by decide,
    (uncivilised_status_unchanged std_insertion_sort 100 example_define_manager
      example_manager_mixed (by decide) (by decide) (Or.inl (by decide))).imp
      (fun _ h => ⟨h.1, fun country => ⟨(h.2 country).1,
        fun hc => ((h.2 country).2.2 hc).1⟩⟩)⟩

/-! ## C33: the gamestate of the countries and the rankings -/

/-- The function `update_gamestate` of a country leaves its owned provinces as they are, and
with them what `exists()` returns. -/
theorem update_gamestate_exists (precision : Nat) (define_manager : DefineManager)
    (unit_type_manager : UnitTypeManager) (std : StdSort) (country_exists : Nat → Bool)
    (objects : Objects) (s : CountryInstance) :
    (CountryInstance.update_gamestate precision define_manager unit_type_manager std
      country_exists objects s).«exists» = s.«exists» := by
  unfold CountryInstance.«exists»
  simp only [CountryInstance.update_gamestate, _update_budget, _update_technology,
    _update_politics, _update_trade, _update_diplomacy, _update_military]
  rw [update_population_frame (fun c => !c.owned_provinces.isEmpty)
    (fun _ _ _ _ _ _ => rfl), update_production_eq]
  rfl

namespace CountryInstanceManager

theorem update_country_gamestate_country_instances (precision : Nat) (std : StdSort)
    (objects : Objects) (define_manager : DefineManager) (unit_type_manager : UnitTypeManager)
    (m : CountryInstanceManager) (country other : Nat) :
    (update_country_gamestate precision std objects define_manager unit_type_manager m
        country).country_instances other =
      if other = country then
        CountryInstance.update_gamestate precision define_manager unit_type_manager std
          (fun other => (m.country_instances other).«exists») objects
          (m.country_instances country)
      else m.country_instances other := rfl

/-- The loop of `update_gamestate` of the manager over the first countries of the registry:
each of them is as its `update_gamestate` makes it, with `exists()` of the other countries as
before the loop, and nothing else changes. -/
theorem update_country_gamestates (precision : Nat) (std : StdSort) (objects : Objects)
    (define_manager : DefineManager) (unit_type_manager : UnitTypeManager)
    (m : CountryInstanceManager) (n : Nat) :
    (∀ country, (((List.range n).foldl
        (update_country_gamestate precision std objects define_manager unit_type_manager)
        m).country_instances country) =
      if country < n then
        CountryInstance.update_gamestate precision define_manager unit_type_manager std
          (fun other => (m.country_instances other).«exists») objects
          (m.country_instances country)
      else m.country_instances country) ∧
    ((List.range n).foldl
      (update_country_gamestate precision std objects define_manager unit_type_manager)
      m).country_instance_count = m.country_instance_count ∧
    ((List.range n).foldl
      (update_country_gamestate precision std objects define_manager unit_type_manager)
      m).great_powers = m.great_powers ∧
    ((List.range n).foldl
      (update_country_gamestate precision std objects define_manager unit_type_manager)
      m).secondary_powers = m.secondary_powers := by
  induction n with
  | zero => exact ⟨fun _ => rfl, rfl, rfl, rfl⟩
  | succ n ih =>
    obtain ⟨hcountry, hcount, hgreat, hsecondary⟩ := ih
    rw [List.range_succ, List.foldl_append, List.foldl_cons, List.foldl_nil]
    have hexists : (fun other => (((List.range n).foldl
        (update_country_gamestate precision std objects define_manager unit_type_manager)
        m).country_instances other).«exists») =
        fun other => (m.country_instances other).«exists» := by
      funext other
      rw [hcountry other]
      split_ifs
      · exact update_gamestate_exists _ _ _ _ _ _ _
      · rfl
    refine ⟨fun country => ?_, hcount, hgreat, hsecondary⟩
    rw [update_country_gamestate_country_instances, hexists]
    by_cases h : country = n
    · rw [if_pos h, if_pos (by omega), hcountry n, if_neg (by omega), h]
    · rw [if_neg h, hcountry country]
      by_cases hlt : country < n
      · rw [if_pos hlt, if_pos (by omega)]
      · rw [if_neg hlt, if_neg (by omega)]

/-- The countries that exist are the same after the loop of `update_gamestate` of the
manager. -/
theorem update_country_gamestates_existing (precision : Nat) (std : StdSort)
    (objects : Objects) (define_manager : DefineManager) (unit_type_manager : UnitTypeManager)
    (m : CountryInstanceManager) :
    ((List.range m.country_instance_count).foldl
      (update_country_gamestate precision std objects define_manager unit_type_manager)
      m).existing_countries = m.existing_countries := by
  obtain ⟨hcountry, hcount, -, -⟩ := update_country_gamestates precision std objects
    define_manager unit_type_manager m m.country_instance_count
  unfold existing_countries
  rw [hcount]
  refine List.filter_congr (fun country hc => ?_)
  rw [hcountry country, if_pos (List.mem_range.mp hc)]
  exact update_gamestate_exists _ _ _ _ _ _ _

end CountryInstanceManager

/-- C33. `update_gamestate` of the manager has a result when the maximum great power rank is
within the maximum secondary power rank or within the number of countries that exist. Every
country of the registry has in the result the total score, the prestige, the industrial power
and the military power that its own `update_gamestate` computes in this call from the record
it had before the call. The rankings of the result hold countries of the registry and are
ordered by these values: in the total ranking a country stands before another only if it is
civilised or the other is not, and among countries that are both civilised or both not only if
its total score is not smaller, and the other three rankings descend in the prestige, the
industrial power and the military power; and the rank of a country is its position in the
ranking, counted from one. -/
theorem rankings_of_updated_gamestate (precision : Nat) (std : StdSort) (objects : Objects)
    (today : Int) (define_manager : DefineManager) (unit_type_manager : UnitTypeManager)
    (m : CountryInstanceManager)
    (hbound : define_manager.great_power_rank ≤ define_manager.secondary_power_rank ∨
      define_manager.great_power_rank ≤ m.existing_countries.length) :
    ∃ m', m.update_gamestate precision std objects today define_manager unit_type_manager =
        some m' ∧
      (∀ country, country < m.country_instance_count →
        (m'.country_instances country).total_score =
          (CountryInstance.update_gamestate precision define_manager unit_type_manager std
            (fun other => (m.country_instances other).«exists») objects
            (m.country_instances country)).total_score ∧
        (m'.country_instances country).prestige =
          (CountryInstance.update_gamestate precision define_manager unit_type_manager std
            (fun other => (m.country_instances other).«exists») objects
            (m.country_instances country)).prestige ∧
        (m'.country_instances country).industrial_power =
          (CountryInstance.update_gamestate precision define_manager unit_type_manager std
            (fun other => (m.country_instances other).«exists») objects
            (m.country_instances country)).industrial_power ∧
        (m'.country_instances country).military_power =
          (CountryInstance.update_gamestate precision define_manager unit_type_manager std
            (fun other => (m.country_instances other).«exists») objects
            (m.country_instances country)).military_power) ∧
      (m'.total_ranking.Perm m.existing_countries ∧
        m'.prestige_ranking.Perm m.existing_countries ∧
        m'.industrial_power_ranking.Perm m.existing_countries ∧
        m'.military_power_ranking.Perm m.existing_countries ∧
        ∀ country ∈ m.existing_countries, country < m.country_instance_count) ∧
      (m'.total_ranking.Pairwise (fun a b =>
          ((m.country_instances b).is_civilised = true →
            (m.country_instances a).is_civilised = true) ∧
          ((m.country_instances a).is_civilised = (m.country_instances b).is_civilised →
            (m'.country_instances a).total_score ≥ (m'.country_instances b).total_score)) ∧
        m'.prestige_ranking.Pairwise (fun a b =>
          (m'.country_instances a).prestige ≥ (m'.country_instances b).prestige) ∧
        m'.industrial_power_ranking.Pairwise (fun a b =>
          (m'.country_instances a).industrial_power ≥
            (m'.country_instances b).industrial_power) ∧
        m'.military_power_ranking.Pairwise (fun a b =>
          (m'.country_instances a).military_power ≥
            (m'.country_instances b).military_power)) ∧
      (∀ index country, m'.total_ranking[index]? = some country →
        (m'.country_instances country).total_rank = index + 1) ∧
      (∀ index country, m'.prestige_ranking[index]? = some country →
        (m'.country_instances country).prestige_rank = index + 1) ∧
      (∀ index country, m'.industrial_power_ranking[index]? = some country →
        (m'.country_instances country).industrial_rank = index + 1) ∧
      (∀ index country, m'.military_power_ranking[index]? = some country →
        (m'.country_instances country).military_rank = index + 1) := by
  obtain ⟨m1, hm1⟩ : ∃ m1, m1 = (List.range m.country_instance_count).foldl
    (update_country_gamestate precision std objects define_manager unit_type_manager) m :=
    ⟨_, rfl⟩
  obtain ⟨hcountry, hcount, -, -⟩ := update_country_gamestates precision std objects
    define_manager unit_type_manager m m.country_instance_count
  have hexisting := update_country_gamestates_existing precision std objects define_manager
    unit_type_manager m
  rw [← hm1] at hcountry hcount hexisting
  have hcall : m.update_gamestate precision std objects today define_manager
      unit_type_manager = m1.update_rankings std today define_manager := by
    rw [hm1]
    rfl
  obtain ⟨m', new_great, new_secondary, hresult, ⟨hr1, hr2, hr3, hr4, -⟩, -, -, -, -, -,
    hframe⟩ := update_rankings_spec std today define_manager m1 (hexisting ▸ hbound)
  obtain ⟨hl1, hl2, hl3, hl4, -⟩ := rank_countries_lists std m1
  obtain ⟨⟨hk1, hk2, hk3, hk4⟩, -⟩ := rank_countries_ranks std m1
  have hobs : ∀ {α : Type} (obs : CountryInstance → α),
      (∀ (c : CountryInstance) status, obs { c with country_status := status } = obs c) →
      (∀ (c : CountryInstance) date, obs { c with lose_great_power_date := date } = obs c) →
      (∀ (c : CountryInstance) r, obs { c with total_rank := r } = obs c) →
      (∀ (c : CountryInstance) r, obs { c with prestige_rank := r } = obs c) →
      (∀ (c : CountryInstance) r, obs { c with industrial_rank := r } = obs c) →
      (∀ (c : CountryInstance) r, obs { c with military_rank := r } = obs c) →
      ∀ country, obs (m'.country_instances country) = obs (m1.country_instances country) :=
    fun obs h1 h2 h3 h4 h5 h6 country => (hframe obs h1 h2 country).trans
      (rank_countries_frame obs h3 h4 h5 h6 std m1 country)
  have hscore := hobs (fun c => c.total_score) (fun _ _ => rfl) (fun _ _ => rfl)
    (fun _ _ => rfl) (fun _ _ => rfl) (fun _ _ => rfl) (fun _ _ => rfl)
  have hprestige := hobs (fun c => c.prestige) (fun _ _ => rfl) (fun _ _ => rfl)
    (fun _ _ => rfl) (fun _ _ => rfl) (fun _ _ => rfl) (fun _ _ => rfl)
  have hindustrial := hobs (fun c => c.industrial_power) (fun _ _ => rfl) (fun _ _ => rfl)
    (fun _ _ => rfl) (fun _ _ => rfl) (fun _ _ => rfl) (fun _ _ => rfl)
  have hmilitary := hobs (fun c => c.military_power) (fun _ _ => rfl) (fun _ _ => rfl)
    (fun _ _ => rfl) (fun _ _ => rfl) (fun _ _ => rfl) (fun _ _ => rfl)
  have hcivilised : ∀ country, (m1.country_instances country).is_civilised =
      (m.country_instances country).is_civilised := by
    intro country
    unfold is_civilised
    rw [hcountry country]
    split_ifs
    · rw [update_gamestate_country_status]
    · rfl
  refine ⟨m', hcall.trans hresult, fun country hc => ?_, ?_, ⟨?_, ?_, ?_, ?_⟩, ?_, ?_, ?_, ?_⟩
  · have h := hcountry country
    rw [if_pos hc] at h
    exact ⟨(hscore country).trans (congrArg (fun c => c.total_score) h),
      (hprestige country).trans (congrArg (fun c => c.prestige) h),
      (hindustrial country).trans (congrArg (fun c => c.industrial_power) h),
      (hmilitary country).trans (congrArg (fun c => c.military_power) h)⟩
  · rw [hr1, hr2, hr3, hr4, hl1, hl2, hl3, hl4, hexisting]
    exact ⟨std.perm _ _, std.perm _ _, std.perm _ _, std.perm _ _,
      fun country hc => List.mem_range.mp (List.mem_filter.mp hc).1⟩
  · rw [hr1, hl1]
    refine (std.sorted m1.total_ranking_before m1.existing_countries
      (total_ranking_before_total m1) (total_ranking_before_trans m1)).imp ?_
    intro a b h
    simp only [← hcivilised, hscore]
    exact total_ranking_before_false m1 a b h
  · rw [hr2, hl2]
    simp only [hprestige]
    exact sort_descending std (fun a => (m1.country_instances a).prestige) _
  · rw [hr3, hl3]
    simp only [hindustrial]
    exact sort_descending std (fun a => (m1.country_instances a).industrial_power) _
  · rw [hr4, hl4]
    simp only [hmilitary]
    exact sort_descending std (fun a => (m1.country_instances a).military_power) _
  · intro index country h
    rw [hr1] at h
    exact (hframe (fun c => c.total_rank) (fun _ _ => rfl) (fun _ _ => rfl) country).trans
      (hk1 index country h)
  · intro index country h
    rw [hr2] at h
    exact (hframe (fun c => c.prestige_rank) (fun _ _ => rfl) (fun _ _ => rfl) country).trans
      (hk2 index country h)
  · intro index country h
    rw [hr3] at h
    exact (hframe (fun c => c.industrial_rank) (fun _ _ => rfl) (fun _ _ => rfl) country).trans
      (hk3 index country h)
  · intro index country h
    rw [hr4] at h
    exact (hframe (fun c => c.military_rank) (fun _ _ => rfl) (fun _ _ => rfl) country).trans
      (hk4 index country h)

/-- Witness of C33: of the two countries of the example the country 0 has the higher total
score and industrial power from the tick before, and `update_gamestate` of the countries gives
the country 1 the higher ones, 5 against 3. After `update_gamestate` of the manager the country
1 is the first of the total ranking and of the industrial power ranking and has the total rank
one, while `update_rankings` alone would have ranked the country 0 first. -/
theorem rankings_of_updated_gamestate_witness :
    (example_define_manager.great_power_rank ≤ example_define_manager.secondary_power_rank ∨
      example_define_manager.great_power_rank ≤
        example_manager_stale.existing_countries.length) ∧
      (example_manager_stale.update_rankings std_insertion_sort 0
        example_define_manager).map (fun m => m.total_ranking) = some [0, 1] ∧
      (example_manager_stale.update_gamestate 16 std_insertion_sort example_objects 0
        example_define_manager example_unit_type_manager).map (fun m =>
          (m.total_ranking, m.industrial_power_ranking)) = some ([1, 0], [1, 0]) ∧
      (example_manager_stale.update_gamestate 16 std_insertion_sort example_objects 0
        example_define_manager example_unit_type_manager).map (fun m =>
          (List.range 2).map (fun country => ((m.country_instances country).total_score,
            (m.country_instances country).total_rank))) =
        some [(fixed_point_t.parse 16 3, 2), (fixed_point_t.parse 16 5, 1)] ∧
      ∃ m', example_manager_stale.update_gamestate 16 std_insertion_sort example_objects 0
          example_define_manager example_unit_type_manager = some m' ∧
        (∀ country, country < example_manager_stale.country_instance_count →
          (m'.country_instances country).total_score =
            (CountryInstance.update_gamestate 16 example_define_manager
              example_unit_type_manager std_insertion_sort
              (fun other => (example_manager_stale.country_instances other).«exists»)
              example_objects (example_manager_stale.country_instances country)).total_score) ∧
        ∀ index country, m'.total_ranking[index]? = some country →
          (m'.country_instances country).total_rank = index + 1 :=
  ⟨Or.inl (by decide), by decide, by decide, by decide,
    (rankings_of_updated_gamestate 16 std_insertion_sort example_objects 0
      example_define_manager example_unit_type_manager example_manager_stale
      (Or.inl (by decide))).imp
      (fun _ h => ⟨h.1, fun country hc => (h.2.1 country hc).1, h.2.2.2.2.1⟩)⟩

/-! ## C34: the number of great powers and secondary powers -/

namespace CountryInstanceManager

/-- When the loop over the head of the total ranking has a result although a read beyond the
ranking follows the countries it reads, it has ended before that read, and the result is that of
the loop over the countries alone. -/
theorem promotion_scan_of_append (max_great_power_rank max_secondary_power_rank : Nat)
    (l : List Nat) (rest : List (Option Nat)) (m m' : CountryInstanceManager)
    (h : promotion_scan max_great_power_rank max_secondary_power_rank
      (l.map some ++ none :: rest) m = some m') :
    promotion_scan max_great_power_rank max_secondary_power_rank (l.map some) m = some m' := by
  induction l generalizing m with
  | nil =>
    rw [List.map_nil, List.nil_append, promotion_scan] at h
    cases h
  | cons country l ih =>
    rw [List.map_cons, List.cons_append, promotion_scan] at h
    rw [List.map_cons, promotion_scan]
    split_ifs at h ⊢ with hcivilised
    · exact h
    · exact ih _ h

/-- The reads of a loop over more indices than a ranking has positions: the countries of the
ranking, then a read beyond it. -/
theorem reads_beyond (ranking : List Nat) (bound : Nat) (h : ranking.length < bound) :
    ∃ rest, (List.range bound).map (fun index => ranking[index]?) =
      ranking.map some ++ none :: rest := by
  obtain ⟨d, rfl⟩ : ∃ d, bound = ranking.length + (d + 1) := ⟨bound - ranking.length - 1, by omega⟩
  refine ⟨(((List.range d).map Nat.succ).map (fun index => ranking.length + index)).map
    (fun index => ranking[index]?), ?_⟩
  rw [List.range_add, List.map_append, reads_in_bounds ranking ranking.length (le_refl _),
    List.take_length, List.range_succ_eq_map, List.map_cons, List.map_cons]
  congr 2
  simp

/-- Whenever `update_rankings` has a result, it is that of the loop over the countries at the
head of the total ranking, followed by the last part. -/
theorem update_rankings_steps_of_result (std : StdSort) (today : Int)
    (define_manager : DefineManager) (m m' : CountryInstanceManager)
    (h : m.update_rankings std today define_manager = some m') :
    ((m.rank_countries std).total_ranking.take
        (std_clamp define_manager.secondary_power_rank define_manager.great_power_rank
          m.existing_countries.length)).Nodup ∧
      ∃ m3, promotion_scan define_manager.great_power_rank define_manager.secondary_power_rank
          (((m.rank_countries std).total_ranking.take
            (std_clamp define_manager.secondary_power_rank define_manager.great_power_rank
              m.existing_countries.length)).map some)
          ((m.rank_countries std).demote_powers today define_manager) = some m3 ∧
        m' = m3.refresh_great_powers std today define_manager := by
  obtain ⟨hl1, -⟩ := rank_countries_lists std m
  have hperm := std.perm m.total_ranking_before m.existing_countries
  have hlength : (m.rank_countries std).total_ranking.length = m.existing_countries.length := by
    rw [hl1, hperm.length_eq]
  have hnodup : (m.rank_countries std).total_ranking.Nodup := by
    rw [hl1]
    exact hperm.nodup_iff.mpr (existing_countries_nodup m)
  obtain ⟨-, -, -, hd4, -⟩ := demote_powers_eq today define_manager (m.rank_countries std)
  refine ⟨(List.take_sublist _ _).nodup hnodup, ?_⟩
  unfold update_rankings promote_powers at h
  simp only [] at h
  rw [hd4, hlength] at h
  obtain ⟨m3, hm3, hm'⟩ := Option.map_eq_some'.mp h
  refine ⟨m3, ?_, hm'.symm⟩
  by_cases hle : std_clamp define_manager.secondary_power_rank define_manager.great_power_rank
      m.existing_countries.length ≤ (m.rank_countries std).total_ranking.length
  · rw [reads_in_bounds _ _ hle] at hm3
    exact hm3
  · obtain ⟨rest, hrest⟩ := reads_beyond (m.rank_countries std).total_ranking _ (not_le.mp hle)
    rw [hrest] at hm3
    rw [List.take_of_length_le (le_of_lt (not_le.mp hle))]
    exact promotion_scan_of_append _ _ _ _ _ _ hm3

end CountryInstanceManager

namespace CountryInstanceManager

/-- Whenever `update_rankings` has a result, the list of great powers is in it no longer than
before or than the maximum great power rank, and the list of secondary powers no longer than
the maximum secondary power rank. -/
theorem update_rankings_lengths (std : StdSort) (today : Int) (define_manager : DefineManager)
    (m m' : CountryInstanceManager)
    (h : m.update_rankings std today define_manager = some m') :
    m'.great_powers.length ≤ max m.great_powers.length define_manager.great_power_rank ∧
      m'.secondary_powers.length ≤ define_manager.secondary_power_rank := by
  obtain ⟨hnodup, m3, hscan, rfl⟩ := update_rankings_steps_of_result std today define_manager
    m m' h
  obtain ⟨new_great, new_secondary, hg, hs, -, hsn, -, hsecondary, hlen, -⟩ :=
    promotion_scan_spec _ _ _ hnodup _ _ hscan
  obtain ⟨hd, hd_great, hd_secondary, -⟩ :=
    demote_powers_eq today define_manager (m.rank_countries std)
  obtain ⟨-, hf_great, hf_secondary, -⟩ :=
    refresh_great_powers_eq std today define_manager m3
  obtain ⟨-, -, -, -, hr_great, -⟩ := rank_countries_lists std m
  have hkept : ((m.rank_countries std).demote_powers today define_manager).great_powers.length ≤
      m.great_powers.length := by
    rw [hd_great, hr_great]
    exact List.length_filter_le _ _
  constructor
  · rw [hf_great, (std.perm _ _).length_eq, hg, List.length_append]
    omega
  · rw [hf_secondary, hs, hd_secondary, List.nil_append]
    have hsubset : new_secondary ⊆ (m.rank_countries std).total_ranking.take
        define_manager.secondary_power_rank := by
      intro country hc
      obtain ⟨hmem, -, -, hrank⟩ := hsecondary country hc
      refine (mem_take_total_ranking std m _ country).mpr
        ⟨((mem_take_total_ranking std m _ country).mp hmem).1, ?_⟩
      rw [hd country] at hrank
      split_ifs at hrank
      · exact hrank
      · exact hrank
    calc new_secondary.length
        ≤ ((m.rank_countries std).total_ranking.take
          define_manager.secondary_power_rank).length :=
          (List.subperm_of_subset hsn hsubset).length_le
      _ ≤ define_manager.secondary_power_rank := by
          rw [List.length_take]
          exact Nat.min_le_left _ _

/-- Whenever the calls of `update_rankings` in a sequence of ticks have a result, the list of
great powers is in it no longer than before the ticks or than the maximum great power rank, and
the list of secondary powers no longer than before the ticks or than the maximum secondary
power rank. -/
theorem update_rankings_of_ticks_lengths (std : StdSort) (define_manager : DefineManager)
    (ticks : List (Int × (Nat → CountryInstance))) (m m' : CountryInstanceManager)
    (h : update_rankings_of_ticks std define_manager ticks m = some m') :
    m'.great_powers.length ≤ max m.great_powers.length define_manager.great_power_rank ∧
      m'.secondary_powers.length ≤
        max m.secondary_powers.length define_manager.secondary_power_rank := by
  induction ticks generalizing m with
  | nil =>
    rw [update_rankings_of_ticks] at h
    cases h
    exact ⟨le_max_left _ _, le_max_left _ _⟩
  | cons tick rest ih =>
    rw [update_rankings_of_ticks] at h
    cases hcall : { m with country_instances := tick.2 }.update_rankings std tick.1
        define_manager with
    | none =>
      rw [hcall] at h
      cases h
    | some m1 =>
      rw [hcall] at h
      obtain ⟨h1, h2⟩ := update_rankings_lengths std tick.1 define_manager _ m1 hcall
      obtain ⟨h3, h4⟩ := ih m1 h
      have h1' : m1.great_powers.length ≤
          max m.great_powers.length define_manager.great_power_rank := h1
      constructor
      · omega
      · omega

/-- The calls of `update_rankings` in a sequence of ticks have a result when the maximum great
power rank is within the maximum secondary power rank. -/
theorem update_rankings_of_ticks_result (std : StdSort) (define_manager : DefineManager)
    (hranks : define_manager.great_power_rank ≤ define_manager.secondary_power_rank)
    (ticks : List (Int × (Nat → CountryInstance))) (m : CountryInstanceManager) :
    ∃ m', update_rankings_of_ticks std define_manager ticks m = some m' := by
  induction ticks generalizing m with
  | nil => exact ⟨m, rfl⟩
  | cons tick rest ih =>
    obtain ⟨-, m3, -, hresult⟩ := update_rankings_steps std tick.1 define_manager
      { m with country_instances := tick.2 } (Or.inl hranks)
    rw [update_rankings_of_ticks, hresult]
    exact ih _

end CountryInstanceManager

/-- C34. When the list of great powers has at most as many members as the maximum great power
rank before `update_rankings`, then the call, which has a result when the maximum great power
rank is within the maximum secondary power rank or within the number of countries that exist,
leaves at most as many great powers as the maximum great power rank and at most as many
secondary powers as the maximum secondary power rank; and so does every call that has a result.
Hence after the calls of any sequence of ticks that starts with empty lists and keeps the
defines, whatever happens to the records of the countries between the calls, the lists are
within these bounds; the calls all have a result when the maximum great power rank is within
the maximum secondary power rank. -/
theorem power_lists_bounded (std : StdSort) (define_manager : DefineManager) :
    (∀ (today : Int) (m : CountryInstanceManager),
      m.great_powers.length ≤ define_manager.great_power_rank →
      (define_manager.great_power_rank ≤ define_manager.secondary_power_rank ∨
        define_manager.great_power_rank ≤ m.existing_countries.length) →
      ∃ m', m.update_rankings std today define_manager = some m' ∧
        m'.great_powers.length ≤ define_manager.great_power_rank ∧
        m'.secondary_powers.length ≤ define_manager.secondary_power_rank) ∧
    (∀ (today : Int) (m m' : CountryInstanceManager),
      m.great_powers.length ≤ define_manager.great_power_rank →
      m.update_rankings std today define_manager = some m' →
      m'.great_powers.length ≤ define_manager.great_power_rank ∧
        m'.secondary_powers.length ≤ define_manager.secondary_power_rank) ∧
    (∀ (ticks : List (Int × (Nat → CountryInstance))) (m m' : CountryInstanceManager),
      m.great_powers = [] → m.secondary_powers = [] →
      update_rankings_of_ticks std define_manager ticks m = some m' →
      m'.great_powers.length ≤ define_manager.great_power_rank ∧
        m'.secondary_powers.length ≤ define_manager.secondary_power_rank) ∧
    (define_manager.great_power_rank ≤ define_manager.secondary_power_rank →
      ∀ (ticks : List (Int × (Nat → CountryInstance))) (m : CountryInstanceManager),
        ∃ m', update_rankings_of_ticks std define_manager ticks m = some m') := by
  have hstep : ∀ (today : Int) (m m' : CountryInstanceManager),
      m.great_powers.length ≤ define_manager.great_power_rank →
      m.update_rankings std today define_manager = some m' →
      m'.great_powers.length ≤ define_manager.great_power_rank ∧
        m'.secondary_powers.length ≤ define_manager.secondary_power_rank := by
    intro today m m' hgreat h
    obtain ⟨h1, h2⟩ := update_rankings_lengths std today define_manager m m' h
    exact ⟨by omega, h2⟩
  refine ⟨fun today m hgreat hbound => ?_, hstep, fun ticks m m' hg hs h => ?_,
    fun hranks ticks m => update_rankings_of_ticks_result std define_manager hranks ticks m⟩
  · obtain ⟨-, m3, -, hresult⟩ := update_rankings_steps std today define_manager m hbound
    exact ⟨_, hresult, hstep today m _ hgreat hresult⟩
  · obtain ⟨h1, h2⟩ := update_rankings_of_ticks_lengths std define_manager ticks m m' h
    rw [hg, List.length_nil, Nat.zero_max] at h1
    rw [hs, List.length_nil, Nat.zero_max] at h2
    exact ⟨h1, h2⟩

/-- Witness of C34: two ticks with two great powers and five secondary powers at most, from
empty lists. The first tick makes the countries 1 and 3 great powers and the countries 5, 0
and 4 secondary powers. Before the second tick, at day 100, the country 5 has overtaken the
country 1, whose days of grace are over: the great powers are then the countries 3 and 5 and
the secondary powers the countries 1, 0 and 4. -/
theorem power_lists_bounded_witness :
    (update_rankings_of_ticks std_insertion_sort example_define_manager
        [(0, example_manager.country_instances)] example_manager).map
        (fun m => (m.great_powers, m.secondary_powers)) = some ([1, 3], [5, 0, 4]) ∧
      (update_rankings_of_ticks std_insertion_sort example_define_manager
        [(0, example_manager.country_instances),
          (100, example_manager_with_secondary_powers.country_instances)] example_manager).map
        (fun m => (m.great_powers, m.secondary_powers)) = some ([3, 5], [1, 0, 4]) ∧
      ∃ m', update_rankings_of_ticks std_insertion_sort example_define_manager
          [(0, example_manager.country_instances),
            (100, example_manager_with_secondary_powers.country_instances)] example_manager =
          some m' ∧
        m'.great_powers.length ≤ example_define_manager.great_power_rank ∧
        m'.secondary_powers.length ≤ example_define_manager.secondary_power_rank :=
  ⟨by decide, by decide,
    ((power_lists_bounded std_insertion_sort example_define_manager).2.2.2 (by decide)
      [(0, example_manager.country_instances),
        (100, example_manager_with_secondary_powers.country_instances)] example_manager).imp
      (fun m' h => ⟨h, (power_lists_bounded std_insertion_sort example_define_manager).2.2.1
        _ example_manager m' rfl rfl h⟩)⟩

/-! ## C35: the reads of the promotion scan -/

namespace CountryInstanceManager

/-- Whenever `update_rankings` has a result for a manager whose list of great powers has no
duplicates and shares no member with its list of secondary powers, the same holds of the
result, whatever the records of the countries are. -/
theorem update_rankings_disjoint (std : StdSort) (today : Int) (define_manager : DefineManager)
    (m m' : CountryInstanceManager)
    (h : m.update_rankings std today define_manager = some m')
    (hnodup : m.great_powers.Nodup)
    (hdisjoint : ∀ country ∈ m.secondary_powers, country ∉ m.great_powers) :
    m'.great_powers.Nodup ∧ ∀ country ∈ m'.secondary_powers, country ∉ m'.great_powers := by
  obtain ⟨htake, m3, hscan, rfl⟩ := update_rankings_steps_of_result std today define_manager
    m m' h
  obtain ⟨new_great, new_secondary, hg, hs, hgn, -, hnew_great, hnew_secondary, -⟩ :=
    promotion_scan_spec _ _ _ htake _ _ hscan
  obtain ⟨hd, hd_great, hd_secondary, -⟩ :=
    demote_powers_eq today define_manager (m.rank_countries std)
  obtain ⟨-, hf_great, hf_secondary, -⟩ :=
    refresh_great_powers_eq std today define_manager m3
  obtain ⟨-, -, -, -, hr_great, hr_secondary, -⟩ := rank_countries_lists std m
  have hkept_status : ∀ country ∈
      ((m.rank_countries std).demote_powers today define_manager).great_powers,
      (((m.rank_countries std).demote_powers today define_manager).country_instances
        country).country_status = country_status_t.COUNTRY_STATUS_GREAT_POWER := by
    intro country hc
    rw [hd_great, List.mem_filter, decide_eq_true_eq, hr_great] at hc
    obtain ⟨hmem, hstatus, hkeep⟩ := hc
    rw [hd country, if_neg]
    · exact hstatus
    · rw [hr_secondary, hr_great]
      rintro (hsec | ⟨-, hdemote⟩)
      · exact hdisjoint country hsec hmem
      · exact hkeep hdemote
  have hkept_nodup :
      ((m.rank_countries std).demote_powers today define_manager).great_powers.Nodup := by
    rw [hd_great, hr_great]
    exact hnodup.filter _
  have hmem : ∀ country, country ∈ (m3.refresh_great_powers std today
      define_manager).great_powers ↔ country ∈
        ((m.rank_countries std).demote_powers today define_manager).great_powers ∨
        country ∈ new_great := by
    intro country
    rw [hf_great, (std.perm _ _).mem_iff, hg, List.mem_append]
  constructor
  · rw [hf_great, (std.perm _ _).nodup_iff, hg]
    exact List.nodup_append.mpr ⟨hkept_nodup, hgn, fun country h1 h2 =>
      (hnew_great country h2).2.2.2.1 (hkept_status country h1)⟩
  · intro country hc hgreat
    rw [hf_secondary, hs, hd_secondary, List.nil_append] at hc
    rcases (hmem country).mp hgreat with h1 | h1
    · exact (hnew_secondary country hc).2.2.1 (hkept_status country h1)
    · exact (hnew_great country h1).2.1 hc

/-- In every state that the calls of `update_rankings` reach from empty lists, whatever happens
to the records of the countries between the calls, the list of great powers has no duplicates
and shares no member with the list of secondary powers. -/
theorem update_rankings_of_ticks_disjoint (std : StdSort) (define_manager : DefineManager)
    (ticks : List (Int × (Nat → CountryInstance))) (m m' : CountryInstanceManager)
    (h : update_rankings_of_ticks std define_manager ticks m = some m')
    (hnodup : m.great_powers.Nodup)
    (hdisjoint : ∀ country ∈ m.secondary_powers, country ∉ m.great_powers) :
    m'.great_powers.Nodup ∧ ∀ country ∈ m'.secondary_powers, country ∉ m'.great_powers := by
  induction ticks generalizing m with
  | nil =>
    rw [update_rankings_of_ticks] at h
    cases h
    exact ⟨hnodup, hdisjoint⟩
  | cons tick rest ih =>
    rw [update_rankings_of_ticks] at h
    cases hcall : { m with country_instances := tick.2 }.update_rankings std tick.1
        define_manager with
    | none =>
      rw [hcall] at h
      cases h
    | some m1 =>
      rw [hcall] at h
      obtain ⟨h1, h2⟩ := update_rankings_disjoint std tick.1 define_manager _ m1 hcall
        hnodup hdisjoint
      exact ih m1 h h1 h2

end CountryInstanceManager

/-- C36. `update_rankings` has a result when the maximum great power rank is within the maximum
secondary power rank or within the number of countries that exist. When before the call the
list of great powers has no duplicates and every country of the registry with the status of a
great power is a member of it, then after the call the list of great powers has no duplicates
and holds exactly the countries with the status of a great power, and no country is a member
of both lists. This is so for a manager whose list of secondary powers shares no member with
its list of great powers; and the lists share no member, and the list of great powers has no
duplicates, in every state that the calls of `update_rankings` reach from empty lists, whatever
happens to the records of the countries between the calls, the two lists being written by
nothing else. That the members of the list of great powers have the status of a great power
before the call is not needed: the call erases the members that have not. -/
theorem great_powers_agree_with_status (std : StdSort) (define_manager : DefineManager) :
    (∀ (today : Int) (m : CountryInstanceManager),
      m.great_powers.Nodup →
      (∀ country, country < m.country_instance_count →
        (m.country_instances country).country_status =
          country_status_t.COUNTRY_STATUS_GREAT_POWER → country ∈ m.great_powers) →
      (∀ country ∈ m.secondary_powers, country ∉ m.great_powers) →
      (define_manager.great_power_rank ≤ define_manager.secondary_power_rank ∨
        define_manager.great_power_rank ≤ m.existing_countries.length) →
      ∃ m', m.update_rankings std today define_manager = some m' ∧
        m'.great_powers.Nodup ∧
        (∀ country ∈ m'.great_powers, (m'.country_instances country).country_status =
          country_status_t.COUNTRY_STATUS_GREAT_POWER) ∧
        (∀ country, country < m'.country_instance_count →
          (m'.country_instances country).country_status =
            country_status_t.COUNTRY_STATUS_GREAT_POWER → country ∈ m'.great_powers) ∧
        (∀ country ∈ m'.secondary_powers, country ∉ m'.great_powers)) ∧
    (∀ (ticks : List (Int × (Nat → CountryInstance))) (m m' : CountryInstanceManager),
      m.great_powers = [] → m.secondary_powers = [] →
      CountryInstanceManager.update_rankings_of_ticks std define_manager ticks m = some m' →
      m'.great_powers.Nodup ∧ ∀ country ∈ m'.secondary_powers, country ∉ m'.great_powers) := by
  refine ⟨fun today m hnodup hstatus hdisjoint hbound => ?_, fun ticks m m' hg hs h => ?_⟩
  swap
  · exact CountryInstanceManager.update_rankings_of_ticks_disjoint std define_manager ticks m
      m' h (hg ▸ List.nodup_nil) (fun country hc => absurd hc (hs ▸ List.not_mem_nil _))
  · obtain ⟨m', new_great, new_secondary, hresult, ⟨-, -, -, -, hcount⟩,
      ⟨hperm, hsec, hgn, -, -⟩, hnew_great, hnew_secondary, hstatus', -, -⟩ :=
      update_rankings_spec std today define_manager m hbound
    have hkept := demote_powers_great_powers std today define_manager m
    have hdemoted := demote_powers_status std today define_manager m
    obtain ⟨-, hd_great, -⟩ := demote_powers_eq today define_manager (m.rank_countries std)
    obtain ⟨-, -, -, -, hr_great, -⟩ := rank_countries_lists std m
    have hkept_nodup :
        ((m.rank_countries std).demote_powers today define_manager).great_powers.Nodup := by
      rw [hd_great, hr_great]
      exact hnodup.filter _
    have hkept_status : ∀ country ∈
        ((m.rank_countries std).demote_powers today define_manager).great_powers,
        (((m.rank_countries std).demote_powers today define_manager).country_instances
          country).country_status = country_status_t.COUNTRY_STATUS_GREAT_POWER := by
      intro country hc
      obtain ⟨h1, h2, h3⟩ := (hkept country).mp hc
      rw [hdemoted country, if_neg, h2]
      rintro (h | ⟨-, h⟩)
      · exact hdisjoint country h h1
      · exact h3 h
    have hkept_new : ∀ country ∈
        ((m.rank_countries std).demote_powers today define_manager).great_powers,
        country ∉ new_great ∧ country ∉ new_secondary := fun country hc =>
      ⟨fun h => (hnew_great country h).2.2.2.1 (hkept_status country hc),
        fun h => (hnew_secondary country h).2.2.1 (hkept_status country hc)⟩
    refine ⟨m', hresult, ?_, ?_, ?_, ?_⟩
    · rw [hperm.nodup_iff]
      exact List.nodup_append.mpr ⟨hkept_nodup, hgn,
        fun country h1 h2 => (hkept_new country h1).1 h2⟩
    · intro country hc
      rw [hstatus' country]
      rcases List.mem_append.mp (hperm.mem_iff.mp hc) with h | h
      · rw [if_neg (hkept_new country h).1, if_neg (hkept_new country h).2]
        exact hkept_status country h
      · rw [if_pos h]
    · intro country hc h
      rw [hcount] at hc
      rw [hstatus' country] at h
      refine hperm.mem_iff.mpr (List.mem_append.mpr ?_)
      by_cases hg : country ∈ new_great
      · exact Or.inr hg
      · rw [if_neg hg] at h
        by_cases hs : country ∈ new_secondary
        · rw [if_pos hs] at h
          cases h
        · rw [if_neg hs, hdemoted country] at h
          split_ifs at h with hcondition
          have hin := hstatus country hc h
          exact Or.inl ((hkept country).mpr ⟨hin, h,
            fun hc' => hcondition (Or.inr ⟨hin, hc'⟩)⟩)
    · intro country hc h
      rw [hsec] at hc
      rcases List.mem_append.mp (hperm.mem_iff.mp h) with h | h
      · exact (hkept_new country h).2 hc
      · exact (hnew_great country h).2.1 hc

/-- Witness of C36: in the example the countries 3 and 1 are the great powers and the countries
5, 0 and 4 the secondary powers, as after a first call of `update_rankings` from empty lists.
After `update_rankings` at day 100 the great powers are the countries 3 and 5, which are the
countries with that status, and the secondary powers are the countries 1, 0 and 4. -/
theorem great_powers_agree_with_status_witness :
    (example_manager_with_secondary_powers.update_rankings std_insertion_sort 100
      example_define_manager).map (fun m => (m.great_powers, m.secondary_powers,
        (List.range 7).filter (fun country =>
          decide ((m.country_instances country).country_status =
            country_status_t.COUNTRY_STATUS_GREAT_POWER)))) =
      some ([3, 5], [1, 0, 4], [3, 5]) ∧
      (∃ m', example_manager_with_secondary_powers.update_rankings std_insertion_sort 100
          example_define_manager = some m' ∧
        m'.great_powers.Nodup ∧
        (∀ country ∈ m'.great_powers, (m'.country_instances country).country_status =
          country_status_t.COUNTRY_STATUS_GREAT_POWER) ∧
        (∀ country, country < m'.country_instance_count →
          (m'.country_instances country).country_status =
            country_status_t.COUNTRY_STATUS_GREAT_POWER → country ∈ m'.great_powers) ∧
        (∀ country ∈ m'.secondary_powers, country ∉ m'.great_powers)) ∧
      ∀ m', CountryInstanceManager.update_rankings_of_ticks std_insertion_sort
          example_define_manager
          [(0, example_manager.country_instances),
            (100, example_manager_with_secondary_powers.country_instances)] example_manager =
          some m' →
        m'.great_powers.Nodup ∧ ∀ country ∈ m'.secondary_powers, country ∉ m'.great_powers :=
  ⟨by decide,
    (great_powers_agree_with_status std_insertion_sort example_define_manager).1 100
      example_manager_with_secondary_powers (by decide) (by decide) (by decide)
      (Or.inl (by decide)),
    fun m' h => (great_powers_agree_with_status std_insertion_sort example_define_manager).2
      _ example_manager m' rfl rfl h⟩

/-! ## C37: the members of the lists and the countries that exist -/

namespace CountryInstanceManager

/-- What holds of the members of the lists after `update_rankings`: a secondary power is a
country that exists, and a great power is a country that exists or was a member of the list of
great powers before the call; a country that exists has the total rank of its position in the
total ranking, and a country that does not exist has the total rank it had before the call. -/
theorem power_lists_members (std : StdSort) (today : Int) (define_manager : DefineManager)
    (m : CountryInstanceManager)
    (hbound : define_manager.great_power_rank ≤ define_manager.secondary_power_rank ∨
      define_manager.great_power_rank ≤ m.existing_countries.length) :
    ∃ m', m.update_rankings std today define_manager = some m' ∧
      (∀ country ∈ m'.secondary_powers, country ∈ m.existing_countries) ∧
      (∀ country ∈ m'.great_powers,
        country ∈ m.existing_countries ∨ country ∈ m.great_powers) ∧
      (∀ country ∈ m.existing_countries, ∃ index, m'.total_ranking[index]? = some country ∧
        (m'.country_instances country).total_rank = index + 1) ∧
      (∀ country, country ∉ m.existing_countries →
        country ∉ m'.total_ranking ∧
        (m'.country_instances country).total_rank =
          (m.country_instances country).total_rank) := by
  obtain ⟨m', new_great, new_secondary, hresult, ⟨hr1, -⟩, ⟨hperm, hsec, -⟩, hnew_great,
    hnew_secondary, -, -, hframe⟩ := update_rankings_spec std today define_manager m hbound
  obtain ⟨hl1, -⟩ := rank_countries_lists std m
  obtain ⟨⟨hk1, -⟩, hk⟩ := rank_countries_ranks std m
  have hsort := std.perm m.total_ranking_before m.existing_countries
  have hrank : ∀ country, (m'.country_instances country).total_rank =
      ((m.rank_countries std).country_instances country).total_rank :=
    hframe (fun c => c.total_rank) (fun _ _ => rfl) (fun _ _ => rfl)
  refine ⟨m', hresult, fun country hc => ?_, fun country hc => ?_, fun country hc => ?_,
    fun country hc => ⟨?_, ?_⟩⟩
  · rw [hsec] at hc
    exact ((mem_take_total_ranking std m _ country).mp (hnew_secondary country hc).1).1
  · rcases List.mem_append.mp (hperm.mem_iff.mp hc) with h | h
    · exact Or.inr ((demote_powers_great_powers std today define_manager m country).mp h).1
    · exact Or.inl ((mem_take_total_ranking std m _ country).mp (hnew_great country h).1).1
  · obtain ⟨index, hindex⟩ := List.mem_iff_getElem?.mp
      (hl1 ▸ hsort.mem_iff.mpr hc : country ∈ (m.rank_countries std).total_ranking)
    exact ⟨index, hr1 ▸ hindex, (hrank country).trans (hk1 index country hindex)⟩
  · rw [hr1, hl1]
    exact fun h => hc (hsort.mem_iff.mp h)
  · exact (hrank country).trans (hk country hc).1

end CountryInstanceManager

/-- C37 does not hold of the great powers that the call keeps. `update_rankings` has a result
when the maximum great power rank is within the maximum secondary power rank or within the
number of countries that exist. A great power of the list that owns no province, is no member
of the list of secondary powers, and whose total rank from an earlier tick is within the
maximum great power rank or whose `lose_great_power_date` is not before today, is after the
call a member of the list of great powers with the status of a great power, although it does
not exist, is no member of the total ranking and has the total rank that it had before the
call. -/
theorem great_power_without_provinces_kept (std : StdSort) (today : Int)
    (define_manager : DefineManager) (m : CountryInstanceManager) (country : Nat)
    (hmember : country ∈ m.great_powers)
    (hstatus : (m.country_instances country).country_status =
      country_status_t.COUNTRY_STATUS_GREAT_POWER)
    (hsecondary : country ∉ m.secondary_powers)
    (hexists : (m.country_instances country).«exists» = false)
    (hkeep : (m.country_instances country).total_rank ≤ define_manager.great_power_rank ∨
      today ≤ (m.country_instances country).lose_great_power_date)
    (hbound : define_manager.great_power_rank ≤ define_manager.secondary_power_rank ∨
      define_manager.great_power_rank ≤ m.existing_countries.length) :
    ∃ m', m.update_rankings std today define_manager = some m' ∧
      country ∈ m'.great_powers ∧
      (m'.country_instances country).country_status =
        country_status_t.COUNTRY_STATUS_GREAT_POWER ∧
      (m'.country_instances country).«exists» = false ∧
      country ∉ m'.total_ranking ∧
      (m'.country_instances country).total_rank = (m.country_instances country).total_rank := by
  obtain ⟨m', new_great, new_secondary, hresult, ⟨hr1, -⟩, ⟨hperm, -⟩, hnew_great,
    hnew_secondary, hstatus', -, hframe⟩ := update_rankings_spec std today define_manager m hbound
  obtain ⟨hl1, -⟩ := rank_countries_lists std m
  obtain ⟨-, hk⟩ := rank_countries_ranks std m
  have hsort := std.perm m.total_ranking_before m.existing_countries
  have hnot : country ∉ m.existing_countries := by
    intro h
    have := (List.mem_filter.mp h).2
    rw [hexists] at this
    cases this
  have hrank : ((m.rank_countries std).country_instances country).total_rank =
      (m.country_instances country).total_rank := (hk country hnot).1
  have hcondition : ¬ (((m.rank_countries std).country_instances country).total_rank >
      define_manager.great_power_rank ∧
      (m.country_instances country).lose_great_power_date < today) := by
    rw [hrank]
    rintro ⟨h1, h2⟩
    rcases hkeep with h | h
    · omega
    · exact absurd h2 (not_lt.mpr h)
  have hkept := (demote_powers_great_powers std today define_manager m country).mpr
    ⟨hmember, hstatus, hcondition⟩
  have hnew1 : country ∉ new_great := fun h =>
    hnot ((mem_take_total_ranking std m _ country).mp (hnew_great country h).1).1
  have hnew2 : country ∉ new_secondary := fun h =>
    hnot ((mem_take_total_ranking std m _ country).mp (hnew_secondary country h).1).1
  refine ⟨m', hresult, hperm.mem_iff.mpr (List.mem_append.mpr (Or.inl hkept)), ?_, ?_, ?_, ?_⟩
  · rw [hstatus' country, if_neg hnew1, if_neg hnew2,
      demote_powers_status std today define_manager m country, if_neg, hstatus]
    rintro (h | ⟨-, h⟩)
    · exact hsecondary h
    · exact hcondition h
  · rw [hframe (fun c => c.«exists») (fun _ _ => rfl) (fun _ _ => rfl) country,
      rank_countries_frame (fun c => c.«exists») (fun _ _ => rfl) (fun _ _ => rfl)
        (fun _ _ => rfl) (fun _ _ => rfl) std m country]
    exact hexists
  · rw [hr1, hl1]
    exact fun h => hnot (hsort.mem_iff.mp h)
  · rw [hframe (fun c => c.total_rank) (fun _ _ => rfl) (fun _ _ => rfl) country]
    exact hrank

/-- Witness of C37: the country 6 of the example owns no province and is a great power with the
total rank of one from an earlier tick, while the six other countries exist. After
`update_rankings` with a maximum great power rank of two the country 6 is the first great power
of the list, with the total rank of one that the country 1 has as well, and the country 3 of
the total rank two is a secondary power. -/
theorem great_power_without_provinces_kept_witness :
    (example_manager_lost_provinces.update_rankings std_insertion_sort 100
      example_define_manager).map (fun m => (m.total_ranking, m.great_powers,
        m.secondary_powers)) = some ([1, 3, 5, 0, 4, 2], [6, 1], [3, 5, 0, 4]) ∧
      (example_manager_lost_provinces.update_rankings std_insertion_sort 100
        example_define_manager).map (fun m => [6, 1, 3].map (fun country =>
          ((m.country_instances country).«exists»,
            (m.country_instances country).total_rank,
            (m.country_instances country).country_status))) =
        some [(false, 1, country_status_t.COUNTRY_STATUS_GREAT_POWER),
          (true, 1, country_status_t.COUNTRY_STATUS_GREAT_POWER),
          (true, 2, country_status_t.COUNTRY_STATUS_SECONDARY_POWER)] ∧
      ∃ m', example_manager_lost_provinces.update_rankings std_insertion_sort 100
          example_define_manager = some m' ∧
        6 ∈ m'.great_powers ∧
        (m'.country_instances 6).country_status =
          country_status_t.COUNTRY_STATUS_GREAT_POWER ∧
        (m'.country_instances 6).«exists» = false ∧
        6 ∉ m'.total_ranking ∧
        (m'.country_instances 6).total_rank =
          (example_manager_lost_provinces.country_instances 6).total_rank :=
  ⟨by decide, by decide,
    great_power_without_provinces_kept std_insertion_sort 100 example_define_manager
      example_manager_lost_provinces 6 (by decide) (by decide) (by decide) (by decide)
      (Or.inl (by decide)) (Or.inl (by decide))⟩

/-! ## C38: the breakdown of the industrial power -/

/-- Leaving out the entries that are zero does not change a sum. -/
theorem sum_filter_ne_zero {κ : Type} (f : κ → Int) (p : κ → Bool) (l : List κ) :
    ((l.filter (fun x => p x && decide (f x ≠ 0))).map f).sum =
      ((l.filter p).map f).sum := by
  induction l with
  | nil => rfl
  | cons x l ih =>
    have ih' := ih
    simp only [ne_eq, decide_not] at ih' ⊢
    by_cases hp : p x = true
    · by_cases hf : f x = 0
      · simp [List.filter_cons, hp, hf, ih']
      · simp [List.filter_cons, hp, hf, ih']
    · simp [List.filter_cons, hp, ih']

/-- C38. After `_update_production` the industrial power is the sum of the contributions that
`industrial_power_from_states` lists plus the sum of the contributions that
`industrial_power_from_investments` lists, for every record, whatever states it owns and
whatever it has invested; and the same holds after the whole of `update_gamestate`. -/
theorem industrial_power_breakdown_sum (precision : Nat) (define_manager : DefineManager)
    (unit_type_manager : UnitTypeManager) (std : StdSort) (country_exists : Nat → Bool)
    (objects : Objects) (s : CountryInstance) :
    (_update_production precision define_manager std country_exists objects
        s).industrial_power =
      ((_update_production precision define_manager std country_exists objects
          s).industrial_power_from_states.map (fun entry => entry.2)).sum +
        ((_update_production precision define_manager std country_exists objects
          s).industrial_power_from_investments.map (fun entry => entry.2)).sum ∧
    (CountryInstance.update_gamestate precision define_manager unit_type_manager std
        country_exists objects s).industrial_power =
      ((CountryInstance.update_gamestate precision define_manager unit_type_manager std
          country_exists objects s).industrial_power_from_states.map
          (fun entry => entry.2)).sum +
        ((CountryInstance.update_gamestate precision define_manager unit_type_manager std
          country_exists objects s).industrial_power_from_investments.map
          (fun entry => entry.2)).sum := by
  have hproduction : (_update_production precision define_manager std country_exists objects
        s).industrial_power =
      ((_update_production precision define_manager std country_exists objects
          s).industrial_power_from_states.map (fun entry => entry.2)).sum +
        ((_update_production precision define_manager std country_exists objects
          s).industrial_power_from_investments.map (fun entry => entry.2)).sum := by
    rw [update_production_eq]
    simp only [with_production]
    rw [((std.perm by_second_descending _).map (fun entry => entry.2)).sum_eq,
      ((std.perm by_second_descending _).map (fun entry => entry.2)).sum_eq,
      List.map_map, List.map_map]
    have hstates := sum_filter_ne_zero (fun st => (objects.state st).industrial_power)
      (fun _ => true) s.states
    have hinvestments := sum_filter_ne_zero
      (fun i : Nat × fixed_point_t => investment_industrial_power precision define_manager i.2)
      (fun i => country_exists i.1) s.foreign_investments
    simp only [Bool.true_and, List.filter_true] at hstates
    exact congrArg₂ (fun a b => a + b) hstates.symm hinvestments.symm
  refine ⟨hproduction, ?_⟩
  have hpower : (CountryInstance.update_gamestate precision define_manager unit_type_manager
      std country_exists objects s).industrial_power =
      (_update_production precision define_manager std country_exists objects
        s).industrial_power := by
    simp only [CountryInstance.update_gamestate, _update_budget, _update_technology,
      _update_politics, _update_trade, _update_diplomacy, _update_military]
    exact update_population_frame (fun c => c.industrial_power) (fun _ _ _ _ _ _ => rfl) _ _ _
  have hstates : (CountryInstance.update_gamestate precision define_manager unit_type_manager
      std country_exists objects s).industrial_power_from_states =
      (_update_production precision define_manager std country_exists objects
        s).industrial_power_from_states := by
    simp only [CountryInstance.update_gamestate, _update_budget, _update_technology,
      _update_politics, _update_trade, _update_diplomacy, _update_military]
    exact update_population_frame (fun c => c.industrial_power_from_states)
      (fun _ _ _ _ _ _ => rfl) _ _ _
  have hinvestments : (CountryInstance.update_gamestate precision define_manager
      unit_type_manager std country_exists objects s).industrial_power_from_investments =
      (_update_production precision define_manager std country_exists objects
        s).industrial_power_from_investments := by
    simp only [CountryInstance.update_gamestate, _update_budget, _update_technology,
      _update_politics, _update_trade, _update_diplomacy, _update_military]
    exact update_population_frame (fun c => c.industrial_power_from_investments)
      (fun _ _ _ _ _ _ => rfl) _ _ _
  rw [hpower, hstates, hinvestments]
  exact hproduction

/-- Witness of C38: the example record has the states 2, 0 and 1 of industrial power 0, 3 and 5
and invests 100 in country 1, which exists, and 7 in country 2, which does not. After the
phase the breakdown of the states lists 5 and 3, that of the investments lists 1, and the
industrial power is 9. -/
theorem industrial_power_breakdown_sum_witness :
    ((_update_production 16 example_define_manager std_insertion_sort (fun c => decide (c = 1))
        example_objects example_country_at_war).industrial_power_from_states,
      (_update_production 16 example_define_manager std_insertion_sort (fun c => decide (c = 1))
        example_objects example_country_at_war).industrial_power_from_investments,
      (_update_production 16 example_define_manager std_insertion_sort (fun c => decide (c = 1))
        example_objects example_country_at_war).industrial_power) =
      ([(1, fixed_point_t.parse 16 5), (0, fixed_point_t.parse 16 3)],
        [(1, fixed_point_t.parse 16 1)], fixed_point_t.parse 16 9) ∧
      (_update_production 16 example_define_manager std_insertion_sort (fun c => decide (c = 1))
        example_objects example_country_at_war).industrial_power =
      ((_update_production 16 example_define_manager std_insertion_sort
          (fun c => decide (c = 1)) example_objects
          example_country_at_war).industrial_power_from_states.map (fun entry => entry.2)).sum +
        ((_update_production 16 example_define_manager std_insertion_sort
          (fun c => decide (c = 1)) example_objects
          example_country_at_war).industrial_power_from_investments.map
            (fun entry => entry.2)).sum :=
  ⟨by decide,
    (industrial_power_breakdown_sum 16 example_define_manager example_unit_type_manager
      std_insertion_sort (fun c => decide (c = 1)) example_objects example_country_at_war).1⟩

/-! ## C39: the items of a registry have unique identifiers -/

/-- In a list of entries with distinct keys the lookup of a key finds a value exactly when the
key has an entry with that value. -/
theorem lookup_eq_some_iff_mem (map : List (String × Nat))
    (hnodup : (map.map Prod.fst).Nodup) (key : String) (value : Nat) :
    List.lookup key map = some value ↔ (key, value) ∈ map := by
  induction map with
  | nil => simp
  | cons entry map ih =>
    obtain ⟨k, v⟩ := entry
    rw [List.map_cons, List.nodup_cons] at hnodup
    by_cases hk : key = k
    · subst hk
      rw [List.lookup_cons, beq_self_eq_true]
      constructor
      · intro h
        cases h
        exact List.mem_cons_self _ _
      · intro h
        rcases List.mem_cons.mp h with h | h
        · cases h
          rfl
        · exact absurd (List.mem_map_of_mem Prod.fst h) hnodup.1
    · rw [List.lookup_cons, beq_false_of_ne hk, ih hnodup.2]
      constructor
      · exact List.mem_cons_of_mem _
      · intro h
        rcases List.mem_cons.mp h with h | h
        · cases h
          exact absurd rfl hk
        · exact h

/-- The lookup of a key that no entry has finds nothing. -/
theorem lookup_eq_none_of_not_mem (map : List (String × Nat)) (key : String)
    (h : key ∉ map.map Prod.fst) : List.lookup key map = none := by
  induction map with
  | nil => rfl
  | cons entry map ih =>
    obtain ⟨k, v⟩ := entry
    rw [List.map_cons, List.mem_cons, not_or] at h
    rw [List.lookup_cons, beq_false_of_ne h.1]
    exact ih h.2

namespace UniqueKeyRegistry

variable {Storage : Type}

/-- A registry that was just constructed is indexed. -/
theorem new_indexed (new_name : String) (new_log_lock : Bool)
    (new_GetIdentifier : Storage → String) :
    (new new_name new_log_lock new_GetIdentifier).indexed :=
  ⟨rfl, rfl, List.nodup_nil⟩

/-- The entries of the map of an indexed registry: an identifier has the index of the item
that has it. -/
theorem indexed_mem (r : UniqueKeyRegistry Storage) (hr : r.indexed) (identifier : String)
    (index : Nat) :
    (identifier, index) ∈ r.identifier_index_map ↔
      ∃ item, r.items[index]? = some item ∧ r.GetIdentifier item = identifier := by
  obtain ⟨hkeys, hvalues, -⟩ := hr
  have hlength : r.identifier_index_map.length = r.items.length := by
    have := congrArg List.length hkeys
    simpa using this
  constructor
  · intro h
    obtain ⟨position, hposition⟩ := List.mem_iff_getElem?.mp h
    have h1 := congrArg (fun l => l[position]?) hkeys
    have h2 := congrArg (fun l => l[position]?) hvalues
    simp only [List.getElem?_map, hposition, Option.map_some'] at h1 h2
    have hlt : position < r.items.length := by
      rw [← hlength]
      exact (List.getElem?_eq_some_iff.mp hposition).1
    rw [List.getElem?_range hlt] at h2
    cases h2
    cases hitem : r.items[index]? with
    | none =>
      rw [hitem] at h1
      cases h1
    | some item =>
      rw [hitem] at h1
      exact ⟨item, rfl, (Option.some.inj h1).symm⟩
  · rintro ⟨item, hitem, rfl⟩
    have hlt : index < r.items.length := (List.getElem?_eq_some_iff.mp hitem).1
    have h1 := congrArg (fun l => l[index]?) hkeys
    have h2 := congrArg (fun l => l[index]?) hvalues
    simp only [List.getElem?_map, hitem, Option.map_some'] at h1 h2
    rw [List.getElem?_range hlt] at h2
    cases hentry : r.identifier_index_map[index]? with
    | none =>
      rw [hentry] at h1
      cases h1
    | some entry =>
      rw [hentry] at h1 h2
      obtain ⟨k, v⟩ := entry
      cases h1
      cases h2
      exact List.mem_iff_getElem?.mpr ⟨_, hentry⟩

/-- What `get_item_by_identifier` returns for an indexed registry: the index of the item that
has the identifier, and nothing when no item has it. -/
theorem get_item_by_identifier_indexed (r : UniqueKeyRegistry Storage) (hr : r.indexed)
    (identifier : String) :
    (∀ index, r.get_item_by_identifier identifier = some index ↔
      ∃ item, r.items[index]? = some item ∧ r.GetIdentifier item = identifier) ∧
    (r.get_item_by_identifier identifier = none ↔
      ∀ item ∈ r.items, r.GetIdentifier item ≠ identifier) := by
  have hfound : ∀ index, r.get_item_by_identifier identifier = some index ↔
      ∃ item, r.items[index]? = some item ∧ r.GetIdentifier item = identifier := by
    intro index
    unfold get_item_by_identifier string_map_t.find
    rw [lookup_eq_some_iff_mem _ (hr.1 ▸ hr.2.2)]
    exact indexed_mem r hr identifier index
  refine ⟨hfound, ?_, ?_⟩
  · intro hnone item hitem hidentifier
    obtain ⟨index, hindex⟩ := List.mem_iff_getElem?.mp hitem
    have := (hfound index).mpr ⟨item, hindex, hidentifier⟩
    rw [hnone] at this
    cases this
  · intro hnot
    unfold get_item_by_identifier string_map_t.find
    apply lookup_eq_none_of_not_mem
    rw [hr.1]
    intro h
    obtain ⟨item, hitem, hidentifier⟩ := List.mem_map.mp h
    exact hnot item hitem hidentifier

end UniqueKeyRegistry

namespace UniqueKeyRegistry

variable {Storage : Type}

/-- What the end of `add_item` does to an indexed registry that has no item of the identifier
of the new item: the item is added at the end, its identifier is entered with the index it
has there, and the registry is indexed again. -/
theorem push_item_indexed (r : UniqueKeyRegistry Storage) (hr : r.indexed) (item : Storage)
    (hnew : ∀ old ∈ r.items, r.GetIdentifier old ≠ r.GetIdentifier item) :
    (r.push_item (r.GetIdentifier item) item).items = r.items ++ [item] ∧
      (r.push_item (r.GetIdentifier item) item).identifier_index_map =
        r.identifier_index_map ++ [(r.GetIdentifier item, r.items.length)] ∧
      (r.push_item (r.GetIdentifier item) item).indexed := by
  have hnone := ((get_item_by_identifier_indexed r hr (r.GetIdentifier item)).2).mpr hnew
  have hmap : (r.push_item (r.GetIdentifier item) item).identifier_index_map =
      r.identifier_index_map ++ [(r.GetIdentifier item, r.items.length)] := by
    unfold get_item_by_identifier at hnone
    simp only [push_item, string_map_t.emplace, string_map_t.contains, hnone, Option.isSome_none,
      Bool.false_eq_true, if_false]
  refine ⟨rfl, hmap, ?_, ?_, ?_⟩
  · rw [hmap]
    show List.map Prod.fst _ = List.map r.GetIdentifier (r.items ++ [item])
    rw [List.map_append, List.map_append, hr.1]
    rfl
  · rw [hmap]
    show List.map Prod.snd _ = List.range (r.items ++ [item]).length
    rw [List.map_append, hr.2.1, List.length_append, List.length_singleton, List.range_succ]
    rfl
  · show (List.map r.GetIdentifier (r.items ++ [item])).Nodup
    rw [List.map_append, List.map_singleton]
    refine List.nodup_append.mpr ⟨hr.2.2, List.nodup_singleton _, ?_⟩
    intro identifier h1 h2
    obtain ⟨old, hold, hidentifier⟩ := List.mem_map.mp h1
    rw [List.mem_singleton] at h2
    exact hnew old hold (hidentifier.trans h2)

/-- The three cases of `add_item` with `duplicate_fail_callback` for an indexed registry. -/
theorem add_item_cases (r : UniqueKeyRegistry Storage) (hr : r.indexed) (item : Storage) :
    r.add_item item duplicate_fail_callback =
      if r.locked = true then (false, r)
      else if ∃ old ∈ r.items, r.GetIdentifier old = r.GetIdentifier item then (false, r)
      else (true, r.push_item (r.GetIdentifier item) item) := by
  classical
  unfold add_item
  by_cases hlocked : r.locked = true
  · rw [if_pos hlocked, if_pos hlocked]
  · rw [if_neg hlocked, if_neg hlocked]
    simp only [duplicate_fail_callback, Bool.false_eq_true, if_false]
    by_cases hold : ∃ old ∈ r.items, r.GetIdentifier old = r.GetIdentifier item
    · rw [if_pos hold]
      obtain ⟨old, hmem, hidentifier⟩ := hold
      obtain ⟨index, hindex⟩ := List.mem_iff_getElem?.mp hmem
      rw [((get_item_by_identifier_indexed r hr (r.GetIdentifier item)).1 index).mpr
        ⟨old, hindex, hidentifier⟩]
    · rw [if_neg hold]
      rw [((get_item_by_identifier_indexed r hr (r.GetIdentifier item)).2).mpr
        (fun old hmem hidentifier => hold ⟨old, hmem, hidentifier⟩)]

/-- An indexed registry is indexed after `add_item` with `duplicate_fail_callback`, its items
from before are the first of its items after it, and its function `GetIdentifier` is the
same. -/
theorem add_item_indexed (r : UniqueKeyRegistry Storage) (hr : r.indexed) (item : Storage) :
    (r.add_item item duplicate_fail_callback).2.indexed ∧
      r.items <+: (r.add_item item duplicate_fail_callback).2.items ∧
      (r.add_item item duplicate_fail_callback).2.GetIdentifier = r.GetIdentifier := by
  classical
  rw [add_item_cases r hr item]
  split_ifs with hlocked hold
  · exact ⟨hr, List.prefix_refl _, rfl⟩
  · exact ⟨hr, List.prefix_refl _, rfl⟩
  · obtain ⟨hitems, -, hindexed⟩ := push_item_indexed r hr item
      (fun old hmem hidentifier => hold ⟨old, hmem, hidentifier⟩)
    exact ⟨hindexed, hitems ▸ List.prefix_append _ _, rfl⟩

/-- An indexed registry is indexed after any sequence of calls of `add_item` with
`duplicate_fail_callback`, and its items from before are the first of its items after them. -/
theorem add_items_indexed (r : UniqueKeyRegistry Storage) (hr : r.indexed)
    (items : List Storage) :
    (r.add_items items).indexed ∧ r.items <+: (r.add_items items).items ∧
      (r.add_items items).GetIdentifier = r.GetIdentifier := by
  induction items generalizing r with
  | nil => exact ⟨hr, List.prefix_refl _, rfl⟩
  | cons item items ih =>
    obtain ⟨h1, h2, h3⟩ := add_item_indexed r hr item
    obtain ⟨h4, h5, h6⟩ := ih _ h1
    exact ⟨h4, h2.trans h5, h6.trans h3⟩

end UniqueKeyRegistry

/-- C39. For a registry whose index agrees with its items, as it does for a registry that was
just constructed and after every call of `add_item`: `add_item` with `duplicate_fail_callback`
returns false and leaves the registry as it is when the registry is locked and when an item of
the same identifier is registered; else it returns true, adds the item at the end of the items
and enters its identifier with the index of the item. Hence after any sequence of such calls
no two items have the same identifier, `get_item_by_identifier` returns for the identifier of
an item the index of that item and for any other identifier nothing, and the items from before
the calls have the index they had. -/
theorem add_item_unique_identifiers {Storage : Type} (r : UniqueKeyRegistry Storage)
    (hr : r.indexed) (item : Storage) (items : List Storage) :
    (r.locked = true → r.add_item item duplicate_fail_callback = (false, r)) ∧
    ((∃ old ∈ r.items, r.GetIdentifier old = r.GetIdentifier item) →
      r.add_item item duplicate_fail_callback = (false, r)) ∧
    (r.locked = false → (∀ old ∈ r.items, r.GetIdentifier old ≠ r.GetIdentifier item) →
      (r.add_item item duplicate_fail_callback).1 = true ∧
      (r.add_item item duplicate_fail_callback).2.items = r.items ++ [item] ∧
      (r.add_item item duplicate_fail_callback).2.identifier_index_map =
        r.identifier_index_map ++ [(r.GetIdentifier item, r.size)] ∧
      (r.add_item item duplicate_fail_callback).2.locked = false) ∧
    (r.add_item item duplicate_fail_callback).2.indexed ∧
    (r.add_items items).indexed ∧
    ((r.add_items items).items.map (r.add_items items).GetIdentifier).Nodup ∧
    (∀ (index : Nat) (stored : Storage), (r.add_items items).items[index]? = some stored →
      (r.add_items items).get_item_by_identifier ((r.add_items items).GetIdentifier stored) =
        some index) ∧
    (∀ (identifier : String) (index : Nat),
      (r.add_items items).get_item_by_identifier identifier = some index →
      ∃ stored, (r.add_items items).items[index]? = some stored ∧
        (r.add_items items).GetIdentifier stored = identifier) ∧
    (∀ identifier, (∀ stored ∈ (r.add_items items).items,
        (r.add_items items).GetIdentifier stored ≠ identifier) →
      (r.add_items items).get_item_by_identifier identifier = none) ∧
    (∀ (index : Nat) (stored : Storage), r.items[index]? = some stored →
      (r.add_items items).items[index]? = some stored) := by
  have hcases := UniqueKeyRegistry.add_item_cases r hr item
  obtain ⟨hindexed, hprefix, -⟩ := UniqueKeyRegistry.add_items_indexed r hr items
  refine ⟨fun hlocked => ?_, fun hold => ?_, fun hlocked hnew => ?_,
    (UniqueKeyRegistry.add_item_indexed r hr item).1, hindexed, hindexed.2.2,
    fun index stored h => ?_, fun identifier index h => ?_, fun identifier h => ?_,
    fun index stored h => ?_⟩
  · rw [hcases, if_pos hlocked]
  · rw [hcases]
    split_ifs
    · rfl
    · rfl
  · have hold : ¬ ∃ old ∈ r.items, r.GetIdentifier old = r.GetIdentifier item :=
      fun ⟨old, hmem, hidentifier⟩ => hnew old hmem hidentifier
    rw [hcases, if_neg (by simp [hlocked]), if_neg hold]
    obtain ⟨hitems, hmap, -⟩ := UniqueKeyRegistry.push_item_indexed r hr item hnew
    exact ⟨rfl, hitems, hmap, hlocked⟩
  · exact ((UniqueKeyRegistry.get_item_by_identifier_indexed _ hindexed _).1 index).mpr
      ⟨stored, h, rfl⟩
  · exact ((UniqueKeyRegistry.get_item_by_identifier_indexed _ hindexed _).1 index).mp h
  · exact ((UniqueKeyRegistry.get_item_by_identifier_indexed _ hindexed _).2).mpr h
  · obtain ⟨rest, hrest⟩ := hprefix
    rw [← hrest]
    exact (List.getElem?_append_left (List.getElem?_eq_some_iff.mp h).1).trans h

/-- Witness of C39: the items a, b and again a are added to the registry of the example, which
was just constructed. The second item of the identifier a is rejected, so that the registry
has the first item a at the index 0 and the item b at the index 1, which
`get_item_by_identifier` returns for b. -/
theorem add_item_unique_identifiers_witness :
    ((example_registry.add_items [("a", 1), ("b", 2)]).add_item ("a", 3)
        duplicate_fail_callback).1 = false ∧
      (example_registry.add_items [("a", 1), ("b", 2), ("a", 3)]).items =
        [("a", 1), ("b", 2)] ∧
      (example_registry.add_items [("a", 1), ("b", 2), ("a", 3)]).identifier_index_map =
        [("a", 0), ("b", 1)] ∧
      (example_registry.add_items [("a", 1), ("b", 2), ("a", 3)]).get_item_by_identifier "b" =
        some 1 ∧
      (example_registry.add_items [("a", 1), ("b", 2), ("a", 3)]).get_item_by_identifier "c" =
        none ∧
      example_registry.indexed ∧
      ((example_registry.add_items [("a", 1), ("b", 2), ("a", 3)]).items.map
        (example_registry.add_items [("a", 1), ("b", 2), ("a", 3)]).GetIdentifier).Nodup :=
  ⟨by decide, by decide, by decide, by decide, by decide,
    UniqueKeyRegistry.new_indexed _ _ _,
    (add_item_unique_identifiers example_registry (UniqueKeyRegistry.new_indexed _ _ _)
      ("a", 1) [("a", 1), ("b", 2), ("a", 3)]).2.2.2.2.2.1⟩

/-! ## C40: the identifiers of the items of a registry -/

namespace UniqueKeyRegistry

variable {Storage : Type}

/-- The loop of `get_item_identifiers` adds the keys of the entries, in the order of the loop,
at the end of the vector it starts with. -/
theorem push_back_keys (entries : List (String × Nat)) (identifiers : List String) :
    entries.foldl (fun identifiers entry => identifiers ++ [entry.1]) identifiers =
      identifiers ++ entries.map Prod.fst := by
  induction entries generalizing identifiers with
  | nil => simp
  | cons entry entries ih =>
    rw [List.foldl_cons, ih, List.map_cons, List.append_assoc, List.singleton_append]

end UniqueKeyRegistry

/-- C40 does not hold of the code. `get_item_identifiers` returns as many empty strings as the
registry has items, followed by the keys of the map, whatever the order of the loop over the
map. For a registry whose index agrees with its items the list is twice as long as `size()`,
the identifiers of the items come, each once, after `size()` empty strings, and when the
registry is not empty the length of the list is not `size()` and the list has an empty
entry. -/
theorem get_item_identifiers_doubled {Storage : Type} (order : StringMapOrder)
    (r : UniqueKeyRegistry Storage) (hr : r.indexed) :
    r.get_item_identifiers order =
        List.replicate r.size "" ++ (order.entries r.identifier_index_map).map Prod.fst ∧
      (r.get_item_identifiers order).length = 2 * r.size ∧
      (r.get_item_identifiers order).take r.size = List.replicate r.size "" ∧
      ((r.get_item_identifiers order).drop r.size).Perm (r.items.map r.GetIdentifier) ∧
      (r.size ≠ 0 →
        (r.get_item_identifiers order).length ≠ r.size ∧ "" ∈ r.get_item_identifiers order) := by
  have heq : r.get_item_identifiers order =
      List.replicate r.size "" ++ (order.entries r.identifier_index_map).map Prod.fst :=
    UniqueKeyRegistry.push_back_keys _ _
  have hkeys : ((order.entries r.identifier_index_map).map Prod.fst).Perm
      (r.items.map r.GetIdentifier) := hr.1 ▸ (order.perm r.identifier_index_map).map Prod.fst
  have hlength : (r.get_item_identifiers order).length = 2 * r.size := by
    rw [heq, List.length_append, List.length_replicate, hkeys.length_eq, List.length_map]
    unfold UniqueKeyRegistry.size
    omega
  refine ⟨heq, hlength, ?_, ?_, fun hsize => ⟨by omega, ?_⟩⟩
  · rw [heq, List.take_left' (List.length_replicate _ _)]
  · rw [heq, List.drop_left' (List.length_replicate _ _)]
    exact hkeys
  · rw [heq]
    exact List.mem_append_left _ (List.mem_replicate.mpr ⟨hsize, rfl⟩)

/-- Witness of C40: the registry of the example with the items a and b has the size 2, and
`get_item_identifiers` returns for it a list of four entries, of which the first two are
empty. -/
theorem get_item_identifiers_doubled_witness :
    (example_registry.add_items [("a", 1), ("b", 2)]).size = 2 ∧
      (example_registry.add_items [("a", 1), ("b", 2)]).get_item_identifiers insertion_order =
        ["", "", "a", "b"] ∧
      ((example_registry.add_items [("a", 1), ("b", 2)]).get_item_identifiers
        insertion_order).length ≠ (example_registry.add_items [("a", 1), ("b", 2)]).size ∧
      "" ∈ (example_registry.add_items [("a", 1), ("b", 2)]).get_item_identifiers
        insertion_order :=
  ⟨by decide, by decide,
    (get_item_identifiers_doubled insertion_order
      (example_registry.add_items [("a", 1), ("b", 2)])
      (UniqueKeyRegistry.add_items_indexed _ (UniqueKeyRegistry.new_indexed _ _ _) _).1).2.2.2.2
      (by decide)⟩

end OpenVic
